import Mathlib

/-!
# TTS Deck Builder: page layout and object-graph generation

A shallow embedding of `src/deck_drawer.go`, `src/internal/config/config.go` and
`src/internal/service/generator.go`, followed by theorems about them.

Conventions of the embedding
* Go `int` is `Int`; slice lengths and `range` indices are `Nat` and are cast where
  the source mixes them with `int` values.
* A Go `error` return is `Failure.error`; a runtime panic (nil dereference, index out
  of range) is `Failure.panic`.
* A Go map is an association list; where the source ranges over a map the list order
  is the iteration order of that run.
* Collaborators that are not part of the translated files (services, file system,
  image library, clock) are fields of `Services`; the methods of `entity.DeckArray` are the
  fields of `Aggregator`.
* Effects are explicit: `World` holds the progress reporter and the files written, a page
  canvas is the ordered list of the `Draw` calls it received, and a failing part of
  `generateBody` returns the failure together with the world it leaves.
-/

namespace DeckBuilder

/-! ## Runtime values -/

/-- Raw binary data (`[]byte`): one number below 256 per byte. -/
abbrev Bytes := List Nat

/-- The two ways a Go call can fail to produce its value. -/
inductive Failure where
  | error (msg : String)
  | panic (msg : String)
deriving DecidableEq, Repr

/-- Lookup in a Go map kept as an association list. -/
def mapGet {κ ν : Type} [DecidableEq κ] (m : List (κ × ν)) (k : κ) : Option ν :=
  match m with
  | [] => none
  | (k', v) :: rest => if k' = k then some v else mapGet rest k

/-- Assignment `m[k] = v` on a Go map kept as an association list. -/
def mapSet {κ ν : Type} [DecidableEq κ] (m : List (κ × ν)) (k : κ) (v : ν) : List (κ × ν) :=
  match m with
  | [] => [(k, v)]
  | (k', v') :: rest => if k' = k then (k, v) :: rest else (k', v') :: mapSet rest k v

/-- A decoded source image (`image.Image`). -/
structure GoImage where
  width : Int
  height : Int
  pixels : List Nat
deriving DecidableEq, Repr

/-- One call of `Draw(column, row, img)` on a page canvas. -/
structure DrawCall where
  column : Int
  row : Int
  img : GoImage
deriving DecidableEq, Repr

/-! ## `fmt.Sprintf`, `strings.Join` and `crypto/md5` -/

/-- An operand of `fmt.Sprintf`. -/
inductive FmtArg where
  | str (v : String)
  | int (v : Int)
  | bytes (v : Bytes)
deriving DecidableEq, Repr

/-- Lowercase hexadecimal digit of a number below 16. -/
def hexDigit (n : Nat) : Char :=
  "0123456789abcdef".toList.getD n '?'

/-- The verb `%x` applied to a byte slice: two lowercase digits per byte. -/
def hexBytes : Bytes → String
  | [] => ""
  | b :: rest => String.mk [hexDigit (b / 16), hexDigit (b % 16)] ++ hexBytes rest

/-- The interpreter of the format verbs the translated code uses (`%s`, `%d`, `%x`, `%v`
on a string); any other character is copied. -/
def sprintfAux : List Char → List FmtArg → String
  | [], _ => ""
  | '%' :: 's' :: rest, FmtArg.str v :: args => v ++ sprintfAux rest args
  | '%' :: 'v' :: rest, FmtArg.str v :: args => v ++ sprintfAux rest args
  | '%' :: 'd' :: rest, FmtArg.int v :: args => toString v ++ sprintfAux rest args
  | '%' :: 'x' :: rest, FmtArg.bytes v :: args => hexBytes v ++ sprintfAux rest args
  | c :: rest, args => String.singleton c ++ sprintfAux rest args

/-- Go `fmt.Sprintf` on the verbs above. -/
def Sprintf (format : String) (args : List FmtArg) : String :=
  sprintfAux format.toList args

/-- Go `strings.Join`. -/
def stringsJoin : List String → String → String
  | [], _ => ""
  | [s], _ => s
  | s :: rest, sep => s ++ sep ++ stringsJoin rest sep

/-- The bytes of a string, `[]byte(s)`: its UTF-8 encoding. -/
def stringBytes (s : String) : Bytes :=
  s.toList.flatMap (fun c => (String.utf8EncodeChar c).map (fun b => b.toNat))

/-- Per-round left rotation amounts of MD5 (RFC 1321). -/
def md5Shifts : List Nat :=
  [7, 12, 17, 22, 7, 12, 17, 22, 7, 12, 17, 22, 7, 12, 17, 22,
   5, 9, 14, 20, 5, 9, 14, 20, 5, 9, 14, 20, 5, 9, 14, 20,
   4, 11, 16, 23, 4, 11, 16, 23, 4, 11, 16, 23, 4, 11, 16, 23,
   6, 10, 15, 21, 6, 10, 15, 21, 6, 10, 15, 21, 6, 10, 15, 21]

/-- Per-round additive constants of MD5 (RFC 1321). -/
def md5Consts : List Nat :=
  [0xd76aa478, 0xe8c7b756, 0x242070db, 0xc1bdceee, 0xf57c0faf, 0x4787c62a, 0xa8304613, 0xfd469501,
   0x698098d8, 0x8b44f7af, 0xffff5bb1, 0x895cd7be, 0x6b901122, 0xfd987193, 0xa679438e, 0x49b40821,
   0xf61e2562, 0xc040b340, 0x265e5a51, 0xe9b6c7aa, 0xd62f105d, 0x02441453, 0xd8a1e681, 0xe7d3fbc8,
   0x21e1cde6, 0xc33707d6, 0xf4d50d87, 0x455a14ed, 0xa9e3e905, 0xfcefa3f8, 0x676f02d9, 0x8d2a4c8a,
   0xfffa3942, 0x8771f681, 0x6d9d6122, 0xfde5380c, 0xa4beea44, 0x4bdecfa9, 0xf6bb4b60, 0xbebfbc70,
   0x289b7ec6, 0xeaa127fa, 0xd4ef3085, 0x04881d05, 0xd9d4d039, 0xe6db99e5, 0x1fa27cf8, 0xc4ac5665,
   0xf4292244, 0x432aff97, 0xab9423a7, 0xfc93a039, 0x655b59c3, 0x8f0ccc92, 0xffeff47d, 0x85845dd1,
   0x6fa87e4f, 0xfe2ce6e0, 0xa3014314, 0x4e0811a1, 0xf7537e82, 0xbd3af235, 0x2ad7d2bb, 0xeb86d391]

/-- Rotate a 32-bit word left. -/
def rotl32 (x c : Nat) : Nat :=
  ((x <<< c) ||| (x >>> (32 - c))) % 2 ^ 32

/-- Little-endian bytes of a number, `n` of them. -/
def leBytes : Nat → Nat → Bytes
  | 0, _ => []
  | n + 1, x => x % 256 :: leBytes n (x / 256)

/-- Little-endian value of a byte list. -/
def leValue : Bytes → Nat
  | [] => 0
  | b :: rest => b % 256 + 256 * leValue rest

/-- MD5 padding: a one bit, zeros up to 56 mod 64, then the bit length on 8 bytes. -/
def md5Pad (msg : Bytes) : Bytes :=
  msg ++ [0x80] ++ List.replicate ((119 - msg.length % 64) % 64) 0 ++ leBytes 8 (8 * msg.length % 2 ^ 64)

/-- The sixteen little-endian words of a 64-byte block. -/
def md5Words (block : Bytes) : List Nat :=
  (List.range 16).map (fun i => leValue ((block.drop (4 * i)).take 4))

/-- One of the 64 operations of MD5 on the working state `(a, b, c, d)`. -/
def md5Round (m : List Nat) (s : Nat × Nat × Nat × Nat) (i : Nat) : Nat × Nat × Nat × Nat :=
  let (a, b, c, d) := s
  let nb := b ^^^ 0xffffffff
  let nd := d ^^^ 0xffffffff
  let f :=
    if i < 16 then (b &&& c) ||| (nb &&& d)
    else if i < 32 then (d &&& b) ||| (nd &&& c)
    else if i < 48 then b ^^^ c ^^^ d
    else c ^^^ (b ||| nd)
  let g :=
    if i < 16 then i
    else if i < 32 then (5 * i + 1) % 16
    else if i < 48 then (3 * i + 5) % 16
    else (7 * i) % 16
  let f2 := (f + a + md5Consts.getD i 0 + m.getD g 0) % 2 ^ 32
  (d, (b + rotl32 f2 (md5Shifts.getD i 0)) % 2 ^ 32, b, c)

/-- The compression of one 64-byte block into the chaining state. -/
def md5Block (h : Nat × Nat × Nat × Nat) (block : Bytes) : Nat × Nat × Nat × Nat :=
  let (a, b, c, d) := (List.range 64).foldl (md5Round (md5Words block)) h
  ((h.1 + a) % 2 ^ 32, (h.2.1 + b) % 2 ^ 32, (h.2.2.1 + c) % 2 ^ 32, (h.2.2.2 + d) % 2 ^ 32)

/-- The chaining state after all blocks of a padded message; `fuel` is the number of
64-byte blocks, so it never runs out before the bytes do. -/
def md5Blocks : Nat → Nat × Nat × Nat × Nat → Bytes → Nat × Nat × Nat × Nat
  | 0, h, _ => h
  | fuel + 1, h, bytes =>
    if bytes.length < 64 then h
    else md5Blocks fuel (md5Block h (bytes.take 64)) (bytes.drop 64)

/-- Go `md5.Sum`: the 16-byte MD5 digest. -/
def md5Sum (msg : Bytes) : Bytes :=
  let padded := md5Pad msg
  let (a, b, c, d) := md5Blocks (padded.length / 64) (0x67452301, 0xefcdab89, 0x98badcfe, 0x10325476) padded
  leBytes 4 a ++ leBytes 4 b ++ leBytes 4 c ++ leBytes 4 d

/-! ## `config` -/

/-- The constant `config.MinWidth`. -/
def MinWidth : Int := 2

/-- The constant `config.MinHeight`. -/
def MinHeight : Int := 2

/-- The constant `config.MaxWidth`. -/
def MaxWidth : Int := 10

/-- The constant `config.MaxHeight`. -/
def MaxHeight : Int := 7

/-- The constant `config.MaxCount`. -/
def MaxCount : Int := MaxWidth * MaxHeight - 1

/-! ## `deck_drawer.go` -/

/-- The page canvas of the drawer, `*Image` made by `CreateImage(cardWidth, cardHeight,
columns, rows)`: its geometry and the `Draw` calls it received, oldest first. -/
structure DeckImage where
  cardWidth : Int
  cardHeight : Int
  columns : Int
  rows : Int
  draws : List DrawCall
deriving DecidableEq, Repr

/-- The method `(*Image).Draw(col, row, img)`. -/
def DeckImage.Draw (deckImage : DeckImage) (col row : Int) (img : GoImage) : DeckImage :=
  { deckImage with draws := deckImage.draws ++ [⟨col, row, img⟩] }

/-- The fields of `DeckDrawer` read by `collectDeckImage`. -/
structure DeckDrawer where
  columns : Int
  rows : Int
  deckFileName : String
  images : List GoImage
  imageBackSide : GoImage
deriving DecidableEq, Repr

/-- The body of the inner loop of `collectDeckImage` at `(row, col)`; the progress line
printed by `d.log` is left out. The guard keeps the index inside the slice, so the lookup
never misses. -/
def DeckDrawer.drawCell (d : DeckDrawer) (row : Nat) (deckImage : DeckImage) (col : Nat) : DeckImage :=
  if (d.images.length : Int) ≤ (row : Int) * d.columns + (col : Int) then deckImage
  else
    match d.images.get? ((row : Int) * d.columns + (col : Int)).toNat with
    | some img => deckImage.Draw col row img
    | none => deckImage

/-- The inner loop `for col := 0; col < d.columns; col++`. -/
def DeckDrawer.drawRow (d : DeckDrawer) (deckImage : DeckImage) (row : Nat) : DeckImage :=
  (List.range d.columns.toNat).foldl (d.drawCell row) deckImage

/-- The outer loop `for row := 0; row < d.rows; row++` (the front side images). -/
def DeckDrawer.drawFront (d : DeckDrawer) (deckImage : DeckImage) : DeckImage :=
  (List.range d.rows.toNat).foldl d.drawRow deckImage

/-- The method `DeckDrawer.collectDeckImage`; `d.images[0]` panics on an empty slice. -/
def DeckDrawer.collectDeckImage (d : DeckDrawer) : Except Failure DeckImage :=
  match d.images with
  | [] => .error (.panic "index out of range [0] with length 0")
  | first :: _ =>
    let deckImage : DeckImage := ⟨first.width, first.height, d.columns, d.rows, []⟩
    let deckImage := d.drawFront deckImage
    .ok (deckImage.Draw (d.columns - 1) (d.rows - 1) d.imageBackSide)

/-! ## Entities read by the generator -/

/-- The struct `entity.CardDescription`: one card placement of a page. -/
structure CardDescription where
  GameID : String
  CollectionID : String
  CardID : Int
  Count : Int
deriving DecidableEq, Repr

/-- The slice type `entity.CardPage`. -/
abbrev CardPage := List CardDescription

/-- The map key `entity.DeckType` of a deck group: deck id and back image. -/
structure DeckType where
  DeckID : String
  Image : String
deriving DecidableEq, Repr

/-- The pages of one deck group, the map value of `DeckArray.Decks`. -/
structure DeckPages where
  Pages : List CardPage
deriving DecidableEq, Repr

/-- The struct `entity.DeckArray`; `Decks` lists the map entries in the order in which
`range deckArray.Decks` visits them. -/
structure DeckArray where
  Decks : List (DeckType × DeckPages)
deriving DecidableEq, Repr

/-- The fields of `entity.GameInfo` the generator reads. -/
structure GameInfo where
  ID : String
  Name : String
deriving DecidableEq, Repr

/-- The fields of `entity.CollectionInfo` the generator reads. -/
structure CollectionInfo where
  ID : String
deriving DecidableEq, Repr

/-- The fields of `entity.DeckInfo` the generator reads. -/
structure DeckInfo where
  ID : String
  Name : String
  Image : String
deriving DecidableEq, Repr

/-- The fields of the card metadata the generator reads; `Variables` lists the map entries
in the order in which `range cardItem.Variables` visits them. -/
structure CardInfo where
  ID : Int
  Name : String
  Description : String
  Variables : List (String × String)
  Count : Int
deriving DecidableEq, Repr

/-- The struct `entity.PageInfo`. -/
structure PageInfo where
  Columns : Int
  Rows : Int
  Width : Int
  Height : Int
  Count : Int
  Name : String
deriving DecidableEq, Repr

/-! ## The output object graph (`tts_entity`) -/

/-- The fields of `tts_entity.Transform` the generator sets; the zero value is all zeros. -/
structure Transform where
  ScaleX : Int := 0
  ScaleY : Int := 0
  ScaleZ : Int := 0
deriving DecidableEq, Repr

/-- The struct `tts_entity.DeckDescription`, one entry of a `CustomDeck` map. -/
structure DeckDescription where
  FaceURL : String := ""
  BackURL : String := ""
  NumWidth : Int := 0
  NumHeight : Int := 0
deriving DecidableEq, Repr

/-- The struct `tts_entity.Card`. -/
structure Card where
  Name : String
  Nickname : Option String
  Description : Option String
  CardID : Int
  LuaScript : String
  CustomDeck : List (Int × DeckDescription)
  Transform : Option Transform
deriving DecidableEq, Repr

/-- The struct `tts_entity.DeckObject`. -/
structure DeckObject where
  Name : String := ""
  Nickname : String := ""
  DeckIDs : List Int := []
  CustomDeck : List (Int × DeckDescription) := []
  ContainedObjects : List Card := []
  Transform : Transform := {}
deriving DecidableEq, Repr

/-- An element of `Bag.ContainedObjects`: a bare card or a deck object. -/
inductive BagObject where
  | card (c : Card)
  | deck (d : DeckObject)
deriving DecidableEq, Repr

/-- The struct `tts_entity.Bag`. -/
structure Bag where
  Name : String := ""
  Nickname : String := ""
  Description : String := ""
  Transform : Transform := {}
  ContainedObjects : List BagObject := []
deriving DecidableEq, Repr

/-- The struct `tts_entity.RootObjects`. -/
structure RootObjects where
  ObjectStates : List Bag
deriving DecidableEq, Repr

/-! ## Page canvas, files and progress -/

/-- The page canvas `*image.RGBA` of the generator: its pixel size and the `images.Draw`
calls it received, oldest first. -/
structure Canvas where
  width : Int
  height : Int
  draws : List DrawCall
deriving DecidableEq, Repr

/-- Modelled from the spec: the helper `images.CreateImage`, absent from the sources, makes
a blank canvas of the given pixel size. -/
def images.CreateImage (width height : Int) : Canvas :=
  ⟨width, height, []⟩

/-- Modelled from the spec: the helper `images.Draw`, absent from the sources, draws a source
image into the grid cell `(column, row)` of the canvas, over what was there. -/
def images.Draw (canvas : Canvas) (column row : Int) (img : GoImage) : Canvas :=
  { canvas with draws := canvas.draws ++ [⟨column, row, img⟩] }

/-- Modelled from the spec: the helper `utils.CardIdToPageCoordinates`, absent from the sources,
places image `i` at column `i mod columns`, row `i div columns`. -/
def utils.CardIdToPageCoordinates (cardId : Int) (columns : Int) : Int × Int :=
  (Int.tmod cardId columns, Int.tdiv cardId columns)

/-- What a call of `fs.CreateAndProcess` writes. -/
inductive FileContent where
  | image (c : Canvas)
  | binary (b : Bytes)
  | json (r : RootObjects)
deriving DecidableEq, Repr

/-- The status values of the progress reporter. -/
inductive Status where
  | NotStarted
  | InProgress
  | Done
  | Error
deriving DecidableEq, Repr

/-- The argument of `SetProgress`: the literal `0`, or the float expression
`float32(processed) / float32(total) * 100` kept by its two integer operands. -/
inductive Percent where
  | zero
  | ratio (processed : Int) (total : Int)
deriving DecidableEq, Repr

/-- The process-wide progress reporter returned by `progress.GetProgress()`. -/
structure Progress where
  phase : String := ""
  status : Status := Status.NotStarted
  message : String := ""
  percent : Percent := Percent.zero
deriving DecidableEq, Repr

/-- What a run leaves outside the function: the progress reporter and the files written,
oldest first. -/
structure World where
  pr : Progress := {}
  files : List (String × FileContent) := []
deriving DecidableEq, Repr

/-- The collaborators of `GeneratorService`. -/
structure Services where
  results : String
  gameItem : String → Except Failure GameInfo
  collectionList : String → String → String → Except Failure (List CollectionInfo)
  deckList : String → String → String → String → Except Failure (List DeckInfo)
  cardList : String → String → String → String → String → Except Failure (List CardInfo)
  deckItem : String → String → String → Except Failure DeckInfo
  deckGetImage : String → String → String → Except Failure Bytes
  cardItem : String → String → String → Int → Except Failure CardInfo
  cardGetImage : String → String → String → Int → Except Failure Bytes
  imageFromBinary : Bytes → Except Failure GoImage
  imageSize : Bytes → Except Failure (Int × Int)
  adjustBrightness : GoImage → Int → GoImage
  createAndProcess : String → FileContent → Option Failure
  removeFolder : String → Option Failure
  createFolder : String → Option Failure
  calculateGridSize : Int → Int × Int
  filepathJoin : String → String → String
  pathToAbsolutePath : String → String
  now : String

/-! ## `generator.go` -/

/-- The struct `BackSideInformation`. -/
structure BackSideInformation where
  imageDarker : GoImage
  imageName : String
deriving DecidableEq, Repr

/-- The struct `DeckInformation`; a nil pointer is `none`. -/
structure DeckInformation where
  collectionType : String := ""
  deckItem : Option DeckInfo := none
  backside : Option BackSideInformation := none
  deckDesc : DeckDescription := {}
deriving DecidableEq, Repr

/-- The struct `PageInformation`. -/
structure PageInformation where
  info : PageInfo
  image : Canvas
deriving DecidableEq, Repr

/-- The function-level variables of `generateBody` together with the outside world. -/
structure GenState where
  world : World
  bag : Bag
  deck : DeckObject
  processedCards : Int
deriving DecidableEq, Repr

/-- The call `pr.SetMessage(msg)`. -/
def GenState.setMessage (st : GenState) (msg : String) : GenState :=
  { st with world := { st.world with pr := { st.world.pr with message := msg } } }

/-- The call `pr.SetProgress(p)`. -/
def GenState.setProgress (st : GenState) (p : Percent) : GenState :=
  { st with world := { st.world with pr := { st.world.pr with percent := p } } }

/-- A successful `fs.CreateAndProcess(path, data, ...)`. -/
def World.addFile (w : World) (path : String) (data : FileContent) : World :=
  { w with files := w.files ++ [(path, data)] }

/-- The method `prepareBacksideImage`; on success it also returns the file it wrote. -/
def prepareBacksideImage (svc : Services) (gameID collectionID deckID : String) :
    Except Failure (BackSideInformation × (String × FileContent)) :=
  match svc.deckItem gameID collectionID deckID with
  | .error e => .error e
  | .ok deckItem =>
    match svc.deckGetImage gameID collectionID deckID with
    | .error e => .error e
    | .ok deckBacksideImage =>
      match svc.imageFromBinary deckBacksideImage with
      | .error e => .error e
      | .ok deckBacksideImg =>
        let hash := md5Sum (stringBytes deckItem.Name)
        let name := "backside_" ++ deckItem.ID ++ "_" ++ Sprintf "%x" [.bytes (hash.take 3)] ++ ".png"
        match svc.createAndProcess (svc.filepathJoin svc.results name) (.binary deckBacksideImage) with
        | some e => .error e
        | none =>
          .ok (⟨svc.adjustBrightness deckBacksideImg (-30), name⟩,
            (svc.filepathJoin svc.results name, .binary deckBacksideImage))

/-- The value Go's 64-bit `int` holds for the integer `x`: `x` modulo `2^64`, taken in the
range from `-2^63` to `2^63 - 1` (two's complement wrap-around). -/
def wrapInt (x : Int) : Int :=
  (x + 9223372036854775808) % 18446744073709551616 - 9223372036854775808

/-- The method `preparePageInfo`; the write through `infoDeck` is returned as the new
`DeckInformation`. The products of line 337 and 338 are Go `int` products, which wrap. -/
def preparePageInfo (svc : Services) (pageId : Nat) (page : CardPage) (card : CardDescription)
    (deckInfo : DeckType) (infoDeck : DeckInformation) :
    Except Failure (PageInformation × DeckInformation) :=
  let grid := svc.calculateGridSize ((page.length : Int) + 1)
  let columns := grid.1
  let rows := grid.2
  match svc.cardGetImage card.GameID card.CollectionID deckInfo.DeckID card.CardID with
  | .error e => .error e
  | .ok imgBin =>
    match svc.imageSize imgBin with
    | .error e => .error e
    | .ok (cardWidth, cardHeight) =>
      let info : PageInfo :=
        { Columns := columns
          Rows := rows
          Width := wrapInt (cardWidth * columns)
          Height := wrapInt (cardHeight * rows)
          Count := (page.length : Int)
          Name := Sprintf "%s_%d_%d_%dx%d.png"
            [.str deckInfo.DeckID, .int ((pageId : Int) + 1), .int (page.length : Int),
             .int columns, .int rows] }
      let image := images.CreateImage info.Width info.Height
      match infoDeck.backside with
      | none => .error (.panic "nil pointer dereference")
      | some backside =>
        .ok (⟨info, image⟩,
          { infoDeck with
            deckDesc :=
              { FaceURL := "file:///" ++ svc.pathToAbsolutePath (svc.filepathJoin svc.results info.Name)
                BackURL := "file:///" ++ svc.pathToAbsolutePath (svc.filepathJoin svc.results backside.imageName)
                NumWidth := info.Columns
                NumHeight := info.Rows } })

/-- The local `transform` of `generateBody`. -/
def transform : Transform :=
  { ScaleX := 1, ScaleY := 1, ScaleZ := 1 }

/-- The collapse rule of both `switch` statements of `generateBody`: the bag after the
accumulated deck has been moved into it. -/
def appendCollapsed (bag : Bag) (deck : DeckObject) : Bag :=
  match deck.ContainedObjects with
  | [] => bag
  | [c] => { bag with ContainedObjects := bag.ContainedObjects ++ [BagObject.card c] }
  | _ :: _ :: _ => { bag with ContainedObjects := bag.ContainedObjects ++ [BagObject.deck deck] }

/-- The variables that live across the iterations of the card loop of one page. -/
structure PageVars where
  st : GenState
  infoDeck : DeckInformation
  infoPage : Option PageInformation
deriving DecidableEq, Repr

/-- Lines 158-169: resolve the deck item and the backside on the first card of a group. -/
def stepBackside (svc : Services) (deckInfo : DeckType) (card : CardDescription)
    (st : GenState) (infoDeck : DeckInformation) :
    Except (Failure × World) (GenState × DeckInformation) :=
  match infoDeck.backside with
  | some _ => .ok (st, infoDeck)
  | none =>
    match svc.deckItem card.GameID card.CollectionID deckInfo.DeckID with
    | .error e => .error (e, st.world)
    | .ok deckItem =>
      match prepareBacksideImage svc card.GameID card.CollectionID deckInfo.DeckID with
      | .error e => .error (e, st.world)
      | .ok (backside, file) =>
        .ok ({ st with world := st.world.addFile file.1 file.2 },
          { infoDeck with deckItem := some deckItem, backside := some backside })

/-- Lines 170-176: prepare the page on its first card and register its description in the
accumulated deck. -/
def stepPageInfo (svc : Services) (deckInfo : DeckType) (pageId : Nat) (page : CardPage)
    (card : CardDescription) (v : PageVars) : Except (Failure × World) (PageVars × PageInformation) :=
  match v.infoPage with
  | some infoPage => .ok (v, infoPage)
  | none =>
    match preparePageInfo svc pageId page card deckInfo v.infoDeck with
    | .error e => .error (e, v.st.world)
    | .ok (infoPage, infoDeck) =>
      .ok ({ st := { v.st with deck :=
                { v.st.deck with CustomDeck := mapSet v.st.deck.CustomDeck ((pageId : Int) + 1) infoDeck.deckDesc } }
             infoDeck := infoDeck
             infoPage := some infoPage }, infoPage)

/-- Lines 180-193: fetch and decode the card image and draw it at its cell. -/
def stepDraw (svc : Services) (deckInfo : DeckType) (cardId : Nat) (card : CardDescription)
    (infoPage : PageInformation) : Except Failure PageInformation :=
  match svc.cardGetImage card.GameID card.CollectionID deckInfo.DeckID card.CardID with
  | .error e => .error e
  | .ok cardImageBin =>
    match svc.imageFromBinary cardImageBin with
    | .error e => .error e
    | .ok cardImg =>
      let pos := utils.CardIdToPageCoordinates (cardId : Int) infoPage.info.Columns
      .ok { infoPage with image := images.Draw infoPage.image pos.1 pos.2 cardImg }

/-- Lines 199-220: on a change of collection, move the accumulated deck to the bag and
start a new deck object. -/
def stepBoundary (deckInfo : DeckType) (pageId : Nat) (card : CardDescription)
    (st : GenState) (infoDeck : DeckInformation) :
    Except (Failure × World) (GenState × DeckInformation) :=
  if infoDeck.collectionType ≠ card.CollectionID ++ deckInfo.DeckID then
    match infoDeck.deckItem with
    | none => .error (.panic "nil pointer dereference", st.world)
    | some deckItem =>
      .ok ({ st with
              bag := appendCollapsed st.bag st.deck
              deck :=
                { Name := "Deck"
                  Nickname := deckItem.Name
                  CustomDeck := [((pageId : Int) + 1, infoDeck.deckDesc)]
                  Transform := transform } },
            { infoDeck with collectionType := card.CollectionID ++ deckInfo.DeckID })
  else .ok (st, infoDeck)

/-- Lines 227-230: the `key=value` strings of the card variables. -/
def luaVariables (vars : List (String × String)) : List String :=
  vars.map (fun kv => kv.1 ++ "=" ++ kv.2)

/-- The card entity built at lines 238-248. -/
def makeCard (pageId cardId : Nat) (cardItem : CardInfo) (deckDesc : DeckDescription) : Card :=
  { Name := "Card"
    Nickname := some cardItem.Name
    Description := some cardItem.Description
    CardID := ((pageId : Int) + 1) * 100 + (cardId : Int)
    LuaScript := stringsJoin (luaVariables cardItem.Variables) "\n"
    CustomDeck := [((pageId : Int) + 1, deckDesc)]
    Transform := some transform }

/-- Lines 233-249: the loop `for i := 0; i < cardItem.Count; i++`, given the number of
iterations left. -/
def addCopies (pageId cardId : Nat) (cardItem : CardInfo) (deckDesc : DeckDescription) :
    Nat → DeckObject → DeckObject
  | 0, deck => deck
  | n + 1, deck =>
    addCopies pageId cardId cardItem deckDesc n
      { deck with
        DeckIDs := deck.DeckIDs ++ [((pageId : Int) + 1) * 100 + (cardId : Int)]
        ContainedObjects := deck.ContainedObjects ++ [makeCard pageId cardId cardItem deckDesc] }

/-- The body of `for cardId, card := range page` (lines 156-252). -/
def cardBody (svc : Services) (totalCountOfCards : Int) (deckInfo : DeckType) (pageId : Nat)
    (page : CardPage) (cardId : Nat) (card : CardDescription) (v : PageVars) :
    Except (Failure × World) PageVars :=
  match stepBackside svc deckInfo card v.st v.infoDeck with
  | .error e => .error e
  | .ok (st1, infoDeck1) =>
    match stepPageInfo svc deckInfo pageId page card ⟨st1, infoDeck1, v.infoPage⟩ with
    | .error e => .error e
    | .ok (v2, infoPage2) =>
      match stepDraw svc deckInfo cardId card infoPage2 with
      | .error e => .error (e, v2.st.world)
      | .ok infoPage3 =>
        match stepBoundary deckInfo pageId card v2.st v2.infoDeck with
        | .error e => .error e
        | .ok (st4, infoDeck4) =>
          match svc.cardItem card.GameID card.CollectionID deckInfo.DeckID card.CardID with
          | .error e => .error (e, st4.world)
          | .ok cardItem =>
            let deck5 := addCopies pageId cardId cardItem infoDeck4.deckDesc cardItem.Count.toNat st4.deck
            let st5 := { st4 with deck := deck5, processedCards := st4.processedCards + 1 }
            .ok { st := st5.setProgress (Percent.ratio st5.processedCards totalCountOfCards)
                  infoDeck := infoDeck4
                  infoPage := some infoPage3 }

/-- The loop `for cardId, card := range page`, from slot `cardId` on. -/
def cardLoop (svc : Services) (totalCountOfCards : Int) (deckInfo : DeckType) (pageId : Nat)
    (page : CardPage) : Nat → List CardDescription → PageVars → Except (Failure × World) PageVars
  | _, [], v => .ok v
  | cardId, card :: rest, v =>
    match cardBody svc totalCountOfCards deckInfo pageId page cardId card v with
    | .error e => .error e
    | .ok v' => cardLoop svc totalCountOfCards deckInfo pageId page (cardId + 1) rest v'

/-- The body of `for pageId, page := range pages.Pages` (lines 153-262). -/
def pageBody (svc : Services) (totalCountOfCards : Int) (deckInfo : DeckType) (pageId : Nat)
    (page : CardPage) (st : GenState) (infoDeck : DeckInformation) :
    Except (Failure × World) (GenState × DeckInformation) :=
  match cardLoop svc totalCountOfCards deckInfo pageId page 0 page
      ⟨st.setMessage "Drawing cards on the resulting page...", infoDeck, none⟩ with
  | .error e => .error e
  | .ok v =>
    let st1 := v.st.setMessage "Drawing backside image on the resulting page..."
    match v.infoPage, v.infoDeck.backside with
    | some infoPage, some backside =>
      let image := images.Draw infoPage.image (infoPage.info.Columns - 1) (infoPage.info.Rows - 1)
        backside.imageDarker
      let st2 := st1.setMessage "Saving the resulting page to disk..."
      match svc.createAndProcess (svc.filepathJoin svc.results infoPage.info.Name) (.image image) with
      | some e => .error (e, st2.world)
      | none =>
        .ok ({ st2 with world := st2.world.addFile (svc.filepathJoin svc.results infoPage.info.Name) (.image image) },
          v.infoDeck)
    | _, _ => .error (.panic "nil pointer dereference", st1.world)

/-- The loop `for pageId, page := range pages.Pages`, from page index `pageId` on. -/
def pageLoop (svc : Services) (totalCountOfCards : Int) (deckInfo : DeckType) :
    Nat → List CardPage → GenState → DeckInformation → Except (Failure × World) (GenState × DeckInformation)
  | _, [], st, infoDeck => .ok (st, infoDeck)
  | pageId, page :: rest, st, infoDeck =>
    match pageBody svc totalCountOfCards deckInfo pageId page st infoDeck with
    | .error e => .error e
    | .ok (st', infoDeck') => pageLoop svc totalCountOfCards deckInfo (pageId + 1) rest st' infoDeck'

/-- Lines 265-274: the flush at the end of a deck group. -/
def flushGroup (st : GenState) : GenState :=
  match st.deck.ContainedObjects with
  | [] => st
  | _ :: _ => { st with bag := appendCollapsed st.bag st.deck, deck := { CustomDeck := [] } }

/-- The body of `for deckInfo, pages := range deckArray.Decks` (lines 145-274). -/
def groupBody (svc : Services) (totalCountOfCards : Int) (group : DeckType × DeckPages)
    (st : GenState) : Except (Failure × World) GenState :=
  if group.2.Pages.length = 0 then .ok st
  else
    match pageLoop svc totalCountOfCards group.1 0 group.2.Pages st {} with
    | .error e => .error e
    | .ok (st', _) => .ok (flushGroup st')

/-- The loop `for deckInfo, pages := range deckArray.Decks`. -/
def groupLoop (svc : Services) (totalCountOfCards : Int) :
    List (DeckType × DeckPages) → GenState → Except (Failure × World) GenState
  | [], st => .ok st
  | group :: rest, st =>
    match groupBody svc totalCountOfCards group st with
    | .error e => .error e
    | .ok st' => groupLoop svc totalCountOfCards rest st'

/-- The state of `generateBody` when it enters the loop over the deck groups (lines 120-143). -/
def initialState (gameItem : GameInfo) (w : World) : GenState :=
  GenState.setProgress
    (GenState.setMessage
      (GenState.setMessage
        { world := w
          bag := { Name := "Bag", Nickname := gameItem.Name, Transform := transform }
          deck := { CustomDeck := [], Transform := transform }
          processedCards := 0 }
        "Reading a list of cards from the disk...")
      "Generating the resulting image pages...")
    Percent.zero

/-- The bag as it is written to the root document (line 277). -/
def finalBag (svc : Services) (st : GenState) : Bag :=
  { st.bag with Description := Sprintf "Created at: %v" [.str svc.now] }

/-- The method `generateBody`: the returned error, if any, and the world it leaves. -/
def generateBody (svc : Services) (gameItem : GameInfo) (deckArray : DeckArray)
    (totalCountOfCards : Int) (w : World) : Option Failure × World :=
  match groupLoop svc totalCountOfCards deckArray.Decks (initialState gameItem w) with
  | .error (e, w') => (some e, w')
  | .ok st =>
    let root : RootObjects := { ObjectStates := [finalBag svc st] }
    match svc.createAndProcess (svc.filepathJoin svc.results (gameItem.ID ++ ".json")) (.json root) with
    | some e => (some e, st.world)
    | none =>
      (none, (GenState.setMessage
        { st with world := st.world.addFile (svc.filepathJoin svc.results (gameItem.ID ++ ".json")) (.json root) }
        "All image pages were successfully generated!").world)

/-! ## Sample inputs -/

/-- A source image of one pixel, told apart by its pixel value. -/
def sampleImage (n : Nat) : GoImage :=
  ⟨1, 1, [n]⟩

/-- A drawer of four cards on a grid of three columns and two rows. -/
def sampleDrawer : DeckDrawer :=
  { columns := 3
    rows := 2
    deckFileName := "loot.png"
    images := [sampleImage 0, sampleImage 1, sampleImage 2, sampleImage 3]
    imageBackSide := sampleImage 9 }

/-- A drawer of five cards on a grid of two columns and two rows: one card too many. -/
def crowdedDrawer : DeckDrawer :=
  { columns := 2
    rows := 2
    deckFileName := "loot.png"
    images := [sampleImage 0, sampleImage 1, sampleImage 2, sampleImage 3, sampleImage 4]
    imageBackSide := sampleImage 9 }

/-- Collaborators that always succeed: one collection `core` with one deck `loot` named
`Loot`, cards whose replication count is given by `count`, and a sizer that answers
2 x 2 up to four cells and 10 x 7 above. -/
def sampleServices (count : Int → Int) : Services where
  results := "data/result"
  gameItem := fun g => .ok ⟨g, "Base"⟩
  collectionList := fun _ _ _ => .ok [⟨"core"⟩]
  deckList := fun _ _ _ _ => .ok [⟨"loot", "Loot", "loot.png"⟩]
  cardList := fun _ _ _ _ _ =>
    .ok [⟨1, "Sword", "A blade", [("atk", "2")], count 1⟩, ⟨2, "Shield", "A guard", [], count 2⟩]
  deckItem := fun _ _ d => .ok ⟨d, "Loot", "loot.png"⟩
  deckGetImage := fun _ _ _ => .ok [7]
  cardItem := fun _ _ _ c => .ok ⟨c, "Sword", "A blade", [("atk", "2"), ("def", "1")], count c⟩
  cardGetImage := fun _ _ _ c => .ok [c.toNat]
  imageFromBinary := fun b => .ok ⟨2, 3, b⟩
  imageSize := fun _ => .ok (2, 3)
  adjustBrightness := fun img _ => img
  createAndProcess := fun _ _ => none
  removeFolder := fun _ => none
  createFolder := fun _ => none
  calculateGridSize := fun n => if n ≤ 4 then (2, 2) else (10, 7)
  filepathJoin := fun a b => a ++ "/" ++ b
  pathToAbsolutePath := fun p => "/home/" ++ p
  now := "2026-01-01 00:00:00"

/-- The sample collaborators with card images reported `2^62` pixels wide. -/
def wideServices : Services :=
  { sampleServices (fun _ => 1) with imageSize := fun _ => .ok (4611686018427387904, 3) }

/-- A card placement of game `base` with replication count 1 recorded by the aggregator. -/
def sampleCard (collectionID : String) (cardID : Int) : CardDescription :=
  ⟨"base", collectionID, cardID, 1⟩

/-- The deck group key of the deck `loot`. -/
def sampleDeck : DeckType :=
  ⟨"loot", "loot.png"⟩

/-! ## Specification helpers -/

/-- The card code the spec gives the card at 0-based slot `cardId` of the page with 0-based
index `pageId`: `pageNumber * 100 + slot`. -/
def cardCode (pageId cardId : Nat) : Int :=
  ((pageId : Int) + 1) * 100 + (cardId : Int)

/-- The `CustomDeck` description of the page with 0-based index `pageId` holding `count`
cards, for a backside asset named `backsideName`. -/
def pageDescription (svc : Services) (deckID backsideName : String) (pageId count : Nat) :
    DeckDescription :=
  { FaceURL := "file:///" ++ svc.pathToAbsolutePath (svc.filepathJoin svc.results
      (Sprintf "%s_%d_%d_%dx%d.png"
        [.str deckID, .int ((pageId : Int) + 1), .int (count : Int),
         .int (svc.calculateGridSize ((count : Int) + 1)).1,
         .int (svc.calculateGridSize ((count : Int) + 1)).2]))
    BackURL := "file:///" ++ svc.pathToAbsolutePath (svc.filepathJoin svc.results backsideName)
    NumWidth := (svc.calculateGridSize ((count : Int) + 1)).1
    NumHeight := (svc.calculateGridSize ((count : Int) + 1)).2 }

/-- All card entities of a list of bag objects, in order, a deck object standing for the
cards it contains. -/
def bagCards : List BagObject → List Card
  | [] => []
  | BagObject.card c :: rest => c :: bagCards rest
  | BagObject.deck d :: rest => d.ContainedObjects ++ bagCards rest

/-- The deck objects of a list of bag objects. -/
def bagDecks : List BagObject → List DeckObject
  | [] => []
  | BagObject.card _ :: rest => bagDecks rest
  | BagObject.deck d :: rest => d :: bagDecks rest

/-- The game of the sample runs. -/
def sampleGame : GameInfo :=
  ⟨"base", "Base"⟩

/-- A deck array with the single group `loot` holding cards 1 and 2 of collection `core` on
one page. -/
def sampleDeckArray : DeckArray :=
  ⟨[(sampleDeck, ⟨[[sampleCard "core" 1, sampleCard "core" 2]]⟩)]⟩

/-- Replication counts of the sample cards: one copy of card 1, two copies of any other. -/
def sampleCount (cardID : Int) : Int :=
  if cardID = 1 then 1 else 2

/-- The id list of a deck object names its card entities in order. -/
def IdsAligned (deck : DeckObject) : Prop :=
  deck.DeckIDs = deck.ContainedObjects.map (fun c => c.CardID)

/-- The accumulated deck and every deck object of the bag have aligned id lists. -/
def AllAligned (bag : Bag) (deck : DeckObject) : Prop :=
  IdsAligned deck ∧ ∀ d, BagObject.deck d ∈ bag.ContainedObjects → IdsAligned d

/-- A deck array with the single group `loot` holding the single card 1. -/
def singleCardArray : DeckArray :=
  ⟨[(sampleDeck, ⟨[[sampleCard "core" 1]]⟩)]⟩

/-- The metadata `sampleServices count` returns for card 1. -/
def sampleItem (count : Int) : CardInfo :=
  ⟨1, "Sword", "A blade", [("atk", "2"), ("def", "1")], count⟩

/-- The replication count `cardItem.Count` the card service reports for a placement of the
group `deckInfo` (0 when the lookup fails). -/
def replicationCount (svc : Services) (deckInfo : DeckType) (card : CardDescription) : Int :=
  match svc.cardItem card.GameID card.CollectionID deckInfo.DeckID card.CardID with
  | .ok item => item.Count
  | .error _ => 0

/-- The number of iterations of the copy loop over a list of placements: the sum of their
replication counts, a count below 1 giving no iteration. -/
def copies (svc : Services) (deckInfo : DeckType) (cards : List CardDescription) : Nat :=
  (cards.map (fun card => (replicationCount svc deckInfo card).toNat)).sum

/-- A deck array with the single group `loot` holding card 1 of collection `core` and card 2
of collection `dlc` on one page. -/
def twoCollectionArray : DeckArray :=
  ⟨[(sampleDeck, ⟨[[sampleCard "core" 1, sampleCard "dlc" 2]]⟩)]⟩

/-- Replication counts with no copy of card 1 and one copy of any other card. -/
def zeroOneCount (cardID : Int) : Int :=
  if cardID = 1 then 0 else 1

/-- The pages of a group of three cards of collection `core`, the last one alone on a
second page. -/
def samplePages : List CardPage :=
  [[sampleCard "core" 1, sampleCard "core" 2], [sampleCard "core" 3]]

/-- The decoded image of a card of the group `deckInfo`, as the card step fetches it. -/
def cardImage (svc : Services) (deckInfo : DeckType) (card : CardDescription) :
    Except Failure GoImage :=
  match svc.cardGetImage card.GameID card.CollectionID deckInfo.DeckID card.CardID with
  | .error e => .error e
  | .ok bin => svc.imageFromBinary bin

/-- The draw of the card at slot `cardId` of a page with `columns` columns, if its image
can be read. -/
def cardDraw (svc : Services) (deckInfo : DeckType) (columns : Int)
    (slot : Nat × CardDescription) : Option DrawCall :=
  match cardImage svc deckInfo slot.2 with
  | .ok img =>
    some ⟨(utils.CardIdToPageCoordinates (slot.1 : Int) columns).1,
      (utils.CardIdToPageCoordinates (slot.1 : Int) columns).2, img⟩
  | .error _ => none

/-- The card draws of a page in slot order. -/
def pageDraws (svc : Services) (deckInfo : DeckType) (columns : Int) (page : CardPage) :
    List DrawCall :=
  page.enum.filterMap (cardDraw svc deckInfo columns)

/-- The name `preparePageInfo` gives the image of the page with 0-based index `pageId`
holding `count` cards. -/
def pageFileName (svc : Services) (deckID : String) (pageId count : Nat) : String :=
  Sprintf "%s_%d_%d_%dx%d.png"
    [.str deckID, .int ((pageId : Int) + 1), .int (count : Int),
     .int (svc.calculateGridSize ((count : Int) + 1)).1,
     .int (svc.calculateGridSize ((count : Int) + 1)).2]

/-- The written file `(path, canvas)` is the image of a page of one of the groups: it is
named after the page and its draws are the card draws of the page in slot order followed
by one draw of a backside image at the last grid cell. -/
def IsPageImage (svc : Services) (groups : List (DeckType × DeckPages)) (path : String)
    (canvas : Canvas) : Prop :=
  ∃ group ∈ groups, ∃ (pageId : Nat) (page : CardPage) (backside : GoImage),
    group.2.Pages.get? pageId = some page ∧
    path = svc.filepathJoin svc.results (pageFileName svc group.1.DeckID pageId page.length) ∧
    (pageDraws svc group.1 (svc.calculateGridSize ((page.length : Int) + 1)).1 page).length =
      page.length ∧
    canvas.draws =
      pageDraws svc group.1 (svc.calculateGridSize ((page.length : Int) + 1)).1 page ++
        [⟨(svc.calculateGridSize ((page.length : Int) + 1)).1 - 1,
          (svc.calculateGridSize ((page.length : Int) + 1)).2 - 1, backside⟩]

/-- The card entities the spec asks for the card at slot `slot.1` of the page with index
`pageId`: `Count` copies of the entity with the card code of that position and the page
description under key `pageId + 1`. -/
def slotCards (svc : Services) (deckInfo : DeckType) (pageId : Nat) (desc : DeckDescription)
    (slot : Nat × CardDescription) : List Card :=
  match svc.cardItem slot.2.GameID slot.2.CollectionID deckInfo.DeckID slot.2.CardID with
  | .ok item => List.replicate item.Count.toNat (makeCard pageId slot.1 item desc)
  | .error _ => []

/-- The card entities of a page, slot by slot. -/
def pageCards (svc : Services) (deckInfo : DeckType) (backsideName : String)
    (indexed : Nat × CardPage) : List Card :=
  indexed.2.enum.flatMap
    (slotCards svc deckInfo indexed.1
      (pageDescription svc deckInfo.DeckID backsideName indexed.1 indexed.2.length))

/-- The backside asset of a group: the one prepared on the first card of its first page. -/
def groupBackside (svc : Services) (group : DeckType × DeckPages) : Option BackSideInformation :=
  match group.2.Pages with
  | (card :: _) :: _ =>
    match prepareBacksideImage svc card.GameID card.CollectionID group.1.DeckID with
    | .ok (b, _) => some b
    | .error _ => none
  | _ => none

/-- The card entities of a group, page by page. -/
def groupCards (svc : Services) (group : DeckType × DeckPages) : List Card :=
  match groupBackside svc group with
  | some b => group.2.Pages.enum.flatMap (pageCards svc group.1 b.imageName)
  | none => []

/-- A deck array with the single group `loot` holding three cards of collection `core` on
two pages. -/
def twoPageArray : DeckArray :=
  ⟨[(sampleDeck, ⟨samplePages⟩)]⟩

/-! ## `getListOfCards` -/

/-- The methods of `entity.DeckArray` that `getListOfCards` calls; their bodies are not
part of the translated sources, so the aggregator is a parameter. -/
structure Aggregator (α : Type) where
  NewDeckArray : α
  SelectDeck : α → String → String → α
  AddCard : α → String → String → Int → Int → α

/-- The loop `for _, cardItem := range cardItems` (lines 110-114). -/
def addCards {α : Type} (agg : Aggregator α) (gameID collectionID : String) :
    List CardInfo → α × Int → α × Int
  | [], acc => acc
  | cardItem :: rest, (deckArray, totalCountOfCards) =>
    addCards agg gameID collectionID rest
      (agg.AddCard deckArray gameID collectionID cardItem.ID cardItem.Count, totalCountOfCards + 1)

/-- The loop `for _, deckItem := range deckItems` (lines 103-115). -/
def listDecks {α : Type} (agg : Aggregator α) (svc : Services) (gameID sortField : String)
    (collectionID : String) : List DeckInfo → α × Int → Except Failure (α × Int)
  | [], acc => .ok acc
  | deckItem :: rest, (deckArray, totalCountOfCards) =>
    match svc.cardList gameID collectionID deckItem.ID sortField "" with
    | .error e => .error e
    | .ok cardItems =>
      listDecks agg svc gameID sortField collectionID rest
        (addCards agg gameID collectionID cardItems
          (agg.SelectDeck deckArray deckItem.ID deckItem.Image, totalCountOfCards))

/-- The loop `for _, collectionItem := range collectionItems` (lines 97-116). -/
def listCollections {α : Type} (agg : Aggregator α) (svc : Services) (gameID sortField : String) :
    List CollectionInfo → α × Int → Except Failure (α × Int)
  | [], acc => .ok acc
  | collectionItem :: rest, acc =>
    match svc.deckList gameID collectionItem.ID sortField "" with
    | .error e => .error e
    | .ok deckItems =>
      match listDecks agg svc gameID sortField collectionItem.ID deckItems acc with
      | .error e => .error e
      | .ok acc' => listCollections agg svc gameID sortField rest acc'

/-- The method `getListOfCards`. -/
def getListOfCards {α : Type} (agg : Aggregator α) (svc : Services) (gameID sortField : String) :
    Except Failure (α × Int) :=
  match svc.collectionList gameID sortField "" with
  | .error e => .error e
  | .ok collectionItems =>
    listCollections agg svc gameID sortField collectionItems (agg.NewDeckArray, 0)

/-- A call received by the aggregator. -/
inductive AggregatorCall where
  | SelectDeck (deckID image : String)
  | AddCard (gameID collectionID : String) (cardID count : Int)
deriving DecidableEq, Repr

/-- The aggregator that records the calls it receives, oldest first. -/
def callLog : Aggregator (List AggregatorCall) where
  NewDeckArray := []
  SelectDeck := fun log deckID image => log ++ [AggregatorCall.SelectDeck deckID image]
  AddCard := fun log gameID collectionID cardID count =>
    log ++ [AggregatorCall.AddCard gameID collectionID cardID count]

/-- A call with its replication count put to 0. -/
def AggregatorCall.withoutCount : AggregatorCall → AggregatorCall
  | AggregatorCall.SelectDeck deckID image => AggregatorCall.SelectDeck deckID image
  | AggregatorCall.AddCard gameID collectionID cardID _ =>
    AggregatorCall.AddCard gameID collectionID cardID 0

/-- Whether a call is an `AddCard` placement. -/
def AggregatorCall.isAddCard : AggregatorCall → Bool
  | AggregatorCall.SelectDeck _ _ => false
  | AggregatorCall.AddCard _ _ _ _ => true

/-! ## Inputs that differ only in replication counts -/

/-- Card metadata with its replication count put to 0. -/
def CardInfo.withoutCount (item : CardInfo) : CardInfo :=
  { item with Count := 0 }

/-- A card placement with its replication count put to 0. -/
def CardDescription.withoutCount (card : CardDescription) : CardDescription :=
  { card with Count := 0 }

/-- The collaborators with every replication count they report put to 0. Two sets of
collaborators differ only in replication counts when this makes them equal. -/
def Services.withoutCounts (svc : Services) : Services :=
  { svc with
    cardItem := fun g c d i =>
      match svc.cardItem g c d i with
      | .ok item => .ok item.withoutCount
      | .error e => .error e
    cardList := fun g c d s q =>
      match svc.cardList g c d s q with
      | .ok items => .ok (items.map CardInfo.withoutCount)
      | .error e => .error e }

/-- The groups of a deck array with every replication count put to 0. Two lists of groups
differ only in replication counts when this makes them equal. -/
def groupsWithoutCounts (groups : List (DeckType × DeckPages)) : List (DeckType × DeckPages) :=
  groups.map (fun g => (g.1, ⟨g.2.Pages.map (fun page => page.map CardDescription.withoutCount)⟩))

/-- Two outcomes of a part of `generateBody` agree: both fail with the same failure in the
same world, or both succeed with related results. -/
def SameOutcome {α : Type} (R : α → α → Prop) (r1 r2 : Except (Failure × World) α) : Prop :=
  match r1, r2 with
  | .ok a, .ok b => R a b
  | .error e1, .error e2 => e1 = e2
  | _, _ => False

/-- Two states of `generateBody` agree on everything but the bag and the accumulated deck. -/
def SameWorld (s1 s2 : GenState) : Prop :=
  s1.world = s2.world ∧ s1.processedCards = s2.processedCards

/-- Two states of the card loop agree on everything but the bag and the accumulated deck. -/
def SamePage (v1 v2 : PageVars) : Prop :=
  SameWorld v1.st v2.st ∧ v1.infoDeck = v2.infoDeck ∧ v1.infoPage = v2.infoPage

/-- The result of `getListOfCards` on the recording aggregator with every replication count
of the recorded calls put to 0. -/
def eraseLogCounts (r : Except Failure (List AggregatorCall × Int)) :
    Except Failure (List AggregatorCall × Int) :=
  match r with
  | .ok (log, total) => .ok (log.map AggregatorCall.withoutCount, total)
  | .error e => .error e

/-- The deck array `twoPageArray` with other replication counts recorded by the
aggregator. -/
def twoPageArrayRecounted : DeckArray :=
  ⟨[(sampleDeck,
    ⟨[[⟨"base", "core", 1, 4⟩, ⟨"base", "core", 2, 1⟩], [⟨"base", "core", 3, 7⟩]]⟩)]⟩

/-- One recorded call applied to an aggregator state. -/
def applyCall {α : Type} (agg : Aggregator α) (deckArray : α) : AggregatorCall → α
  | AggregatorCall.SelectDeck deckID image => agg.SelectDeck deckArray deckID image
  | AggregatorCall.AddCard gameID collectionID cardID count =>
    agg.AddCard deckArray gameID collectionID cardID count

/-- The aggregator state reached by a sequence of recorded calls. -/
def replay {α : Type} (agg : Aggregator α) (log : List AggregatorCall) : α :=
  log.foldl (applyCall agg) agg.NewDeckArray

/-! ## Sample inputs of the later theorems -/

/-- The sample collaborators reading the clock at `now`. -/
def servicesAt (now : String) : Services :=
  { sampleServices sampleCount with now := now }

/-- The sample collaborators whose card metadata lookup fails with the error `msg`. -/
def failingServices (msg : String) : Services :=
  { sampleServices sampleCount with cardItem := fun _ _ _ _ => .error (Failure.error msg) }

/-! ## The grid sizer -/

/-- The column counts within the configured bounds, smallest first. -/
def gridWidths : List Int :=
  (List.range (MaxWidth - MinWidth + 1).toNat).map (fun (i : Nat) => MinWidth + (i : Int))

/-- The row counts within the configured bounds, smallest first. -/
def gridHeights : List Int :=
  (List.range (MaxHeight - MinHeight + 1).toNat).map (fun (i : Nat) => MinHeight + (i : Int))

/-- Every shape `(columns, rows)` within the configured bounds. -/
def gridShapes : List (Int × Int) :=
  gridWidths.flatMap (fun c => gridHeights.map (fun r => (c, r)))

/-- The cells of the shape `p` left over by `n` items. -/
def gridWaste (n : Int) (p : Int × Int) : Int :=
  p.1 * p.2 - n

/-- Whether the policy of the grid sizer strictly prefers the shape `a` to the shape `b`:
less waste first, then closer to square, then fewer columns. -/
def gridPreferred (n : Int) (a b : Int × Int) : Bool :=
  decide (gridWaste n a < gridWaste n b) ||
    (decide (gridWaste n a = gridWaste n b) &&
      (decide ((a.1 - a.2).natAbs < (b.1 - b.2).natAbs) ||
        (decide ((a.1 - a.2).natAbs = (b.1 - b.2).natAbs) && decide (a.1 < b.1))))

/-- Modelled from the spec: the grid sizer `utils.CalculateGridSize`, absent from the sources.
Given `n` it returns `(columns, rows)` within the configured bounds with
`columns * rows ≥ n`, minimising the wasted cells first, among ties the shape closest to
square, among remaining ties the smaller column count; it fails (`none`) only if no shape
in range holds `n` items. -/
def utils.CalculateGridSize (n : Int) : Option (Int × Int) :=
  match gridShapes.filter (fun p => decide (n ≤ p.1 * p.2)) with
  | [] => none
  | p :: rest => some (rest.foldl (fun best q => if gridPreferred n q best then q else best) p)

/-! ## The method `GenerateGame` and its background task -/

/-- The field of `dto.GenerateGameDTO` the generator reads. -/
structure GenerateGameDTO where
  SortOrder : String
deriving DecidableEq, Repr

/-- What the goroutine started by `GenerateGame` captures (lines 73-74). -/
structure BackgroundTask where
  gameItem : GameInfo
  deckArray : DeckArray
  totalCountOfCards : Int
deriving DecidableEq, Repr

/-- What a call of `GenerateGame` leaves when it returns: the returned error, the world,
and the background task it started, if any. -/
structure GenerateGameResult where
  err : Option Failure
  world : World
  task : Option BackgroundTask
deriving DecidableEq, Repr

/-- The method `GenerateGame` up to its `return` (lines 45-84), called with the progress
reporter and the files of `w`. The goroutine of lines 73-81 is not run here: it is returned
as the task that was started. A nil `dtoObject` panics at `dtoObject.SortOrder`. -/
def GenerateGame (svc : Services) (agg : Aggregator DeckArray) (gameID : String)
    (dtoObject : Option GenerateGameDTO) (w : World) : GenerateGameResult :=
  match svc.gameItem gameID with
  | .error e => ⟨some e, w, none⟩
  | .ok gameItem =>
    match dtoObject with
    | none => ⟨some (.panic "nil pointer dereference"), w, none⟩
    | some dto =>
      match getListOfCards agg svc gameItem.ID dto.SortOrder with
      | .error e => ⟨some e, w, none⟩
      | .ok (deckArray, totalCountOfCards) =>
        match svc.removeFolder svc.results with
        | some e => ⟨some e, w, none⟩
        | none =>
          match svc.createFolder svc.results with
          | some e => ⟨some e, w, none⟩
          | none =>
            ⟨none,
              { w with pr := { w.pr with phase := "Image generation", status := Status.InProgress } },
              some ⟨gameItem, deckArray, totalCountOfCards⟩⟩

/-- What the goroutine leaves when it ends: the world, the lines written to
`logger.Error`, and the panic that ended it, if any. -/
structure TaskResult where
  world : World
  log : List String := []
  crash : Option String := none
deriving DecidableEq, Repr

/-- The goroutine started by `GenerateGame` (lines 73-81), run on the world `w`. A panic
inside `generateBody` is not recovered: it ends the goroutine before any `SetStatus`. -/
def generateTask (svc : Services) (task : BackgroundTask) (w : World) : TaskResult :=
  match generateBody svc task.gameItem task.deckArray task.totalCountOfCards w with
  | (some (.error msg), w') =>
    { world := { w' with pr := { w'.pr with status := Status.Error } }
      log := ["Generator: " ++ msg] }
  | (some (.panic msg), w') => { world := w', crash := some msg }
  | (none, w') => { world := { w' with pr := { w'.pr with status := Status.Done } } }

/-- The messages `generateBody` sets while it runs, before the one that reports success. -/
def runMessages : List String :=
  ["Generating the resulting image pages...",
   "Drawing cards on the resulting page...",
   "Drawing backside image on the resulting page...",
   "Saving the resulting page to disk..."]

/-- The world `w'` continues the world `w` the way the loops of `generateBody` do: the
phase and the status are kept, the message is kept or is one of `runMessages`, and the
files of `w` are followed by page images and backside assets only. -/
def Continues (w w' : World) : Prop :=
  w'.pr.phase = w.pr.phase ∧ w'.pr.status = w.pr.status ∧
  (w'.pr.message = w.pr.message ∨ w'.pr.message ∈ runMessages) ∧
  ∃ added : List (String × FileContent), w'.files = w.files ++ added ∧
    ∀ f ∈ added, (∃ c, f.2 = FileContent.image c) ∨ (∃ b, f.2 = FileContent.binary b)

/-- The world a step leaves, whether it succeeds or fails. -/
def worldOf {α : Type} (proj : α → World) : Except (Failure × World) α → World
  | .ok a => proj a
  | .error (_, w) => w

/-- An aggregator that holds the deck array `d` whatever it is told; it stands for the
methods of `entity.DeckArray` in examples. -/
def fixedAggregator (d : DeckArray) : Aggregator DeckArray where
  NewDeckArray := d
  SelectDeck := fun a _ _ => a
  AddCard := fun a _ _ _ _ => a

/-- The task `GenerateGame` starts for the sample game. -/
def sampleTask : BackgroundTask :=
  ⟨sampleGame, sampleDeckArray, 2⟩

/-- The world in which `GenerateGame` starts its task when called on an empty world. -/
def startedWorld : World :=
  { pr := { phase := "Image generation", status := Status.InProgress } }

/-! ## Repeated runs -/

/-- The root document of a finished run: the last file written, if it is a document. -/
def rootDocument (w : World) : Option RootObjects :=
  match w.files.getLast? with
  | some (_, FileContent.json root) => some root
  | _ => none

/-- The entries of the bags of the root document, in order. -/
def bagEntries (w : World) : List BagObject :=
  match rootDocument w with
  | some root => root.ObjectStates.flatMap (fun bag => bag.ContainedObjects)
  | none => []

/-- The deck group key of the deck `gear`. -/
def gearDeck : DeckType :=
  ⟨"gear", "gear.png"⟩

/-- A deck array whose map holds the groups `loot` and `gear`, visited in this order. -/
def lootThenGear : DeckArray :=
  ⟨[(sampleDeck, ⟨[[sampleCard "core" 1, sampleCard "core" 2]]⟩),
    (gearDeck, ⟨[[sampleCard "core" 3, sampleCard "core" 4]]⟩)]⟩

/-- The deck array `lootThenGear` with the same map entries visited in the other order. -/
def gearThenLoot : DeckArray :=
  ⟨[(gearDeck, ⟨[[sampleCard "core" 3, sampleCard "core" 4]]⟩),
    (sampleDeck, ⟨[[sampleCard "core" 1, sampleCard "core" 2]]⟩)]⟩

/-- The sample collaborators with the entries of the `Variables` map of every card visited
in the other order. -/
def swappedServices : Services :=
  { sampleServices sampleCount with
    cardItem := fun _ _ _ c =>
      .ok ⟨c, "Sword", "A blade", [("def", "1"), ("atk", "2")], sampleCount c⟩ }

/-! ## Lines of a text -/

/-- Go `strings.Split(s, "\n")` on the characters of `s`: the pieces between newlines. -/
def splitLines : List Char → List (List Char)
  | [] => [[]]
  | c :: rest =>
    if c = '\n' then [] :: splitLines rest
    else
      match splitLines rest with
      | [] => [[c]]
      | l :: ls => (c :: l) :: ls

/-- The lines of a text: none for the empty text, else the pieces between newlines. -/
def textLines (s : String) : List String :=
  if s = "" then [] else (splitLines s.toList).map String.mk

/-- The sample collaborators with cards whose single variable `text` has a value of two
lines. -/
def multilineServices : Services :=
  { sampleServices sampleCount with
    cardItem := fun _ _ _ c =>
      .ok ⟨c, "Sword", "A blade", [("text", "a\nb")], sampleCount c⟩ }

/-! ## The card entity of `internal/entity/card.go` -/

/-- The struct `entity.CardInfo`. The types `utils.QuotedString` and `time.Time` are not
part of the translated sources: they are the parameters `Q` and `T`. `Variables` lists the
entries of the map (a nil map has none); the pointers `CreatedAt` and `UpdatedAt` may be
nil. -/
structure entity.CardInfo (Q T : Type) where
  ID : Int
  Title : Q
  Description : Q
  Image : String
  Variables : List (String × String)
  Count : Int
  CreatedAt : Option T
  UpdatedAt : Option T

/-- The loop `for key, value := range i.Variables` of `Compare` (lines 65-73) over the
entries still to visit, `other` being `val.Variables`. -/
def entity.compareVariables (other : List (String × String)) : List (String × String) → Bool
  | [] => true
  | (key, value) :: rest =>
    match mapGet other key with
    | none => false
    | some value2 => if value ≠ value2 then false else entity.compareVariables other rest

/-- The method `CardInfo.Compare` (lines 50-76); a nil receiver or a nil argument panics
at the first field that is read. -/
def entity.CardInfo.Compare {Q T : Type} [DecidableEq Q] (i val : Option (entity.CardInfo Q T)) :
    Except Failure Bool :=
  match i, val with
  | some i, some val =>
    if i.Title ≠ val.Title then .ok false
    else if i.Description ≠ val.Description then .ok false
    else if i.Image ≠ val.Image then .ok false
    else if i.Count ≠ val.Count then .ok false
    else if i.Variables.length ≠ val.Variables.length then .ok false
    else .ok (entity.compareVariables val.Variables i.Variables)
  | _, _ => .error (.panic "nil pointer dereference")

/-- An association list stands for a Go map when no key occurs twice. -/
def IsGoMap (m : List (String × String)) : Prop :=
  (m.map Prod.fst).Nodup

/-- Two maps have the same key set with equal values: every lookup agrees. -/
def SameVariables (a b : List (String × String)) : Prop :=
  ∀ key, mapGet a key = mapGet b key

/-- A card with title `Sword`, one copy and the variables `atk` and `def`, stored under
`id` and created at `created`. -/
def sampleCardInfo (id : Int) (created : Option Nat) : entity.CardInfo String Nat :=
  { ID := id, Title := "Sword", Description := "A blade", Image := "sword.png"
    Variables := [("atk", "2"), ("def", "1")], Count := 1
    CreatedAt := created, UpdatedAt := none }

/-- The card `sampleCardInfo` with the entries of its variables visited in the other
order. -/
def swappedCardInfo (id : Int) (created : Option Nat) : entity.CardInfo String Nat :=
  { ID := id, Title := "Sword", Description := "A blade", Image := "sword.png"
    Variables := [("def", "1"), ("atk", "2")], Count := 1
    CreatedAt := created, UpdatedAt := none }

/-! ## Keys of the `CustomDeck` maps -/

/-- The key `k` is present in the Go map `m`. -/
def mapHas {κ ν : Type} [DecidableEq κ] (m : List (κ × ν)) (k : κ) : Prop :=
  (mapGet m k).isSome = true

/-- For every card entity of the deck object, its card code divided by 100 (Go integer
division) is a key of the `CustomDeck` of the card and of the `CustomDeck` of the deck
object. -/
def DeckKeyed (deck : DeckObject) : Prop :=
  ∀ c ∈ deck.ContainedObjects,
    mapHas c.CustomDeck (Int.tdiv c.CardID 100) ∧ mapHas deck.CustomDeck (Int.tdiv c.CardID 100)

/-- The accumulated deck and every deck object of the bag are keyed. -/
def AllKeyed (bag : Bag) (deck : DeckObject) : Prop :=
  DeckKeyed deck ∧ ∀ d, BagObject.deck d ∈ bag.ContainedObjects → DeckKeyed d

/-- A deck array with the single group `loot` holding 101 cards of collection `core` on one
page. -/
def crowdedArray : DeckArray :=
  ⟨[(sampleDeck, ⟨[(List.range 101).map (fun (i : Nat) => sampleCard "core" ((i : Int) + 1))]⟩)]⟩

/-! ## The calls of `getListOfCards` and the deck aggregator -/

/-- The calls `getListOfCards` makes for one listed deck: `SelectDeck` for the deck, then
one `AddCard` for each listed card, with the id and the count of that card. -/
def deckCalls (svc : Services) (gameID sortField collectionID : String) (deck : DeckInfo) :
    List AggregatorCall :=
  AggregatorCall.SelectDeck deck.ID deck.Image ::
    match svc.cardList gameID collectionID deck.ID sortField "" with
    | .ok cards =>
      cards.map (fun card => AggregatorCall.AddCard gameID collectionID card.ID card.Count)
    | .error _ => []

/-- The calls `getListOfCards` makes for one listed collection, deck by deck. -/
def collectionCalls (svc : Services) (gameID sortField : String) (collection : CollectionInfo) :
    List AggregatorCall :=
  match svc.deckList gameID collection.ID sortField "" with
  | .ok decks => decks.flatMap (deckCalls svc gameID sortField collection.ID)
  | .error _ => []

/-- The calls `getListOfCards` makes for the listed collections, one after the other. -/
def listedCalls (svc : Services) (gameID sortField : String) : List AggregatorCall :=
  match svc.collectionList gameID sortField "" with
  | .ok collections => collections.flatMap (collectionCalls svc gameID sortField)
  | .error _ => []

/-- Modelled from the spec: the state of the Deck Aggregator (the type `entity.DeckArray`
with its methods, absent from the sources): the deck groups in the order in which they
were first selected, each with its pages, and the current group. -/
structure DeckGrouping where
  Decks : List (DeckType × DeckPages)
  Current : Option DeckType
deriving DecidableEq, Repr

/-- Modelled from the spec: a card placement is appended to the current (last) page; if
that page is at capacity (`MaxCount` placements), a new page is opened first. -/
def addToPages : List CardPage → CardDescription → List CardPage
  | [], card => [[card]]
  | [page], card =>
    if MaxCount ≤ (page.length : Int) then [page, [card]] else [page ++ [card]]
  | page :: rest, card => page :: addToPages rest card

/-- Modelled from the spec: the Deck Aggregator of section 4.3. `SelectDeck` switches the
current group to the group of the deck id and back image, creating it with one empty page
if it was not seen before; `AddCard` appends one placement to the current group, whatever
the replication count, which is only recorded in the placement. Without a current group
`AddCard` does nothing. -/
def deckAggregator : Aggregator DeckGrouping where
  NewDeckArray := ⟨[], none⟩
  SelectDeck := fun st deckID image =>
    if (⟨deckID, image⟩ : DeckType) ∈ st.Decks.map Prod.fst then
      { st with Current := some ⟨deckID, image⟩ }
    else
      { Decks := st.Decks ++ [(⟨deckID, image⟩, ⟨[[]]⟩)], Current := some ⟨deckID, image⟩ }
  AddCard := fun st gameID collectionID cardID count =>
    match st.Current with
    | none => st
    | some key =>
      { st with
        Decks := st.Decks.map (fun group =>
          if group.1 = key then
            (group.1, ⟨addToPages group.2.Pages ⟨gameID, collectionID, cardID, count⟩⟩)
          else group) }

/-- The state of the aggregator with every recorded replication count put to 0. -/
def DeckGrouping.withoutCounts (st : DeckGrouping) : DeckGrouping :=
  { st with Decks := groupsWithoutCounts st.Decks }

/-- The number of card placements of a list of deck groups. -/
def placements (groups : List (DeckType × DeckPages)) : Nat :=
  (groups.flatMap (fun group => group.2.Pages.flatMap id)).length

/-- A state of the aggregator in which no group occurs twice and a group is current. -/
def DeckGrouping.Selected (st : DeckGrouping) : Prop :=
  (st.Decks.map Prod.fst).Nodup ∧ ∃ key, st.Current = some key ∧ key ∈ st.Decks.map Prod.fst

/-- A sequence of calls that does not start with an `AddCard`. -/
def StartsWithSelect : List AggregatorCall → Prop
  | [] => True
  | call :: _ => call.isAddCard = false

/-- The card placements of a list of deck groups, group by group and page by page. -/
def placed (groups : List (DeckType × DeckPages)) : List CardDescription :=
  groups.flatMap (fun group => group.2.Pages.flatMap id)

/-- The placement an `AddCard` call asks for. -/
def AggregatorCall.card : AggregatorCall → Option CardDescription
  | AggregatorCall.SelectDeck _ _ => none
  | AggregatorCall.AddCard gameID collectionID cardID count =>
    some ⟨gameID, collectionID, cardID, count⟩

/-- The cards the listings of `getListOfCards` return, collection by collection and deck
by deck, each once, as the placement `getListOfCards` asks for. -/
def listedCards (svc : Services) (gameID sortField : String) : List CardDescription :=
  match svc.collectionList gameID sortField "" with
  | .ok collections =>
    collections.flatMap (fun collection =>
      match svc.deckList gameID collection.ID sortField "" with
      | .ok decks =>
        decks.flatMap (fun deck =>
          match svc.cardList gameID collection.ID deck.ID sortField "" with
          | .ok cards =>
            cards.map (fun card =>
              (⟨gameID, collection.ID, card.ID, card.Count⟩ : CardDescription))
          | .error _ => [])
      | .error _ => [])
  | .error _ => []

/-! ## Theorems: the drawer -/

theorem drawCell_eq (d : DeckDrawer) (h : 1 ≤ d.columns) (row col : Nat) (acc : DeckImage) :
    d.drawCell row acc col =
      match d.images.get? (row * d.columns.toNat + col) with
      | some img => acc.Draw col row img
      | none => acc := by
  have hC : ((d.columns.toNat : Nat) : Int) = d.columns := Int.toNat_of_nonneg (by omega)
  have hidx : ((row : Int) * d.columns + (col : Int)).toNat = row * d.columns.toNat + col := by
    have : ((row : Int) * d.columns + (col : Int)) = ((row * d.columns.toNat + col : Nat) : Int) := by
      push_cast; rw [hC]
    rw [this, Int.toNat_natCast]
  unfold DeckDrawer.drawCell
  rw [hidx]
  by_cases hlen : (d.images.length : Int) ≤ (row : Int) * d.columns + (col : Int)
  · have hge : d.images.length ≤ row * d.columns.toNat + col := by
      rw [← hC] at hlen
      exact_mod_cast hlen
    rw [if_pos hlen, List.get?_eq_none.mpr hge]
  · rw [if_neg hlen]

theorem drawRow_draws (d : DeckDrawer) (h : 1 ≤ d.columns) (row k : Nat) (acc : DeckImage) :
    ((List.range k).foldl (d.drawCell row) acc).draws =
      acc.draws ++ (List.range k).filterMap (fun col =>
        (d.images.get? (row * d.columns.toNat + col)).map (fun img => DrawCall.mk col row img)) := by
  induction k with
  | zero => simp
  | succ k ih =>
    rw [List.range_succ, List.foldl_append, List.filterMap_append, ← List.append_assoc, ← ih]
    simp only [List.foldl_cons, List.foldl_nil, List.filterMap_cons, List.filterMap_nil]
    rw [drawCell_eq d h]
    cases hget : d.images.get? (row * d.columns.toNat + k) with
    | none => simp
    | some img => simp [DeckImage.Draw]

theorem drawFront_rows (d : DeckDrawer) (h : 1 ≤ d.columns) (n : Nat) (acc : DeckImage) :
    ((List.range n).foldl d.drawRow acc).draws =
      acc.draws ++ (List.range n).flatMap (fun row => (List.range d.columns.toNat).filterMap (fun col =>
        (d.images.get? (row * d.columns.toNat + col)).map (fun img => DrawCall.mk col row img))) := by
  induction n with
  | zero => simp
  | succ n ih =>
    rw [List.range_succ, List.foldl_append, List.flatMap_append, ← List.append_assoc, ← ih]
    simp only [List.foldl_cons, List.foldl_nil, List.flatMap_cons, List.flatMap_nil, List.append_nil]
    exact drawRow_draws d h n d.columns.toNat _

theorem grid_cells_row_major {α : Type} (C : Nat) (hC : 1 ≤ C) (g : Nat → Option α)
    (mk : Int → Int → α → DrawCall) (n : Nat) :
    (List.range n).flatMap (fun row => (List.range C).filterMap (fun col =>
        (g (row * C + col)).map (fun img => mk col row img))) =
      (List.range (C * n)).filterMap (fun i =>
        (g i).map (fun img => mk ((i : Int) % (C : Int)) ((i : Int) / (C : Int)) img)) := by
  induction n with
  | zero => simp
  | succ n ih =>
    rw [List.range_succ, List.flatMap_append, ih, Nat.mul_succ, List.range_add, List.filterMap_append,
      List.filterMap_map]
    simp only [List.flatMap_cons, List.flatMap_nil, List.append_nil]
    congr 1
    apply List.filterMap_congr
    intro col hcol
    have hlt : col < C := List.mem_range.mp hcol
    have e1 : n * C + col = C * n + col := by ring
    have e2 : (((C * n + col : Nat) : Int) % (C : Int)) = (col : Int) := by
      norm_cast
      rw [Nat.mul_add_mod, Nat.mod_eq_of_lt hlt]
    have e3 : (((C * n + col : Nat) : Int) / (C : Int)) = (n : Int) := by
      norm_cast
      rw [Nat.mul_add_div (by omega), Nat.div_eq_of_lt hlt, Nat.add_zero]
    simp only [Function.comp, e1, e2, e3]

theorem drawFront_draws (d : DeckDrawer) (h : 1 ≤ d.columns) (acc : DeckImage) :
    (d.drawFront acc).draws =
      acc.draws ++ (List.range (d.columns * d.rows).toNat).filterMap (fun i =>
        (d.images.get? i).map (fun img =>
          DrawCall.mk ((i : Int) % d.columns) ((i : Int) / d.columns) img)) := by
  have hC : ((d.columns.toNat : Nat) : Int) = d.columns := Int.toNat_of_nonneg (by omega)
  have hN : (d.columns * d.rows).toNat = d.columns.toNat * d.rows.toNat := by
    rcases le_total 0 d.rows with hr | hr
    · have hR : ((d.rows.toNat : Nat) : Int) = d.rows := Int.toNat_of_nonneg hr
      have : d.columns * d.rows = ((d.columns.toNat * d.rows.toNat : Nat) : Int) := by
        push_cast; rw [hC, hR]
      rw [this, Int.toNat_natCast]
    · have h0 : d.columns * d.rows ≤ 0 := Int.mul_nonpos_of_nonneg_of_nonpos (by omega) hr
      rw [Int.toNat_eq_zero.mpr h0, Int.toNat_eq_zero.mpr hr, Nat.mul_zero]
  unfold DeckDrawer.drawFront
  rw [drawFront_rows d h, hN,
    grid_cells_row_major d.columns.toNat (by omega) (fun i => d.images.get? i) DrawCall.mk, hC]

theorem filterMap_get_range {α β : Type} (l : List α) (f : Nat → α → β) (n : Nat) :
    (List.range n).filterMap (fun i => (l.get? i).map (f i)) =
      (l.take n).enum.map (fun p => f p.1 p.2) := by
  induction n with
  | zero => simp
  | succ n ih =>
    rw [List.range_succ, List.filterMap_append, ih, List.take_succ, List.enum_append, List.map_append]
    congr 1
    cases hget : l.get? n with
    | none =>
      have : l[n]? = none := by simpa using hget
      simp [hget, this]
    | some a =>
      have h1 : l[n]? = some a := by simpa using hget
      have hlt : n < l.length := by
        rcases List.getElem?_eq_some_iff.mp h1 with ⟨h, _⟩
        exact h
      simp [hget, h1, List.length_take, Nat.min_eq_left (Nat.le_of_lt hlt), List.enumFrom]

theorem drawFront_take (d : DeckDrawer) (h : 1 ≤ d.columns) (acc : DeckImage) :
    (d.drawFront acc).draws =
      acc.draws ++ (d.images.take (d.columns * d.rows).toNat).enum.map (fun p =>
        DrawCall.mk ((p.1 : Int) % d.columns) ((p.1 : Int) / d.columns) p.2) := by
  rw [drawFront_draws d h acc,
    filterMap_get_range d.images
      (fun i img => DrawCall.mk ((i : Int) % d.columns) ((i : Int) / d.columns) img)]

/-- The drawer changes nothing of the canvas but its list of draws. -/
theorem drawFront_geometry (d : DeckDrawer) (acc : DeckImage) :
    d.drawFront acc = { acc with draws := (d.drawFront acc).draws } := by
  unfold DeckDrawer.drawFront
  generalize List.range d.rows.toNat = rowsList
  induction rowsList generalizing acc with
  | nil => rfl
  | cons r rs ih =>
    rw [List.foldl_cons, ih]
    have hrow : ∀ (cols : List Nat) (a : DeckImage),
        cols.foldl (d.drawCell r) a = { a with draws := (cols.foldl (d.drawCell r) a).draws } := by
      intro cols
      induction cols with
      | nil => intro a; rfl
      | cons c cs ihc =>
        intro a
        rw [List.foldl_cons, ihc]
        unfold DeckDrawer.drawCell
        split
        · rfl
        · split <;> rfl
    unfold DeckDrawer.drawRow
    rw [hrow]

theorem collectDeckImage_cons (d : DeckDrawer) (h : 1 ≤ d.columns) (first : GoImage)
    (rest : List GoImage) (himg : d.images = first :: rest) :
    d.collectDeckImage = .ok
      { cardWidth := first.width
        cardHeight := first.height
        columns := d.columns
        rows := d.rows
        draws := (d.images.take (d.columns * d.rows).toNat).enum.map (fun p =>
            DrawCall.mk ((p.1 : Int) % d.columns) ((p.1 : Int) / d.columns) p.2)
          ++ [DrawCall.mk (d.columns - 1) (d.rows - 1) d.imageBackSide] } := by
  unfold DeckDrawer.collectDeckImage
  rw [himg]
  simp only []
  rw [drawFront_geometry, drawFront_take d h, ← himg]
  simp [DeckImage.Draw]

theorem collectDeckImage_nil (d : DeckDrawer) (himg : d.images = []) :
    ∃ msg, d.collectDeckImage = .error (.panic msg) :=
  ⟨_, by unfold DeckDrawer.collectDeckImage; rw [himg]⟩

/-- C6: in `DeckDrawer.collectDeckImage` with `columns >= 1`, the card draws are, in
increasing order of `i`, exactly one draw of image `i` at column `i mod columns` and row
`i div columns` for every `i` below both `len(images)` and `columns * rows`; images from
index `columns * rows` on are not drawn. With at least one image the function returns the
canvas holding these draws followed by the backside draw; it panics on `images[0]`
when there is none. -/
theorem collectDeckImage_row_major (d : DeckDrawer) (h : 1 ≤ d.columns) :
    (∀ acc : DeckImage, (d.drawFront acc).draws =
      acc.draws ++ (d.images.take (d.columns * d.rows).toNat).enum.map (fun p =>
        DrawCall.mk ((p.1 : Int) % d.columns) ((p.1 : Int) / d.columns) p.2)) ∧
    (∀ first rest, d.images = first :: rest →
      d.collectDeckImage = .ok
        { cardWidth := first.width
          cardHeight := first.height
          columns := d.columns
          rows := d.rows
          draws := (d.images.take (d.columns * d.rows).toNat).enum.map (fun p =>
              DrawCall.mk ((p.1 : Int) % d.columns) ((p.1 : Int) / d.columns) p.2)
            ++ [DrawCall.mk (d.columns - 1) (d.rows - 1) d.imageBackSide] }) ∧
    (d.images = [] → ∃ msg, d.collectDeckImage = .error (.panic msg)) := by
  refine ⟨?_, ?_, ?_⟩
  · intro acc
    exact drawFront_take d h acc
  · intro first rest himg
    exact collectDeckImage_cons d h first rest himg
  · intro himg
    exact collectDeckImage_nil d himg

/-- Witness of C6 on a drawer of four cards on a 3 x 2 grid. -/
theorem collectDeckImage_row_major_witness :
    (1 : Int) ≤ sampleDrawer.columns ∧
    sampleDrawer.collectDeckImage = .ok
      { cardWidth := 1
        cardHeight := 1
        columns := 3
        rows := 2
        draws := [⟨0, 0, sampleImage 0⟩, ⟨1, 0, sampleImage 1⟩, ⟨2, 0, sampleImage 2⟩,
          ⟨0, 1, sampleImage 3⟩, ⟨2, 1, sampleImage 9⟩] } :=
  ⟨by decide, by
    rw [(collectDeckImage_row_major sampleDrawer (by decide)).2.1 (sampleImage 0)
      [sampleImage 1, sampleImage 2, sampleImage 3] rfl]
    rfl⟩

theorem cell_ne_backside (columns rows : Int) (i : Nat)
    (hi : (i : Int) + 1 < columns * rows) :
    ((i : Int) % columns, (i : Int) / columns) ≠ (columns - 1, rows - 1) := by
  intro heq
  have h1 : (i : Int) % columns = columns - 1 := congrArg Prod.fst heq
  have h2 : (i : Int) / columns = rows - 1 := congrArg Prod.snd heq
  have h3 := Int.ediv_add_emod (i : Int) columns
  rw [h1, h2] at h3
  have : columns * rows = (i : Int) + 1 := by linarith [mul_sub columns rows 1]
  omega

theorem CardIdToPageCoordinates_eq (i : Nat) (columns : Int) (hc : 0 ≤ columns) :
    utils.CardIdToPageCoordinates (i : Int) columns = ((i : Int) % columns, (i : Int) / columns) := by
  unfold utils.CardIdToPageCoordinates
  rw [Int.tmod_eq_emod (Int.natCast_nonneg i) hc, Int.tdiv_eq_ediv (Int.natCast_nonneg i) hc]

/-- C8: for `columns >= 1`, `rows >= 1` and `n` cards with `n + 1 <= columns * rows`, no card
index `i < n` is placed in the backside cell `(columns - 1, rows - 1)`: neither by the cell
formula `(i mod columns, i div columns)` of the generator, nor by `collectDeckImage`, whose
canvas then holds one draw per card, none of them in the backside cell, followed by the
backside draw. -/
theorem backside_cell_free (columns rows : Int) (n : Nat) (hc : 1 ≤ columns) (hr : 1 ≤ rows)
    (hn : (n : Int) + 1 ≤ columns * rows) :
    (∀ i : Nat, i < n →
      ((i : Int) % columns, (i : Int) / columns) ≠ (columns - 1, rows - 1) ∧
      utils.CardIdToPageCoordinates (i : Int) columns ≠ (columns - 1, rows - 1)) ∧
    (∀ (d : DeckDrawer) (img : DeckImage), d.columns = columns → d.rows = rows →
      d.images.length = n → d.collectDeckImage = .ok img →
      ∃ front : List DrawCall,
        img.draws = front ++ [DrawCall.mk (columns - 1) (rows - 1) d.imageBackSide] ∧
        front.map (fun dc => dc.img) = d.images ∧
        ∀ dc ∈ front, (dc.column, dc.row) ≠ (columns - 1, rows - 1)) := by
  have hcell : ∀ i : Nat, i < n →
      ((i : Int) % columns, (i : Int) / columns) ≠ (columns - 1, rows - 1) := by
    intro i hi
    apply cell_ne_backside
    have : (i : Int) < (n : Int) := by exact_mod_cast hi
    omega
  refine ⟨fun i hi => ⟨hcell i hi, ?_⟩, ?_⟩
  · rw [CardIdToPageCoordinates_eq i columns (by omega)]
    exact hcell i hi
  · intro d img hdc hdr hlen hok
    have hrows : 0 ≤ rows := by omega
    have hprod : 0 ≤ columns * rows := Int.mul_nonneg (by omega) hrows
    have hN : d.images.length ≤ (d.columns * d.rows).toNat := by
      rw [hdc, hdr, hlen]
      omega
    cases himg : d.images with
    | nil =>
      rcases collectDeckImage_nil d himg with ⟨msg, hpanic⟩
      rw [hpanic] at hok
      cases hok
    | cons first rest =>
      have heq := collectDeckImage_cons d (by omega) first rest himg
      rw [heq] at hok
      injection hok with hok
      subst hok
      rw [List.take_of_length_le hN, hdc, hdr]
      refine ⟨_, rfl, ?_, ?_⟩
      · rw [List.map_map, ← himg]
        exact List.enum_map_snd d.images
      · intro dc hmem
        rcases List.mem_map.mp hmem with ⟨p, hp, rfl⟩
        have hlt := List.fst_lt_of_mem_enum hp
        rw [hlen] at hlt
        exact hcell p.1 hlt

/-- Witness of C8 on a drawer of four cards on a 3 x 2 grid. -/
theorem backside_cell_free_witness :
    (1 : Int) ≤ 3 ∧ (1 : Int) ≤ 2 ∧ ((4 : Nat) : Int) + 1 ≤ 3 * 2 ∧
    (∀ i : Nat, i < 4 →
      ((i : Int) % 3, (i : Int) / 3) ≠ ((3 : Int) - 1, (2 : Int) - 1) ∧
      utils.CardIdToPageCoordinates (i : Int) 3 ≠ ((3 : Int) - 1, (2 : Int) - 1)) ∧
    sampleDrawer.collectDeckImage = .ok
      { cardWidth := 1
        cardHeight := 1
        columns := 3
        rows := 2
        draws := [⟨0, 0, sampleImage 0⟩, ⟨1, 0, sampleImage 1⟩, ⟨2, 0, sampleImage 2⟩,
          ⟨0, 1, sampleImage 3⟩, ⟨2, 1, sampleImage 9⟩] } :=
  ⟨by decide, by decide, by decide,
    (backside_cell_free 3 2 4 (by decide) (by decide) (by decide)).1, rfl⟩

/-! ## Theorems: names of the written files -/

theorem sprintf_page_name (deckID : String) (a b c d : Int) :
    Sprintf "%s_%d_%d_%dx%d.png" [.str deckID, .int a, .int b, .int c, .int d] =
      deckID ++ "_" ++ toString a ++ "_" ++ toString b ++ "_" ++ toString c ++ "x" ++ toString d
        ++ ".png" := by
  apply String.ext
  simp [Sprintf, sprintfAux, String.data_append, String.singleton]

/-- A Go `int` product that fits in 64 bits is the exact product. -/
theorem wrapInt_of_range (x : Int) (hlo : -9223372036854775808 ≤ x)
    (hhi : x < 9223372036854775808) : wrapInt x = x := by
  unfold wrapInt
  omega

/-- The value of a Go `int` lies in the 64-bit range. -/
theorem wrapInt_range (x : Int) :
    -9223372036854775808 ≤ wrapInt x ∧ wrapInt x < 9223372036854775808 := by
  unfold wrapInt
  omega

/-- C9 (amended): when the card image and its size can be read, `preparePageInfo` succeeds
and names the page image `deckID_{p+1}_{k}_{columns}x{rows}.png`, all numbers in decimal,
where `k` is the number of cards of the page (the sizer was asked for `k + 1` cells), and
records `Count = k`; `Width` and `Height` are the products `cardWidth * columns` and
`cardHeight * rows` as Go computes them in its 64-bit `int`: the exact products when these
lie between `-2^63` and `2^63 - 1`, the products wrapped modulo `2^64` otherwise. -/
theorem preparePageInfo_page_name (svc : Services) (pageId : Nat) (page : CardPage)
    (card : CardDescription) (deckInfo : DeckType) (infoDeck : DeckInformation)
    (imgBin : Bytes) (cardWidth cardHeight : Int) (backside : BackSideInformation)
    (himg : svc.cardGetImage card.GameID card.CollectionID deckInfo.DeckID card.CardID = .ok imgBin)
    (hsize : svc.imageSize imgBin = .ok (cardWidth, cardHeight))
    (hback : infoDeck.backside = some backside) :
    ∃ infoPage infoDeck',
      preparePageInfo svc pageId page card deckInfo infoDeck = .ok (infoPage, infoDeck') ∧
      infoPage.info.Name =
        deckInfo.DeckID ++ "_" ++ toString (pageId + 1) ++ "_" ++ toString page.length ++ "_"
          ++ toString (svc.calculateGridSize ((page.length : Int) + 1)).1 ++ "x"
          ++ toString (svc.calculateGridSize ((page.length : Int) + 1)).2 ++ ".png" ∧
      infoPage.info.Count = (page.length : Int) ∧
      infoPage.info.Columns = (svc.calculateGridSize ((page.length : Int) + 1)).1 ∧
      infoPage.info.Rows = (svc.calculateGridSize ((page.length : Int) + 1)).2 ∧
      infoPage.info.Width =
        wrapInt (cardWidth * (svc.calculateGridSize ((page.length : Int) + 1)).1) ∧
      infoPage.info.Height =
        wrapInt (cardHeight * (svc.calculateGridSize ((page.length : Int) + 1)).2) ∧
      (-9223372036854775808 ≤ cardWidth * (svc.calculateGridSize ((page.length : Int) + 1)).1 →
        cardWidth * (svc.calculateGridSize ((page.length : Int) + 1)).1 < 9223372036854775808 →
        infoPage.info.Width = cardWidth * (svc.calculateGridSize ((page.length : Int) + 1)).1) ∧
      (-9223372036854775808 ≤ cardHeight * (svc.calculateGridSize ((page.length : Int) + 1)).2 →
        cardHeight * (svc.calculateGridSize ((page.length : Int) + 1)).2 < 9223372036854775808 →
        infoPage.info.Height =
          cardHeight * (svc.calculateGridSize ((page.length : Int) + 1)).2) := by
  unfold preparePageInfo
  simp only [himg, hsize, hback]
  refine ⟨_, _, rfl, ?_, rfl, rfl, rfl, rfl, rfl, ?_, ?_⟩
  · simp only [sprintf_page_name]
    rfl
  · intro hlo hhi
    exact wrapInt_of_range _ hlo hhi
  · intro hlo hhi
    exact wrapInt_of_range _ hlo hhi

/-- Counterexample to C9 as stated: for a card image reported `2^62` pixels wide on a grid
of 2 columns, the recorded `Width` is `-2^63`, not the product `2^63`. -/
theorem preparePageInfo_page_name_counterexample :
    ∃ infoPage infoDeck',
      preparePageInfo wideServices 0 [sampleCard "core" 1] (sampleCard "core" 1)
        sampleDeck { backside := some ⟨sampleImage 7, "backside_loot.png"⟩ }
        = .ok (infoPage, infoDeck') ∧
      wideServices.cardGetImage "base" "core" "loot" 1 = .ok [1] ∧
      wideServices.imageSize [1] = .ok (4611686018427387904, 3) ∧
      infoPage.info.Columns = 2 ∧
      infoPage.info.Width = -9223372036854775808 ∧
      infoPage.info.Width ≠ 4611686018427387904 * 2 :=
  ⟨_, _, rfl, rfl, rfl, rfl, by decide, by decide⟩

/-- Witness of C9 (amended): the first page of deck `loot`, holding three cards, on a 2 x 2
grid. -/
theorem preparePageInfo_page_name_witness :
    ∃ infoPage infoDeck',
      preparePageInfo (sampleServices (fun _ => 1)) 0
        [sampleCard "core" 1, sampleCard "core" 2, sampleCard "core" 3] (sampleCard "core" 1)
        sampleDeck { backside := some ⟨sampleImage 7, "backside_loot.png"⟩ }
        = .ok (infoPage, infoDeck') ∧
      infoPage.info.Name = "loot_1_3_2x2.png" ∧
      infoPage.info.Count = 3 ∧
      infoPage.info.Columns = 2 ∧
      infoPage.info.Rows = 2 ∧
      infoPage.info.Width = 2 * 2 ∧
      infoPage.info.Height = 3 * 2 := by
  rcases preparePageInfo_page_name (sampleServices (fun _ => 1)) 0
    [sampleCard "core" 1, sampleCard "core" 2, sampleCard "core" 3] (sampleCard "core" 1)
    sampleDeck { backside := some ⟨sampleImage 7, "backside_loot.png"⟩ }
    [1] 2 3 ⟨sampleImage 7, "backside_loot.png"⟩ rfl rfl rfl
    with ⟨infoPage, infoDeck', hrun, hname, hcount, hcols, hrows, -, -, hw, hh⟩
  exact ⟨infoPage, infoDeck', hrun, hname, hcount, hcols, hrows, hw (by decide) (by decide),
    hh (by decide) (by decide)⟩

theorem leBytes_length (n x : Nat) : (leBytes n x).length = n := by
  induction n generalizing x with
  | zero => rfl
  | succ n ih => simp [leBytes, ih]

theorem leBytes_lt (n x : Nat) : ∀ b ∈ leBytes n x, b < 256 := by
  induction n generalizing x with
  | zero => intro b hb; simp [leBytes] at hb
  | succ n ih =>
    intro b hb
    simp only [leBytes, List.mem_cons] at hb
    rcases hb with rfl | hb
    · exact Nat.mod_lt _ (by decide)
    · exact ih _ b hb

theorem md5Sum_length (msg : Bytes) : (md5Sum msg).length = 16 := by
  unfold md5Sum
  simp [leBytes_length]

theorem md5Sum_lt (msg : Bytes) : ∀ b ∈ md5Sum msg, b < 256 := by
  unfold md5Sum
  intro b hb
  simp only [List.mem_append] at hb
  rcases hb with ((hb | hb) | hb) | hb <;> exact leBytes_lt _ _ b hb

theorem hexDigit_mem (n : Nat) (h : n < 16) : hexDigit n ∈ "0123456789abcdef".data := by
  interval_cases n <;> decide

theorem hexBytes_three (d0 d1 d2 : Nat) (rest : Bytes) :
    hexBytes ((d0 :: d1 :: d2 :: rest).take 3) =
        String.mk ((hexBytes (d0 :: d1 :: d2 :: rest)).data.take 6) ∧
      (hexBytes ((d0 :: d1 :: d2 :: rest).take 3)).data =
        [hexDigit (d0 / 16), hexDigit (d0 % 16), hexDigit (d1 / 16), hexDigit (d1 % 16),
         hexDigit (d2 / 16), hexDigit (d2 % 16)] := by
  constructor
  · apply String.ext
    simp [hexBytes, String.data_append]
  · simp [hexBytes, String.data_append]

theorem hexBytes_length (l : Bytes) : (hexBytes l).length = 2 * l.length := by
  induction l with
  | nil => rfl
  | cons b rest ih =>
    have : (hexBytes (b :: rest)).data = hexDigit (b / 16) :: hexDigit (b % 16) :: (hexBytes rest).data := by
      simp [hexBytes, String.data_append]
    have e1 : ∀ s : String, s.length = s.data.length := fun _ => rfl
    rw [e1] at ih ⊢
    rw [this]
    simp only [List.length_cons, ih]
    omega

theorem sprintf_hex (v : Bytes) : Sprintf "%x" [.bytes v] = hexBytes v := by
  apply String.ext
  simp [Sprintf, sprintfAux, String.data_append]

/-- C10: once the deck and its image are read, `prepareBacksideImage` writes the backside
under the name `"backside_" + id + "_" + h + ".png"`, where `id` is the deck's id and `h` is
exactly the first 6 characters of the lowercase hexadecimal MD5 digest of the deck's
display name: the first 3 of the 16 digest bytes, two hex digits each. That name is
returned when the write succeeds. -/
theorem prepareBacksideImage_name (svc : Services) (gameID collectionID deckID : String)
    (deckItem : DeckInfo) (bin : Bytes) (img : GoImage)
    (hitem : svc.deckItem gameID collectionID deckID = .ok deckItem)
    (hbin : svc.deckGetImage gameID collectionID deckID = .ok bin)
    (hdec : svc.imageFromBinary bin = .ok img) :
    ∃ h : String,
      h = String.mk ((hexBytes (md5Sum (stringBytes deckItem.Name))).data.take 6) ∧
      (md5Sum (stringBytes deckItem.Name)).length = 16 ∧
      (hexBytes (md5Sum (stringBytes deckItem.Name))).length = 32 ∧
      h.length = 6 ∧
      (∀ c ∈ h.data, c ∈ "0123456789abcdef".data) ∧
      (∃ d0 d1 d2 rest, md5Sum (stringBytes deckItem.Name) = d0 :: d1 :: d2 :: rest ∧
        d0 < 256 ∧ d1 < 256 ∧ d2 < 256 ∧
        h.data = [hexDigit (d0 / 16), hexDigit (d0 % 16), hexDigit (d1 / 16), hexDigit (d1 % 16),
          hexDigit (d2 / 16), hexDigit (d2 % 16)]) ∧
      prepareBacksideImage svc gameID collectionID deckID =
        match svc.createAndProcess
            (svc.filepathJoin svc.results ("backside_" ++ deckItem.ID ++ "_" ++ h ++ ".png"))
            (.binary bin) with
        | some e => .error e
        | none =>
          .ok (⟨svc.adjustBrightness img (-30), "backside_" ++ deckItem.ID ++ "_" ++ h ++ ".png"⟩,
            (svc.filepathJoin svc.results ("backside_" ++ deckItem.ID ++ "_" ++ h ++ ".png"),
              .binary bin)) := by
  have hlen := md5Sum_length (stringBytes deckItem.Name)
  have hlt := md5Sum_lt (stringBytes deckItem.Name)
  have hhex := hexBytes_length (md5Sum (stringBytes deckItem.Name))
  have hrun : prepareBacksideImage svc gameID collectionID deckID =
      match svc.createAndProcess
          (svc.filepathJoin svc.results ("backside_" ++ deckItem.ID ++ "_"
            ++ hexBytes ((md5Sum (stringBytes deckItem.Name)).take 3) ++ ".png"))
          (.binary bin) with
      | some e => .error e
      | none =>
        .ok (⟨svc.adjustBrightness img (-30), "backside_" ++ deckItem.ID ++ "_"
            ++ hexBytes ((md5Sum (stringBytes deckItem.Name)).take 3) ++ ".png"⟩,
          (svc.filepathJoin svc.results ("backside_" ++ deckItem.ID ++ "_"
            ++ hexBytes ((md5Sum (stringBytes deckItem.Name)).take 3) ++ ".png"),
            .binary bin)) := by
    unfold prepareBacksideImage
    simp only [hitem, hbin, hdec, sprintf_hex]
  generalize md5Sum (stringBytes deckItem.Name) = digest at hlen hlt hhex hrun ⊢
  match digest, hlen with
  | d0 :: d1 :: d2 :: rest, hlen =>
    have h3 := hexBytes_three d0 d1 d2 rest
    have hd0 : d0 < 256 := hlt d0 (by simp)
    have hd1 : d1 < 256 := hlt d1 (by simp)
    have hd2 : d2 < 256 := hlt d2 (by simp)
    refine ⟨hexBytes ((d0 :: d1 :: d2 :: rest).take 3), h3.1, hlen, ?_, ?_, ?_,
      ⟨d0, d1, d2, rest, rfl, hd0, hd1, hd2, h3.2⟩, hrun⟩
    · rw [hhex, hlen]
    · show (hexBytes ((d0 :: d1 :: d2 :: rest).take 3)).data.length = 6
      rw [h3.2]
      rfl
    · intro c hc
      rw [h3.2] at hc
      simp only [List.mem_cons, List.mem_singleton, List.not_mem_nil, or_false] at hc
      rcases hc with rfl | rfl | rfl | rfl | rfl | rfl
      · exact hexDigit_mem _ (by omega)
      · exact hexDigit_mem _ (by omega)
      · exact hexDigit_mem _ (by omega)
      · exact hexDigit_mem _ (by omega)
      · exact hexDigit_mem _ (by omega)
      · exact hexDigit_mem _ (by omega)

/-- Witness of C10: the deck `loot` named `Loot`, whose MD5 digest starts `67 94 e7`. -/
theorem prepareBacksideImage_name_witness :
    prepareBacksideImage (sampleServices (fun _ => 1)) "base" "core" "loot" =
      .ok (⟨⟨2, 3, [7]⟩, "backside_loot_6794e7.png"⟩,
        ("data/result/backside_loot_6794e7.png", .binary [7])) := by
  rcases prepareBacksideImage_name (sampleServices (fun _ => 1)) "base" "core" "loot"
    ⟨"loot", "Loot", "loot.png"⟩ [7] ⟨2, 3, [7]⟩ rfl rfl rfl with ⟨h, hh, -, -, -, -, -, hrun⟩
  have hval : h = "6794e7" := by
    rw [hh]
    decide
  rw [hrun, hval]
  rfl

/-! ## Theorems: the steps of `generateBody` -/

theorem cardBody_ok {svc : Services} {total : Int} {deckInfo : DeckType} {pageId : Nat}
    {page : CardPage} {cardId : Nat} {card : CardDescription} {v v' : PageVars}
    (h : cardBody svc total deckInfo pageId page cardId card v = .ok v') :
    ∃ st1 infoDeck1 v2 infoPage2 infoPage3 st4 infoDeck4 cardItem,
      stepBackside svc deckInfo card v.st v.infoDeck = .ok (st1, infoDeck1) ∧
      stepPageInfo svc deckInfo pageId page card ⟨st1, infoDeck1, v.infoPage⟩ = .ok (v2, infoPage2) ∧
      stepDraw svc deckInfo cardId card infoPage2 = .ok infoPage3 ∧
      stepBoundary deckInfo pageId card v2.st v2.infoDeck = .ok (st4, infoDeck4) ∧
      svc.cardItem card.GameID card.CollectionID deckInfo.DeckID card.CardID = .ok cardItem ∧
      v' =
        { st := GenState.setProgress
            { st4 with
              deck := addCopies pageId cardId cardItem infoDeck4.deckDesc cardItem.Count.toNat st4.deck
              processedCards := st4.processedCards + 1 }
            (Percent.ratio (st4.processedCards + 1) total)
          infoDeck := infoDeck4
          infoPage := some infoPage3 } := by
  unfold cardBody at h
  split at h
  · cases h
  · rename_i st1 infoDeck1 h1
    split at h
    · cases h
    · rename_i v2 infoPage2 h2
      split at h
      · cases h
      · rename_i infoPage3 h3
        split at h
        · cases h
        · rename_i st4 infoDeck4 h4
          split at h
          · cases h
          · rename_i cardItem h5
            injection h with h
            exact ⟨st1, infoDeck1, v2, infoPage2, infoPage3, st4, infoDeck4, cardItem,
              h1, h2, h3, h4, h5, h.symm⟩

theorem stepBackside_ok {svc : Services} {deckInfo : DeckType} {card : CardDescription}
    {st st1 : GenState} {infoDeck infoDeck1 : DeckInformation}
    (h : stepBackside svc deckInfo card st infoDeck = .ok (st1, infoDeck1)) :
    (∃ b, infoDeck.backside = some b ∧ st1 = st ∧ infoDeck1 = infoDeck) ∨
    (infoDeck.backside = none ∧ ∃ item b file,
      svc.deckItem card.GameID card.CollectionID deckInfo.DeckID = .ok item ∧
      prepareBacksideImage svc card.GameID card.CollectionID deckInfo.DeckID = .ok (b, file) ∧
      st1 = { st with world := st.world.addFile file.1 file.2 } ∧
      infoDeck1 = { infoDeck with deckItem := some item, backside := some b }) := by
  unfold stepBackside at h
  split at h
  · rename_i b hb
    injection h with h
    injection h with h1 h2
    exact Or.inl ⟨b, hb, h1.symm, h2.symm⟩
  · rename_i hb
    split at h
    · cases h
    · rename_i item hitem
      split at h
      · cases h
      · rename_i b file hprep
        injection h with h
        injection h with h1 h2
        exact Or.inr ⟨hb, item, b, file, hitem, hprep, h1.symm, h2.symm⟩

theorem preparePageInfo_ok {svc : Services} {pageId : Nat} {page : CardPage}
    {card : CardDescription} {deckInfo : DeckType} {infoDeck infoDeck' : DeckInformation}
    {infoPage : PageInformation}
    (h : preparePageInfo svc pageId page card deckInfo infoDeck = .ok (infoPage, infoDeck')) :
    ∃ b imgBin cardWidth cardHeight,
      infoDeck.backside = some b ∧
      svc.cardGetImage card.GameID card.CollectionID deckInfo.DeckID card.CardID = .ok imgBin ∧
      svc.imageSize imgBin = .ok (cardWidth, cardHeight) ∧
      infoDeck' = { infoDeck with
        deckDesc := pageDescription svc deckInfo.DeckID b.imageName pageId page.length } ∧
      infoPage =
        { info :=
            { Columns := (svc.calculateGridSize ((page.length : Int) + 1)).1
              Rows := (svc.calculateGridSize ((page.length : Int) + 1)).2
              Width := wrapInt (cardWidth * (svc.calculateGridSize ((page.length : Int) + 1)).1)
              Height := wrapInt (cardHeight * (svc.calculateGridSize ((page.length : Int) + 1)).2)
              Count := (page.length : Int)
              Name := Sprintf "%s_%d_%d_%dx%d.png"
                [.str deckInfo.DeckID, .int ((pageId : Int) + 1), .int (page.length : Int),
                 .int (svc.calculateGridSize ((page.length : Int) + 1)).1,
                 .int (svc.calculateGridSize ((page.length : Int) + 1)).2] }
          image :=
            { width := wrapInt (cardWidth * (svc.calculateGridSize ((page.length : Int) + 1)).1)
              height := wrapInt (cardHeight * (svc.calculateGridSize ((page.length : Int) + 1)).2)
              draws := [] } } := by
  unfold preparePageInfo at h
  simp only [] at h
  split at h
  · cases h
  · rename_i imgBin himg
    split at h
    · cases h
    · rename_i cardWidth cardHeight hsize
      split at h
      · cases h
      · rename_i b hb
        injection h with h
        injection h with h1 h2
        exact ⟨b, imgBin, cardWidth, cardHeight, hb, himg, hsize, h2.symm, h1.symm⟩

theorem stepPageInfo_ok {svc : Services} {deckInfo : DeckType} {pageId : Nat} {page : CardPage}
    {card : CardDescription} {v v2 : PageVars} {infoPage2 : PageInformation}
    (h : stepPageInfo svc deckInfo pageId page card v = .ok (v2, infoPage2)) :
    (v.infoPage = some infoPage2 ∧ v2 = v) ∨
    (v.infoPage = none ∧ ∃ infoDeck',
      preparePageInfo svc pageId page card deckInfo v.infoDeck = .ok (infoPage2, infoDeck') ∧
      v2 =
        { st := { v.st with deck :=
            { v.st.deck with
              CustomDeck := mapSet v.st.deck.CustomDeck ((pageId : Int) + 1) infoDeck'.deckDesc } }
          infoDeck := infoDeck'
          infoPage := some infoPage2 }) := by
  unfold stepPageInfo at h
  split at h
  · rename_i ip hip
    injection h with h
    injection h with h1 h2
    subst h2
    exact Or.inl ⟨hip, h1.symm⟩
  · rename_i hip
    split at h
    · cases h
    · rename_i ip infoDeck' hprep
      injection h with h
      injection h with h1 h2
      subst h2
      exact Or.inr ⟨hip, infoDeck', hprep, h1.symm⟩

theorem stepDraw_ok {svc : Services} {deckInfo : DeckType} {cardId : Nat} {card : CardDescription}
    {infoPage infoPage3 : PageInformation}
    (h : stepDraw svc deckInfo cardId card infoPage = .ok infoPage3) :
    ∃ bin img,
      svc.cardGetImage card.GameID card.CollectionID deckInfo.DeckID card.CardID = .ok bin ∧
      svc.imageFromBinary bin = .ok img ∧
      infoPage3 =
        { infoPage with
          image := images.Draw infoPage.image
            (utils.CardIdToPageCoordinates (cardId : Int) infoPage.info.Columns).1
            (utils.CardIdToPageCoordinates (cardId : Int) infoPage.info.Columns).2 img } := by
  unfold stepDraw at h
  split at h
  · cases h
  · rename_i bin hbin
    split at h
    · cases h
    · rename_i img himg
      injection h with h
      exact ⟨bin, img, hbin, himg, h.symm⟩

theorem stepBoundary_ok {deckInfo : DeckType} {pageId : Nat} {card : CardDescription}
    {st st4 : GenState} {infoDeck infoDeck4 : DeckInformation}
    (h : stepBoundary deckInfo pageId card st infoDeck = .ok (st4, infoDeck4)) :
    (infoDeck.collectionType = card.CollectionID ++ deckInfo.DeckID ∧ st4 = st ∧
      infoDeck4 = infoDeck) ∨
    (infoDeck.collectionType ≠ card.CollectionID ++ deckInfo.DeckID ∧ ∃ item,
      infoDeck.deckItem = some item ∧
      st4 = { st with
        bag := appendCollapsed st.bag st.deck
        deck :=
          { Name := "Deck"
            Nickname := item.Name
            CustomDeck := [((pageId : Int) + 1, infoDeck.deckDesc)]
            Transform := transform } } ∧
      infoDeck4 = { infoDeck with collectionType := card.CollectionID ++ deckInfo.DeckID }) := by
  unfold stepBoundary at h
  split at h
  · rename_i hne
    split at h
    · cases h
    · rename_i item hitem
      injection h with h
      injection h with h1 h2
      exact Or.inr ⟨hne, item, hitem, h1.symm, h2.symm⟩
  · rename_i heq
    injection h with h
    injection h with h1 h2
    exact Or.inl ⟨not_not.mp heq, h1.symm, h2.symm⟩

theorem addCopies_eq (pageId cardId : Nat) (cardItem : CardInfo) (deckDesc : DeckDescription)
    (n : Nat) (deck : DeckObject) :
    addCopies pageId cardId cardItem deckDesc n deck =
      { deck with
        DeckIDs := deck.DeckIDs ++ List.replicate n (cardCode pageId cardId)
        ContainedObjects :=
          deck.ContainedObjects ++ List.replicate n (makeCard pageId cardId cardItem deckDesc) } := by
  induction n generalizing deck with
  | zero => simp [addCopies]
  | succ n ih =>
    rw [addCopies, ih]
    simp [List.replicate_succ, cardCode]

theorem pageBody_ok {svc : Services} {total : Int} {deckInfo : DeckType} {pageId : Nat}
    {page : CardPage} {st st' : GenState} {infoDeck infoDeck' : DeckInformation}
    (h : pageBody svc total deckInfo pageId page st infoDeck = .ok (st', infoDeck')) :
    ∃ v infoPage backside,
      cardLoop svc total deckInfo pageId page 0 page
        ⟨st.setMessage "Drawing cards on the resulting page...", infoDeck, none⟩ = .ok v ∧
      v.infoPage = some infoPage ∧
      v.infoDeck.backside = some backside ∧
      svc.createAndProcess (svc.filepathJoin svc.results infoPage.info.Name)
        (.image (images.Draw infoPage.image (infoPage.info.Columns - 1) (infoPage.info.Rows - 1)
          backside.imageDarker)) = none ∧
      st' =
        { (GenState.setMessage
            (GenState.setMessage v.st "Drawing backside image on the resulting page...")
            "Saving the resulting page to disk...") with
          world := (GenState.setMessage
            (GenState.setMessage v.st "Drawing backside image on the resulting page...")
            "Saving the resulting page to disk...").world.addFile
              (svc.filepathJoin svc.results infoPage.info.Name)
              (.image (images.Draw infoPage.image (infoPage.info.Columns - 1)
                (infoPage.info.Rows - 1) backside.imageDarker)) } ∧
      infoDeck' = v.infoDeck := by
  unfold pageBody at h
  split at h
  · cases h
  · rename_i v hloop
    simp only [] at h
    split at h
    · rename_i infoPage backside hip hb
      split at h
      · cases h
      · rename_i hwrite
        injection h with h
        injection h with h1 h2
        exact ⟨v, infoPage, backside, hloop, hip, hb, hwrite, h1.symm, h2.symm⟩
    · cases h

theorem groupBody_ok {svc : Services} {total : Int} {group : DeckType × DeckPages}
    {st st' : GenState} (h : groupBody svc total group st = .ok st') :
    (group.2.Pages = [] ∧ st' = st) ∨
    (group.2.Pages ≠ [] ∧ ∃ st1 infoDeck1,
      pageLoop svc total group.1 0 group.2.Pages st {} = .ok (st1, infoDeck1) ∧
      st' = flushGroup st1) := by
  unfold groupBody at h
  split at h
  · rename_i hlen
    injection h with h
    exact Or.inl ⟨List.length_eq_zero.mp hlen, h.symm⟩
  · rename_i hlen
    split at h
    · cases h
    · rename_i st1 infoDeck1 hloop
      injection h with h
      exact Or.inr ⟨fun hnil => hlen (by rw [hnil]; rfl), st1, infoDeck1, hloop, h.symm⟩

/-- Invariant rule of the card loop: a property indexed by the slot about to be processed
that every successful body step carries on holds when the loop ends. -/
theorem cardLoop_inv {svc : Services} {total : Int} {deckInfo : DeckType} {pageId : Nat}
    {page : CardPage} (I : Nat → PageVars → Prop) :
    ∀ (cards : List CardDescription) (k : Nat) (v v' : PageVars),
      cardLoop svc total deckInfo pageId page k cards v = .ok v' →
      I k v →
      (∀ i card u u', cards.get? i = some card → I (k + i) u →
        cardBody svc total deckInfo pageId page (k + i) card u = .ok u' → I (k + i + 1) u') →
      I (k + cards.length) v' := by
  intro cards
  induction cards with
  | nil =>
    intro k v v' h hI _
    unfold cardLoop at h
    injection h with h
    subst h
    exact hI
  | cons card rest ih =>
    intro k v v' h hI hstep
    unfold cardLoop at h
    split at h
    · cases h
    · rename_i u hbody
      have hu : I (k + 1) u := hstep 0 card v u rfl hI hbody
      have := ih (k + 1) u v' h hu (fun i c a b hget ha hb => by
        have e : k + 1 + i = k + (i + 1) := by omega
        rw [e] at ha hb ⊢
        exact hstep (i + 1) c a b hget ha hb)
      have e : k + (card :: rest).length = k + 1 + rest.length := by
        simp only [List.length_cons]; omega
      rw [e]
      exact this

/-- Invariant rule of the page loop. -/
theorem pageLoop_inv {svc : Services} {total : Int} {deckInfo : DeckType}
    (I : Nat → GenState → DeckInformation → Prop) :
    ∀ (pages : List CardPage) (k : Nat) (st st' : GenState) (infoDeck infoDeck' : DeckInformation),
      pageLoop svc total deckInfo k pages st infoDeck = .ok (st', infoDeck') →
      I k st infoDeck →
      (∀ i page s s' d d', pages.get? i = some page → I (k + i) s d →
        pageBody svc total deckInfo (k + i) page s d = .ok (s', d') → I (k + i + 1) s' d') →
      I (k + pages.length) st' infoDeck' := by
  intro pages
  induction pages with
  | nil =>
    intro k st st' infoDeck infoDeck' h hI _
    unfold pageLoop at h
    injection h with h
    injection h with h1 h2
    subst h1 h2
    exact hI
  | cons page rest ih =>
    intro k st st' infoDeck infoDeck' h hI hstep
    unfold pageLoop at h
    split at h
    · cases h
    · rename_i s d hbody
      have hu : I (k + 1) s d := hstep 0 page st s infoDeck d rfl hI hbody
      have := ih (k + 1) s st' d infoDeck' h hu (fun i c a b x y hget ha hb => by
        have e : k + 1 + i = k + (i + 1) := by omega
        rw [e] at ha hb ⊢
        exact hstep (i + 1) c a b x y hget ha hb)
      have e : k + (page :: rest).length = k + 1 + rest.length := by
        simp only [List.length_cons]; omega
      rw [e]
      exact this

/-- Invariant rule of the loop over the deck groups. -/
theorem groupLoop_inv {svc : Services} {total : Int} (I : GenState → Prop) :
    ∀ (groups : List (DeckType × DeckPages)) (st st' : GenState),
      groupLoop svc total groups st = .ok st' →
      I st →
      (∀ group s s', group ∈ groups → I s → groupBody svc total group s = .ok s' → I s') →
      I st' := by
  intro groups
  induction groups with
  | nil =>
    intro st st' h hI _
    unfold groupLoop at h
    injection h with h
    subst h
    exact hI
  | cons group rest ih =>
    intro st st' h hI hstep
    unfold groupLoop at h
    split at h
    · cases h
    · rename_i s hbody
      exact ih s st' h (hstep group st s (List.mem_cons_self _ _) hI hbody)
        (fun g a b hg ha hb => hstep g a b (List.mem_cons_of_mem _ hg) ha hb)

theorem groupLoop_append (svc : Services) (total : Int) (pre post : List (DeckType × DeckPages))
    (st : GenState) :
    groupLoop svc total (pre ++ post) st =
      match groupLoop svc total pre st with
      | .error e => .error e
      | .ok st1 => groupLoop svc total post st1 := by
  induction pre generalizing st with
  | nil => rfl
  | cons g rest ih =>
    simp only [List.cons_append, groupLoop]
    cases groupBody svc total g st with
    | error e => rfl
    | ok s => exact ih s

theorem generateBody_ok {svc : Services} {gameItem : GameInfo} {deckArray : DeckArray}
    {total : Int} {w w' : World}
    (h : generateBody svc gameItem deckArray total w = (none, w')) :
    ∃ st,
      groupLoop svc total deckArray.Decks (initialState gameItem w) = .ok st ∧
      svc.createAndProcess (svc.filepathJoin svc.results (gameItem.ID ++ ".json"))
        (.json { ObjectStates := [finalBag svc st] }) = none ∧
      w'.files = st.world.files ++
        [(svc.filepathJoin svc.results (gameItem.ID ++ ".json"),
          .json { ObjectStates := [finalBag svc st] })] ∧
      w'.pr = { st.world.pr with message := "All image pages were successfully generated!" } := by
  unfold generateBody at h
  split at h
  · cases h
  · rename_i st hloop
    simp only [] at h
    split at h
    · cases h
    · rename_i hwrite
      injection h with _ h
      subst h
      exact ⟨st, hloop, hwrite, rfl, rfl⟩

/-- A run whose returned error is nil, written as the pair of nil and the world it leaves. -/
theorem run_eq_of_no_error {r : Option Failure × World} (h : r.1 = none) : r = (none, r.2) := by
  cases r
  cases h
  rfl

/-! ## Theorems: the collapse rule -/

theorem appendCollapsed_cases (bag : Bag) (deck : DeckObject) :
    (deck.ContainedObjects = [] → appendCollapsed bag deck = bag) ∧
    (∀ c, deck.ContainedObjects = [c] →
      appendCollapsed bag deck =
        { bag with ContainedObjects := bag.ContainedObjects ++ [BagObject.card c] }) ∧
    (2 ≤ deck.ContainedObjects.length →
      appendCollapsed bag deck =
        { bag with ContainedObjects := bag.ContainedObjects ++ [BagObject.deck deck] }) := by
  refine ⟨?_, ?_, ?_⟩
  · intro h
    unfold appendCollapsed
    rw [h]
  · intro c h
    unfold appendCollapsed
    rw [h]
  · intro h
    unfold appendCollapsed
    match hc : deck.ContainedObjects with
    | [] => rw [hc] at h; simp at h
    | [c] => rw [hc] at h; simp at h
    | _ :: _ :: _ => rfl

theorem appendCollapsed_no_small (bag : Bag) (deck : DeckObject)
    (hbag : ∀ d, BagObject.deck d ∈ bag.ContainedObjects → 2 ≤ d.ContainedObjects.length) :
    ∀ d, BagObject.deck d ∈ (appendCollapsed bag deck).ContainedObjects →
      2 ≤ d.ContainedObjects.length := by
  intro d hd
  unfold appendCollapsed at hd
  split at hd
  · exact hbag d hd
  · simp only [List.mem_append, List.mem_singleton] at hd
    rcases hd with hd | hd
    · exact hbag d hd
    · cases hd
  · rename_i c1 c2 rest hc
    simp only [List.mem_append, List.mem_singleton] at hd
    rcases hd with hd | hd
    · exact hbag d hd
    · injection hd with hd
      subst hd
      rw [hc]
      simp

theorem cardBody_bag {svc : Services} {total : Int} {deckInfo : DeckType} {pageId : Nat}
    {page : CardPage} {cardId : Nat} {card : CardDescription} {v v' : PageVars}
    (h : cardBody svc total deckInfo pageId page cardId card v = .ok v') :
    v'.st.bag = v.st.bag ∨
    ∃ deck, deck.ContainedObjects = v.st.deck.ContainedObjects ∧
      deck.DeckIDs = v.st.deck.DeckIDs ∧ v'.st.bag = appendCollapsed v.st.bag deck := by
  rcases cardBody_ok h with ⟨st1, id1, v2, ip2, ip3, st4, id4, item, h1, h2, -, h4, -, hv⟩
  have e1 : st1.bag = v.st.bag ∧ st1.deck = v.st.deck := by
    rcases stepBackside_ok h1 with ⟨_, _, hs, _⟩ | ⟨_, _, _, _, _, _, hs, _⟩ <;> subst hs <;> exact ⟨rfl, rfl⟩
  have e2 : v2.st.bag = v.st.bag ∧ v2.st.deck.ContainedObjects = v.st.deck.ContainedObjects ∧
      v2.st.deck.DeckIDs = v.st.deck.DeckIDs := by
    rcases stepPageInfo_ok h2 with ⟨_, hs⟩ | ⟨_, _, _, hs⟩ <;> subst hs
    · exact ⟨e1.1, by rw [e1.2], by rw [e1.2]⟩
    · exact ⟨e1.1, by simp only []; rw [e1.2], by simp only []; rw [e1.2]⟩
  subst hv
  rcases stepBoundary_ok h4 with ⟨_, hs, _⟩ | ⟨_, _, _, hs, _⟩ <;> subst hs
  · exact Or.inl e2.1
  · refine Or.inr ⟨v2.st.deck, e2.2.1, e2.2.2, ?_⟩
    show appendCollapsed v2.st.bag v2.st.deck = _
    rw [e2.1]

theorem pageBody_bag_deck {svc : Services} {total : Int} {deckInfo : DeckType} {pageId : Nat}
    {page : CardPage} {st st' : GenState} {infoDeck infoDeck' : DeckInformation}
    (h : pageBody svc total deckInfo pageId page st infoDeck = .ok (st', infoDeck')) :
    ∃ v, cardLoop svc total deckInfo pageId page 0 page
        ⟨st.setMessage "Drawing cards on the resulting page...", infoDeck, none⟩ = .ok v ∧
      st'.bag = v.st.bag ∧ st'.deck = v.st.deck ∧ infoDeck' = v.infoDeck ∧
      st'.processedCards = v.st.processedCards := by
  rcases pageBody_ok h with ⟨v, ip, b, hloop, -, -, -, hst, hid⟩
  subst hst
  exact ⟨v, hloop, rfl, rfl, hid, rfl⟩

theorem groupLoop_no_small {svc : Services} {total : Int} {groups : List (DeckType × DeckPages)}
    {st st' : GenState} (h : groupLoop svc total groups st = .ok st')
    (hst : ∀ d, BagObject.deck d ∈ st.bag.ContainedObjects → 2 ≤ d.ContainedObjects.length) :
    ∀ d, BagObject.deck d ∈ st'.bag.ContainedObjects → 2 ≤ d.ContainedObjects.length := by
  refine groupLoop_inv
    (fun s => ∀ d, BagObject.deck d ∈ s.bag.ContainedObjects → 2 ≤ d.ContainedObjects.length)
    groups st st' h hst ?_
  intro group s s' _ hs hbody
  rcases groupBody_ok hbody with ⟨_, rfl⟩ | ⟨_, st1, id1, hloop, rfl⟩
  · exact hs
  · have h1 : ∀ d, BagObject.deck d ∈ st1.bag.ContainedObjects → 2 ≤ d.ContainedObjects.length := by
      have := pageLoop_inv
        (fun _ s _ => ∀ d, BagObject.deck d ∈ s.bag.ContainedObjects → 2 ≤ d.ContainedObjects.length)
        group.2.Pages 0 s st1 {} id1 hloop hs ?_
      · exact this
      · intro i page a a' x x' _ ha hpage
        rcases pageBody_bag_deck hpage with ⟨v, hcards, hbag, -, -, -⟩
        rw [hbag]
        have := cardLoop_inv
          (fun _ u => ∀ d, BagObject.deck d ∈ u.st.bag.ContainedObjects → 2 ≤ d.ContainedObjects.length)
          page 0 _ v hcards ha ?_
        · exact this
        · intro j card u u' _ hu hcard
          rcases cardBody_bag hcard with hb | ⟨deck, -, -, hb⟩
          · rw [hb]; exact hu
          · rw [hb]; exact appendCollapsed_no_small _ _ hu
    unfold flushGroup
    split
    · exact h1
    · exact appendCollapsed_no_small _ _ h1

/-- C2: the bag of the root document written by `generateBody` holds no deck object with
fewer than two cards, and both flush sites (the collection boundary inside a group and the
end of a group) follow the collapse rule: an accumulator with exactly one card appends that
bare card, one with two or more cards appends the deck object, an empty one appends
nothing. -/
theorem generateBody_no_single_card_deck :
    (∀ (svc : Services) (gameItem : GameInfo) (deckArray : DeckArray) (total : Int) (w w' : World),
      generateBody svc gameItem deckArray total w = (none, w') →
      ∃ bag, w'.files.getLast? =
          some (svc.filepathJoin svc.results (gameItem.ID ++ ".json"), .json { ObjectStates := [bag] }) ∧
        ∀ d, BagObject.deck d ∈ bag.ContainedObjects → 2 ≤ d.ContainedObjects.length) ∧
    (∀ (deckInfo : DeckType) (pageId : Nat) (card : CardDescription) (st st4 : GenState)
        (infoDeck infoDeck4 : DeckInformation),
      stepBoundary deckInfo pageId card st infoDeck = .ok (st4, infoDeck4) →
      infoDeck.collectionType ≠ card.CollectionID ++ deckInfo.DeckID →
      (st.deck.ContainedObjects = [] → st4.bag = st.bag) ∧
      (∀ c, st.deck.ContainedObjects = [c] →
        st4.bag = { st.bag with ContainedObjects := st.bag.ContainedObjects ++ [BagObject.card c] }) ∧
      (2 ≤ st.deck.ContainedObjects.length →
        st4.bag = { st.bag with ContainedObjects := st.bag.ContainedObjects ++ [BagObject.deck st.deck] })) ∧
    (∀ st : GenState,
      (st.deck.ContainedObjects = [] → (flushGroup st).bag = st.bag) ∧
      (∀ c, st.deck.ContainedObjects = [c] →
        (flushGroup st).bag =
          { st.bag with ContainedObjects := st.bag.ContainedObjects ++ [BagObject.card c] }) ∧
      (2 ≤ st.deck.ContainedObjects.length →
        (flushGroup st).bag =
          { st.bag with ContainedObjects := st.bag.ContainedObjects ++ [BagObject.deck st.deck] })) := by
  refine ⟨?_, ?_, ?_⟩
  · intro svc gameItem deckArray total w w' h
    rcases generateBody_ok h with ⟨st, hloop, -, hfiles, -⟩
    refine ⟨finalBag svc st, ?_, ?_⟩
    · rw [hfiles]
      simp
    · have := groupLoop_no_small hloop (by
        intro d hd
        simp [initialState, GenState.setMessage, GenState.setProgress] at hd)
      exact this
  · intro deckInfo pageId card st st4 infoDeck infoDeck4 h hne
    rcases stepBoundary_ok h with ⟨heq, -, -⟩ | ⟨-, item, -, hs, -⟩
    · exact absurd heq hne
    · subst hs
      exact appendCollapsed_cases st.bag st.deck
  · intro st
    have hc := appendCollapsed_cases st.bag st.deck
    refine ⟨?_, ?_, ?_⟩
    · intro h0
      unfold flushGroup
      rw [h0]
    · intro c h1
      unfold flushGroup
      rw [h1]
      simp only []
      rw [← hc.2.1 c h1]
    · intro h2
      unfold flushGroup
      match hcs : st.deck.ContainedObjects with
      | [] => rw [hcs] at h2; simp at h2
      | c :: rest =>
        simp only []
        rw [← hc.2.2 h2]

/-- Witness of C2: a run on one group of two cards, three card entities in all. -/
theorem generateBody_no_single_card_deck_witness :
    ∃ bag, (generateBody (sampleServices sampleCount) sampleGame sampleDeckArray 2 {}).2.files.getLast? =
        some ((sampleServices sampleCount).filepathJoin (sampleServices sampleCount).results
          (sampleGame.ID ++ ".json"), .json { ObjectStates := [bag] }) ∧
      ∀ d, BagObject.deck d ∈ bag.ContainedObjects → 2 ≤ d.ContainedObjects.length :=
  generateBody_no_single_card_deck.1 (sampleServices sampleCount) sampleGame sampleDeckArray 2 {}
    (generateBody (sampleServices sampleCount) sampleGame sampleDeckArray 2 {}).2 rfl

/-! ## Theorems: what one card adds to the accumulated deck -/

/-- The effect of one successful card step on the bag and on the accumulated deck: after a
possible flush at a collection boundary, `Count` copies of the card code and of the card
entity are appended. -/
theorem cardBody_deck {svc : Services} {total : Int} {deckInfo : DeckType} {pageId : Nat}
    {page : CardPage} {cardId : Nat} {card : CardDescription} {v v' : PageVars}
    (h : cardBody svc total deckInfo pageId page cardId card v = .ok v') :
    ∃ item,
      svc.cardItem card.GameID card.CollectionID deckInfo.DeckID card.CardID = .ok item ∧
      v'.infoDeck.collectionType = card.CollectionID ++ deckInfo.DeckID ∧
      ((v.infoDeck.collectionType = card.CollectionID ++ deckInfo.DeckID ∧
          v'.st.bag = v.st.bag ∧
          v'.st.deck.DeckIDs =
            v.st.deck.DeckIDs ++ List.replicate item.Count.toNat (cardCode pageId cardId) ∧
          v'.st.deck.ContainedObjects =
            v.st.deck.ContainedObjects ++
              List.replicate item.Count.toNat (makeCard pageId cardId item v'.infoDeck.deckDesc)) ∨
        (v.infoDeck.collectionType ≠ card.CollectionID ++ deckInfo.DeckID ∧
          (∃ deck, deck.ContainedObjects = v.st.deck.ContainedObjects ∧
            deck.DeckIDs = v.st.deck.DeckIDs ∧ v'.st.bag = appendCollapsed v.st.bag deck) ∧
          v'.st.deck.DeckIDs = List.replicate item.Count.toNat (cardCode pageId cardId) ∧
          v'.st.deck.ContainedObjects =
            List.replicate item.Count.toNat (makeCard pageId cardId item v'.infoDeck.deckDesc))) := by
  rcases cardBody_ok h with ⟨st1, id1, v2, ip2, ip3, st4, id4, item, h1, h2, -, h4, h5, hv⟩
  have e1 : st1.bag = v.st.bag ∧ st1.deck = v.st.deck ∧
      id1.collectionType = v.infoDeck.collectionType := by
    rcases stepBackside_ok h1 with ⟨_, _, hs, hi⟩ | ⟨_, _, _, _, _, _, hs, hi⟩ <;>
      subst hs <;> subst hi <;> exact ⟨rfl, rfl, rfl⟩
  have e2 : v2.st.bag = v.st.bag ∧ v2.st.deck.ContainedObjects = v.st.deck.ContainedObjects ∧
      v2.st.deck.DeckIDs = v.st.deck.DeckIDs ∧
      v2.infoDeck.collectionType = v.infoDeck.collectionType := by
    rcases stepPageInfo_ok h2 with ⟨_, hs⟩ | ⟨_, id', hprep, hs⟩
    · subst hs
      exact ⟨e1.1, by rw [e1.2.1], by rw [e1.2.1], e1.2.2⟩
    · subst hs
      rcases preparePageInfo_ok hprep with ⟨_, _, _, _, _, _, _, hid, _⟩
      refine ⟨e1.1, by simp only []; rw [e1.2.1], by simp only []; rw [e1.2.1], ?_⟩
      simp only []
      rw [hid]
      exact e1.2.2
  refine ⟨item, h5, ?_, ?_⟩
  · subst hv
    rcases stepBoundary_ok h4 with ⟨heq, _, hi⟩ | ⟨_, _, _, _, hi⟩ <;> subst hi
    · exact heq
    · rfl
  · rcases stepBoundary_ok h4 with ⟨heq, hs, hi⟩ | ⟨hne, it, _, hs, hi⟩
    · subst hs hi hv
      left
      refine ⟨by rw [← e2.2.2.2]; exact heq, e2.1, ?_, ?_⟩
      · simp only [GenState.setProgress, addCopies_eq]
        rw [e2.2.2.1]
      · simp only [GenState.setProgress, addCopies_eq]
        rw [e2.2.1]
    · subst hs hi hv
      right
      refine ⟨by rw [← e2.2.2.2]; exact hne, ⟨v2.st.deck, e2.2.1, e2.2.2.1, ?_⟩, ?_, ?_⟩
      · show appendCollapsed v2.st.bag v2.st.deck = _
        rw [e2.1]
      · simp [GenState.setProgress, addCopies_eq]
      · simp [GenState.setProgress, addCopies_eq]

/-- A property of the bag and the accumulated deck that every successful card step keeps
is kept by the loop over the pages of a group. -/
theorem pageLoop_lift {svc : Services} {total : Int} {deckInfo : DeckType}
    (P : Bag → DeckObject → Prop)
    (hcard : ∀ pageId page cardId card v v',
      cardBody svc total deckInfo pageId page cardId card v = .ok v' →
      P v.st.bag v.st.deck → P v'.st.bag v'.st.deck)
    {pages : List CardPage} {k : Nat} {st st' : GenState} {infoDeck infoDeck' : DeckInformation}
    (h : pageLoop svc total deckInfo k pages st infoDeck = .ok (st', infoDeck'))
    (hst : P st.bag st.deck) : P st'.bag st'.deck := by
  refine pageLoop_inv (fun _ s _ => P s.bag s.deck) pages k st st' infoDeck infoDeck' h hst ?_
  intro i page a a' x x' _ ha hpage
  rcases pageBody_bag_deck hpage with ⟨v, hcards, hbag, hdeck, -, -⟩
  rw [hbag, hdeck]
  exact cardLoop_inv (fun _ u => P u.st.bag u.st.deck) page 0 _ v hcards ha
    (fun j card u u' _ hu hc => hcard _ _ _ _ _ _ hc hu)

theorem cardBody_aligned {svc : Services} {total : Int} {deckInfo : DeckType} {pageId : Nat}
    {page : CardPage} {cardId : Nat} {card : CardDescription} {v v' : PageVars}
    (h : cardBody svc total deckInfo pageId page cardId card v = .ok v')
    (hv : AllAligned v.st.bag v.st.deck) : AllAligned v'.st.bag v'.st.deck := by
  rcases cardBody_deck h with ⟨item, -, -, hcase⟩
  have hcode : ∀ desc, (makeCard pageId cardId item desc).CardID = cardCode pageId cardId :=
    fun _ => rfl
  rcases hcase with ⟨-, hbag, hids, hcards⟩ | ⟨-, ⟨deck, hdc, hdi, hbag⟩, hids, hcards⟩
  · refine ⟨?_, by rw [hbag]; exact hv.2⟩
    unfold IdsAligned
    rw [hids, hcards, List.map_append, List.map_replicate, hcode, ← hv.1]
  · refine ⟨?_, ?_⟩
    · unfold IdsAligned
      rw [hids, hcards, List.map_replicate, hcode]
    · intro d hd
      rw [hbag] at hd
      unfold appendCollapsed at hd
      split at hd
      · exact hv.2 d hd
      · simp only [List.mem_append, List.mem_singleton] at hd
        rcases hd with hd | hd
        · exact hv.2 d hd
        · cases hd
      · simp only [List.mem_append, List.mem_singleton] at hd
        rcases hd with hd | hd
        · exact hv.2 d hd
        · injection hd with hd
          subst hd
          unfold IdsAligned
          rw [hdi, hdc]
          exact hv.1

theorem flushGroup_aligned (st : GenState) (hst : AllAligned st.bag st.deck) :
    AllAligned (flushGroup st).bag (flushGroup st).deck ∧
      (flushGroup st).deck.ContainedObjects = [] ∧ (flushGroup st).deck.DeckIDs = [] := by
  unfold flushGroup
  split
  · rename_i hnil
    refine ⟨hst, hnil, ?_⟩
    have := hst.1
    unfold IdsAligned at this
    rw [this, hnil]
    rfl
  · rename_i c rest hc
    refine ⟨⟨rfl, ?_⟩, rfl, rfl⟩
    intro d hd
    simp only [] at hd
    unfold appendCollapsed at hd
    split at hd
    · exact hst.2 d hd
    · simp only [List.mem_append, List.mem_singleton] at hd
      rcases hd with hd | hd
      · exact hst.2 d hd
      · cases hd
    · simp only [List.mem_append, List.mem_singleton] at hd
      rcases hd with hd | hd
      · exact hst.2 d hd
      · injection hd with hd
        subst hd
        exact hst.1

/-- Between two deck groups the accumulated deck is empty, and all id lists are aligned. -/
theorem groupLoop_aligned {svc : Services} {total : Int} {groups : List (DeckType × DeckPages)}
    {st st' : GenState} (h : groupLoop svc total groups st = .ok st')
    (hst : AllAligned st.bag st.deck ∧ st.deck.ContainedObjects = [] ∧ st.deck.DeckIDs = []) :
    AllAligned st'.bag st'.deck ∧ st'.deck.ContainedObjects = [] ∧ st'.deck.DeckIDs = [] := by
  refine groupLoop_inv
    (fun s => AllAligned s.bag s.deck ∧ s.deck.ContainedObjects = [] ∧ s.deck.DeckIDs = [])
    groups st st' h hst ?_
  intro group s s' _ hs hbody
  rcases groupBody_ok hbody with ⟨_, rfl⟩ | ⟨_, st1, id1, hloop, rfl⟩
  · exact hs
  · exact flushGroup_aligned st1
      (pageLoop_lift AllAligned (fun _ _ _ _ _ _ hc hv => cardBody_aligned hc hv) hloop hs.1)

theorem initialState_aligned (gameItem : GameInfo) (w : World) :
    AllAligned (initialState gameItem w).bag (initialState gameItem w).deck ∧
      (initialState gameItem w).deck.ContainedObjects = [] ∧
      (initialState gameItem w).deck.DeckIDs = [] ∧
      (initialState gameItem w).bag.ContainedObjects = [] := by
  refine ⟨⟨rfl, ?_⟩, rfl, rfl, rfl⟩
  intro d hd
  simp [initialState, GenState.setMessage, GenState.setProgress] at hd

/-- The bag only grows: the loop over the groups appends to the objects already there. -/
theorem groupLoop_bag_grows {svc : Services} {total : Int} {groups : List (DeckType × DeckPages)}
    {st st' : GenState} (h : groupLoop svc total groups st = .ok st') :
    ∃ more, st'.bag.ContainedObjects = st.bag.ContainedObjects ++ more := by
  have hcol : ∀ (bag : Bag) (deck : DeckObject),
      (∃ more, bag.ContainedObjects = st.bag.ContainedObjects ++ more) →
      ∃ more, (appendCollapsed bag deck).ContainedObjects = st.bag.ContainedObjects ++ more := by
    intro bag deck ⟨more, hm⟩
    unfold appendCollapsed
    split
    · exact ⟨more, hm⟩
    · exact ⟨more ++ [_], by simp only []; rw [hm, List.append_assoc]⟩
    · exact ⟨more ++ [_], by simp only []; rw [hm, List.append_assoc]⟩
  refine groupLoop_inv (fun s => ∃ more, s.bag.ContainedObjects = st.bag.ContainedObjects ++ more)
    groups st st' h ⟨[], by simp⟩ ?_
  intro group s s' _ hs hbody
  rcases groupBody_ok hbody with ⟨_, rfl⟩ | ⟨_, st1, id1, hloop, rfl⟩
  · exact hs
  · have h1 := pageLoop_lift
      (fun bag _ => ∃ more, bag.ContainedObjects = st.bag.ContainedObjects ++ more)
      (fun _ _ _ _ v v' hc hv => by
        rcases cardBody_bag hc with hb | ⟨deck, -, -, hb⟩
        · rw [hb]; exact hv
        · rw [hb]; exact hcol _ _ hv) hloop hs
    unfold flushGroup
    split
    · exact h1
    · exact hcol _ _ h1

/-! ## Theorems: a group of one card -/

theorem pageLoop_single {svc : Services} {total : Int} {deckInfo : DeckType} {k : Nat}
    {page : CardPage} {st st' : GenState} {infoDeck infoDeck' : DeckInformation}
    (h : pageLoop svc total deckInfo k [page] st infoDeck = .ok (st', infoDeck')) :
    pageBody svc total deckInfo k page st infoDeck = .ok (st', infoDeck') := by
  unfold pageLoop at h
  split at h
  · cases h
  · rename_i s d hbody
    unfold pageLoop at h
    rw [hbody, h]

theorem cardLoop_single {svc : Services} {total : Int} {deckInfo : DeckType} {pageId k : Nat}
    {page : CardPage} {card : CardDescription} {v v' : PageVars}
    (h : cardLoop svc total deckInfo pageId page k [card] v = .ok v') :
    cardBody svc total deckInfo pageId page k card v = .ok v' := by
  unfold cardLoop at h
  split at h
  · cases h
  · rename_i u hbody
    unfold cardLoop at h
    rw [hbody, h]

theorem groupLoop_snoc {svc : Services} {total : Int} {pre post : List (DeckType × DeckPages)}
    {group : DeckType × DeckPages} {st stEnd : GenState}
    (h : groupLoop svc total (pre ++ group :: post) st = .ok stEnd) :
    ∃ st1 st2,
      groupLoop svc total pre st = .ok st1 ∧
      groupBody svc total group st1 = .ok st2 ∧
      groupLoop svc total (pre ++ [group]) st = .ok st2 ∧
      groupLoop svc total post st2 = .ok stEnd := by
  rw [groupLoop_append] at h
  split at h
  · cases h
  · rename_i st1 hpre
    unfold groupLoop at h
    split at h
    · cases h
    · rename_i st2 hbody
      refine ⟨st1, st2, hpre, hbody, ?_, h⟩
      rw [groupLoop_append, hpre]
      simp only [groupLoop, hbody]

/-- A group whose single page holds a single card, entered with an empty accumulator, leaves
`Count` copies of that card in the accumulator before the final flush. -/
theorem groupBody_single {svc : Services} {total : Int} {deckInfo : DeckType}
    {card : CardDescription} {item : CardInfo} {st st' : GenState}
    (h : groupBody svc total (deckInfo, ⟨[[card]]⟩) st = .ok st')
    (hitem : svc.cardItem card.GameID card.CollectionID deckInfo.DeckID card.CardID = .ok item)
    (hempty : st.deck.ContainedObjects = [] ∧ st.deck.DeckIDs = []) :
    ∃ st1 desc,
      st' = flushGroup st1 ∧ st1.bag = st.bag ∧
      st1.deck.ContainedObjects = List.replicate item.Count.toNat (makeCard 0 0 item desc) ∧
      st1.deck.DeckIDs = List.replicate item.Count.toNat (cardCode 0 0) := by
  rcases groupBody_ok h with ⟨hnil, -⟩ | ⟨-, st1, id1, hloop, hst'⟩
  · cases hnil
  · rcases pageBody_bag_deck (pageLoop_single hloop) with ⟨v, hcards, hbag, hdeck, -, -⟩
    rcases cardBody_deck (cardLoop_single hcards) with ⟨item', hitem', -, hcase⟩
    rw [hitem] at hitem'
    injection hitem' with hitem'
    subst hitem'
    refine ⟨st1, v.infoDeck.deckDesc, hst', ?_, ?_, ?_⟩
    · rw [hbag]
      rcases hcase with ⟨-, hb, -, -⟩ | ⟨-, ⟨deck, hdc, -, hb⟩, -, -⟩
      · exact hb
      · rw [hb]
        exact (appendCollapsed_cases _ deck).1 (by rw [hdc]; exact hempty.1)
    · rw [hdeck]
      rcases hcase with ⟨-, -, -, hc⟩ | ⟨-, -, -, hc⟩
      · rw [hc]
        show st.deck.ContainedObjects ++ _ = _
        rw [hempty.1, List.nil_append]
      · exact hc
    · rw [hdeck]
      rcases hcase with ⟨-, -, hi, -⟩ | ⟨-, -, hi, -⟩
      · rw [hi]
        show st.deck.DeckIDs ++ _ = _
        rw [hempty.2, List.nil_append]
      · exact hi

/-- C3 (amended): for every deck group that contains exactly one card, whose card metadata
is `item`, a successful `generateBody` adds for that group: a bare card and no deck object
when the replication count is 1; one deck object holding the `k` copies when the count is
`k >= 2`; nothing when the count is below 1. The objects of the other groups stand before
and after it in the bag of the root document. -/
theorem generateBody_single_card_group (svc : Services) (gameItem : GameInfo) (total : Int)
    (w w' : World) (pre post : List (DeckType × DeckPages)) (deckInfo : DeckType)
    (card : CardDescription) (item : CardInfo)
    (hrun : generateBody svc gameItem ⟨pre ++ (deckInfo, ⟨[[card]]⟩) :: post⟩ total w = (none, w'))
    (hitem : svc.cardItem card.GameID card.CollectionID deckInfo.DeckID card.CardID = .ok item) :
    ∃ st st' bag desc,
      groupLoop svc total pre (initialState gameItem w) = .ok st ∧
      groupLoop svc total (pre ++ [(deckInfo, ⟨[[card]]⟩)]) (initialState gameItem w) = .ok st' ∧
      w'.files.getLast? =
        some (svc.filepathJoin svc.results (gameItem.ID ++ ".json"), .json { ObjectStates := [bag] }) ∧
      (∃ more, bag.ContainedObjects = st'.bag.ContainedObjects ++ more) ∧
      (item.Count = 1 →
        st'.bag.ContainedObjects =
          st.bag.ContainedObjects ++ [BagObject.card (makeCard 0 0 item desc)]) ∧
      (2 ≤ item.Count → ∃ d,
        st'.bag.ContainedObjects = st.bag.ContainedObjects ++ [BagObject.deck d] ∧
        d.ContainedObjects = List.replicate item.Count.toNat (makeCard 0 0 item desc) ∧
        d.DeckIDs = List.replicate item.Count.toNat 100) ∧
      (item.Count ≤ 0 → st'.bag.ContainedObjects = st.bag.ContainedObjects) := by
  rcases generateBody_ok hrun with ⟨stEnd, hloop, -, hfiles, -⟩
  rcases groupLoop_snoc hloop with ⟨st, st', hpre, hbody, hsnoc, hpost⟩
  have hinit := initialState_aligned gameItem w
  have hst := groupLoop_aligned hpre ⟨hinit.1, hinit.2.1, hinit.2.2.1⟩
  rcases groupBody_single hbody hitem ⟨hst.2.1, hst.2.2⟩ with ⟨st1, desc, hflush, hbag, hcards, hids⟩
  refine ⟨st, st', finalBag svc stEnd, desc, hpre, hsnoc, ?_, groupLoop_bag_grows hpost, ?_, ?_, ?_⟩
  · rw [hfiles]
    simp
  · intro h1
    have hn : item.Count.toNat = 1 := by rw [h1]; rfl
    rw [hn] at hcards
    rw [hflush, ← hbag]
    unfold flushGroup
    rw [hcards]
    simp only [List.replicate, appendCollapsed, hcards]
  · intro h2
    have hn : 2 ≤ item.Count.toNat := by omega
    obtain ⟨m, hm⟩ : ∃ m, item.Count.toNat = m + 2 := ⟨item.Count.toNat - 2, by omega⟩
    refine ⟨st1.deck, ?_, hcards, hids⟩
    rw [hflush, ← hbag]
    unfold flushGroup
    rw [hm] at hcards
    rw [hcards]
    simp only [List.replicate, appendCollapsed, hcards]
  · intro h0
    have hn : item.Count.toNat = 0 := Int.toNat_eq_zero.mpr h0
    rw [hn] at hcards
    rw [hflush, ← hbag]
    unfold flushGroup
    rw [hcards]
    rfl

/-- Counterexample to C3 as stated: a group of exactly one card with replication count 3
yields one deck object of three cards in the bag, and no bare card. -/
theorem single_card_group_counterexample :
    ∃ w' bag d,
      generateBody (sampleServices (fun _ => 3)) sampleGame singleCardArray 1 {} = (none, w') ∧
      w'.files.getLast? = some ("data/result/base.json", .json { ObjectStates := [bag] }) ∧
      bag.ContainedObjects = [BagObject.deck d] ∧
      d.DeckIDs = [100, 100, 100] ∧
      d.ContainedObjects.length = 3 :=
  ⟨_, _, _, rfl, rfl, rfl, rfl, rfl⟩

/-- Witness of C3 (amended): the group of the single card 1 with replication count 1. -/
theorem generateBody_single_card_group_witness :
    ∃ st st' bag desc,
      groupLoop (sampleServices (fun _ => 1)) 1 [] (initialState sampleGame {}) = .ok st ∧
      groupLoop (sampleServices (fun _ => 1)) 1 ([] ++ [(sampleDeck, ⟨[[sampleCard "core" 1]]⟩)])
        (initialState sampleGame {}) = .ok st' ∧
      (generateBody (sampleServices (fun _ => 1)) sampleGame singleCardArray 1 {}).2.files.getLast? =
        some ((sampleServices (fun _ => 1)).filepathJoin (sampleServices (fun _ => 1)).results
          (sampleGame.ID ++ ".json"), .json { ObjectStates := [bag] }) ∧
      (∃ more, bag.ContainedObjects = st'.bag.ContainedObjects ++ more) ∧
      ((sampleItem 1).Count = 1 →
        st'.bag.ContainedObjects =
          st.bag.ContainedObjects ++ [BagObject.card (makeCard 0 0 (sampleItem 1) desc)]) ∧
      (2 ≤ (sampleItem 1).Count → ∃ d,
        st'.bag.ContainedObjects = st.bag.ContainedObjects ++ [BagObject.deck d] ∧
        d.ContainedObjects = List.replicate (sampleItem 1).Count.toNat (makeCard 0 0 (sampleItem 1) desc) ∧
        d.DeckIDs = List.replicate (sampleItem 1).Count.toNat 100) ∧
      ((sampleItem 1).Count ≤ 0 → st'.bag.ContainedObjects = st.bag.ContainedObjects) :=
  generateBody_single_card_group (sampleServices (fun _ => 1)) sampleGame 1 {}
    (generateBody (sampleServices (fun _ => 1)) sampleGame singleCardArray 1 {}).2 [] []
    sampleDeck (sampleCard "core" 1) (sampleItem 1) rfl rfl

/-! ## Theorems: a group of one collection -/

theorem take_succ_of_get {α : Type} {l : List α} {i : Nat} {x : α} (h : l.get? i = some x) :
    l.take (i + 1) = l.take i ++ [x] := by
  have h1 : l[i]? = some x := by simpa using h
  rw [List.take_succ, h1]
  rfl

theorem copies_append (svc : Services) (deckInfo : DeckType) (a b : List CardDescription) :
    copies svc deckInfo (a ++ b) = copies svc deckInfo a + copies svc deckInfo b := by
  unfold copies
  rw [List.map_append, List.sum_append]

/-- The accumulator of a group all of whose cards come from collection `coll`: so far the
bag is untouched and the deck holds `n` ids and `n` cards. -/
theorem cardBody_one_collection {svc : Services} {total : Int} {deckInfo : DeckType}
    {pageId : Nat} {page : CardPage} {cardId : Nat} {card : CardDescription} {v v' : PageVars}
    {bag0 : Bag} {coll : String} {n : Nat}
    (h : cardBody svc total deckInfo pageId page cardId card v = .ok v')
    (hcoll : card.CollectionID = coll)
    (hv : v.st.bag = bag0 ∧ v.st.deck.DeckIDs.length = n ∧ v.st.deck.ContainedObjects.length = n ∧
      (v.infoDeck.collectionType = coll ++ deckInfo.DeckID ∨ n = 0)) :
    v'.st.bag = bag0 ∧ v'.st.deck.DeckIDs.length = n + copies svc deckInfo [card] ∧
      v'.st.deck.ContainedObjects.length = n + copies svc deckInfo [card] ∧
      (v'.infoDeck.collectionType = coll ++ deckInfo.DeckID ∨ n + copies svc deckInfo [card] = 0) := by
  rcases cardBody_deck h with ⟨item, hitem, hkey, hcase⟩
  have hcopies : copies svc deckInfo [card] = item.Count.toNat := by
    simp [copies, replicationCount, hitem]
  rw [hcopies]
  rw [hcoll] at hkey hcase
  rcases hcase with ⟨-, hbag, hids, hcards⟩ | ⟨hne, ⟨deck, hdc, -, hbag⟩, hids, hcards⟩
  · refine ⟨by rw [hbag]; exact hv.1, ?_, ?_, Or.inl hkey⟩
    · rw [hids, List.length_append, List.length_replicate, hv.2.1]
    · rw [hcards, List.length_append, List.length_replicate, hv.2.2.1]
  · have hn : n = 0 := by
      rcases hv.2.2.2 with heq | hn
      · exact absurd heq hne
      · exact hn
    subst hn
    refine ⟨?_, ?_, ?_, Or.inl hkey⟩
    · rw [hbag, (appendCollapsed_cases _ deck).1
        (List.length_eq_zero.mp (by rw [hdc]; exact hv.2.2.1))]
      exact hv.1
    · rw [hids, List.length_replicate, Nat.zero_add]
    · rw [hcards, List.length_replicate, Nat.zero_add]

theorem pageLoop_one_collection {svc : Services} {total : Int} {deckInfo : DeckType}
    {pages : List CardPage} {st st' : GenState} {infoDeck' : DeckInformation} {coll : String}
    (h : pageLoop svc total deckInfo 0 pages st {} = .ok (st', infoDeck'))
    (hcoll : ∀ page ∈ pages, ∀ card ∈ page, card.CollectionID = coll)
    (hempty : st.deck.ContainedObjects = [] ∧ st.deck.DeckIDs = []) :
    st'.bag = st.bag ∧ st'.deck.DeckIDs.length = copies svc deckInfo pages.flatten ∧
      st'.deck.ContainedObjects.length = copies svc deckInfo pages.flatten := by
  have key := pageLoop_inv
    (fun i s d => s.bag = st.bag ∧
      s.deck.DeckIDs.length = copies svc deckInfo (pages.take i).flatten ∧
      s.deck.ContainedObjects.length = copies svc deckInfo (pages.take i).flatten ∧
      (d.collectionType = coll ++ deckInfo.DeckID ∨ copies svc deckInfo (pages.take i).flatten = 0))
    pages 0 st st' {} infoDeck' h ?_ ?_
  · simp only [Nat.zero_add, List.take_length] at key
    exact ⟨key.1, key.2.1, key.2.2.1⟩
  · refine ⟨rfl, ?_, ?_, Or.inr ?_⟩ <;> simp [copies, hempty.1, hempty.2]
  · intro i page s s' d d' hget hs hpage
    simp only [Nat.zero_add] at hs ⊢
    rcases pageBody_bag_deck hpage with ⟨v, hcards, hbag, hdeck, hid, -⟩
    have hmem : page ∈ pages := List.get?_mem hget
    have hloop := cardLoop_inv
      (fun j u => u.st.bag = st.bag ∧
        u.st.deck.DeckIDs.length =
          copies svc deckInfo (pages.take i).flatten + copies svc deckInfo (page.take j) ∧
        u.st.deck.ContainedObjects.length =
          copies svc deckInfo (pages.take i).flatten + copies svc deckInfo (page.take j) ∧
        (u.infoDeck.collectionType = coll ++ deckInfo.DeckID ∨
          copies svc deckInfo (pages.take i).flatten + copies svc deckInfo (page.take j) = 0))
      page 0 _ v hcards ?_ ?_
    · simp only [Nat.zero_add, List.take_length] at hloop
      rw [take_succ_of_get hget, List.flatten_append, copies_append]
      simp only [List.flatten_cons, List.flatten_nil, List.append_nil]
      rw [hbag, hdeck, hid]
      exact hloop
    · simp only [List.take_zero]
      have h0 : copies svc deckInfo [] = 0 := rfl
      rw [h0, Nat.add_zero]
      exact hs
    · intro j card u u' hgetc hu hcard
      simp only [Nat.zero_add] at hu hcard ⊢
      have hc := cardBody_one_collection hcard (hcoll page hmem card (List.get?_mem hgetc)) hu
      rw [take_succ_of_get hgetc, copies_append, ← Nat.add_assoc]
      exact hc

theorem copies_of_positive (svc : Services) (deckInfo : DeckType) (cards : List CardDescription)
    (h : ∀ card ∈ cards, 1 ≤ replicationCount svc deckInfo card) :
    cards.length ≤ copies svc deckInfo cards ∧
      ((copies svc deckInfo cards : Nat) : Int) = (cards.map (replicationCount svc deckInfo)).sum := by
  induction cards with
  | nil => exact ⟨Nat.le_refl _, rfl⟩
  | cons c rest ih =>
    have hc := h c (List.mem_cons_self _ _)
    have ih' := ih (fun card hm => h card (List.mem_cons_of_mem _ hm))
    have e : copies svc deckInfo (c :: rest) =
        (replicationCount svc deckInfo c).toNat + copies svc deckInfo rest := by
      simp [copies]
    rw [e]
    constructor
    · simp only [List.length_cons]
      omega
    · simp only [List.map_cons, List.sum_cons]
      rw [← ih'.2]
      omega

/-- C4 (amended): for every deck group that contains 2 or more cards, all from one
collection and each with a replication count of at least 1 (possibly spread over several
pages), a successful `generateBody` appends exactly one deck object to the bag for that
group, and the length of its `DeckIDs` (and of its card list) equals the sum of the
replication counts `cardItem.Count` of the group's cards. -/
theorem generateBody_group_deck_object (svc : Services) (gameItem : GameInfo) (total : Int)
    (w w' : World) (pre post : List (DeckType × DeckPages)) (deckInfo : DeckType)
    (pages : List CardPage) (coll : String)
    (hrun : generateBody svc gameItem ⟨pre ++ (deckInfo, ⟨pages⟩) :: post⟩ total w = (none, w'))
    (hcards : 2 ≤ pages.flatten.length)
    (hcoll : ∀ page ∈ pages, ∀ card ∈ page, card.CollectionID = coll)
    (hcount : ∀ page ∈ pages, ∀ card ∈ page, 1 ≤ replicationCount svc deckInfo card) :
    ∃ st st' bag d,
      groupLoop svc total pre (initialState gameItem w) = .ok st ∧
      groupLoop svc total (pre ++ [(deckInfo, ⟨pages⟩)]) (initialState gameItem w) = .ok st' ∧
      w'.files.getLast? =
        some (svc.filepathJoin svc.results (gameItem.ID ++ ".json"), .json { ObjectStates := [bag] }) ∧
      (∃ more, bag.ContainedObjects = st'.bag.ContainedObjects ++ more) ∧
      st'.bag.ContainedObjects = st.bag.ContainedObjects ++ [BagObject.deck d] ∧
      (d.DeckIDs.length : Int) = (pages.flatten.map (replicationCount svc deckInfo)).sum ∧
      d.ContainedObjects.length = d.DeckIDs.length := by
  rcases generateBody_ok hrun with ⟨stEnd, hloop, -, hfiles, -⟩
  rcases groupLoop_snoc hloop with ⟨st, st', hpre, hbody, hsnoc, hpost⟩
  have hinit := initialState_aligned gameItem w
  have hst := groupLoop_aligned hpre ⟨hinit.1, hinit.2.1, hinit.2.2.1⟩
  have hpos := copies_of_positive svc deckInfo pages.flatten (by
    intro card hmem
    rcases List.mem_flatten.mp hmem with ⟨page, hp, hc⟩
    exact hcount page hp card hc)
  rcases groupBody_ok hbody with ⟨hnil, -⟩ | ⟨-, st1, id1, hpages, hflush⟩
  · simp only [] at hnil
    rw [hnil] at hcards
    simp at hcards
  · have hone := @pageLoop_one_collection svc total deckInfo pages st st1 id1 coll hpages hcoll
      ⟨hst.2.1, hst.2.2⟩
    have hlen : 2 ≤ st1.deck.ContainedObjects.length := by
      rw [hone.2.2]
      omega
    refine ⟨st, st', finalBag svc stEnd, st1.deck, hpre, hsnoc, ?_, groupLoop_bag_grows hpost,
      ?_, ?_, ?_⟩
    · rw [hfiles]
      simp
    · rw [hflush, ← hone.1]
      unfold flushGroup
      match hc : st1.deck.ContainedObjects with
      | [] => rw [hc] at hlen; simp at hlen
      | c :: rest =>
        simp only []
        rw [(appendCollapsed_cases st1.bag st1.deck).2.2 (by rw [hc] at hlen ⊢; exact hlen)]
    · rw [hone.2.1]
      exact hpos.2
    · rw [hone.2.1, hone.2.2]

/-- Counterexample to C4 as stated: a group of two cards from two collections yields two
bare cards and no deck object; a group of two cards of one collection with replication
counts 0 and 1 yields one bare card and no deck object. -/
theorem group_deck_object_counterexample :
    (∃ w' bag c1 c2,
      generateBody (sampleServices (fun _ => 1)) sampleGame twoCollectionArray 2 {} = (none, w') ∧
      w'.files.getLast? = some ("data/result/base.json", .json { ObjectStates := [bag] }) ∧
      bag.ContainedObjects = [BagObject.card c1, BagObject.card c2]) ∧
    (∃ w' bag c,
      generateBody (sampleServices zeroOneCount) sampleGame sampleDeckArray 2 {} = (none, w') ∧
      w'.files.getLast? = some ("data/result/base.json", .json { ObjectStates := [bag] }) ∧
      bag.ContainedObjects = [BagObject.card c]) :=
  ⟨⟨_, _, _, _, rfl, rfl, rfl⟩, ⟨_, _, _, rfl, rfl, rfl⟩⟩

/-- Witness of C4 (amended): three cards of collection `core` on two pages, with
replication counts 1, 2 and 2. -/
theorem generateBody_group_deck_object_witness :
    ∃ st st' bag d,
      groupLoop (sampleServices sampleCount) 3 [] (initialState sampleGame {}) = .ok st ∧
      groupLoop (sampleServices sampleCount) 3 ([] ++ [(sampleDeck, ⟨samplePages⟩)])
        (initialState sampleGame {}) = .ok st' ∧
      (generateBody (sampleServices sampleCount) sampleGame
          ⟨[] ++ (sampleDeck, ⟨samplePages⟩) :: []⟩ 3 {}).2.files.getLast? =
        some ((sampleServices sampleCount).filepathJoin (sampleServices sampleCount).results
          (sampleGame.ID ++ ".json"), .json { ObjectStates := [bag] }) ∧
      (∃ more, bag.ContainedObjects = st'.bag.ContainedObjects ++ more) ∧
      st'.bag.ContainedObjects = st.bag.ContainedObjects ++ [BagObject.deck d] ∧
      (d.DeckIDs.length : Int) =
        (samplePages.flatten.map (replicationCount (sampleServices sampleCount) sampleDeck)).sum ∧
      d.ContainedObjects.length = d.DeckIDs.length :=
  by
  have hrun : (generateBody (sampleServices sampleCount) sampleGame
      ⟨[] ++ (sampleDeck, ⟨samplePages⟩) :: []⟩ 3 {}).1 = none := by decide
  have h := generateBody_group_deck_object (sampleServices sampleCount) sampleGame 3 {}
    _ [] [] sampleDeck samplePages "core" (run_eq_of_no_error hrun)
    (by decide) (by decide) (by decide)
  exact h

/-! ## Theorems: the canvas of a page -/

/-- The effect of one successful card step on the page: the page information is the one
already there, or the one prepared on the first card, with the card drawn on it. -/
theorem cardBody_page {svc : Services} {total : Int} {deckInfo : DeckType} {pageId : Nat}
    {page : CardPage} {cardId : Nat} {card : CardDescription} {v v' : PageVars}
    (h : cardBody svc total deckInfo pageId page cardId card v = .ok v') :
    ∃ infoPage img,
      cardImage svc deckInfo card = .ok img ∧
      v'.infoPage = some
        { infoPage with
          image := images.Draw infoPage.image
            (utils.CardIdToPageCoordinates (cardId : Int) infoPage.info.Columns).1
            (utils.CardIdToPageCoordinates (cardId : Int) infoPage.info.Columns).2 img } ∧
      (v.infoPage = some infoPage ∨
        (v.infoPage = none ∧ infoPage.image.draws = [] ∧
          infoPage.info.Columns = (svc.calculateGridSize ((page.length : Int) + 1)).1 ∧
          infoPage.info.Rows = (svc.calculateGridSize ((page.length : Int) + 1)).2 ∧
          infoPage.info.Name = Sprintf "%s_%d_%d_%dx%d.png"
            [.str deckInfo.DeckID, .int ((pageId : Int) + 1), .int (page.length : Int),
             .int (svc.calculateGridSize ((page.length : Int) + 1)).1,
             .int (svc.calculateGridSize ((page.length : Int) + 1)).2])) := by
  rcases cardBody_ok h with ⟨st1, id1, v2, ip2, ip3, st4, id4, item, -, h2, h3, -, -, hv⟩
  rcases stepDraw_ok h3 with ⟨bin, img, hbin, himg, hip3⟩
  refine ⟨ip2, img, ?_, ?_, ?_⟩
  · unfold cardImage
    rw [hbin]
    exact himg
  · rw [hv, hip3]
  · rcases stepPageInfo_ok h2 with ⟨hs, -⟩ | ⟨hnone, id', hprep, -⟩
    · exact Or.inl hs
    · rcases preparePageInfo_ok hprep with ⟨_, _, _, _, _, _, _, _, hip⟩
      subst hip
      exact Or.inr ⟨hnone, rfl, rfl, rfl, rfl⟩

theorem pageDraws_snoc (svc : Services) (deckInfo : DeckType) (columns : Int)
    (page : CardPage) (j : Nat) (card : CardDescription) (hget : page.get? j = some card) :
    pageDraws svc deckInfo columns (page.take (j + 1)) =
      pageDraws svc deckInfo columns (page.take j) ++
        (cardDraw svc deckInfo columns (j, card)).toList := by
  have hlt : j < page.length := by
    have h1 : page[j]? = some card := by simpa using hget
    rcases List.getElem?_eq_some_iff.mp h1 with ⟨h, _⟩
    exact h
  unfold pageDraws
  rw [take_succ_of_get hget, List.enum_append, List.filterMap_append, List.length_take,
    Nat.min_eq_left (Nat.le_of_lt hlt)]
  simp only [List.enumFrom, List.filterMap_cons, List.filterMap_nil]
  cases cardDraw svc deckInfo columns (j, card) <;> rfl

/-- The state of the page after the card loop: the page information prepared for this page,
holding one draw per card in slot order. -/
theorem cardLoop_canvas {svc : Services} {total : Int} {deckInfo : DeckType} {pageId : Nat}
    {page : CardPage} {st : GenState} {infoDeck : DeckInformation} {v : PageVars}
    (h : cardLoop svc total deckInfo pageId page 0 page ⟨st, infoDeck, none⟩ = .ok v) :
    (page = [] ∧ v.infoPage = none) ∨
    ∃ infoPage, v.infoPage = some infoPage ∧
      infoPage.info.Columns = (svc.calculateGridSize ((page.length : Int) + 1)).1 ∧
      infoPage.info.Rows = (svc.calculateGridSize ((page.length : Int) + 1)).2 ∧
      infoPage.info.Name = Sprintf "%s_%d_%d_%dx%d.png"
        [.str deckInfo.DeckID, .int ((pageId : Int) + 1), .int (page.length : Int),
         .int (svc.calculateGridSize ((page.length : Int) + 1)).1,
         .int (svc.calculateGridSize ((page.length : Int) + 1)).2] ∧
      infoPage.image.draws =
        pageDraws svc deckInfo (svc.calculateGridSize ((page.length : Int) + 1)).1 page ∧
      infoPage.image.draws.length = page.length := by
  have key := cardLoop_inv
    (fun j u => (j = 0 ∧ u.infoPage = none) ∨
      ∃ infoPage, u.infoPage = some infoPage ∧
        infoPage.info.Columns = (svc.calculateGridSize ((page.length : Int) + 1)).1 ∧
        infoPage.info.Rows = (svc.calculateGridSize ((page.length : Int) + 1)).2 ∧
        infoPage.info.Name = Sprintf "%s_%d_%d_%dx%d.png"
          [.str deckInfo.DeckID, .int ((pageId : Int) + 1), .int (page.length : Int),
           .int (svc.calculateGridSize ((page.length : Int) + 1)).1,
           .int (svc.calculateGridSize ((page.length : Int) + 1)).2] ∧
        infoPage.image.draws =
          pageDraws svc deckInfo (svc.calculateGridSize ((page.length : Int) + 1)).1 (page.take j) ∧
        infoPage.image.draws.length = j)
    page 0 _ v h (Or.inl ⟨rfl, rfl⟩) ?_
  · simp only [Nat.zero_add, List.take_length] at key
    rcases key with ⟨hlen, hnone⟩ | hsome
    · exact Or.inl ⟨List.length_eq_zero.mp hlen, hnone⟩
    · exact Or.inr hsome
  · intro j card u u' hget hu hcard
    simp only [Nat.zero_add] at hu hcard ⊢
    right
    rcases cardBody_page hcard with ⟨ip, img, himg, hu', hcase⟩
    have hdraw : ∀ columns, cardDraw svc deckInfo columns (j, card) =
        some ⟨(utils.CardIdToPageCoordinates (j : Int) columns).1,
          (utils.CardIdToPageCoordinates (j : Int) columns).2, img⟩ := by
      intro columns
      unfold cardDraw
      simp only [himg]
    have hfacts : ip.info.Columns = (svc.calculateGridSize ((page.length : Int) + 1)).1 ∧
        ip.info.Rows = (svc.calculateGridSize ((page.length : Int) + 1)).2 ∧
        ip.info.Name = Sprintf "%s_%d_%d_%dx%d.png"
          [.str deckInfo.DeckID, .int ((pageId : Int) + 1), .int (page.length : Int),
           .int (svc.calculateGridSize ((page.length : Int) + 1)).1,
           .int (svc.calculateGridSize ((page.length : Int) + 1)).2] ∧
        ip.image.draws =
          pageDraws svc deckInfo (svc.calculateGridSize ((page.length : Int) + 1)).1 (page.take j) ∧
        ip.image.draws.length = j := by
      rcases hcase with hsame | ⟨hnone, hd, hc, hr, hn⟩
      · rcases hu with ⟨_, hnone⟩ | ⟨ip', hip', hrest⟩
        · rw [hnone] at hsame
          cases hsame
        · rw [hip'] at hsame
          injection hsame with hsame
          subst hsame
          exact hrest
      · rcases hu with ⟨hj, _⟩ | ⟨ip', hip', _⟩
        · subst hj
          refine ⟨hc, hr, hn, ?_, ?_⟩
          · rw [hd]
            rfl
          · rw [hd]
            rfl
        · rw [hip'] at hnone
          cases hnone
    refine ⟨_, hu', hfacts.1, hfacts.2.1, hfacts.2.2.1, ?_, ?_⟩
    · rw [pageDraws_snoc svc deckInfo _ page j card hget, hdraw]
      simp only [images.Draw, Option.toList]
      rw [hfacts.2.2.2.1, hfacts.1]
    · simp only [images.Draw, List.length_append, List.length_singleton]
      rw [hfacts.2.2.2.2]

theorem prepareBacksideImage_ok {svc : Services} {gameID collectionID deckID : String}
    {b : BackSideInformation} {file : String × FileContent}
    (h : prepareBacksideImage svc gameID collectionID deckID = .ok (b, file)) :
    ∃ item bin img,
      svc.deckItem gameID collectionID deckID = .ok item ∧
      svc.deckGetImage gameID collectionID deckID = .ok bin ∧
      svc.imageFromBinary bin = .ok img ∧
      b.imageDarker = svc.adjustBrightness img (-30) ∧
      b.imageName = "backside_" ++ item.ID ++ "_"
        ++ Sprintf "%x" [.bytes ((md5Sum (stringBytes item.Name)).take 3)] ++ ".png" ∧
      file = (svc.filepathJoin svc.results b.imageName, .binary bin) := by
  unfold prepareBacksideImage at h
  split at h
  · cases h
  · rename_i item hitem
    split at h
    · cases h
    · rename_i bin hbin
      split at h
      · cases h
      · rename_i img himg
        simp only [] at h
        split at h
        · cases h
        · injection h with h
          injection h with h1 h2
          subst h1 h2
          exact ⟨item, bin, img, hitem, hbin, himg, rfl, rfl, rfl⟩

/-- A card step writes at most one file, the backside asset, on the first card of a
group. -/
theorem cardBody_files {svc : Services} {total : Int} {deckInfo : DeckType} {pageId : Nat}
    {page : CardPage} {cardId : Nat} {card : CardDescription} {v v' : PageVars}
    (h : cardBody svc total deckInfo pageId page cardId card v = .ok v') :
    (∃ b, v.infoDeck.backside = some b ∧ v'.infoDeck.backside = some b ∧
      v'.st.world.files = v.st.world.files) ∨
    (v.infoDeck.backside = none ∧ ∃ b file,
      prepareBacksideImage svc card.GameID card.CollectionID deckInfo.DeckID = .ok (b, file) ∧
      v'.infoDeck.backside = some b ∧
      v'.st.world.files = v.st.world.files ++ [file]) := by
  rcases cardBody_ok h with ⟨st1, id1, v2, ip2, ip3, st4, id4, item, h1, h2, -, h4, -, hv⟩
  have e2 : v2.st.world = st1.world ∧ v2.infoDeck.backside = id1.backside := by
    rcases stepPageInfo_ok h2 with ⟨_, hs⟩ | ⟨_, id', hprep, hs⟩
    · subst hs
      exact ⟨rfl, rfl⟩
    · subst hs
      rcases preparePageInfo_ok hprep with ⟨_, _, _, _, _, _, _, hid, _⟩
      refine ⟨rfl, ?_⟩
      simp only []
      rw [hid]
  have e4 : st4.world = v2.st.world ∧ id4.backside = v2.infoDeck.backside := by
    rcases stepBoundary_ok h4 with ⟨_, hs, hi⟩ | ⟨_, _, _, hs, hi⟩ <;> subst hs hi <;>
      exact ⟨rfl, rfl⟩
  have e5 : v'.st.world.files = st1.world.files ∧ v'.infoDeck.backside = id1.backside := by
    subst hv
    refine ⟨?_, ?_⟩
    · show st4.world.files = _
      rw [e4.1, e2.1]
    · show id4.backside = _
      rw [e4.2, e2.2]
  rcases stepBackside_ok h1 with ⟨b, hb, hs, hi⟩ | ⟨hnone, _, b, file, _, hprep, hs, hi⟩
  · subst hs hi
    exact Or.inl ⟨b, hb, by rw [e5.2, hb], e5.1⟩
  · subst hs hi
    exact Or.inr ⟨hnone, b, file, hprep, e5.2, e5.1⟩

/-- A successful page step saves one image, after the files of its card steps: the page
canvas holding one draw per card in slot order, then the backside at the last cell. -/
theorem pageBody_canvas {svc : Services} {total : Int} {deckInfo : DeckType} {pageId : Nat}
    {page : CardPage} {st st' : GenState} {infoDeck infoDeck' : DeckInformation}
    (h : pageBody svc total deckInfo pageId page st infoDeck = .ok (st', infoDeck')) :
    ∃ v backside width height,
      cardLoop svc total deckInfo pageId page 0 page
        ⟨st.setMessage "Drawing cards on the resulting page...", infoDeck, none⟩ = .ok v ∧
      infoDeck' = v.infoDeck ∧
      infoDeck'.backside = some backside ∧
      (pageDraws svc deckInfo (svc.calculateGridSize ((page.length : Int) + 1)).1 page).length =
        page.length ∧
      st'.world.files = v.st.world.files ++
        [(svc.filepathJoin svc.results (pageFileName svc deckInfo.DeckID pageId page.length),
          .image
            { width := width
              height := height
              draws :=
                pageDraws svc deckInfo (svc.calculateGridSize ((page.length : Int) + 1)).1 page ++
                  [⟨(svc.calculateGridSize ((page.length : Int) + 1)).1 - 1,
                    (svc.calculateGridSize ((page.length : Int) + 1)).2 - 1,
                    backside.imageDarker⟩] })] := by
  rcases pageBody_ok h with ⟨v, ip, b, hloop, hip, hb, -, hst, hid⟩
  rcases cardLoop_canvas hloop with ⟨-, hnone⟩ | ⟨ip', hip', hc, hr, hn, hd, hl⟩
  · rw [hnone] at hip
    cases hip
  · rw [hip] at hip'
    injection hip' with hip'
    subst hip'
    refine ⟨v, b, ip.image.width, ip.image.height, hloop, hid, by rw [hid]; exact hb, ?_, ?_⟩
    · rw [← hd]
      exact hl
    · subst hst
      simp only [World.addFile, GenState.setMessage, images.Draw]
      rw [hn, hc, hr, hd]
      rfl

theorem cardLoop_images {svc : Services} {total : Int} {deckInfo : DeckType} {pageId : Nat}
    {page : CardPage} {cards : List CardDescription} {k : Nat} {v v' : PageVars}
    (h : cardLoop svc total deckInfo pageId page k cards v = .ok v') :
    ∀ path canvas, (path, FileContent.image canvas) ∈ v'.st.world.files →
      (path, FileContent.image canvas) ∈ v.st.world.files := by
  refine cardLoop_inv
    (fun _ u => ∀ path canvas, (path, FileContent.image canvas) ∈ u.st.world.files →
      (path, FileContent.image canvas) ∈ v.st.world.files)
    cards k v v' h (fun _ _ hm => hm) ?_
  intro i card u u' _ hu hcard path canvas hmem
  rcases cardBody_files hcard with ⟨_, _, _, hf⟩ | ⟨_, b, file, hprep, _, hf⟩
  · rw [hf] at hmem
    exact hu path canvas hmem
  · rw [hf] at hmem
    rcases List.mem_append.mp hmem with hm | hm
    · exact hu path canvas hm
    · rcases prepareBacksideImage_ok hprep with ⟨_, _, _, _, _, _, _, _, hfile⟩
      rw [hfile] at hm
      simp at hm

/-- Every image file a successful loop over the groups adds to the world is the image of
one of their pages. -/
theorem groupLoop_page_images {svc : Services} {total : Int}
    {groups : List (DeckType × DeckPages)} {st st' : GenState}
    (h : groupLoop svc total groups st = .ok st') :
    ∀ path canvas, (path, FileContent.image canvas) ∈ st'.world.files →
      (path, FileContent.image canvas) ∈ st.world.files ∨ IsPageImage svc groups path canvas := by
  refine groupLoop_inv
    (fun s => ∀ path canvas, (path, FileContent.image canvas) ∈ s.world.files →
      (path, FileContent.image canvas) ∈ st.world.files ∨ IsPageImage svc groups path canvas)
    groups st st' h (fun _ _ hm => Or.inl hm) ?_
  intro group s s' hgroup hs hbody
  rcases groupBody_ok hbody with ⟨_, rfl⟩ | ⟨_, st1, id1, hloop, rfl⟩
  · exact hs
  · have h1 := pageLoop_inv
      (fun _ a _ => ∀ path canvas, (path, FileContent.image canvas) ∈ a.world.files →
        (path, FileContent.image canvas) ∈ st.world.files ∨ IsPageImage svc groups path canvas)
      group.2.Pages 0 s st1 {} id1 hloop hs ?_
    · have hw : (flushGroup st1).world = st1.world := by
        unfold flushGroup
        split <;> rfl
      rw [hw]
      exact h1
    · intro i page a a' x x' hget ha hpage path canvas hmem
      simp only [Nat.zero_add] at hpage
      rcases pageBody_canvas hpage with ⟨v, b, width, height, hcards, -, -, hlen, hfiles⟩
      rw [hfiles] at hmem
      rcases List.mem_append.mp hmem with hm | hm
      · exact ha path canvas (cardLoop_images hcards path canvas hm)
      · right
        simp only [List.mem_singleton, Prod.mk.injEq, FileContent.image.injEq] at hm
        rcases hm with ⟨hpath, hcanvas⟩
        exact ⟨group, hgroup, i, page, b.imageDarker, hget, hpath, hlen, by rw [hcanvas]⟩

/-- C7: both compositors draw the backside at the last grid cell `(columns - 1, rows - 1)`
after every card image of the page. In `collectDeckImage` the backside draw is the last
draw of the returned canvas. In `generateBody` a page step that succeeds saves, as its
last file, the canvas whose draws are the card draws of the page in slot order followed by
the darker backside at the last cell of the grid the sizer gave; and every image file of a
successful run is such a page image. -/
theorem backside_drawn_last :
    (∀ (d : DeckDrawer) (img : DeckImage), d.collectDeckImage = .ok img →
      ∃ front, img.draws = front ++ [DrawCall.mk (d.columns - 1) (d.rows - 1) d.imageBackSide] ∧
        ∀ acc : DeckImage, (d.drawFront acc).draws = acc.draws ++ front) ∧
    (∀ (svc : Services) (total : Int) (deckInfo : DeckType) (pageId : Nat) (page : CardPage)
        (st st' : GenState) (infoDeck infoDeck' : DeckInformation),
      pageBody svc total deckInfo pageId page st infoDeck = .ok (st', infoDeck') →
      ∃ backside width height,
        infoDeck'.backside = some backside ∧
        (pageDraws svc deckInfo (svc.calculateGridSize ((page.length : Int) + 1)).1 page).length =
          page.length ∧
        st'.world.files.getLast? = some
          (svc.filepathJoin svc.results (pageFileName svc deckInfo.DeckID pageId page.length),
            .image
              { width := width
                height := height
                draws :=
                  pageDraws svc deckInfo (svc.calculateGridSize ((page.length : Int) + 1)).1 page ++
                    [⟨(svc.calculateGridSize ((page.length : Int) + 1)).1 - 1,
                      (svc.calculateGridSize ((page.length : Int) + 1)).2 - 1,
                      backside.imageDarker⟩] })) ∧
    (∀ (svc : Services) (gameItem : GameInfo) (deckArray : DeckArray) (total : Int) (w w' : World),
      generateBody svc gameItem deckArray total w = (none, w') →
      ∀ path canvas, (path, FileContent.image canvas) ∈ w'.files →
        (path, FileContent.image canvas) ∈ w.files ∨
          IsPageImage svc deckArray.Decks path canvas) := by
  refine ⟨?_, ?_, ?_⟩
  · intro d img h
    unfold DeckDrawer.collectDeckImage at h
    split at h
    · cases h
    · rename_i first rest himg
      injection h with h
      subst h
      have hfold : ∀ (rowsList : List Nat) (acc : DeckImage),
          ∃ front, ∀ acc : DeckImage,
            (rowsList.foldl d.drawRow acc).draws = acc.draws ++ front := by
        intro rowsList _
        induction rowsList with
        | nil => exact ⟨[], fun acc => by simp⟩
        | cons r rs ih =>
          rcases ih with ⟨tail, htail⟩
          have hrow : ∀ (cols : List Nat), ∃ fr, ∀ a : DeckImage,
              (cols.foldl (d.drawCell r) a).draws = a.draws ++ fr := by
            intro cols
            induction cols with
            | nil => exact ⟨[], fun a => by simp⟩
            | cons c cs ihc =>
              rcases ihc with ⟨fr, hfr⟩
              by_cases hlen : (d.images.length : Int) ≤ (r : Int) * d.columns + (c : Int)
              · refine ⟨fr, fun a => ?_⟩
                rw [List.foldl_cons, hfr]
                unfold DeckDrawer.drawCell
                rw [if_pos hlen]
              · cases hget : d.images.get? ((r : Int) * d.columns + (c : Int)).toNat with
                | none =>
                  refine ⟨fr, fun a => ?_⟩
                  rw [List.foldl_cons, hfr]
                  unfold DeckDrawer.drawCell
                  rw [if_neg hlen, hget]
                | some pic =>
                  refine ⟨⟨c, r, pic⟩ :: fr, fun a => ?_⟩
                  rw [List.foldl_cons, hfr]
                  unfold DeckDrawer.drawCell
                  rw [if_neg hlen, hget]
                  simp [DeckImage.Draw]
          rcases hrow (List.range d.columns.toNat) with ⟨fr, hfr⟩
          refine ⟨fr ++ tail, fun acc => ?_⟩
          rw [List.foldl_cons, htail]
          unfold DeckDrawer.drawRow
          rw [hfr, List.append_assoc]
      rcases hfold (List.range d.rows.toNat) ⟨0, 0, 0, 0, []⟩ with ⟨front, hfront⟩
      refine ⟨front, ?_, fun acc => hfront acc⟩
      simp only [DeckImage.Draw]
      have := hfront ⟨first.width, first.height, d.columns, d.rows, []⟩
      unfold DeckDrawer.drawFront
      rw [this]
      rfl
  · intro svc total deckInfo pageId page st st' infoDeck infoDeck' h
    rcases pageBody_canvas h with ⟨v, b, width, height, -, -, hb, hlen, hfiles⟩
    refine ⟨b, width, height, hb, hlen, ?_⟩
    rw [hfiles]
    simp
  · intro svc gameItem deckArray total w w' h path canvas hmem
    rcases generateBody_ok h with ⟨st, hloop, -, hfiles, -⟩
    rw [hfiles] at hmem
    rcases List.mem_append.mp hmem with hm | hm
    · rcases groupLoop_page_images hloop path canvas hm with hin | hpage
      · left
        simpa [initialState, GenState.setMessage, GenState.setProgress] using hin
      · exact Or.inr hpage
    · simp at hm

/-! ## Theorems: the card entities of a run -/

theorem bagCards_append (a b : List BagObject) : bagCards (a ++ b) = bagCards a ++ bagCards b := by
  induction a with
  | nil => rfl
  | cons o rest ih =>
    cases o with
    | card c => simp [bagCards, ih]
    | deck d => simp [bagCards, ih]

theorem bagCards_appendCollapsed (bag : Bag) (deck : DeckObject) :
    bagCards (appendCollapsed bag deck).ContainedObjects =
      bagCards bag.ContainedObjects ++ deck.ContainedObjects := by
  unfold appendCollapsed
  split
  · rename_i h
    rw [h, List.append_nil]
  · rename_i c h
    rw [h]
    simp [bagCards_append, bagCards]
  · rename_i c1 c2 rest h
    simp [bagCards_append, bagCards]

/-- The description of the page in the `DeckInformation` after a card step: unchanged after
the first card of the page, and on the first card the description of this page. -/
theorem cardBody_desc {svc : Services} {total : Int} {deckInfo : DeckType} {pageId : Nat}
    {page : CardPage} {cardId : Nat} {card : CardDescription} {v v' : PageVars}
    (h : cardBody svc total deckInfo pageId page cardId card v = .ok v') :
    v'.infoPage ≠ none ∧
    ((v.infoPage ≠ none ∧ v'.infoDeck.deckDesc = v.infoDeck.deckDesc) ∨
      (v.infoPage = none ∧ ∃ b, v'.infoDeck.backside = some b ∧
        v'.infoDeck.deckDesc =
          pageDescription svc deckInfo.DeckID b.imageName pageId page.length)) := by
  rcases cardBody_ok h with ⟨st1, id1, v2, ip2, ip3, st4, id4, item, h1, h2, -, h4, -, hv⟩
  have e4 : id4.deckDesc = v2.infoDeck.deckDesc ∧ id4.backside = v2.infoDeck.backside := by
    rcases stepBoundary_ok h4 with ⟨_, _, hi⟩ | ⟨_, _, _, _, hi⟩ <;> subst hi <;> exact ⟨rfl, rfl⟩
  have e1 : id1.deckDesc = v.infoDeck.deckDesc := by
    rcases stepBackside_ok h1 with ⟨_, _, _, hi⟩ | ⟨_, _, _, _, _, _, _, hi⟩ <;> subst hi <;> rfl
  subst hv
  refine ⟨by simp, ?_⟩
  rcases stepPageInfo_ok h2 with ⟨hsome, hs⟩ | ⟨hnone, id', hprep, hs⟩
  · left
    subst hs
    simp only [] at hsome
    exact ⟨by rw [hsome]; simp, by show id4.deckDesc = _; rw [e4.1]; exact e1⟩
  · right
    subst hs
    simp only [] at hnone
    rcases preparePageInfo_ok hprep with ⟨b, _, _, _, hb, _, _, hid, _⟩
    refine ⟨hnone, b, ?_, ?_⟩
    · show id4.backside = _
      rw [e4.2]
      simp only []
      rw [hid]
      exact hb
    · show id4.deckDesc = _
      rw [e4.1]
      simp only []
      rw [hid]

/-- The card entities in the bag and in the accumulated deck after a card step: those there
before, then `Count` copies of the entity of this card. -/
theorem cardBody_cards {svc : Services} {total : Int} {deckInfo : DeckType} {pageId : Nat}
    {page : CardPage} {cardId : Nat} {card : CardDescription} {v v' : PageVars}
    (h : cardBody svc total deckInfo pageId page cardId card v = .ok v') :
    bagCards v'.st.bag.ContainedObjects ++ v'.st.deck.ContainedObjects =
      bagCards v.st.bag.ContainedObjects ++ v.st.deck.ContainedObjects ++
        slotCards svc deckInfo pageId v'.infoDeck.deckDesc (cardId, card) := by
  rcases cardBody_deck h with ⟨item, hitem, -, hcase⟩
  have hslot : slotCards svc deckInfo pageId v'.infoDeck.deckDesc (cardId, card) =
      List.replicate item.Count.toNat (makeCard pageId cardId item v'.infoDeck.deckDesc) := by
    unfold slotCards
    simp only [hitem]
  rw [hslot]
  rcases hcase with ⟨-, hbag, -, hcards⟩ | ⟨-, ⟨deck, hdc, -, hbag⟩, -, hcards⟩
  · rw [hbag, hcards, List.append_assoc]
  · rw [hbag, hcards, bagCards_appendCollapsed, hdc]

theorem enum_take_succ {α : Type} {l : List α} {j : Nat} {x : α} (hget : l.get? j = some x) :
    (l.take (j + 1)).enum = (l.take j).enum ++ [(j, x)] := by
  have hlt : j < l.length := by
    have h1 : l[j]? = some x := by simpa using hget
    rcases List.getElem?_eq_some_iff.mp h1 with ⟨h, _⟩
    exact h
  rw [take_succ_of_get hget, List.enum_append, List.length_take,
    Nat.min_eq_left (Nat.le_of_lt hlt)]
  rfl

theorem head_of_get_zero {α : Type} {l : List α} {x : α} (hget : l.get? 0 = some x) :
    ∃ rest, l = x :: rest := by
  cases l with
  | nil => cases hget
  | cons y rest =>
    injection hget with hget
    exact ⟨rest, by rw [hget]⟩

/-- The card entities a successful page step adds, and the backside it leaves resolved:
the one it found, or the one prepared on the first card of the page. -/
theorem pageBody_cards {svc : Services} {total : Int} {deckInfo : DeckType} {pageId : Nat}
    {page : CardPage} {st st' : GenState} {infoDeck infoDeck' : DeckInformation}
    (h : pageBody svc total deckInfo pageId page st infoDeck = .ok (st', infoDeck')) :
    ∃ b, infoDeck'.backside = some b ∧
      (infoDeck.backside = some b ∨
        (infoDeck.backside = none ∧ ∃ c rest file, page = c :: rest ∧
          prepareBacksideImage svc c.GameID c.CollectionID deckInfo.DeckID = .ok (b, file))) ∧
      bagCards st'.bag.ContainedObjects ++ st'.deck.ContainedObjects =
        bagCards st.bag.ContainedObjects ++ st.deck.ContainedObjects ++
          pageCards svc deckInfo b.imageName (pageId, page) := by
  rcases pageBody_bag_deck h with ⟨v, hcards, hbag, hdeck, hid, -⟩
  rcases pageBody_ok h with ⟨v1, ip, b1, hloop1, hip, -, -, -, -⟩
  rw [hcards] at hloop1
  injection hloop1 with hv1
  subst hv1
  have key := cardLoop_inv
    (fun j u =>
      (j = 0 ∧ u.infoPage = none ∧ u.infoDeck.backside = infoDeck.backside ∧
        bagCards u.st.bag.ContainedObjects ++ u.st.deck.ContainedObjects =
          bagCards st.bag.ContainedObjects ++ st.deck.ContainedObjects) ∨
      (u.infoPage ≠ none ∧ ∃ b, u.infoDeck.backside = some b ∧
        (infoDeck.backside = some b ∨
          (infoDeck.backside = none ∧ ∃ c rest file, page = c :: rest ∧
            prepareBacksideImage svc c.GameID c.CollectionID deckInfo.DeckID = .ok (b, file))) ∧
        u.infoDeck.deckDesc = pageDescription svc deckInfo.DeckID b.imageName pageId page.length ∧
        bagCards u.st.bag.ContainedObjects ++ u.st.deck.ContainedObjects =
          bagCards st.bag.ContainedObjects ++ st.deck.ContainedObjects ++
            (page.take j).enum.flatMap (slotCards svc deckInfo pageId
              (pageDescription svc deckInfo.DeckID b.imageName pageId page.length))))
    page 0 _ v hcards (Or.inl ⟨rfl, rfl, rfl, rfl⟩) ?_
  · simp only [Nat.zero_add, List.take_length] at key
    rcases key with ⟨_, hnone, _, _⟩ | ⟨_, b, hb, horigin, _, hall⟩
    · rw [hnone] at hip
      cases hip
    · refine ⟨b, by rw [hid]; exact hb, horigin, ?_⟩
      rw [hbag, hdeck]
      exact hall
  · intro j card u u' hget hu hcard
    simp only [Nat.zero_add] at hu hcard ⊢
    right
    have hdesc := cardBody_desc hcard
    have hall := cardBody_cards hcard
    refine ⟨hdesc.1, ?_⟩
    rcases hu with ⟨hj, hnone, hback, hprev⟩ | ⟨hsome, b, hb, horigin, hd, hprev⟩
    · subst hj
      rcases head_of_get_zero hget with ⟨rest, hpage⟩
      rcases hdesc.2 with ⟨hne, _⟩ | ⟨_, b, hb', hd'⟩
      · exact absurd hnone hne
      · refine ⟨b, hb', ?_, hd', ?_⟩
        · rcases cardBody_files hcard with ⟨b2, hb2, hb2', _⟩ | ⟨hn, b2, file, hprep, hb2', _⟩
          · rw [hb'] at hb2'
            injection hb2' with hb2'
            subst hb2'
            left
            rw [← hback]
            exact hb2
          · rw [hb'] at hb2'
            injection hb2' with hb2'
            subst hb2'
            right
            exact ⟨by rw [← hback]; exact hn, card, rest, file, hpage, hprep⟩
        · rw [hall, hprev, enum_take_succ hget, hd']
          simp
    · rcases hdesc.2 with ⟨_, hd'⟩ | ⟨hnone, _⟩
      · have hb' : u'.infoDeck.backside = some b := by
          rcases cardBody_files hcard with ⟨b2, hb2, hb2', _⟩ | ⟨hn, _⟩
          · rw [hb] at hb2
            injection hb2 with hb2
            subst hb2
            exact hb2'
          · rw [hb] at hn
            cases hn
        refine ⟨b, hb', horigin, by rw [hd', hd], ?_⟩
        rw [hall, hprev, enum_take_succ hget, hd', hd]
        simp [List.flatMap_append]
      · exact absurd hnone hsome

/-- The card entities a successful group step adds to the bag, from an empty accumulator. -/
theorem groupBody_cards {svc : Services} {total : Int} {group : DeckType × DeckPages}
    {st st' : GenState} (h : groupBody svc total group st = .ok st')
    (hempty : st.deck.ContainedObjects = []) :
    bagCards st'.bag.ContainedObjects = bagCards st.bag.ContainedObjects ++ groupCards svc group ∧
      st'.deck.ContainedObjects = [] := by
  rcases groupBody_ok h with ⟨hnil, rfl⟩ | ⟨hne, st1, id1, hloop, rfl⟩
  · refine ⟨?_, hempty⟩
    unfold groupCards groupBackside
    rw [hnil]
    simp
  · have key := pageLoop_inv
      (fun i s d =>
        (i = 0 ∧ d.backside = none ∧
          bagCards s.bag.ContainedObjects ++ s.deck.ContainedObjects =
            bagCards st.bag.ContainedObjects ++ st.deck.ContainedObjects) ∨
        (∃ b, d.backside = some b ∧ groupBackside svc group = some b ∧
          bagCards s.bag.ContainedObjects ++ s.deck.ContainedObjects =
            bagCards st.bag.ContainedObjects ++ st.deck.ContainedObjects ++
              (group.2.Pages.take i).enum.flatMap (pageCards svc group.1 b.imageName)))
      group.2.Pages 0 st st1 {} id1 hloop (Or.inl ⟨rfl, rfl, rfl⟩) ?_
    · simp only [Nat.zero_add, List.take_length] at key
      rcases key with ⟨hlen, _, _⟩ | ⟨b, _, hgb, hall⟩
      · exact absurd (List.length_eq_zero.mp hlen) hne
      · have hcards : groupCards svc group =
            group.2.Pages.enum.flatMap (pageCards svc group.1 b.imageName) := by
          unfold groupCards
          rw [hgb]
        rw [hcards]
        rw [hempty, List.append_nil] at hall
        unfold flushGroup
        split
        · rename_i hnil
          rw [hnil, List.append_nil] at hall
          exact ⟨hall, hnil⟩
        · refine ⟨?_, rfl⟩
          simp only []
          rw [bagCards_appendCollapsed]
          exact hall
    · intro i page s s' d d' hget hs hpage
      simp only [Nat.zero_add] at hs hpage ⊢
      right
      rcases pageBody_cards hpage with ⟨b, hb, horigin, hall⟩
      rcases hs with ⟨hi, hnone, hprev⟩ | ⟨b0, hb0, hgb, hprev⟩
      · subst hi
        rcases head_of_get_zero hget with ⟨tail, hpages⟩
        rcases horigin with hsome | ⟨_, c, rest, file, hpage', hprep⟩
        · rw [hnone] at hsome
          cases hsome
        · refine ⟨b, hb, ?_, ?_⟩
          · unfold groupBackside
            rw [hpages, hpage']
            simp only [hprep]
          · rw [hall, hprev, enum_take_succ hget]
            simp
      · rcases horigin with hsome | ⟨hnone, _⟩
        · rw [hb0] at hsome
          injection hsome with hsome
          subst hsome
          refine ⟨b0, hb, hgb, ?_⟩
          rw [hall, hprev, enum_take_succ hget]
          simp [List.flatMap_append]
        · rw [hb0] at hnone
          cases hnone

theorem groupLoop_cards {svc : Services} {total : Int} :
    ∀ (groups : List (DeckType × DeckPages)) (st st' : GenState),
      groupLoop svc total groups st = .ok st' → st.deck.ContainedObjects = [] →
      bagCards st'.bag.ContainedObjects =
        bagCards st.bag.ContainedObjects ++ groups.flatMap (groupCards svc) ∧
      st'.deck.ContainedObjects = [] := by
  intro groups
  induction groups with
  | nil =>
    intro st st' h hempty
    unfold groupLoop at h
    injection h with h
    subst h
    exact ⟨by simp, hempty⟩
  | cons g rest ih =>
    intro st st' h hempty
    unfold groupLoop at h
    split at h
    · cases h
    · rename_i s hbody
      have h1 := groupBody_cards hbody hempty
      have h2 := ih s st' h h1.2
      refine ⟨?_, h2.2⟩
      rw [h2.1, h1.1, List.flatMap_cons, List.append_assoc]

theorem mapGet_singleton (k : Int) (v : DeckDescription) : mapGet [(k, v)] k = some v := by
  simp [mapGet]

/-- C1: in a successful `generateBody`, the card entities of the bag of the root document
(a deck object standing for the cards it contains) are exactly, group by group, page by
page `p` and slot by slot `s`, `Count` copies of the entity of the card at that position;
that entity has `CardID = (p + 1) * 100 + s` and holds the description of page `p` under
key `p + 1` of its `CustomDeck`; in every deck object of the bag `DeckIDs` lists the
`CardID`s of its cards in order, so each id appended for a card is that same code; and a
card step at page `p` and slot `s` appends `Count` times the code `(p + 1) * 100 + s` to
`DeckIDs`. -/
theorem generateBody_card_codes :
    (∀ (svc : Services) (gameItem : GameInfo) (deckArray : DeckArray) (total : Int) (w w' : World),
      generateBody svc gameItem deckArray total w = (none, w') →
      ∃ bag,
        w'.files.getLast? =
          some (svc.filepathJoin svc.results (gameItem.ID ++ ".json"), .json { ObjectStates := [bag] }) ∧
        bagCards bag.ContainedObjects = deckArray.Decks.flatMap (groupCards svc) ∧
        ∀ d, BagObject.deck d ∈ bag.ContainedObjects →
          d.DeckIDs = d.ContainedObjects.map (fun c => c.CardID)) ∧
    (∀ (p s : Nat) (item : CardInfo) (desc : DeckDescription),
      (makeCard p s item desc).CardID = ((p : Int) + 1) * 100 + (s : Int) ∧
      mapGet (makeCard p s item desc).CustomDeck ((p : Int) + 1) = some desc) ∧
    (∀ (svc : Services) (total : Int) (deckInfo : DeckType) (p : Nat) (page : CardPage) (s : Nat)
        (card : CardDescription) (v v' : PageVars),
      cardBody svc total deckInfo p page s card v = .ok v' →
      ∃ item before,
        svc.cardItem card.GameID card.CollectionID deckInfo.DeckID card.CardID = .ok item ∧
        (before = v.st.deck.DeckIDs ∨ before = []) ∧
        v'.st.deck.DeckIDs =
          before ++ List.replicate item.Count.toNat (((p : Int) + 1) * 100 + (s : Int))) := by
  refine ⟨?_, ?_, ?_⟩
  · intro svc gameItem deckArray total w w' h
    rcases generateBody_ok h with ⟨st, hloop, -, hfiles, -⟩
    have hinit := initialState_aligned gameItem w
    have hcards := groupLoop_cards deckArray.Decks _ st hloop hinit.2.1
    have hal := groupLoop_aligned hloop ⟨hinit.1, hinit.2.1, hinit.2.2.1⟩
    refine ⟨finalBag svc st, ?_, ?_, ?_⟩
    · rw [hfiles]
      simp
    · show bagCards st.bag.ContainedObjects = _
      rw [hcards.1, hinit.2.2.2]
      rfl
    · intro d hd
      exact hal.1.2 d hd
  · intro p s item desc
    exact ⟨rfl, mapGet_singleton _ _⟩
  · intro svc total deckInfo p page s card v v' h
    rcases cardBody_deck h with ⟨item, hitem, -, hcase⟩
    rcases hcase with ⟨-, -, hids, -⟩ | ⟨-, -, hids, -⟩
    · exact ⟨item, v.st.deck.DeckIDs, hitem, Or.inl rfl, hids⟩
    · exact ⟨item, [], hitem, Or.inr rfl, by rw [hids]; rfl⟩

/-- Witness of C1: three cards on two pages with replication counts 1, 2 and 2. -/
theorem generateBody_card_codes_witness :
    ∃ bag,
      (generateBody (sampleServices sampleCount) sampleGame twoPageArray 3 {}).2.files.getLast? =
        some ("data/result/base.json", .json { ObjectStates := [bag] }) ∧
      (bagCards bag.ContainedObjects).map (fun c => c.CardID) = [100, 101, 101, 200, 200] ∧
      ∀ d, BagObject.deck d ∈ bag.ContainedObjects →
        d.DeckIDs = d.ContainedObjects.map (fun c => c.CardID) := by
  have hrun : (generateBody (sampleServices sampleCount) sampleGame twoPageArray 3 {}).1 = none := by
    decide
  rcases generateBody_card_codes.1 (sampleServices sampleCount) sampleGame twoPageArray 3 {} _
    (run_eq_of_no_error hrun) with ⟨bag, hfile, hcards, hids⟩
  refine ⟨bag, hfile, ?_, hids⟩
  rw [hcards]
  decide

/-- Witness of C7: the sample drawer, and the page images of the sample run. -/
theorem backside_drawn_last_witness :
    (∃ front,
      [DrawCall.mk 0 0 (sampleImage 0), ⟨1, 0, sampleImage 1⟩, ⟨2, 0, sampleImage 2⟩,
        ⟨0, 1, sampleImage 3⟩, ⟨2, 1, sampleImage 9⟩] =
          front ++ [DrawCall.mk (sampleDrawer.columns - 1) (sampleDrawer.rows - 1)
            sampleDrawer.imageBackSide] ∧
        ∀ acc : DeckImage, (sampleDrawer.drawFront acc).draws = acc.draws ++ front) ∧
    (∀ path canvas,
      (path, FileContent.image canvas) ∈
          (generateBody (sampleServices sampleCount) sampleGame twoPageArray 3 {}).2.files →
        (path, FileContent.image canvas) ∈ ({} : World).files ∨
          IsPageImage (sampleServices sampleCount) twoPageArray.Decks path canvas) := by
  have hrun : (generateBody (sampleServices sampleCount) sampleGame twoPageArray 3 {}).1 = none := by
    decide
  exact ⟨backside_drawn_last.1 sampleDrawer
      ⟨1, 1, 3, 2, [⟨0, 0, sampleImage 0⟩, ⟨1, 0, sampleImage 1⟩, ⟨2, 0, sampleImage 2⟩,
        ⟨0, 1, sampleImage 3⟩, ⟨2, 1, sampleImage 9⟩]⟩ rfl,
    backside_drawn_last.2.2 (sampleServices sampleCount) sampleGame twoPageArray 3 {} _
      (run_eq_of_no_error hrun)⟩

/-! ## Theorems: replication counts do not reach the world -/

theorem stepBackside_erase (svc : Services) (deckInfo : DeckType) (card : CardDescription) :
    stepBackside svc.withoutCounts deckInfo card.withoutCount = stepBackside svc deckInfo card := rfl

theorem stepPageInfo_erase (svc : Services) (deckInfo : DeckType) (pageId : Nat) (page : CardPage)
    (card : CardDescription) :
    stepPageInfo svc.withoutCounts deckInfo pageId (page.map CardDescription.withoutCount)
      card.withoutCount = stepPageInfo svc deckInfo pageId page card := by
  funext v
  unfold stepPageInfo preparePageInfo
  simp only [List.length_map]
  rfl

theorem stepDraw_erase (svc : Services) (deckInfo : DeckType) (cardId : Nat)
    (card : CardDescription) :
    stepDraw svc.withoutCounts deckInfo cardId card.withoutCount = stepDraw svc deckInfo cardId card :=
  rfl

theorem stepBoundary_erase (deckInfo : DeckType) (pageId : Nat) (card : CardDescription) :
    stepBoundary deckInfo pageId card.withoutCount = stepBoundary deckInfo pageId card := rfl

theorem stepBackside_same (svc : Services) (deckInfo : DeckType) (card : CardDescription)
    (st1 st2 : GenState) (infoDeck : DeckInformation) (h : SameWorld st1 st2) :
    SameOutcome (fun a b => SameWorld a.1 b.1 ∧ a.2 = b.2)
      (stepBackside svc deckInfo card st1 infoDeck) (stepBackside svc deckInfo card st2 infoDeck) := by
  unfold stepBackside
  rcases h with ⟨hw, hp⟩
  cases infoDeck.backside with
  | some b => exact ⟨⟨hw, hp⟩, rfl⟩
  | none =>
    simp only []
    cases svc.deckItem card.GameID card.CollectionID deckInfo.DeckID with
    | error e => simp only [SameOutcome, hw]
    | ok item =>
      simp only []
      cases prepareBacksideImage svc card.GameID card.CollectionID deckInfo.DeckID with
      | error e => simp only [SameOutcome, hw]
      | ok r =>
        simp only [SameOutcome, SameWorld, hw, hp, and_self]

theorem stepPageInfo_same (svc : Services) (deckInfo : DeckType) (pageId : Nat) (page : CardPage)
    (card : CardDescription) (v1 v2 : PageVars) (h : SamePage v1 v2) :
    SameOutcome (fun a b => SamePage a.1 b.1 ∧ a.2 = b.2)
      (stepPageInfo svc deckInfo pageId page card v1)
      (stepPageInfo svc deckInfo pageId page card v2) := by
  obtain ⟨st1, id1, ip1⟩ := v1
  obtain ⟨st2, id2, ip2⟩ := v2
  rcases h with ⟨⟨hw, hp⟩, hid, hip⟩
  simp only [] at hw hp hid hip
  subst hid hip
  unfold stepPageInfo
  cases ip1 with
  | some ip => exact ⟨⟨⟨hw, hp⟩, rfl, rfl⟩, rfl⟩
  | none =>
    simp only []
    cases preparePageInfo svc pageId page card deckInfo id1 with
    | error e => simp only [SameOutcome, hw]
    | ok r => exact ⟨⟨⟨hw, hp⟩, rfl, rfl⟩, rfl⟩

theorem stepBoundary_same (deckInfo : DeckType) (pageId : Nat) (card : CardDescription)
    (st1 st2 : GenState) (infoDeck : DeckInformation) (h : SameWorld st1 st2) :
    SameOutcome (fun a b => SameWorld a.1 b.1 ∧ a.2 = b.2)
      (stepBoundary deckInfo pageId card st1 infoDeck)
      (stepBoundary deckInfo pageId card st2 infoDeck) := by
  unfold stepBoundary
  rcases h with ⟨hw, hp⟩
  by_cases hkey : infoDeck.collectionType ≠ card.CollectionID ++ deckInfo.DeckID
  · rw [if_pos hkey, if_pos hkey]
    cases infoDeck.deckItem with
    | none => simp only [SameOutcome, hw]
    | some item => exact ⟨⟨hw, hp⟩, rfl⟩
  · rw [if_neg hkey, if_neg hkey]
    exact ⟨⟨hw, hp⟩, rfl⟩

/-- A card step run with all replication counts put to 0, from a state that differs only in
the bag and the accumulated deck, fails or succeeds as the original does and leaves the
same world, page and deck information. -/
theorem cardBody_erase (svc : Services) (total : Int) (deckInfo : DeckType) (pageId : Nat)
    (page : CardPage) (cardId : Nat) (card : CardDescription) (v1 v2 : PageVars)
    (h : SamePage v1 v2) :
    SameOutcome SamePage
      (cardBody svc.withoutCounts total deckInfo pageId (page.map CardDescription.withoutCount)
        cardId card.withoutCount v1)
      (cardBody svc total deckInfo pageId page cardId card v2) := by
  obtain ⟨st1, id1, ip1⟩ := v1
  obtain ⟨st2, id2, ip2⟩ := v2
  rcases h with ⟨hst, hid, hip⟩
  simp only [] at hst hid hip
  subst hid hip
  unfold cardBody
  rw [stepBackside_erase, stepPageInfo_erase, stepDraw_erase, stepBoundary_erase]
  simp only []
  have h1 := stepBackside_same svc deckInfo card st1 st2 id1 hst
  revert h1
  generalize stepBackside svc deckInfo card st1 id1 = r1
  generalize stepBackside svc deckInfo card st2 id1 = r2
  intro h1
  cases r1 with
  | error e1 =>
    cases r2 with
    | error e2 => exact h1
    | ok b => exact h1.elim
  | ok a =>
    cases r2 with
    | error e2 => exact h1.elim
    | ok b =>
      obtain ⟨sa, da⟩ := a
      obtain ⟨sb, db⟩ := b
      rcases h1 with ⟨hs1, hd1⟩
      simp only [] at hs1 hd1
      subst hd1
      simp only []
      have h2 := stepPageInfo_same svc deckInfo pageId page card ⟨sa, da, ip1⟩ ⟨sb, da, ip1⟩
        ⟨hs1, rfl, rfl⟩
      revert h2
      generalize stepPageInfo svc deckInfo pageId page card ⟨sa, da, ip1⟩ = r1
      generalize stepPageInfo svc deckInfo pageId page card ⟨sb, da, ip1⟩ = r2
      intro h2
      cases r1 with
      | error e1 =>
        cases r2 with
        | error e2 => exact h2
        | ok b => exact h2.elim
      | ok a =>
        cases r2 with
        | error e2 => exact h2.elim
        | ok b =>
          obtain ⟨va, pa⟩ := a
          obtain ⟨vb, pb⟩ := b
          rcases h2 with ⟨hv2, hp2⟩
          simp only [] at hv2 hp2
          subst hp2
          simp only []
          cases stepDraw svc deckInfo cardId card pa with
          | error e => simp only [SameOutcome, hv2.1.1]
          | ok ip3 =>
            simp only []
            have h4 := stepBoundary_same deckInfo pageId card va.st vb.st va.infoDeck hv2.1
            rw [hv2.2.1] at h4
            rw [hv2.2.1]
            revert h4
            generalize stepBoundary deckInfo pageId card va.st vb.infoDeck = r1
            generalize stepBoundary deckInfo pageId card vb.st vb.infoDeck = r2
            intro h4
            cases r1 with
            | error e1 =>
              cases r2 with
              | error e2 => exact h4
              | ok b => exact h4.elim
            | ok a =>
              cases r2 with
              | error e2 => exact h4.elim
              | ok b =>
                obtain ⟨s4a, d4a⟩ := a
                obtain ⟨s4b, d4b⟩ := b
                rcases h4 with ⟨hs4, hd4⟩
                simp only [] at hs4 hd4
                subst hd4
                simp only [Services.withoutCounts, CardDescription.withoutCount]
                cases svc.cardItem card.GameID card.CollectionID deckInfo.DeckID card.CardID with
                | error e => simp only [SameOutcome, hs4.1]
                | ok item =>
                  simp only [SameOutcome, SamePage, SameWorld, GenState.setProgress, hs4.1, hs4.2,
                    and_self]

theorem cardLoop_erase (svc : Services) (total : Int) (deckInfo : DeckType) (pageId : Nat)
    (page : CardPage) :
    ∀ (cards : List CardDescription) (k : Nat) (v1 v2 : PageVars), SamePage v1 v2 →
      SameOutcome SamePage
        (cardLoop svc.withoutCounts total deckInfo pageId (page.map CardDescription.withoutCount) k
          (cards.map CardDescription.withoutCount) v1)
        (cardLoop svc total deckInfo pageId page k cards v2) := by
  intro cards
  induction cards with
  | nil =>
    intro k v1 v2 h
    exact h
  | cons card rest ih =>
    intro k v1 v2 h
    simp only [List.map_cons, cardLoop]
    have h1 := cardBody_erase svc total deckInfo pageId page k card v1 v2 h
    revert h1
    generalize cardBody svc.withoutCounts total deckInfo pageId
      (page.map CardDescription.withoutCount) k card.withoutCount v1 = r1
    generalize cardBody svc total deckInfo pageId page k card v2 = r2
    intro h1
    cases r1 with
    | error e1 =>
      cases r2 with
      | error e2 => exact h1
      | ok b => exact h1.elim
    | ok a =>
      cases r2 with
      | error e2 => exact h1.elim
      | ok b => exact ih (k + 1) a b h1

theorem pageBody_erase (svc : Services) (total : Int) (deckInfo : DeckType) (pageId : Nat)
    (page : CardPage) (st1 st2 : GenState) (infoDeck : DeckInformation) (h : SameWorld st1 st2) :
    SameOutcome (fun a b => SameWorld a.1 b.1 ∧ a.2 = b.2)
      (pageBody svc.withoutCounts total deckInfo pageId (page.map CardDescription.withoutCount)
        st1 infoDeck)
      (pageBody svc total deckInfo pageId page st2 infoDeck) := by
  unfold pageBody
  have h0 : SamePage ⟨st1.setMessage "Drawing cards on the resulting page...", infoDeck, none⟩
      ⟨st2.setMessage "Drawing cards on the resulting page...", infoDeck, none⟩ := by
    refine ⟨⟨?_, h.2⟩, rfl, rfl⟩
    simp only [GenState.setMessage, h.1]
  have h1 := cardLoop_erase svc total deckInfo pageId page page 0 _ _ h0
  revert h1
  generalize cardLoop svc.withoutCounts total deckInfo pageId
    (page.map CardDescription.withoutCount) 0 (page.map CardDescription.withoutCount)
    ⟨st1.setMessage "Drawing cards on the resulting page...", infoDeck, none⟩ = r1
  generalize cardLoop svc total deckInfo pageId page 0 page
    ⟨st2.setMessage "Drawing cards on the resulting page...", infoDeck, none⟩ = r2
  intro h1
  cases r1 with
  | error e1 =>
    cases r2 with
    | error e2 => exact h1
    | ok b => exact h1.elim
  | ok a =>
    cases r2 with
    | error e2 => exact h1.elim
    | ok b =>
      obtain ⟨sa, da, pa⟩ := a
      obtain ⟨sb, db, pb⟩ := b
      rcases h1 with ⟨⟨hw, hp⟩, hd, hpg⟩
      simp only [] at hw hp hd hpg
      subst hd hpg
      simp only []
      cases pa with
      | none => simp only [SameOutcome, GenState.setMessage, hw]
      | some ip =>
        cases hb : da.backside with
        | none => simp only [SameOutcome, GenState.setMessage, hw]
        | some b =>
          simp only [Services.withoutCounts]
          cases svc.createAndProcess (svc.filepathJoin svc.results ip.info.Name)
            (.image (images.Draw ip.image (ip.info.Columns - 1) (ip.info.Rows - 1) b.imageDarker)) with
          | some e => simp only [SameOutcome, GenState.setMessage, hw]
          | none => simp only [SameOutcome, SameWorld, GenState.setMessage, hw, hp, and_self]

theorem pageLoop_erase (svc : Services) (total : Int) (deckInfo : DeckType) :
    ∀ (pages : List CardPage) (k : Nat) (st1 st2 : GenState) (infoDeck : DeckInformation),
      SameWorld st1 st2 →
      SameOutcome (fun a b => SameWorld a.1 b.1 ∧ a.2 = b.2)
        (pageLoop svc.withoutCounts total deckInfo k
          (pages.map (fun page => page.map CardDescription.withoutCount)) st1 infoDeck)
        (pageLoop svc total deckInfo k pages st2 infoDeck) := by
  intro pages
  induction pages with
  | nil =>
    intro k st1 st2 infoDeck h
    exact ⟨h, rfl⟩
  | cons page rest ih =>
    intro k st1 st2 infoDeck h
    simp only [List.map_cons, pageLoop]
    have h1 := pageBody_erase svc total deckInfo k page st1 st2 infoDeck h
    revert h1
    generalize pageBody svc.withoutCounts total deckInfo k
      (page.map CardDescription.withoutCount) st1 infoDeck = r1
    generalize pageBody svc total deckInfo k page st2 infoDeck = r2
    intro h1
    cases r1 with
    | error e1 =>
      cases r2 with
      | error e2 => exact h1
      | ok b => exact h1.elim
    | ok a =>
      cases r2 with
      | error e2 => exact h1.elim
      | ok b =>
        obtain ⟨sa, da⟩ := a
        obtain ⟨sb, db⟩ := b
        rcases h1 with ⟨hs, hd⟩
        simp only [] at hs hd
        subst hd
        exact ih (k + 1) sa sb da hs

theorem flushGroup_world (st : GenState) :
    (flushGroup st).world = st.world ∧ (flushGroup st).processedCards = st.processedCards := by
  unfold flushGroup
  split <;> exact ⟨rfl, rfl⟩

theorem groupLoop_erase (svc : Services) (total : Int) :
    ∀ (groups : List (DeckType × DeckPages)) (st1 st2 : GenState), SameWorld st1 st2 →
      SameOutcome SameWorld
        (groupLoop svc.withoutCounts total (groupsWithoutCounts groups) st1)
        (groupLoop svc total groups st2) := by
  intro groups
  induction groups with
  | nil =>
    intro st1 st2 h
    exact h
  | cons g rest ih =>
    intro st1 st2 h
    have hbody : SameOutcome SameWorld
        (groupBody svc.withoutCounts total
          (g.1, ⟨g.2.Pages.map (fun page => page.map CardDescription.withoutCount)⟩) st1)
        (groupBody svc total g st2) := by
      unfold groupBody
      simp only [List.length_map]
      by_cases hlen : g.2.Pages.length = 0
      · rw [if_pos hlen, if_pos hlen]
        exact h
      · rw [if_neg hlen, if_neg hlen]
        have h1 := pageLoop_erase svc total g.1 g.2.Pages 0 st1 st2 {} h
        revert h1
        generalize pageLoop svc.withoutCounts total g.1 0
          (g.2.Pages.map (fun page => page.map CardDescription.withoutCount)) st1 {} = r1
        generalize pageLoop svc total g.1 0 g.2.Pages st2 {} = r2
        intro h1
        cases r1 with
        | error e1 =>
          cases r2 with
          | error e2 => exact h1
          | ok b => exact h1.elim
        | ok a =>
          cases r2 with
          | error e2 => exact h1.elim
          | ok b =>
            obtain ⟨sa, da⟩ := a
            obtain ⟨sb, db⟩ := b
            rcases h1 with ⟨hs, _⟩
            simp only [] at hs
            refine ⟨?_, ?_⟩
            · rw [(flushGroup_world sa).1, (flushGroup_world sb).1]
              exact hs.1
            · rw [(flushGroup_world sa).2, (flushGroup_world sb).2]
              exact hs.2
    simp only [groupsWithoutCounts, List.map_cons, groupLoop]
    revert hbody
    generalize groupBody svc.withoutCounts total
      (g.1, ⟨g.2.Pages.map (fun page => page.map CardDescription.withoutCount)⟩) st1 = r1
    generalize groupBody svc total g st2 = r2
    intro hbody
    cases r1 with
    | error e1 =>
      cases r2 with
      | error e2 => exact hbody
      | ok b => exact hbody.elim
    | ok a =>
      cases r2 with
      | error e2 => exact hbody.elim
      | ok b => exact ih a b hbody

theorem SameOutcome_of_erased {r0 r1 r2 : Except (Failure × World) GenState}
    (h1 : SameOutcome SameWorld r0 r1) (h2 : SameOutcome SameWorld r0 r2) :
    SameOutcome SameWorld r1 r2 := by
  cases r0 with
  | error e0 =>
    cases r1 with
    | ok a => exact h1.elim
    | error e1 =>
      cases r2 with
      | ok b => exact h2.elim
      | error e2 =>
        simp only [SameOutcome] at h1 h2 ⊢
        rw [← h1, ← h2]
  | ok s0 =>
    cases r1 with
    | error e1 => exact h1.elim
    | ok a =>
      cases r2 with
      | error e2 => exact h2.elim
      | ok b =>
        simp only [SameOutcome, SameWorld] at h1 h2 ⊢
        exact ⟨by rw [← h1.1, ← h2.1], by rw [← h1.2, ← h2.2]⟩

/-- Two runs of the loop nest of `generateBody` whose inputs differ only in replication
counts have the same outcome: the same failure in the same world, or the same world and
the same number of processed cards. -/
theorem groupLoop_counts_only (svc svc' : Services) (total : Int)
    (groups groups' : List (DeckType × DeckPages)) (st : GenState)
    (hsvc : svc'.withoutCounts = svc.withoutCounts)
    (hgroups : groupsWithoutCounts groups' = groupsWithoutCounts groups) :
    SameOutcome SameWorld (groupLoop svc' total groups' st) (groupLoop svc total groups st) := by
  have h1 := groupLoop_erase svc' total groups' st st ⟨rfl, rfl⟩
  have h2 := groupLoop_erase svc total groups st st ⟨rfl, rfl⟩
  rw [hsvc, hgroups] at h1
  exact SameOutcome_of_erased h1 h2

/-! ## Theorems: replication counts do not change the placements -/

theorem addCards_erase (gameID collectionID : String) :
    ∀ (items : List CardInfo) (log : List AggregatorCall) (total : Int),
      addCards callLog gameID collectionID (items.map CardInfo.withoutCount)
          (log.map AggregatorCall.withoutCount, total) =
        (((addCards callLog gameID collectionID items (log, total)).1).map
          AggregatorCall.withoutCount,
          (addCards callLog gameID collectionID items (log, total)).2) := by
  intro items
  induction items with
  | nil => intro log total; rfl
  | cons item rest ih =>
    intro log total
    simp only [List.map_cons, addCards]
    have := ih (callLog.AddCard log gameID collectionID item.ID item.Count) (total + 1)
    rw [← this]
    simp [callLog, AggregatorCall.withoutCount, CardInfo.withoutCount]

theorem addCards_count (gameID collectionID : String) :
    ∀ (items : List CardInfo) (log : List AggregatorCall) (total : Int),
      (((addCards callLog gameID collectionID items (log, total)).1.filter
          AggregatorCall.isAddCard).length : Int) -
          (addCards callLog gameID collectionID items (log, total)).2 =
        ((log.filter AggregatorCall.isAddCard).length : Int) - total := by
  intro items
  induction items with
  | nil => intro log total; rfl
  | cons item rest ih =>
    intro log total
    simp only [addCards]
    rw [ih]
    simp only [callLog, List.filter_append, List.length_append, List.filter_cons,
      AggregatorCall.isAddCard, List.filter_nil, if_true, List.length_singleton]
    push_cast
    ring

theorem listDecks_erase (svc : Services) (gameID sortField collectionID : String) :
    ∀ (decks : List DeckInfo) (log : List AggregatorCall) (total : Int),
      listDecks callLog svc.withoutCounts gameID sortField collectionID decks
          (log.map AggregatorCall.withoutCount, total) =
        eraseLogCounts (listDecks callLog svc gameID sortField collectionID decks (log, total)) := by
  intro decks
  induction decks with
  | nil => intro log total; rfl
  | cons deck rest ih =>
    intro log total
    simp only [listDecks, Services.withoutCounts]
    cases svc.cardList gameID collectionID deck.ID sortField "" with
    | error e => rfl
    | ok items =>
      simp only []
      have hsel : callLog.SelectDeck (log.map AggregatorCall.withoutCount) deck.ID deck.Image =
          (callLog.SelectDeck log deck.ID deck.Image).map AggregatorCall.withoutCount := by
        simp [callLog, AggregatorCall.withoutCount]
      rw [hsel, addCards_erase]
      exact ih _ _

theorem listDecks_count (svc : Services) (gameID sortField collectionID : String) :
    ∀ (decks : List DeckInfo) (log log' : List AggregatorCall) (total total' : Int),
      listDecks callLog svc gameID sortField collectionID decks (log, total) = .ok (log', total') →
      ((log'.filter AggregatorCall.isAddCard).length : Int) - total' =
        ((log.filter AggregatorCall.isAddCard).length : Int) - total := by
  intro decks
  induction decks with
  | nil =>
    intro log log' total total' h
    simp only [listDecks] at h
    injection h with h
    injection h with h1 h2
    subst h1 h2
    rfl
  | cons deck rest ih =>
    intro log log' total total' h
    simp only [listDecks] at h
    split at h
    · cases h
    · rename_i items _
      rw [ih _ log' _ total' h, addCards_count]
      simp [callLog, List.filter_append, AggregatorCall.isAddCard]

theorem listCollections_erase (svc : Services) (gameID sortField : String) :
    ∀ (colls : List CollectionInfo) (log : List AggregatorCall) (total : Int),
      listCollections callLog svc.withoutCounts gameID sortField colls
          (log.map AggregatorCall.withoutCount, total) =
        eraseLogCounts (listCollections callLog svc gameID sortField colls (log, total)) := by
  intro colls
  induction colls with
  | nil => intro log total; rfl
  | cons coll rest ih =>
    intro log total
    simp only [listCollections]
    have hdl : svc.withoutCounts.deckList = svc.deckList := rfl
    rw [hdl]
    cases svc.deckList gameID coll.ID sortField "" with
    | error e => rfl
    | ok decks =>
      simp only []
      rw [listDecks_erase]
      cases listDecks callLog svc gameID sortField coll.ID decks (log, total) with
      | error e => rfl
      | ok acc =>
        obtain ⟨log1, total1⟩ := acc
        simp only [eraseLogCounts]
        exact ih log1 total1

theorem listCollections_count (svc : Services) (gameID sortField : String) :
    ∀ (colls : List CollectionInfo) (log log' : List AggregatorCall) (total total' : Int),
      listCollections callLog svc gameID sortField colls (log, total) = .ok (log', total') →
      ((log'.filter AggregatorCall.isAddCard).length : Int) - total' =
        ((log.filter AggregatorCall.isAddCard).length : Int) - total := by
  intro colls
  induction colls with
  | nil =>
    intro log log' total total' h
    simp only [listCollections] at h
    injection h with h
    injection h with h1 h2
    subst h1 h2
    rfl
  | cons coll rest ih =>
    intro log log' total total' h
    simp only [listCollections] at h
    split at h
    · cases h
    · split at h
      · cases h
      · rename_i acc hdecks
        obtain ⟨log1, total1⟩ := acc
        rw [ih log1 log' total1 total' h, listDecks_count svc gameID sortField coll.ID _ _ _ _ _ hdecks]

theorem getListOfCards_erase (svc : Services) (gameID sortField : String) :
    getListOfCards callLog svc.withoutCounts gameID sortField =
      eraseLogCounts (getListOfCards callLog svc gameID sortField) := by
  unfold getListOfCards
  have hcl : svc.withoutCounts.collectionList = svc.collectionList := rfl
  rw [hcl]
  cases svc.collectionList gameID sortField "" with
  | error e => rfl
  | ok colls =>
    simp only []
    exact listCollections_erase svc gameID sortField colls [] 0

theorem getListOfCards_count (svc : Services) (gameID sortField : String)
    (log : List AggregatorCall) (total : Int)
    (h : getListOfCards callLog svc gameID sortField = .ok (log, total)) :
    ((log.filter AggregatorCall.isAddCard).length : Int) = total := by
  unfold getListOfCards at h
  split at h
  · cases h
  · have := listCollections_count svc gameID sortField _ _ _ _ _ h
    simp [callLog] at this
    omega

theorem replay_snoc {α : Type} (agg : Aggregator α) (log : List AggregatorCall)
    (call : AggregatorCall) : replay agg (log ++ [call]) = applyCall agg (replay agg log) call := by
  unfold replay
  rw [List.foldl_append]
  rfl

theorem addCards_replay {α : Type} (agg : Aggregator α) (gameID collectionID : String) :
    ∀ (items : List CardInfo) (log : List AggregatorCall) (total : Int),
      addCards agg gameID collectionID items (replay agg log, total) =
        (replay agg (addCards callLog gameID collectionID items (log, total)).1,
          (addCards callLog gameID collectionID items (log, total)).2) := by
  intro items
  induction items with
  | nil => intro log total; rfl
  | cons item rest ih =>
    intro log total
    simp only [addCards]
    have h := ih (log ++ [AggregatorCall.AddCard gameID collectionID item.ID item.Count]) (total + 1)
    rw [replay_snoc] at h
    exact h

theorem listDecks_replay {α : Type} (agg : Aggregator α) (svc : Services)
    (gameID sortField collectionID : String) :
    ∀ (decks : List DeckInfo) (log : List AggregatorCall) (total : Int),
      listDecks agg svc gameID sortField collectionID decks (replay agg log, total) =
        match listDecks callLog svc gameID sortField collectionID decks (log, total) with
        | .ok r => .ok (replay agg r.1, r.2)
        | .error e => .error e := by
  intro decks
  induction decks with
  | nil => intro log total; rfl
  | cons deck rest ih =>
    intro log total
    simp only [listDecks]
    cases svc.cardList gameID collectionID deck.ID sortField "" with
    | error e => rfl
    | ok items =>
      simp only []
      have hsel : agg.SelectDeck (replay agg log) deck.ID deck.Image =
          replay agg (log ++ [AggregatorCall.SelectDeck deck.ID deck.Image]) := by
        rw [replay_snoc]
        rfl
      rw [hsel, addCards_replay]
      exact ih _ _

theorem listCollections_replay {α : Type} (agg : Aggregator α) (svc : Services)
    (gameID sortField : String) :
    ∀ (colls : List CollectionInfo) (log : List AggregatorCall) (total : Int),
      listCollections agg svc gameID sortField colls (replay agg log, total) =
        match listCollections callLog svc gameID sortField colls (log, total) with
        | .ok r => .ok (replay agg r.1, r.2)
        | .error e => .error e := by
  intro colls
  induction colls with
  | nil => intro log total; rfl
  | cons coll rest ih =>
    intro log total
    simp only [listCollections]
    cases svc.deckList gameID coll.ID sortField "" with
    | error e => rfl
    | ok decks =>
      simp only []
      rw [listDecks_replay]
      cases listDecks callLog svc gameID sortField coll.ID decks (log, total) with
      | error e => rfl
      | ok acc =>
        obtain ⟨log1, total1⟩ := acc
        simp only []
        exact ih log1 total1

/-- Whatever the aggregator, `getListOfCards` leaves it in the state reached by the calls
the recording aggregator lists. -/
theorem getListOfCards_replay {α : Type} (agg : Aggregator α) (svc : Services)
    (gameID sortField : String) :
    getListOfCards agg svc gameID sortField =
      match getListOfCards callLog svc gameID sortField with
      | .ok r => .ok (replay agg r.1, r.2)
      | .error e => .error e := by
  unfold getListOfCards
  cases svc.collectionList gameID sortField "" with
  | error e => rfl
  | ok colls =>
    simp only []
    exact listCollections_replay agg svc gameID sortField colls [] 0

theorem dropLast_append_singleton {α : Type} (l : List α) (x : α) : (l ++ [x]).dropLast = l := by
  simp

/-! ## Theorems: the page capacity -/

/-- C17: `MaxCount` equals `MaxWidth * MaxHeight - 1`, one cell being kept for the
backside; with the configured bounds 2, 2, 10 and 7 it is 69, and the bounds are ordered
and at least 1. -/
theorem MaxCount_reserves_one_cell :
    MaxCount = MaxWidth * MaxHeight - 1 ∧ MaxCount + 1 = MaxWidth * MaxHeight ∧
    MinWidth = 2 ∧ MinHeight = 2 ∧ MaxWidth = 10 ∧ MaxHeight = 7 ∧ MaxCount = 69 ∧
    MinWidth ≤ MaxWidth ∧ MinHeight ≤ MaxHeight ∧
    1 ≤ MinWidth ∧ 1 ≤ MinHeight ∧ 1 ≤ MaxWidth ∧ 1 ≤ MaxHeight := by
  refine ⟨rfl, ?_, rfl, rfl, rfl, rfl, ?_, ?_, ?_, ?_, ?_, ?_, ?_⟩
  · unfold MaxCount
    omega
  all_goals decide

/-! ## Theorems: the URLs of a page description -/

/-- The description of the page in the `DeckInformation` after a successful page step. -/
theorem pageBody_desc {svc : Services} {total : Int} {deckInfo : DeckType} {pageId : Nat}
    {page : CardPage} {st st' : GenState} {infoDeck infoDeck' : DeckInformation}
    (h : pageBody svc total deckInfo pageId page st infoDeck = .ok (st', infoDeck')) :
    ∃ b, infoDeck'.backside = some b ∧
      infoDeck'.deckDesc = pageDescription svc deckInfo.DeckID b.imageName pageId page.length := by
  rcases pageBody_ok h with ⟨v, ip, b1, hloop, hip, -, -, -, hid⟩
  have key := cardLoop_inv
    (fun j u => (j = 0 ∧ u.infoPage = none) ∨
      (u.infoPage ≠ none ∧ ∃ b, u.infoDeck.backside = some b ∧
        u.infoDeck.deckDesc = pageDescription svc deckInfo.DeckID b.imageName pageId page.length))
    page 0 _ v hloop (Or.inl ⟨rfl, rfl⟩) ?_
  · rcases key with ⟨_, hnone⟩ | ⟨_, b, hb, hd⟩
    · rw [hnone] at hip
      cases hip
    · exact ⟨b, by rw [hid]; exact hb, by rw [hid]; exact hd⟩
  · intro j card u u' _ hu hcard
    right
    have hdesc := cardBody_desc hcard
    refine ⟨hdesc.1, ?_⟩
    rcases hdesc.2 with ⟨hne, hd'⟩ | ⟨_, b, hb', hd'⟩
    · rcases hu with ⟨_, hnone⟩ | ⟨_, b, hb, hd⟩
      · exact absurd hnone hne
      · refine ⟨b, ?_, by rw [hd', hd]⟩
        rcases cardBody_files hcard with ⟨b2, hb2, hb2', _⟩ | ⟨hn, _⟩
        · rw [hb] at hb2
          injection hb2 with hb2
          subst hb2
          exact hb2'
        · rw [hb] at hn
          cases hn
    · exact ⟨b, hb', hd'⟩

/-- C11 (amended): the `FaceURL` and `BackURL` of the description `preparePageInfo` makes
are the string `file:///` (three slashes) followed by the absolute path of the page image
and of the backside asset, that is `file://`, one more slash, then the absolute path. In
`generateBody` the page image is written under the path named by `FaceURL`, and the
backside asset is written under the path named by `BackURL`. -/
theorem preparePageInfo_urls :
    (∀ (svc : Services) (pageId : Nat) (page : CardPage) (card : CardDescription)
        (deckInfo : DeckType) (infoDeck infoDeck' : DeckInformation) (infoPage : PageInformation),
      preparePageInfo svc pageId page card deckInfo infoDeck = .ok (infoPage, infoDeck') →
      ∃ backside, infoDeck.backside = some backside ∧
        infoDeck'.deckDesc.FaceURL =
          "file:///" ++ svc.pathToAbsolutePath (svc.filepathJoin svc.results infoPage.info.Name) ∧
        infoDeck'.deckDesc.BackURL =
          "file:///" ++ svc.pathToAbsolutePath (svc.filepathJoin svc.results backside.imageName) ∧
        infoDeck'.deckDesc.FaceURL = "file://" ++ "/"
          ++ svc.pathToAbsolutePath (svc.filepathJoin svc.results infoPage.info.Name) ∧
        infoDeck'.deckDesc.BackURL = "file://" ++ "/"
          ++ svc.pathToAbsolutePath (svc.filepathJoin svc.results backside.imageName)) ∧
    (∀ (svc : Services) (total : Int) (deckInfo : DeckType) (pageId : Nat) (page : CardPage)
        (st st' : GenState) (infoDeck infoDeck' : DeckInformation),
      pageBody svc total deckInfo pageId page st infoDeck = .ok (st', infoDeck') →
      ∃ path canvas backside,
        st'.world.files.getLast? = some (path, FileContent.image canvas) ∧
        infoDeck'.backside = some backside ∧
        infoDeck'.deckDesc.FaceURL = "file:///" ++ svc.pathToAbsolutePath path ∧
        infoDeck'.deckDesc.BackURL =
          "file:///" ++ svc.pathToAbsolutePath (svc.filepathJoin svc.results backside.imageName)) ∧
    (∀ (svc : Services) (gameID collectionID deckID : String) (backside : BackSideInformation)
        (file : String × FileContent),
      prepareBacksideImage svc gameID collectionID deckID = .ok (backside, file) →
      file.1 = svc.filepathJoin svc.results backside.imageName) := by
  refine ⟨?_, ?_, ?_⟩
  · intro svc pageId page card deckInfo infoDeck infoDeck' infoPage h
    rcases preparePageInfo_ok h with ⟨b, _, _, _, hb, _, _, hid, hip⟩
    subst hid hip
    refine ⟨b, hb, rfl, rfl, ?_, ?_⟩
    · show "file:///" ++ _ = "file://" ++ "/" ++ _
      rfl
    · show "file:///" ++ _ = "file://" ++ "/" ++ _
      rfl
  · intro svc total deckInfo pageId page st st' infoDeck infoDeck' h
    rcases pageBody_canvas h with ⟨v, b, width, height, -, -, hb, -, hfiles⟩
    rcases pageBody_desc h with ⟨b', hb', hd⟩
    rw [hb] at hb'
    injection hb' with hb'
    subst hb'
    rw [hfiles]
    refine ⟨svc.filepathJoin svc.results (pageFileName svc deckInfo.DeckID pageId page.length),
      _, b, List.getLast?_concat _, hb, ?_, ?_⟩
    · rw [hd]
      rfl
    · rw [hd]
      rfl
  · intro svc gameID collectionID deckID backside file h
    rcases prepareBacksideImage_ok h with ⟨_, _, _, _, _, _, _, _, hfile⟩
    rw [hfile]

/-- Counterexample to C11 as stated: for the first page of the sample deck the stored URLs
are not `file://` followed by the absolute paths `/home/data/result/...`; a fourth slash
stands in between. -/
theorem preparePageInfo_urls_counterexample :
    ∃ infoPage infoDeck',
      preparePageInfo (sampleServices (fun _ => 1)) 0
        [sampleCard "core" 1, sampleCard "core" 2, sampleCard "core" 3] (sampleCard "core" 1)
        sampleDeck { backside := some ⟨sampleImage 7, "backside_loot_6794e7.png"⟩ }
        = .ok (infoPage, infoDeck') ∧
      (sampleServices (fun _ => 1)).pathToAbsolutePath
          ((sampleServices (fun _ => 1)).filepathJoin (sampleServices (fun _ => 1)).results
            infoPage.info.Name) = "/home/data/result/loot_1_3_2x2.png" ∧
      infoDeck'.deckDesc.FaceURL = "file:////home/data/result/loot_1_3_2x2.png" ∧
      infoDeck'.deckDesc.FaceURL ≠ "file://" ++ "/home/data/result/loot_1_3_2x2.png" ∧
      infoDeck'.deckDesc.BackURL = "file:////home/data/result/backside_loot_6794e7.png" ∧
      infoDeck'.deckDesc.BackURL ≠ "file://" ++ "/home/data/result/backside_loot_6794e7.png" :=
  ⟨_, _, rfl, by decide, by decide, by decide, by decide, by decide⟩

/-- Witness of C11 (amended): the first page of the sample deck. -/
theorem preparePageInfo_urls_witness :
    ∃ infoPage infoDeck',
      preparePageInfo (sampleServices (fun _ => 1)) 0
        [sampleCard "core" 1, sampleCard "core" 2, sampleCard "core" 3] (sampleCard "core" 1)
        sampleDeck { backside := some ⟨sampleImage 7, "backside_loot_6794e7.png"⟩ }
        = .ok (infoPage, infoDeck') ∧
      ∃ backside,
        some (BackSideInformation.mk (sampleImage 7) "backside_loot_6794e7.png") = some backside ∧
        infoDeck'.deckDesc.FaceURL =
          "file:///" ++ (sampleServices (fun _ => 1)).pathToAbsolutePath
            ((sampleServices (fun _ => 1)).filepathJoin (sampleServices (fun _ => 1)).results
              infoPage.info.Name) ∧
        infoDeck'.deckDesc.BackURL =
          "file:///" ++ (sampleServices (fun _ => 1)).pathToAbsolutePath
            ((sampleServices (fun _ => 1)).filepathJoin (sampleServices (fun _ => 1)).results
              backside.imageName) ∧
        infoDeck'.deckDesc.FaceURL = "file://" ++ "/"
          ++ (sampleServices (fun _ => 1)).pathToAbsolutePath
            ((sampleServices (fun _ => 1)).filepathJoin (sampleServices (fun _ => 1)).results
              infoPage.info.Name) ∧
        infoDeck'.deckDesc.BackURL = "file://" ++ "/"
          ++ (sampleServices (fun _ => 1)).pathToAbsolutePath
            ((sampleServices (fun _ => 1)).filepathJoin (sampleServices (fun _ => 1)).results
              backside.imageName) :=
  ⟨_, _, rfl, preparePageInfo_urls.1 (sampleServices (fun _ => 1)) 0
    [sampleCard "core" 1, sampleCard "core" 2, sampleCard "core" 3] (sampleCard "core" 1)
    sampleDeck { backside := some ⟨sampleImage 7, "backside_loot_6794e7.png"⟩ } _ _ rfl⟩

/-! ## Theorems: the grid sizer -/

theorem mem_gridWidths (c : Int) : c ∈ gridWidths ↔ MinWidth ≤ c ∧ c ≤ MaxWidth := by
  have h9 : (MaxWidth - MinWidth + 1).toNat = 9 := by decide
  have h2 : MinWidth = 2 := rfl
  have h10 : MaxWidth = 10 := rfl
  unfold gridWidths
  rw [h9, h2, h10, List.mem_map]
  constructor
  · rintro ⟨i, hi, rfl⟩
    rw [List.mem_range] at hi
    omega
  · intro h
    refine ⟨(c - 2).toNat, ?_, ?_⟩
    · rw [List.mem_range]
      omega
    · omega

theorem mem_gridHeights (r : Int) : r ∈ gridHeights ↔ MinHeight ≤ r ∧ r ≤ MaxHeight := by
  have h6 : (MaxHeight - MinHeight + 1).toNat = 6 := by decide
  have h2 : MinHeight = 2 := rfl
  have h7 : MaxHeight = 7 := rfl
  unfold gridHeights
  rw [h6, h2, h7, List.mem_map]
  constructor
  · rintro ⟨i, hi, rfl⟩
    rw [List.mem_range] at hi
    omega
  · intro h
    refine ⟨(r - 2).toNat, ?_, ?_⟩
    · rw [List.mem_range]
      omega
    · omega

theorem mem_gridShapes (p : Int × Int) :
    p ∈ gridShapes ↔
      (MinWidth ≤ p.1 ∧ p.1 ≤ MaxWidth) ∧ (MinHeight ≤ p.2 ∧ p.2 ≤ MaxHeight) := by
  unfold gridShapes
  rw [List.mem_flatMap]
  constructor
  · rintro ⟨c, hc, hp⟩
    rw [List.mem_map] at hp
    rcases hp with ⟨r, hr, rfl⟩
    exact ⟨(mem_gridWidths c).1 hc, (mem_gridHeights r).1 hr⟩
  · rintro ⟨hc, hr⟩
    exact ⟨p.1, (mem_gridWidths _).2 hc, List.mem_map.2 ⟨p.2, (mem_gridHeights _).2 hr, rfl⟩⟩

/-- The policy order is irreflexive. -/
theorem gridPreferred_irrefl (n : Int) (a : Int × Int) : gridPreferred n a a = false := by
  simp [gridPreferred]

/-- The policy order is transitive. -/
theorem gridPreferred_trans {n : Int} {a b c : Int × Int}
    (hab : gridPreferred n a b = true) (hbc : gridPreferred n b c = true) :
    gridPreferred n a c = true := by
  simp only [gridPreferred, Bool.or_eq_true, Bool.and_eq_true, decide_eq_true_eq] at *
  generalize gridWaste n a = wa at *
  generalize gridWaste n b = wb at *
  generalize gridWaste n c = wc at *
  generalize (a.1 - a.2).natAbs = da at *
  generalize (b.1 - b.2).natAbs = db at *
  generalize (c.1 - c.2).natAbs = dc at *
  omega

/-- The policy order compares keys: what is preferred to `c` is preferred to `b`, or `b`
is preferred to `c`. -/
theorem gridPreferred_cotrans {n : Int} {a c : Int × Int} (b : Int × Int)
    (hac : gridPreferred n a c = true) :
    gridPreferred n a b = true ∨ gridPreferred n b c = true := by
  simp only [gridPreferred, Bool.or_eq_true, Bool.and_eq_true, decide_eq_true_eq] at *
  generalize gridWaste n a = wa at *
  generalize gridWaste n b = wb at *
  generalize gridWaste n c = wc at *
  generalize (a.1 - a.2).natAbs = da at *
  generalize (b.1 - b.2).natAbs = db at *
  generalize (c.1 - c.2).natAbs = dc at *
  omega

/-- A shape the policy prefers wastes no more cells. -/
theorem gridPreferred_waste {n : Int} {a b : Int × Int}
    (h : gridPreferred n a b = false) : gridWaste n b ≤ gridWaste n a := by
  by_contra hlt
  have : gridPreferred n a b = true := by
    simp only [gridPreferred, Bool.or_eq_true, Bool.and_eq_true, decide_eq_true_eq]
    left
    omega
  rw [h] at this
  cases this

/-- The fold of the grid sizer ends on a shape of the list that no shape of the list is
preferred to. -/
theorem gridFold_best (n : Int) (rest : List (Int × Int)) (p : Int × Int) :
    rest.foldl (fun best q => if gridPreferred n q best then q else best) p ∈ p :: rest ∧
    ∀ q ∈ p :: rest, gridPreferred n q
      (rest.foldl (fun best q => if gridPreferred n q best then q else best) p) = false := by
  induction rest generalizing p with
  | nil =>
    refine ⟨List.mem_singleton.2 rfl, ?_⟩
    intro q hq
    rw [List.mem_singleton] at hq
    subst hq
    exact gridPreferred_irrefl n q
  | cons x rest ih =>
    rw [List.foldl_cons]
    by_cases hx : gridPreferred n x p = true
    · rw [if_pos hx]
      rcases ih x with ⟨hmem, hbest⟩
      refine ⟨List.mem_cons_of_mem _ hmem, ?_⟩
      intro q hq
      rcases List.mem_cons.1 hq with rfl | hq
      · cases hq : gridPreferred n q
          (rest.foldl (fun best q => if gridPreferred n q best then q else best) x) with
        | false => rfl
        | true =>
          have h1 := gridPreferred_trans hx hq
          rw [hbest x (List.mem_cons_self _ _)] at h1
          cases h1
      · exact hbest q hq
    · rw [if_neg hx]
      rcases ih p with ⟨hmem, hbest⟩
      refine ⟨?_, ?_⟩
      · rcases List.mem_cons.1 hmem with h | h
        · rw [h]
          exact List.mem_cons_self _ _
        · exact List.mem_cons_of_mem _ (List.mem_cons_of_mem _ h)
      · intro q hq
        rcases List.mem_cons.1 hq with rfl | hq
        · exact hbest q (List.mem_cons_self _ _)
        · rcases List.mem_cons.1 hq with rfl | hq
          · cases hq : gridPreferred n q
              (rest.foldl (fun best q => if gridPreferred n q best then q else best) p) with
            | false => rfl
            | true =>
              rcases gridPreferred_cotrans p hq with h1 | h1
              · exact absurd h1 hx
              · rw [hbest p (List.mem_cons_self _ _)] at h1
                cases h1
          · exact hbest q (List.mem_cons_of_mem _ hq)

set_option maxRecDepth 100000 in
/-- Values of the grid sizer: a single card and the backside take the minimum grid, five
items take two columns of three rows, seven items two columns of four rows, a full page takes the maximum grid, and one item
more than the maximum grid holds is refused. -/
theorem CalculateGridSize_values :
    utils.CalculateGridSize 2 = some (2, 2) ∧ utils.CalculateGridSize 5 = some (2, 3) ∧
    utils.CalculateGridSize 7 = some (2, 4) ∧ utils.CalculateGridSize 70 = some (10, 7) ∧
    utils.CalculateGridSize 71 = none :=
  ⟨rfl, rfl, rfl, rfl, rfl⟩

/-- C18: for every `n` with `1 ≤ n ≤ MaxWidth * MaxHeight` the grid sizer returns a shape
`(c, r)` with `c * r ≥ n` within the configured bounds, and no shape within the bounds
holding `n` items wastes strictly fewer cells (nor is preferred by the policy);
`preparePageInfo` calls the sizer with the number of cards of the page plus one, which for
a page of at most `MaxCount` cards lies in that range. -/
theorem CalculateGridSize_least_waste :
    (∀ n : Int, 1 ≤ n → n ≤ MaxWidth * MaxHeight →
      ∃ c r, utils.CalculateGridSize n = some (c, r) ∧ n ≤ c * r ∧
        MinWidth ≤ c ∧ c ≤ MaxWidth ∧ MinHeight ≤ r ∧ r ≤ MaxHeight ∧
        ∀ c' r' : Int, MinWidth ≤ c' → c' ≤ MaxWidth → MinHeight ≤ r' → r' ≤ MaxHeight →
          n ≤ c' * r' →
          ¬ (c' * r' - n < c * r - n) ∧ gridPreferred n (c', r') (c, r) = false) ∧
    (∀ (svc : Services) (pageId : Nat) (page : CardPage) (card : CardDescription)
        (deckInfo : DeckType) (infoDeck infoDeck' : DeckInformation) (infoPage : PageInformation),
      preparePageInfo svc pageId page card deckInfo infoDeck = .ok (infoPage, infoDeck') →
      (infoPage.info.Columns, infoPage.info.Rows) =
        svc.calculateGridSize ((page.length : Int) + 1)) ∧
    (∀ page : CardPage, (page.length : Int) ≤ MaxCount →
      1 ≤ (page.length : Int) + 1 ∧ (page.length : Int) + 1 ≤ MaxWidth * MaxHeight) := by
  refine ⟨?_, ?_, ?_⟩
  · intro n _ hn
    have hmax : ((MaxWidth, MaxHeight) : Int × Int) ∈
        gridShapes.filter (fun p => decide (n ≤ p.1 * p.2)) := by
      rw [List.mem_filter]
      exact ⟨by decide, by simpa using hn⟩
    unfold utils.CalculateGridSize
    cases hl : gridShapes.filter (fun p => decide (n ≤ p.1 * p.2)) with
    | nil =>
      rw [hl] at hmax
      cases hmax
    | cons p rest =>
      rcases gridFold_best n rest p with ⟨hmem, hbest⟩
      dsimp only
      generalize rest.foldl (fun best q => if gridPreferred n q best then q else best) p = m
        at hmem hbest ⊢
      rw [← hl, List.mem_filter] at hmem
      rcases hmem with ⟨hshape, hfit⟩
      rw [mem_gridShapes] at hshape
      refine ⟨m.1, m.2, rfl, by simpa using hfit, hshape.1.1, hshape.1.2, hshape.2.1,
        hshape.2.2, ?_⟩
      intro c' r' hc1 hc2 hr1 hr2 hfit'
      have hq : ((c', r') : Int × Int) ∈ p :: rest := by
        rw [← hl, List.mem_filter]
        exact ⟨(mem_gridShapes _).2 ⟨⟨hc1, hc2⟩, ⟨hr1, hr2⟩⟩, by simpa using hfit'⟩
      have hb := hbest _ hq
      refine ⟨?_, hb⟩
      have := gridPreferred_waste hb
      unfold gridWaste at this
      exact not_lt.2 this
  · intro svc pageId page card deckInfo infoDeck infoDeck' infoPage h
    rcases preparePageInfo_ok h with ⟨b, _, _, _, _, _, _, _, hip⟩
    rw [hip]
  · intro page h
    have : MaxCount = 69 := rfl
    have h2 : MaxWidth * MaxHeight = 70 := rfl
    omega

/-- Witness of C18: four items (three cards and the backside). -/
theorem CalculateGridSize_least_waste_witness :
    ∃ c r, utils.CalculateGridSize 4 = some (c, r) ∧ (4 : Int) ≤ c * r ∧
      MinWidth ≤ c ∧ c ≤ MaxWidth ∧ MinHeight ≤ r ∧ r ≤ MaxHeight ∧
      ∀ c' r' : Int, MinWidth ≤ c' → c' ≤ MaxWidth → MinHeight ≤ r' → r' ≤ MaxHeight →
        4 ≤ c' * r' →
        ¬ (c' * r' - 4 < c * r - 4) ∧ gridPreferred 4 (c', r') (c, r) = false :=
  CalculateGridSize_least_waste.1 4 (by decide) (by decide)

/-! ## The worlds a run passes through -/

theorem Continues.refl (w : World) : Continues w w :=
  ⟨rfl, rfl, Or.inl rfl, [], (List.append_nil _).symm, fun _ h => by cases h⟩

theorem Continues.trans {w1 w2 w3 : World} (h12 : Continues w1 w2) (h23 : Continues w2 w3) :
    Continues w1 w3 := by
  rcases h12 with ⟨hp1, hs1, hm1, a1, hf1, ha1⟩
  rcases h23 with ⟨hp2, hs2, hm2, a2, hf2, ha2⟩
  refine ⟨hp2.trans hp1, hs2.trans hs1, ?_, a1 ++ a2, ?_, ?_⟩
  · rcases hm2 with h | h
    · rw [h]
      exact hm1
    · exact Or.inr h
  · rw [hf2, hf1, List.append_assoc]
  · intro f hf
    rcases List.mem_append.1 hf with h | h
    · exact ha1 f h
    · exact ha2 f h

theorem Continues.message (w : World) {m : String} (hm : m ∈ runMessages) :
    Continues w { w with pr := { w.pr with message := m } } :=
  ⟨rfl, rfl, Or.inr hm, [], (List.append_nil _).symm, fun _ h => by cases h⟩

theorem Continues.percent (w : World) (p : Percent) :
    Continues w { w with pr := { w.pr with percent := p } } :=
  ⟨rfl, rfl, Or.inl rfl, [], (List.append_nil _).symm, fun _ h => by cases h⟩

theorem Continues.image (w : World) (path : String) (c : Canvas) :
    Continues w (w.addFile path (.image c)) :=
  ⟨rfl, rfl, Or.inl rfl, [(path, .image c)], rfl, fun f h => by
    rw [List.mem_singleton] at h
    subst h
    exact Or.inl ⟨c, rfl⟩⟩

theorem Continues.binary (w : World) (path : String) (b : Bytes) :
    Continues w (w.addFile path (.binary b)) :=
  ⟨rfl, rfl, Or.inl rfl, [(path, .binary b)], rfl, fun f h => by
    rw [List.mem_singleton] at h
    subst h
    exact Or.inr ⟨b, rfl⟩⟩

/-- Whether it succeeds or fails, the backside step leaves a world that continues the one
it found. -/
theorem stepBackside_continues (svc : Services) (deckInfo : DeckType) (card : CardDescription)
    (st : GenState) (infoDeck : DeckInformation) :
    Continues st.world
      (worldOf (fun r => r.1.world) (stepBackside svc deckInfo card st infoDeck)) := by
  unfold stepBackside
  split
  · exact Continues.refl _
  · split
    · exact Continues.refl _
    · split
      · exact Continues.refl _
      · next backside file hprep =>
        rcases prepareBacksideImage_ok hprep with ⟨_, bin, _, _, _, _, _, _, hfile⟩
        rw [hfile]
        exact Continues.binary _ _ _

/-- Whether it succeeds or fails, the page information step leaves the world as it was. -/
theorem stepPageInfo_world (svc : Services) (deckInfo : DeckType) (pageId : Nat)
    (page : CardPage) (card : CardDescription) (v : PageVars) :
    worldOf (fun r => r.1.st.world) (stepPageInfo svc deckInfo pageId page card v) =
      v.st.world := by
  unfold stepPageInfo
  split
  · rfl
  · split <;> rfl

/-- Whether it succeeds or fails, the boundary step leaves the world as it was. -/
theorem stepBoundary_world (deckInfo : DeckType) (pageId : Nat) (card : CardDescription)
    (st : GenState) (infoDeck : DeckInformation) :
    worldOf (fun r => r.1.world) (stepBoundary deckInfo pageId card st infoDeck) = st.world := by
  unfold stepBoundary
  split
  · split <;> rfl
  · rfl

/-- Whether it succeeds or fails, the body of the card loop leaves a world that continues
the one it found. -/
theorem cardBody_continues (svc : Services) (total : Int) (deckInfo : DeckType) (pageId : Nat)
    (page : CardPage) (cardId : Nat) (card : CardDescription) (v : PageVars) :
    Continues v.st.world
      (worldOf (fun r => r.st.world) (cardBody svc total deckInfo pageId page cardId card v)) := by
  have h1 := stepBackside_continues svc deckInfo card v.st v.infoDeck
  unfold cardBody
  split
  · next e he =>
    rw [he] at h1
    exact h1
  · next st1 id1 he1 =>
    rw [he1] at h1
    have h2 := stepPageInfo_world svc deckInfo pageId page card ⟨st1, id1, v.infoPage⟩
    split
    · next e he =>
      rw [he] at h2
      obtain ⟨e1, w1⟩ := e
      have h2 : w1 = st1.world := h2
      subst h2
      exact h1
    · next v2 ip2 he2 =>
      rw [he2] at h2
      have h2 : v2.st.world = st1.world := h2
      split
      · show Continues v.st.world v2.st.world
        rw [h2]
        exact h1
      · have h4 := stepBoundary_world deckInfo pageId card v2.st v2.infoDeck
        split
        · next e he =>
          rw [he] at h4
          obtain ⟨e1, w1⟩ := e
          have h4 : w1 = v2.st.world := h4
          subst h4
          rw [h2]
          exact h1
        · next st4 id4 he4 =>
          rw [he4] at h4
          have h4 : st4.world = v2.st.world := h4
          split
          · show Continues v.st.world st4.world
            rw [h4, h2]
            exact h1
          · refine Continues.trans h1 ?_
            show Continues st1.world _
            rw [← h2, ← h4]
            exact Continues.percent _ _

theorem cardLoop_continues (svc : Services) (total : Int) (deckInfo : DeckType) (pageId : Nat)
    (page : CardPage) (cards : List CardDescription) :
    ∀ (cardId : Nat) (v : PageVars),
      Continues v.st.world
        (worldOf (fun r => r.st.world) (cardLoop svc total deckInfo pageId page cardId cards v)) := by
  induction cards with
  | nil =>
    intro cardId v
    exact Continues.refl _
  | cons card rest ih =>
    intro cardId v
    have h1 := cardBody_continues svc total deckInfo pageId page cardId card v
    unfold cardLoop
    split
    · next e he =>
      rw [he] at h1
      exact h1
    · next v' he =>
      rw [he] at h1
      exact Continues.trans h1 (ih (cardId + 1) v')

theorem pageBody_continues (svc : Services) (total : Int) (deckInfo : DeckType) (pageId : Nat)
    (page : CardPage) (st : GenState) (infoDeck : DeckInformation) :
    Continues st.world
      (worldOf (fun r => r.1.world) (pageBody svc total deckInfo pageId page st infoDeck)) := by
  have h0 : Continues st.world (st.setMessage "Drawing cards on the resulting page...").world :=
    Continues.message _ (by decide)
  have h1 := cardLoop_continues svc total deckInfo pageId page page 0
    ⟨st.setMessage "Drawing cards on the resulting page...", infoDeck, none⟩
  unfold pageBody
  split
  · next e he =>
    rw [he] at h1
    exact Continues.trans h0 h1
  · next v he =>
    rw [he] at h1
    have h2 : Continues st.world
        (v.st.setMessage "Drawing backside image on the resulting page...").world :=
      Continues.trans h0 (Continues.trans h1 (Continues.message _ (by decide)))
    have h3 : Continues st.world
        ((v.st.setMessage "Drawing backside image on the resulting page...").setMessage
          "Saving the resulting page to disk...").world :=
      Continues.trans h2 (Continues.message _ (by decide))
    dsimp only
    split
    · split
      · exact h3
      · exact Continues.trans h3 (Continues.image _ _ _)
    · exact h2

theorem pageLoop_continues (svc : Services) (total : Int) (deckInfo : DeckType)
    (pages : List CardPage) :
    ∀ (pageId : Nat) (st : GenState) (infoDeck : DeckInformation),
      Continues st.world
        (worldOf (fun r => r.1.world) (pageLoop svc total deckInfo pageId pages st infoDeck)) := by
  induction pages with
  | nil =>
    intro pageId st infoDeck
    exact Continues.refl _
  | cons page rest ih =>
    intro pageId st infoDeck
    have h1 := pageBody_continues svc total deckInfo pageId page st infoDeck
    unfold pageLoop
    split
    · next e he =>
      rw [he] at h1
      exact h1
    · next st' infoDeck' he =>
      rw [he] at h1
      exact Continues.trans h1 (ih (pageId + 1) st' infoDeck')

theorem groupBody_continues (svc : Services) (total : Int) (group : DeckType × DeckPages)
    (st : GenState) :
    Continues st.world (worldOf (fun r => r.world) (groupBody svc total group st)) := by
  have h1 := pageLoop_continues svc total group.1 group.2.Pages 0 st {}
  unfold groupBody
  split
  · exact Continues.refl _
  · split
    · next e he =>
      rw [he] at h1
      exact h1
    · next st' infoDeck' he =>
      rw [he] at h1
      show Continues st.world (flushGroup st').world
      rw [(flushGroup_world st').1]
      exact h1

/-- Whether it succeeds or fails, the loop over the deck groups leaves a world that
continues the one it found: same phase and status, a message of the run, and page images
and backside assets as the only new files. -/
theorem groupLoop_continues (svc : Services) (total : Int) (groups : List (DeckType × DeckPages)) :
    ∀ st : GenState,
      Continues st.world (worldOf (fun r => r.world) (groupLoop svc total groups st)) := by
  induction groups with
  | nil =>
    intro st
    exact Continues.refl _
  | cons group rest ih =>
    intro st
    have h1 := groupBody_continues svc total group st
    unfold groupLoop
    split
    · next e he =>
      rw [he] at h1
      exact h1
    · next st' he =>
      rw [he] at h1
      exact Continues.trans h1 (ih st')

/-- The state in which `generateBody` enters the loop continues the world it was called on. -/
theorem initialState_continues (gameItem : GameInfo) (w : World) :
    Continues w (initialState gameItem w).world :=
  ⟨rfl, rfl, Or.inr (List.mem_cons_self _ _), [], (List.append_nil _).symm,
    fun _ h => by cases h⟩

/-- When `generateBody` returns an error or panics, the world continues the one it was
called on, and the message is one of the run. -/
theorem generateBody_failure {svc : Services} {gameItem : GameInfo} {deckArray : DeckArray}
    {total : Int} {w w' : World} {e : Failure}
    (h : generateBody svc gameItem deckArray total w = (some e, w')) :
    Continues w w' ∧ w'.pr.message ∈ runMessages := by
  have h0 := initialState_continues gameItem w
  have hm0 : (initialState gameItem w).world.pr.message ∈ runMessages :=
    List.mem_cons_self _ _
  have h1 := groupLoop_continues svc total deckArray.Decks (initialState gameItem w)
  have key : ∀ w2, Continues (initialState gameItem w).world w2 →
      Continues w w2 ∧ w2.pr.message ∈ runMessages := by
    intro w2 h2
    refine ⟨Continues.trans h0 h2, ?_⟩
    rcases h2.2.2.1 with hm | hm
    · rw [hm]
      exact hm0
    · exact hm
  unfold generateBody at h
  split at h
  · next e1 w1 he =>
    rw [he] at h1
    injection h with _ hw
    subst hw
    exact key _ h1
  · next st he =>
    rw [he] at h1
    dsimp only at h
    split at h
    · injection h with _ hw
      subst hw
      exact key _ h1
    · injection h with h _
      cases h

/-! ## Theorems: the synchronous setup of `GenerateGame` -/

theorem Continues.files_mem {w w' : World} (h : Continues w w') {f : String × FileContent}
    (hf : f ∈ w.files) : f ∈ w'.files := by
  rcases h with ⟨_, _, _, added, hfiles, _⟩
  rw [hfiles]
  exact List.mem_append_left _ hf

/-- When `GenerateGame` has started its task, it returned no error and left the progress
reporter in the phase `Image generation` with status `InProgress`. -/
theorem GenerateGame_started {svc : Services} {agg : Aggregator DeckArray} {gameID : String}
    {dtoObject : Option GenerateGameDTO} {w w0 : World} {err : Option Failure}
    {task : BackgroundTask}
    (h : GenerateGame svc agg gameID dtoObject w = ⟨err, w0, some task⟩) :
    err = none ∧
    w0 = { w with pr := { w.pr with phase := "Image generation", status := Status.InProgress } } := by
  unfold GenerateGame at h
  split at h
  · cases h
  · split at h
    · cases h
    · split at h
      · cases h
      · dsimp only at h
        split at h
        · cases h
        · split at h
          · cases h
          · injection h with h1 h2 _
            exact ⟨h1.symm, h2.symm⟩

/-- After a successful loop over the deck groups the image of every page of every group
is among the files written. -/
theorem groupLoop_pages_written {svc : Services} {total : Int}
    {groups : List (DeckType × DeckPages)} {st st' : GenState}
    (h : groupLoop svc total groups st = .ok st') :
    ∀ group ∈ groups, ∀ (pageId : Nat) (page : CardPage),
      group.2.Pages.get? pageId = some page →
      ∃ canvas, (svc.filepathJoin svc.results
          (pageFileName svc group.1.DeckID pageId page.length), FileContent.image canvas)
        ∈ st'.world.files := by
  intro group hgroup pageId page hget
  rcases List.append_of_mem hgroup with ⟨pre, post, rfl⟩
  rcases groupLoop_snoc h with ⟨st1, st2, -, hbody, -, hpost⟩
  have hmono := groupLoop_continues svc total post st2
  rw [hpost] at hmono
  rcases groupBody_ok hbody with ⟨hnil, -⟩ | ⟨-, s, d, hloop, rfl⟩
  · rw [hnil] at hget
    cases hget
  · have key := pageLoop_inv
      (fun i a _ => ∀ j, j < i → ∀ p, group.2.Pages.get? j = some p →
        ∃ canvas, (svc.filepathJoin svc.results
            (pageFileName svc group.1.DeckID j p.length), FileContent.image canvas)
          ∈ a.world.files)
      group.2.Pages 0 st1 s {} d hloop (fun j hj => absurd hj (Nat.not_lt_zero _)) ?_
    · have hlt : pageId < 0 + group.2.Pages.length := by
        rw [Nat.zero_add]
        exact (List.get?_eq_some.1 hget).1
      rcases key pageId hlt page hget with ⟨canvas, hmem⟩
      refine ⟨canvas, Continues.files_mem hmono ?_⟩
      show _ ∈ (flushGroup s).world.files
      rw [(flushGroup_world s).1]
      exact hmem
    · intro i p a a' x x' hp ha hpage j hj q hq
      rw [Nat.zero_add] at hpage hj ha
      have hcont := pageBody_continues svc total group.1 i p a x
      rw [hpage] at hcont
      rcases Nat.lt_succ_iff_lt_or_eq.1 hj with hlt | heq
      · rcases ha j hlt q hq with ⟨canvas, hmem⟩
        exact ⟨canvas, Continues.files_mem hcont hmem⟩
      · subst heq
        rw [hp] at hq
        injection hq with hq
        subst hq
        rcases pageBody_canvas hpage with ⟨v, b, width, height, -, -, -, -, hfiles⟩
        rw [hfiles]
        exact ⟨_, List.mem_append_right _ (List.mem_singleton.2 rfl)⟩

/-- C13: the task started by `GenerateGame` leaves the status `Done` exactly when
`generateBody` returns no error; and then the loop over the groups had succeeded, the
image of every page had been written, the write of the root document `{gameID}.json`
succeeded, and that document is the last file written. -/
theorem done_only_after_root_document (svc : Services) (agg : Aggregator DeckArray)
    (gameID : String) (dtoObject : Option GenerateGameDTO) (w w0 : World)
    (err : Option Failure) (task : BackgroundTask)
    (hstart : GenerateGame svc agg gameID dtoObject w = ⟨err, w0, some task⟩) :
    ((generateTask svc task w0).world.pr.status = Status.Done ↔
      (generateBody svc task.gameItem task.deckArray task.totalCountOfCards w0).1 = none) ∧
    ((generateTask svc task w0).world.pr.status = Status.Done →
      ∃ st,
        groupLoop svc task.totalCountOfCards task.deckArray.Decks
          (initialState task.gameItem w0) = .ok st ∧
        svc.createAndProcess (svc.filepathJoin svc.results (task.gameItem.ID ++ ".json"))
          (.json { ObjectStates := [finalBag svc st] }) = none ∧
        (generateTask svc task w0).world.files = st.world.files ++
          [(svc.filepathJoin svc.results (task.gameItem.ID ++ ".json"),
            .json { ObjectStates := [finalBag svc st] })] ∧
        ∀ group ∈ task.deckArray.Decks, ∀ (pageId : Nat) (page : CardPage),
          group.2.Pages.get? pageId = some page →
          ∃ canvas, (svc.filepathJoin svc.results
              (pageFileName svc group.1.DeckID pageId page.length), FileContent.image canvas)
            ∈ st.world.files) := by
  have hw0 : w0.pr.status = Status.InProgress := by
    rw [(GenerateGame_started hstart).2]
  have hiff : (generateTask svc task w0).world.pr.status = Status.Done ↔
      (generateBody svc task.gameItem task.deckArray task.totalCountOfCards w0).1 = none := by
    unfold generateTask
    rcases hres : generateBody svc task.gameItem task.deckArray task.totalCountOfCards w0
      with ⟨_ | e, w'⟩
    · exact ⟨fun _ => rfl, fun _ => rfl⟩
    · have hst : w'.pr.status = Status.InProgress := by
        rw [(generateBody_failure hres).1.2.1, hw0]
      cases e with
      | error msg =>
        constructor
        · intro h
          cases h
        · intro h
          cases h
      | panic msg =>
        constructor
        · intro h
          have h : w'.pr.status = Status.Done := h
          rw [hst] at h
          cases h
        · intro h
          cases h
  refine ⟨hiff, ?_⟩
  intro hdone
  have hnone := hiff.1 hdone
  have hres : generateBody svc task.gameItem task.deckArray task.totalCountOfCards w0 =
      (none, (generateBody svc task.gameItem task.deckArray task.totalCountOfCards w0).2) :=
    Prod.ext hnone rfl
  rcases generateBody_ok hres with ⟨st, hloop, hwrite, hfiles, -⟩
  refine ⟨st, hloop, hwrite, ?_, groupLoop_pages_written hloop⟩
  unfold generateTask
  rw [hres]
  exact hfiles

/-- Witness of C13: the run of the sample game, which ends with status `Done`. -/
theorem done_only_after_root_document_witness :
    (generateTask (sampleServices sampleCount) sampleTask startedWorld).world.pr.status
      = Status.Done ∧
    (((generateTask (sampleServices sampleCount) sampleTask startedWorld).world.pr.status
        = Status.Done ↔
      (generateBody (sampleServices sampleCount) sampleTask.gameItem sampleTask.deckArray
        sampleTask.totalCountOfCards startedWorld).1 = none) ∧
    ((generateTask (sampleServices sampleCount) sampleTask startedWorld).world.pr.status
        = Status.Done →
      ∃ st,
        groupLoop (sampleServices sampleCount) sampleTask.totalCountOfCards
          sampleTask.deckArray.Decks (initialState sampleTask.gameItem startedWorld) = .ok st ∧
        (sampleServices sampleCount).createAndProcess
          ((sampleServices sampleCount).filepathJoin (sampleServices sampleCount).results
            (sampleTask.gameItem.ID ++ ".json"))
          (.json { ObjectStates := [finalBag (sampleServices sampleCount) st] }) = none ∧
        (generateTask (sampleServices sampleCount) sampleTask startedWorld).world.files =
          st.world.files ++
          [((sampleServices sampleCount).filepathJoin (sampleServices sampleCount).results
              (sampleTask.gameItem.ID ++ ".json"),
            .json { ObjectStates := [finalBag (sampleServices sampleCount) st] })] ∧
        ∀ group ∈ sampleTask.deckArray.Decks, ∀ (pageId : Nat) (page : CardPage),
          group.2.Pages.get? pageId = some page →
          ∃ canvas, ((sampleServices sampleCount).filepathJoin
              (sampleServices sampleCount).results
              (pageFileName (sampleServices sampleCount) group.1.DeckID pageId page.length),
              FileContent.image canvas)
            ∈ st.world.files)) :=
  ⟨by decide,
   done_only_after_root_document (sampleServices sampleCount) (fixedAggregator sampleDeckArray)
    "base" (some ⟨"name"⟩) {} startedWorld none sampleTask rfl⟩

/-- C14 (amended): an error returned by `generateBody` in the background task is not
returned to the caller of `GenerateGame`, which has returned no error before the task ran;
the task sets the status of the progress reporter to `Error`, leaves its message at the
progress message of the run that was current when the failure occurred, keeps phase and
files as `generateBody` left them, and writes the error text to the error log after the
word `Generator:`. -/
theorem task_failure_reported (svc : Services) (agg : Aggregator DeckArray)
    (gameID : String) (dtoObject : Option GenerateGameDTO) (w w0 w' : World)
    (err : Option Failure) (task : BackgroundTask) (msg : String)
    (hstart : GenerateGame svc agg gameID dtoObject w = ⟨err, w0, some task⟩)
    (hfail : generateBody svc task.gameItem task.deckArray task.totalCountOfCards w0 =
      (some (Failure.error msg), w')) :
    (GenerateGame svc agg gameID dtoObject w).err = none ∧
    (generateTask svc task w0).world.pr.status = Status.Error ∧
    (generateTask svc task w0).world.pr.message = w'.pr.message ∧
    w'.pr.message ∈ runMessages ∧
    (generateTask svc task w0).world.pr.phase = "Image generation" ∧
    (generateTask svc task w0).world.files = w'.files ∧
    (generateTask svc task w0).log = ["Generator: " ++ msg] ∧
    (generateTask svc task w0).crash = none := by
  rcases GenerateGame_started hstart with ⟨herr, hw0⟩
  rcases generateBody_failure hfail with ⟨hcont, hmsg⟩
  refine ⟨?_, ?_, ?_, hmsg, ?_, ?_, ?_, ?_⟩
  · rw [hstart]
    exact herr
  all_goals unfold generateTask
  all_goals rw [hfail]
  · show w'.pr.phase = "Image generation"
    rw [hcont.1, hw0]

/-- Counterexample to C14 as stated: two runs of the sample game that fail with different
errors leave the same progress reporter, whose message is the progress message
`Drawing cards on the resulting page...`; only the error log tells the failures apart. -/
theorem task_failure_reported_counterexample :
    (generateBody (failingServices "card not found") sampleTask.gameItem sampleTask.deckArray
      sampleTask.totalCountOfCards startedWorld).1 = some (Failure.error "card not found") ∧
    (generateBody (failingServices "disk failure") sampleTask.gameItem sampleTask.deckArray
      sampleTask.totalCountOfCards startedWorld).1 = some (Failure.error "disk failure") ∧
    (generateTask (failingServices "card not found") sampleTask startedWorld).world.pr =
      (generateTask (failingServices "disk failure") sampleTask startedWorld).world.pr ∧
    (generateTask (failingServices "card not found") sampleTask startedWorld).world.pr =
      ⟨"Image generation", Status.Error, "Drawing cards on the resulting page...",
        Percent.zero⟩ ∧
    (generateTask (failingServices "card not found") sampleTask startedWorld).log =
      ["Generator: card not found"] ∧
    (generateTask (failingServices "disk failure") sampleTask startedWorld).log =
      ["Generator: disk failure"] := by
  refine ⟨by decide, by decide, by decide, by decide, by decide, by decide⟩

/-- Witness of C14 (amended): the sample game with a failing card lookup. -/
theorem task_failure_reported_witness :
    (GenerateGame (failingServices "card not found") (fixedAggregator sampleDeckArray) "base"
      (some ⟨"name"⟩) {}).err = none ∧
    (generateTask (failingServices "card not found") sampleTask startedWorld).world.pr.status
      = Status.Error ∧
    (generateTask (failingServices "card not found") sampleTask startedWorld).world.pr.message
      = (generateBody (failingServices "card not found") sampleTask.gameItem
          sampleTask.deckArray sampleTask.totalCountOfCards startedWorld).2.pr.message ∧
    (generateBody (failingServices "card not found") sampleTask.gameItem
      sampleTask.deckArray sampleTask.totalCountOfCards startedWorld).2.pr.message
      ∈ runMessages ∧
    (generateTask (failingServices "card not found") sampleTask startedWorld).world.pr.phase
      = "Image generation" ∧
    (generateTask (failingServices "card not found") sampleTask startedWorld).world.files
      = (generateBody (failingServices "card not found") sampleTask.gameItem
          sampleTask.deckArray sampleTask.totalCountOfCards startedWorld).2.files ∧
    (generateTask (failingServices "card not found") sampleTask startedWorld).log
      = ["Generator: " ++ "card not found"] ∧
    (generateTask (failingServices "card not found") sampleTask startedWorld).crash = none :=
  task_failure_reported (failingServices "card not found") (fixedAggregator sampleDeckArray)
    "base" (some ⟨"name"⟩) {} startedWorld _ none sampleTask "card not found" rfl rfl

/-! ## Theorems: failures of the collaborators -/

theorem cardLoop_append (svc : Services) (total : Int) (deckInfo : DeckType) (pageId : Nat)
    (page : CardPage) (pre post : List CardDescription) :
    ∀ (k : Nat) (v : PageVars),
      cardLoop svc total deckInfo pageId page k (pre ++ post) v =
        match cardLoop svc total deckInfo pageId page k pre v with
        | .error e => .error e
        | .ok u => cardLoop svc total deckInfo pageId page (k + pre.length) post u := by
  induction pre with
  | nil =>
    intro k v
    rfl
  | cons c rest ih =>
    intro k v
    simp only [List.cons_append, cardLoop, List.length_cons]
    cases cardBody svc total deckInfo pageId page k c v with
    | error e => rfl
    | ok u =>
      have hk : k + (rest.length + 1) = k + 1 + rest.length := by omega
      rw [hk]
      exact ih (k + 1) u

theorem pageLoop_append (svc : Services) (total : Int) (deckInfo : DeckType)
    (pre post : List CardPage) :
    ∀ (k : Nat) (st : GenState) (infoDeck : DeckInformation),
      pageLoop svc total deckInfo k (pre ++ post) st infoDeck =
        match pageLoop svc total deckInfo k pre st infoDeck with
        | .error e => .error e
        | .ok r => pageLoop svc total deckInfo (k + pre.length) post r.1 r.2 := by
  induction pre with
  | nil =>
    intro k st infoDeck
    rfl
  | cons p rest ih =>
    intro k st infoDeck
    simp only [List.cons_append, pageLoop, List.length_cons]
    cases pageBody svc total deckInfo k p st infoDeck with
    | error e => rfl
    | ok r =>
      obtain ⟨s, d⟩ := r
      have hk : k + (rest.length + 1) = k + 1 + rest.length := by omega
      rw [hk]
      exact ih (k + 1) s d

/-- A failing card step ends the card loop with its error. -/
theorem cardLoop_fails {svc : Services} {total : Int} {deckInfo : DeckType} {pageId : Nat}
    {page : CardPage} {pre post : List CardDescription} {card : CardDescription} {k : Nat}
    {v u : PageVars} {x : Failure × World}
    (hpre : cardLoop svc total deckInfo pageId page k pre v = .ok u)
    (hcard : cardBody svc total deckInfo pageId page (k + pre.length) card u = .error x) :
    cardLoop svc total deckInfo pageId page k (pre ++ card :: post) v = .error x := by
  rw [cardLoop_append, hpre]
  simp only [cardLoop, hcard]

/-- A failing page step ends the page loop with its error. -/
theorem pageLoop_fails {svc : Services} {total : Int} {deckInfo : DeckType}
    {pre post : List CardPage} {page : CardPage} {k : Nat} {st s : GenState}
    {infoDeck d : DeckInformation} {x : Failure × World}
    (hpre : pageLoop svc total deckInfo k pre st infoDeck = .ok (s, d))
    (hpage : pageBody svc total deckInfo (k + pre.length) page s d = .error x) :
    pageLoop svc total deckInfo k (pre ++ page :: post) st infoDeck = .error x := by
  rw [pageLoop_append, hpre]
  simp only [pageLoop, hpage]

/-- A failing group ends the loop over the groups with its error. -/
theorem groupLoop_fails {svc : Services} {total : Int} {pre post : List (DeckType × DeckPages)}
    {group : DeckType × DeckPages} {st s : GenState} {x : Failure × World}
    (hpre : groupLoop svc total pre st = .ok s)
    (hgroup : groupBody svc total group s = .error x) :
    groupLoop svc total (pre ++ group :: post) st = .error x := by
  rw [groupLoop_append, hpre]
  simp only [groupLoop, hgroup]

/-- A failing page loop fails its group. -/
theorem groupBody_fails {svc : Services} {total : Int} {group : DeckType × DeckPages}
    {st : GenState} {x : Failure × World}
    (hloop : pageLoop svc total group.1 0 group.2.Pages st {} = .error x) :
    groupBody svc total group st = .error x := by
  unfold groupBody
  split
  · rename_i hlen
    rw [List.length_eq_zero.1 hlen] at hloop
    cases hloop
  · rw [hloop]

/-- A failing card loop fails its page. -/
theorem pageBody_fails {svc : Services} {total : Int} {deckInfo : DeckType} {pageId : Nat}
    {page : CardPage} {st : GenState} {infoDeck : DeckInformation} {x : Failure × World}
    (hloop : cardLoop svc total deckInfo pageId page 0 page
      ⟨st.setMessage "Drawing cards on the resulting page...", infoDeck, none⟩ = .error x) :
    pageBody svc total deckInfo pageId page st infoDeck = .error x := by
  unfold pageBody
  rw [hloop]

/-- A failure inside the page at position `ppre.length` of the group at position
`gpre.length` is what `generateBody` returns. -/
theorem generateBody_page_fails {svc : Services} {gameItem : GameInfo} {total : Int} {w : World}
    {gpre gpost : List (DeckType × DeckPages)} {deckInfo : DeckType}
    {ppre ppost : List CardPage} {page : CardPage} {s1 s2 : GenState} {d2 : DeckInformation}
    {e : Failure} {w1 : World}
    (hgroups : groupLoop svc total gpre (initialState gameItem w) = .ok s1)
    (hpages : pageLoop svc total deckInfo 0 ppre s1 {} = .ok (s2, d2))
    (hpage : pageBody svc total deckInfo ppre.length page s2 d2 = .error (e, w1)) :
    generateBody svc gameItem ⟨gpre ++ (deckInfo, ⟨ppre ++ page :: ppost⟩) :: gpost⟩ total w =
      (some e, w1) := by
  have h1 : pageLoop svc total deckInfo 0 (ppre ++ page :: ppost) s1 {} = .error (e, w1) :=
    pageLoop_fails hpages (by rw [Nat.zero_add]; exact hpage)
  have h2 : groupBody svc total (deckInfo, ⟨ppre ++ page :: ppost⟩) s1 = .error (e, w1) :=
    groupBody_fails h1
  have h3 := @groupLoop_fails svc total gpre gpost _ _ _ _ hgroups h2
  unfold generateBody
  simp only [h3]

/-- C15: `generateBody` returns the failure of a collaborator as soon as it occurs: a
failing deck lookup, backside preparation, page information preparation, card image
fetch, image decoding or card metadata lookup fails the card step with that error, a
failing page write fails the page step with that error, a failing step at any card or page
of any group is what `generateBody` returns, and whenever `generateBody` returns an error
no root document has been written in that run. -/
theorem generateBody_propagates_failures (svc : Services) (total : Int) :
    (∀ (deckInfo : DeckType) (pageId : Nat) (page : CardPage) (cardId : Nat)
        (card : CardDescription) (v : PageVars) (e : Failure),
      v.infoDeck.backside = none →
      (svc.deckItem card.GameID card.CollectionID deckInfo.DeckID = .error e ∨
        prepareBacksideImage svc card.GameID card.CollectionID deckInfo.DeckID = .error e) →
      cardBody svc total deckInfo pageId page cardId card v = .error (e, v.st.world)) ∧
    (∀ (deckInfo : DeckType) (pageId : Nat) (page : CardPage) (cardId : Nat)
        (card : CardDescription) (v : PageVars) (e : Failure) (st1 : GenState)
        (id1 : DeckInformation),
      stepBackside svc deckInfo card v.st v.infoDeck = .ok (st1, id1) →
      v.infoPage = none →
      preparePageInfo svc pageId page card deckInfo id1 = .error e →
      cardBody svc total deckInfo pageId page cardId card v = .error (e, st1.world)) ∧
    (∀ (deckInfo : DeckType) (pageId : Nat) (page : CardPage) (cardId : Nat)
        (card : CardDescription) (v : PageVars) (e : Failure) (st1 : GenState)
        (id1 : DeckInformation) (v2 : PageVars) (ip2 : PageInformation),
      stepBackside svc deckInfo card v.st v.infoDeck = .ok (st1, id1) →
      stepPageInfo svc deckInfo pageId page card ⟨st1, id1, v.infoPage⟩ = .ok (v2, ip2) →
      (svc.cardGetImage card.GameID card.CollectionID deckInfo.DeckID card.CardID = .error e ∨
        ∃ bin, svc.cardGetImage card.GameID card.CollectionID deckInfo.DeckID card.CardID
            = .ok bin ∧ svc.imageFromBinary bin = .error e) →
      cardBody svc total deckInfo pageId page cardId card v = .error (e, v2.st.world)) ∧
    (∀ (deckInfo : DeckType) (pageId : Nat) (page : CardPage) (cardId : Nat)
        (card : CardDescription) (v : PageVars) (e : Failure) (st1 : GenState)
        (id1 : DeckInformation) (v2 : PageVars) (ip2 ip3 : PageInformation) (st4 : GenState)
        (id4 : DeckInformation),
      stepBackside svc deckInfo card v.st v.infoDeck = .ok (st1, id1) →
      stepPageInfo svc deckInfo pageId page card ⟨st1, id1, v.infoPage⟩ = .ok (v2, ip2) →
      stepDraw svc deckInfo cardId card ip2 = .ok ip3 →
      stepBoundary deckInfo pageId card v2.st v2.infoDeck = .ok (st4, id4) →
      svc.cardItem card.GameID card.CollectionID deckInfo.DeckID card.CardID = .error e →
      cardBody svc total deckInfo pageId page cardId card v = .error (e, st4.world)) ∧
    (∀ (deckInfo : DeckType) (pageId : Nat) (page : CardPage) (st : GenState)
        (infoDeck : DeckInformation) (v : PageVars) (infoPage : PageInformation)
        (backside : BackSideInformation) (e : Failure),
      cardLoop svc total deckInfo pageId page 0 page
        ⟨st.setMessage "Drawing cards on the resulting page...", infoDeck, none⟩ = .ok v →
      v.infoPage = some infoPage → v.infoDeck.backside = some backside →
      svc.createAndProcess (svc.filepathJoin svc.results infoPage.info.Name)
        (.image (images.Draw infoPage.image (infoPage.info.Columns - 1)
          (infoPage.info.Rows - 1) backside.imageDarker)) = some e →
      pageBody svc total deckInfo pageId page st infoDeck =
        .error (e, ((v.st.setMessage "Drawing backside image on the resulting page...").setMessage
          "Saving the resulting page to disk...").world)) ∧
    (∀ (gameItem : GameInfo) (w : World) (gpre gpost : List (DeckType × DeckPages))
        (deckInfo : DeckType) (ppre ppost : List CardPage) (cpre cpost : List CardDescription)
        (card : CardDescription) (s1 s2 : GenState) (d2 : DeckInformation) (u : PageVars)
        (e : Failure) (w1 : World),
      groupLoop svc total gpre (initialState gameItem w) = .ok s1 →
      pageLoop svc total deckInfo 0 ppre s1 {} = .ok (s2, d2) →
      cardLoop svc total deckInfo ppre.length (cpre ++ card :: cpost) 0 cpre
        ⟨s2.setMessage "Drawing cards on the resulting page...", d2, none⟩ = .ok u →
      cardBody svc total deckInfo ppre.length (cpre ++ card :: cpost) cpre.length card u
        = .error (e, w1) →
      generateBody svc gameItem
        ⟨gpre ++ (deckInfo, ⟨ppre ++ (cpre ++ card :: cpost) :: ppost⟩) :: gpost⟩ total w
        = (some e, w1)) ∧
    (∀ (gameItem : GameInfo) (w : World) (gpre gpost : List (DeckType × DeckPages))
        (deckInfo : DeckType) (ppre ppost : List CardPage) (page : CardPage)
        (s1 s2 : GenState) (d2 : DeckInformation) (e : Failure) (w1 : World),
      groupLoop svc total gpre (initialState gameItem w) = .ok s1 →
      pageLoop svc total deckInfo 0 ppre s1 {} = .ok (s2, d2) →
      pageBody svc total deckInfo ppre.length page s2 d2 = .error (e, w1) →
      generateBody svc gameItem ⟨gpre ++ (deckInfo, ⟨ppre ++ page :: ppost⟩) :: gpost⟩ total w
        = (some e, w1)) ∧
    (∀ (gameItem : GameInfo) (deckArray : DeckArray) (w w' : World) (e : Failure),
      generateBody svc gameItem deckArray total w = (some e, w') →
      ∀ path root, (path, FileContent.json root) ∈ w'.files →
        (path, FileContent.json root) ∈ w.files) := by
  refine ⟨?_, ?_, ?_, ?_, ?_, ?_, ?_, ?_⟩
  · intro deckInfo pageId page cardId card v e hb hfail
    cases hd : svc.deckItem card.GameID card.CollectionID deckInfo.DeckID with
    | error e0 =>
      have he : e = e0 := by
        rcases hfail with h | h
        · rw [hd] at h
          injection h with h
          exact h.symm
        · simp only [prepareBacksideImage, hd] at h
          injection h with h
          exact h.symm
      subst he
      simp only [cardBody, stepBackside, hb, hd]
    | ok item =>
      rcases hfail with h | h
      · rw [hd] at h
        cases h
      · simp only [cardBody, stepBackside, hb, hd, h]
  · intro deckInfo pageId page cardId card v e st1 id1 h1 hnone hprep
    simp only [cardBody, h1, stepPageInfo, hnone, hprep]
  · intro deckInfo pageId page cardId card v e st1 id1 v2 ip2 h1 h2 hfail
    rcases hfail with h | ⟨bin, hbin, h⟩
    · simp only [cardBody, h1, h2, stepDraw, h]
    · simp only [cardBody, h1, h2, stepDraw, hbin, h]
  · intro deckInfo pageId page cardId card v e st1 id1 v2 ip2 ip3 st4 id4 h1 h2 h3 h4 h5
    simp only [cardBody, h1, h2, h3, h4, h5]
  · intro deckInfo pageId page st infoDeck v infoPage backside e hloop hip hb hwrite
    simp only [pageBody, hloop, hip, hb, hwrite]
  · intro gameItem w gpre gpost deckInfo ppre ppost cpre cpost card s1 s2 d2 u e w1
      hgroups hpages hcards hcard
    refine generateBody_page_fails hgroups hpages (pageBody_fails ?_)
    exact cardLoop_fails hcards (by rw [Nat.zero_add]; exact hcard)
  · intro gameItem w gpre gpost deckInfo ppre ppost page s1 s2 d2 e w1 hgroups hpages hpage
    exact generateBody_page_fails hgroups hpages hpage
  · intro gameItem deckArray w w' e h path root hmem
    rcases (generateBody_failure h).1 with ⟨_, _, _, added, hfiles, hadded⟩
    rw [hfiles] at hmem
    rcases List.mem_append.1 hmem with hm | hm
    · exact hm
    · rcases hadded _ hm with ⟨c, hc⟩ | ⟨b, hb⟩
      · cases hc
      · cases hb

/-- Witness of C15: the card lookup of the first card of the sample game fails, and
`generateBody` returns that error without having written a root document. -/
theorem generateBody_propagates_failures_witness :
    ∃ w1,
      generateBody (failingServices "card not found") sampleGame sampleDeckArray 2 startedWorld
        = (some (Failure.error "card not found"), w1) ∧
      ∀ path root, (path, FileContent.json root) ∈ w1.files →
        (path, FileContent.json root) ∈ startedWorld.files :=
  ⟨_,
    (generateBody_propagates_failures (failingServices "card not found") 2).2.2.2.2.2.1
      sampleGame startedWorld [] [] sampleDeck [] [] [] [sampleCard "core" 2]
      (sampleCard "core" 1) _ _ _ _ (Failure.error "card not found") _ rfl rfl rfl rfl,
    (generateBody_propagates_failures (failingServices "card not found") 2).2.2.2.2.2.2.2
      sampleGame sampleDeckArray startedWorld _ (Failure.error "card not found") rfl⟩

/-! ## Theorems: repeated runs -/

theorem cardLoop_now (svc : Services) (t : String) (total : Int) (deckInfo : DeckType)
    (pageId : Nat) (page : CardPage) (cards : List CardDescription) :
    ∀ (k : Nat) (v : PageVars),
      cardLoop { svc with now := t } total deckInfo pageId page k cards v =
        cardLoop svc total deckInfo pageId page k cards v := by
  induction cards with
  | nil =>
    intro k v
    rfl
  | cons card rest ih =>
    intro k v
    have hbody : cardBody { svc with now := t } total deckInfo pageId page k card v =
        cardBody svc total deckInfo pageId page k card v := rfl
    unfold cardLoop
    rw [hbody]
    cases cardBody svc total deckInfo pageId page k card v with
    | error e => rfl
    | ok u => exact ih (k + 1) u

theorem pageBody_now (svc : Services) (t : String) (total : Int) (deckInfo : DeckType)
    (pageId : Nat) (page : CardPage) (st : GenState) (infoDeck : DeckInformation) :
    pageBody { svc with now := t } total deckInfo pageId page st infoDeck =
      pageBody svc total deckInfo pageId page st infoDeck := by
  unfold pageBody
  rw [cardLoop_now]

theorem pageLoop_now (svc : Services) (t : String) (total : Int) (deckInfo : DeckType)
    (pages : List CardPage) :
    ∀ (k : Nat) (st : GenState) (infoDeck : DeckInformation),
      pageLoop { svc with now := t } total deckInfo k pages st infoDeck =
        pageLoop svc total deckInfo k pages st infoDeck := by
  induction pages with
  | nil =>
    intro k st infoDeck
    rfl
  | cons page rest ih =>
    intro k st infoDeck
    unfold pageLoop
    rw [pageBody_now]
    cases pageBody svc total deckInfo k page st infoDeck with
    | error e => rfl
    | ok r => exact ih (k + 1) r.1 r.2

theorem groupLoop_now (svc : Services) (t : String) (total : Int)
    (groups : List (DeckType × DeckPages)) :
    ∀ st : GenState,
      groupLoop { svc with now := t } total groups st = groupLoop svc total groups st := by
  induction groups with
  | nil =>
    intro st
    rfl
  | cons group rest ih =>
    intro st
    have hbody : groupBody { svc with now := t } total group st = groupBody svc total group st := by
      unfold groupBody
      rw [pageLoop_now]
    unfold groupLoop
    rw [hbody]
    cases groupBody svc total group st with
    | error e => rfl
    | ok s => exact ih s

theorem rootDocument_concat (w : World) (l : List (String × FileContent)) (path : String)
    (root : RootObjects) (h : w.files = l ++ [(path, FileContent.json root)]) :
    rootDocument w = some root := by
  unfold rootDocument
  rw [h, List.getLast?_concat]

/-- C16 (amended): a second run whose collaborators differ from those of the first at most
in the reading of the clock, and which visits the deck groups and the variables of every
card in the same order, goes through the loop over the groups exactly as the first: the
same page file names, backside names, page images and bag entries, in the same order and
with the same `LuaScript` texts. When both runs succeed their files have the same names,
all files but the root document are equal, and the root documents hold the same bag except
for its description, which is `Created at: ` followed by the clock reading of the run. -/
theorem generateBody_repeatable (svc : Services) (t : String) (gameItem : GameInfo)
    (deckArray : DeckArray) (total : Int) (w : World) :
    groupLoop { svc with now := t } total deckArray.Decks (initialState gameItem w) =
      groupLoop svc total deckArray.Decks (initialState gameItem w) ∧
    (∀ deckID pageId count, pageFileName { svc with now := t } deckID pageId count =
      pageFileName svc deckID pageId count) ∧
    (∀ gameID collectionID deckID,
      prepareBacksideImage { svc with now := t } gameID collectionID deckID =
        prepareBacksideImage svc gameID collectionID deckID) ∧
    (∀ st, finalBag { svc with now := t } st =
      { finalBag svc st with Description := Sprintf "Created at: %v" [.str t] }) ∧
    (∀ e w1, groupLoop svc total deckArray.Decks (initialState gameItem w) = .error (e, w1) →
      generateBody { svc with now := t } gameItem deckArray total w = (some e, w1) ∧
      generateBody svc gameItem deckArray total w = (some e, w1)) ∧
    (∀ w1 w2, generateBody svc gameItem deckArray total w = (none, w1) →
      generateBody { svc with now := t } gameItem deckArray total w = (none, w2) →
      w2.pr = w1.pr ∧
      w2.files.map Prod.fst = w1.files.map Prod.fst ∧
      w2.files.dropLast = w1.files.dropLast ∧
      bagEntries w2 = bagEntries w1 ∧
      ∃ bag, rootDocument w1 = some ⟨[bag]⟩ ∧
        bag.Description = Sprintf "Created at: %v" [.str svc.now] ∧
        rootDocument w2 =
          some ⟨[{ bag with Description := Sprintf "Created at: %v" [.str t] }]⟩) := by
  have hloop := groupLoop_now svc t total deckArray.Decks (initialState gameItem w)
  refine ⟨hloop, fun _ _ _ => rfl, fun _ _ _ => rfl, fun _ => rfl, ?_, ?_⟩
  · intro e w1 h
    constructor
    · unfold generateBody
      rw [hloop, h]
    · unfold generateBody
      rw [h]
  · intro w1 w2 h1 h2
    rcases generateBody_ok h1 with ⟨st, hst, -, hfiles1, hpr1⟩
    rcases generateBody_ok h2 with ⟨st2, hst2, -, hfiles2, hpr2⟩
    rw [hloop, hst] at hst2
    injection hst2 with hst2
    subst hst2
    have hfiles2 : w2.files = st.world.files ++
        [(svc.filepathJoin svc.results (gameItem.ID ++ ".json"),
          .json { ObjectStates := [{ finalBag svc st with
            Description := Sprintf "Created at: %v" [.str t] }] })] := hfiles2
    have hr1 := rootDocument_concat w1 _ _ _ hfiles1
    have hr2 := rootDocument_concat w2 _ _ _ hfiles2
    refine ⟨by rw [hpr1, hpr2], ?_, ?_, ?_, finalBag svc st, hr1, rfl, hr2⟩
    · rw [hfiles1, hfiles2, List.map_append, List.map_append]
      rfl
    · rw [hfiles1, hfiles2, dropLast_append_singleton, dropLast_append_singleton]
    · unfold bagEntries
      rw [hr1, hr2]
      rfl

set_option maxRecDepth 100000 in
/-- Counterexample to C16 as stated: on the same content, a run one second later writes
another root document (its bag description differs); a run that visits the two entries of
the `Decks` map in the other order lists the bag entries in the other order; and a run
that visits the two entries of the `Variables` maps in the other order writes other
`LuaScript` texts. -/
theorem generateBody_repeatable_counterexample :
    rootDocument (generateBody (servicesAt "2026-01-01 00:00:00") sampleGame sampleDeckArray 2
        startedWorld).2 ≠
      rootDocument (generateBody (servicesAt "2026-01-01 00:00:01") sampleGame sampleDeckArray 2
        startedWorld).2 ∧
    gearThenLoot.Decks = lootThenGear.Decks.reverse ∧
    bagEntries (generateBody (sampleServices sampleCount) sampleGame gearThenLoot 4
        startedWorld).2 =
      (bagEntries (generateBody (sampleServices sampleCount) sampleGame lootThenGear 4
        startedWorld).2).reverse ∧
    bagEntries (generateBody (sampleServices sampleCount) sampleGame gearThenLoot 4
        startedWorld).2 ≠
      bagEntries (generateBody (sampleServices sampleCount) sampleGame lootThenGear 4
        startedWorld).2 ∧
    (bagCards (bagEntries (generateBody (sampleServices sampleCount) sampleGame sampleDeckArray 2
        startedWorld).2)).map (fun c => c.LuaScript) =
      ["atk=2\ndef=1", "atk=2\ndef=1", "atk=2\ndef=1"] ∧
    (bagCards (bagEntries (generateBody swappedServices sampleGame sampleDeckArray 2
        startedWorld).2)).map (fun c => c.LuaScript) =
      ["def=1\natk=2", "def=1\natk=2", "def=1\natk=2"] := by
  refine ⟨by decide, rfl, by decide, by decide, by decide, by decide⟩

/-- Witness of C16 (amended): the sample game run again one second later. -/
theorem generateBody_repeatable_witness :
    ∃ bag,
      rootDocument (generateBody (sampleServices sampleCount) sampleGame sampleDeckArray 2
        startedWorld).2 = some ⟨[bag]⟩ ∧
      bag.Description = Sprintf "Created at: %v" [.str (sampleServices sampleCount).now] ∧
      rootDocument (generateBody { sampleServices sampleCount with now := "2026-01-01 00:00:01" }
          sampleGame sampleDeckArray 2 startedWorld).2 =
        some ⟨[{ bag with
          Description := Sprintf "Created at: %v" [.str "2026-01-01 00:00:01"] }]⟩ :=
  ((generateBody_repeatable (sampleServices sampleCount) "2026-01-01 00:00:01" sampleGame
    sampleDeckArray 2 startedWorld).2.2.2.2.2 _ _
      (run_eq_of_no_error (by decide)) (run_eq_of_no_error (by decide))).2.2.2.2

/-! ## Theorems: one backside per group -/

/-- A successful page step: the backside in use afterwards is the one in use before, or,
if there was none, the one prepared on the first card of the page, whose file is then
written right before the page image; the description left is that of the page with the
name of that backside. -/
theorem pageBody_backside {svc : Services} {total : Int} {deckInfo : DeckType} {pageId : Nat}
    {page : CardPage} {st st' : GenState} {infoDeck infoDeck' : DeckInformation}
    (h : pageBody svc total deckInfo pageId page st infoDeck = .ok (st', infoDeck')) :
    ∃ (b : BackSideInformation) (canvas : Canvas),
      infoDeck'.backside = some b ∧
      infoDeck'.deckDesc = pageDescription svc deckInfo.DeckID b.imageName pageId page.length ∧
      ((infoDeck.backside = some b ∧
          st'.world.files = st.world.files ++
            [(svc.filepathJoin svc.results (pageFileName svc deckInfo.DeckID pageId page.length),
              FileContent.image canvas)]) ∨
        (infoDeck.backside = none ∧ ∃ (c : CardDescription) (rest : List CardDescription)
            (bin : Bytes), page = c :: rest ∧
          prepareBacksideImage svc c.GameID c.CollectionID deckInfo.DeckID =
            .ok (b, (svc.filepathJoin svc.results b.imageName, FileContent.binary bin)) ∧
          st'.world.files = st.world.files ++
            [(svc.filepathJoin svc.results b.imageName, FileContent.binary bin),
             (svc.filepathJoin svc.results (pageFileName svc deckInfo.DeckID pageId page.length),
              FileContent.image canvas)])) := by
  rcases pageBody_canvas h with ⟨v, b0, width, height, hloop, hid, hb0, -, hfiles0⟩
  obtain ⟨canvas, hfiles⟩ : ∃ canvas : Canvas, st'.world.files = v.st.world.files ++
      [(svc.filepathJoin svc.results (pageFileName svc deckInfo.DeckID pageId page.length),
        FileContent.image canvas)] := ⟨_, hfiles0⟩
  clear hfiles0
  have key := cardLoop_inv
    (fun j u =>
      (j = 0 ∧ u.infoPage = none ∧ u.infoDeck.backside = infoDeck.backside ∧
        u.st.world.files = st.world.files) ∨
      (u.infoPage ≠ none ∧ ∃ b, u.infoDeck.backside = some b ∧
        u.infoDeck.deckDesc = pageDescription svc deckInfo.DeckID b.imageName pageId page.length ∧
        ((infoDeck.backside = some b ∧ u.st.world.files = st.world.files) ∨
          (infoDeck.backside = none ∧ ∃ (c : CardDescription) (rest : List CardDescription)
              (bin : Bytes), page = c :: rest ∧
            prepareBacksideImage svc c.GameID c.CollectionID deckInfo.DeckID =
              .ok (b, (svc.filepathJoin svc.results b.imageName, FileContent.binary bin)) ∧
            u.st.world.files = st.world.files ++
              [(svc.filepathJoin svc.results b.imageName, FileContent.binary bin)]))))
    page 0 _ v hloop (Or.inl ⟨rfl, rfl, rfl, rfl⟩) ?_
  · rcases key with ⟨hlen, hnone, _, _⟩ | ⟨_, b, hb, hd, hcase⟩
    · rcases pageBody_ok h with ⟨v1, ip, _, hloop1, hip, _⟩
      rw [hloop] at hloop1
      injection hloop1 with hv
      subst hv
      rw [hnone] at hip
      cases hip
    · refine ⟨b, canvas, by rw [hid]; exact hb, by rw [hid]; exact hd, ?_⟩
      rcases hcase with ⟨hib, hf⟩ | ⟨hib, c, rest, bin, hpage, hprep, hf⟩
      · left
        refine ⟨hib, ?_⟩
        rw [hfiles, hf]
      · right
        refine ⟨hib, c, rest, bin, hpage, hprep, ?_⟩
        rw [hfiles, hf, List.append_assoc]
        rfl
  · intro j card u u' hget hu hcard
    rw [Nat.zero_add] at hcard hu
    right
    have hdesc := cardBody_desc hcard
    refine ⟨hdesc.1, ?_⟩
    rcases hu with ⟨hj, hnone, hub, huf⟩ | ⟨hsome, b, hb, hd, hcase⟩
    · subst hj
      rcases hdesc.2 with ⟨hne, _⟩ | ⟨_, b', hb', hd'⟩
      · exact absurd hnone hne
      · refine ⟨b', hb', hd', ?_⟩
        rcases cardBody_files hcard with ⟨b2, hb2, hb2', hf2⟩ | ⟨hn, b2, file, hprep, hb2', hf2⟩
        · left
          rw [hb2'] at hb'
          injection hb' with hb'
          subst hb'
          exact ⟨by rw [← hub]; exact hb2, by rw [hf2]; exact huf⟩
        · right
          rw [hb2'] at hb'
          injection hb' with hb'
          subst hb'
          rcases prepareBacksideImage_ok hprep with ⟨_, bin, _, _, _, _, _, _, hfile⟩
          cases hpage : page with
          | nil =>
            rw [hpage] at hget
            cases hget
          | cons c rest =>
            rw [hpage] at hget
            injection hget with hget
            subst hget
            refine ⟨by rw [← hub]; exact hn, c, rest, bin, rfl, ?_, ?_⟩
            · rw [hprep, hfile]
            · rw [hf2, huf, hfile]
    · rcases hdesc.2 with ⟨_, hd'⟩ | ⟨hnone, _⟩
      · rcases cardBody_files hcard with ⟨b2, hb2, hb2', hf2⟩ | ⟨hn, _⟩
        · rw [hb] at hb2
          injection hb2 with hb2
          subst hb2
          refine ⟨b, hb2', by rw [hd', hd], ?_⟩
          rcases hcase with ⟨hib, hf⟩ | ⟨hib, c, rest, bin, hpage, hprep, hf⟩
          · exact Or.inl ⟨hib, by rw [hf2, hf]⟩
          · exact Or.inr ⟨hib, c, rest, bin, hpage, hprep, by rw [hf2, hf]⟩
        · rw [hb] at hn
          cases hn
      · exact absurd hnone hsome

/-- A successful page loop of a group that started without a backside: after at least one
page exactly one backside asset has been written, on the first card of the first page,
followed by one image per page. -/
theorem pageLoop_backside {svc : Services} {total : Int} {deckInfo : DeckType}
    {pages : List CardPage} {st s : GenState} {d : DeckInformation}
    (h : pageLoop svc total deckInfo 0 pages st {} = .ok (s, d)) (hne : pages ≠ []) :
    ∃ (b : BackSideInformation) (bin : Bytes) (images : List (String × FileContent)),
      d.backside = some b ∧
      (∃ c cs ps, pages = (c :: cs) :: ps ∧
        prepareBacksideImage svc c.GameID c.CollectionID deckInfo.DeckID =
          .ok (b, (svc.filepathJoin svc.results b.imageName, FileContent.binary bin))) ∧
      s.world.files = st.world.files ++
        (svc.filepathJoin svc.results b.imageName, FileContent.binary bin) :: images ∧
      images.map Prod.fst = pages.enum.map
        (fun ip => svc.filepathJoin svc.results
          (pageFileName svc deckInfo.DeckID ip.1 ip.2.length)) ∧
      ∀ f ∈ images, ∃ c, f.2 = FileContent.image c := by
  have key := pageLoop_inv
    (fun i a x =>
      (i = 0 ∧ x.backside = none ∧ a.world.files = st.world.files) ∨
      (∃ (b : BackSideInformation) (bin : Bytes) (images : List (String × FileContent)),
        x.backside = some b ∧
        (∃ c cs ps, pages = (c :: cs) :: ps ∧
          prepareBacksideImage svc c.GameID c.CollectionID deckInfo.DeckID =
            .ok (b, (svc.filepathJoin svc.results b.imageName, FileContent.binary bin))) ∧
        a.world.files = st.world.files ++
          (svc.filepathJoin svc.results b.imageName, FileContent.binary bin) :: images ∧
        images.map Prod.fst = (pages.take i).enum.map
          (fun ip => svc.filepathJoin svc.results
            (pageFileName svc deckInfo.DeckID ip.1 ip.2.length)) ∧
        ∀ f ∈ images, ∃ c, f.2 = FileContent.image c))
    pages 0 st s {} d h (Or.inl ⟨rfl, rfl, rfl⟩) ?_
  · simp only [Nat.zero_add, List.take_length] at key
    rcases key with ⟨hlen, _, _⟩ | hkey
    · exact absurd (List.length_eq_zero.mp hlen) hne
    · exact hkey
  · intro i page a a' x x' hget ha hpage
    simp only [Nat.zero_add] at ha hpage ⊢
    right
    rcases pageBody_backside hpage with ⟨b, canvas, hb, -, hcase⟩
    rcases ha with ⟨hi, hnone, hfiles⟩ | ⟨b0, bin, images, hb0, hfirst, hfiles, hnames, himg⟩
    · subst hi
      rcases head_of_get_zero hget with ⟨tail, hpages⟩
      rcases hcase with ⟨hsome, _⟩ | ⟨_, c, rest, bin, hpage', hprep, hf⟩
      · rw [hnone] at hsome
        cases hsome
      · refine ⟨b, bin, [(svc.filepathJoin svc.results
            (pageFileName svc deckInfo.DeckID 0 page.length), FileContent.image canvas)],
          hb, ⟨c, rest, tail, by rw [hpages, hpage'], hprep⟩, ?_, ?_, ?_⟩
        · rw [hf, hfiles]
        · rw [hpages]
          simp
        · intro f hf'
          rw [List.mem_singleton] at hf'
          subst hf'
          exact ⟨canvas, rfl⟩
    · rcases hcase with ⟨hsome, hf⟩ | ⟨hnone, _⟩
      · rw [hb0] at hsome
        injection hsome with hsome
        subst hsome
        refine ⟨b0, bin, images ++ [(svc.filepathJoin svc.results
            (pageFileName svc deckInfo.DeckID i page.length), FileContent.image canvas)],
          hb, hfirst, ?_, ?_, ?_⟩
        · rw [hf, hfiles]
          simp
        · rw [List.map_append, hnames, enum_take_succ hget, List.map_append]
          rfl
        · intro f hf'
          rcases List.mem_append.1 hf' with hm | hm
          · exact himg f hm
          · rw [List.mem_singleton] at hm
            subst hm
            exact ⟨canvas, rfl⟩
      · rw [hb0] at hnone
        cases hnone

/-- Every card entity of a group names, in its `CustomDeck` entry, the backside of the
group as its `BackURL`. -/
theorem groupCards_backURL {svc : Services} {group : DeckType × DeckPages}
    {b : BackSideInformation} (hgb : groupBackside svc group = some b) :
    ∀ c ∈ groupCards svc group, ∀ kd ∈ c.CustomDeck,
      kd.2.BackURL =
        "file:///" ++ svc.pathToAbsolutePath (svc.filepathJoin svc.results b.imageName) := by
  intro c hc kd hkd
  unfold groupCards at hc
  rw [hgb] at hc
  simp only [List.mem_flatMap] at hc
  rcases hc with ⟨ip, -, hc⟩
  unfold pageCards at hc
  rw [List.mem_flatMap] at hc
  rcases hc with ⟨slot, -, hc⟩
  unfold slotCards at hc
  split at hc
  · rcases List.mem_replicate.1 hc with ⟨-, rfl⟩
    unfold makeCard at hkd
    simp only [List.mem_singleton] at hkd
    subst hkd
    rfl
  · cases hc

/-- C20: in a successful `generateBody`, for every deck group with at least one page of
cards the backside asset is resolved once: the files the group writes are one backside
asset, prepared on the first card of the first page, followed by the images of its pages
and nothing else; the description of every page of the group is built with the name of
that one asset, and every card entity of the group carries the same `BackURL`, the URL of
that backside file. -/
theorem backside_resolved_once (svc : Services) (gameItem : GameInfo) (deckArray : DeckArray)
    (total : Int) (w w' : World) (pre post : List (DeckType × DeckPages))
    (group : DeckType × DeckPages)
    (h : generateBody svc gameItem deckArray total w = (none, w'))
    (hdecks : deckArray.Decks = pre ++ group :: post) (hcards : group.2.Pages ≠ []) :
    ∃ (st1 st2 : GenState) (b : BackSideInformation) (bin : Bytes)
        (images : List (String × FileContent)),
      groupLoop svc total pre (initialState gameItem w) = .ok st1 ∧
      groupBody svc total group st1 = .ok st2 ∧
      groupBackside svc group = some b ∧
      (∃ c cs ps, group.2.Pages = (c :: cs) :: ps ∧
        prepareBacksideImage svc c.GameID c.CollectionID group.1.DeckID =
          .ok (b, (svc.filepathJoin svc.results b.imageName, FileContent.binary bin))) ∧
      st2.world.files = st1.world.files ++
        (svc.filepathJoin svc.results b.imageName, FileContent.binary bin) :: images ∧
      images.map Prod.fst = group.2.Pages.enum.map
        (fun ip => svc.filepathJoin svc.results
          (pageFileName svc group.1.DeckID ip.1 ip.2.length)) ∧
      (∀ f ∈ images, ∃ c, f.2 = FileContent.image c) ∧
      bagCards st2.bag.ContainedObjects =
        bagCards st1.bag.ContainedObjects ++ groupCards svc group ∧
      (∀ c ∈ groupCards svc group, ∀ kd ∈ c.CustomDeck,
        kd.2.BackURL =
          "file:///" ++ svc.pathToAbsolutePath (svc.filepathJoin svc.results b.imageName)) ∧
      (∀ (ppre ppost : List CardPage) (page : CardPage) (s s' : GenState)
          (d d' : DeckInformation),
        group.2.Pages = ppre ++ page :: ppost →
        pageLoop svc total group.1 0 ppre st1 {} = .ok (s, d) →
        pageBody svc total group.1 ppre.length page s d = .ok (s', d') →
        d'.backside = some b ∧
        d'.deckDesc =
          pageDescription svc group.1.DeckID b.imageName ppre.length page.length ∧
        d'.deckDesc.BackURL =
          "file:///" ++ svc.pathToAbsolutePath (svc.filepathJoin svc.results b.imageName)) := by
  rcases generateBody_ok h with ⟨st, hloop, -, -, -⟩
  rw [hdecks] at hloop
  rcases groupLoop_snoc hloop with ⟨st1, st2, hpre, hbody, -, -⟩
  have hempty : st1.deck.ContainedObjects = [] := (groupLoop_cards pre _ st1 hpre rfl).2
  rcases groupBody_ok hbody with ⟨hnil, -⟩ | ⟨-, s0, d0, hpl, hst2⟩
  · exact absurd hnil hcards
  · rcases pageLoop_backside hpl hcards with ⟨b, bin, images, -, hfirst, hfiles, hnames, himg⟩
    have hgb : groupBackside svc group = some b := by
      rcases hfirst with ⟨c, cs, ps, hpages, hprep⟩
      unfold groupBackside
      rw [hpages]
      simp only [hprep]
    refine ⟨st1, st2, b, bin, images, hpre, hbody, hgb, hfirst, ?_, hnames, himg,
      (groupBody_cards hbody hempty).1, groupCards_backURL hgb, ?_⟩
    · rw [hst2, (flushGroup_world s0).1]
      exact hfiles
    · intro ppre ppost page s s' d d' hpages hppre hpage
      rcases hfirst with ⟨c0, cs0, ps0, hpages0, hprep0⟩
      rcases pageBody_backside hpage with ⟨b1, canvas, hb1, hd1, hcase⟩
      have hb : b1 = b := by
        cases hppre' : ppre with
        | nil =>
          rw [hppre'] at hppre hpages
          unfold pageLoop at hppre
          injection hppre with hppre
          injection hppre with hs hd
          subst hd
          rcases hcase with ⟨hsome, _⟩ | ⟨_, c, rest, bin1, hpage1, hprep1, _⟩
          · cases hsome
          · rw [hpages0, hpage1] at hpages
            simp only [List.nil_append, List.cons.injEq] at hpages
            rcases hpages with ⟨⟨hc, _⟩, _⟩
            subst hc
            rw [hprep0] at hprep1
            injection hprep1 with hprep1
            injection hprep1 with hprep1 _
            exact hprep1.symm
        | cons p ps =>
          have hne : ppre ≠ [] := by
            rw [hppre']
            exact List.cons_ne_nil _ _
          rcases pageLoop_backside hppre hne with ⟨b2, bin2, _, hb2, ⟨c, cs, ps2, hpp, hprep2⟩, _⟩
          rw [hpages0, hpp] at hpages
          simp only [List.cons_append, List.cons.injEq] at hpages
          rcases hpages with ⟨⟨hc, _⟩, _⟩
          subst hc
          rw [hprep0] at hprep2
          injection hprep2 with hprep2
          injection hprep2 with hprep2 _
          subst hprep2
          rcases hcase with ⟨hsome, _⟩ | ⟨hnone, _⟩
          · rw [hb2] at hsome
            injection hsome with hsome
            exact hsome.symm
          · rw [hb2] at hnone
            cases hnone
      subst hb
      refine ⟨hb1, hd1, ?_⟩
      rw [hd1]
      rfl

/-- Witness of C20: the sample group of three cards on two pages. -/
theorem backside_resolved_once_witness :
    ∃ (st1 st2 : GenState) (b : BackSideInformation) (bin : Bytes)
        (images : List (String × FileContent)),
      groupLoop (sampleServices sampleCount) 3 [] (initialState sampleGame startedWorld)
        = .ok st1 ∧
      groupBody (sampleServices sampleCount) 3 (sampleDeck, ⟨samplePages⟩) st1 = .ok st2 ∧
      groupBackside (sampleServices sampleCount) (sampleDeck, ⟨samplePages⟩) = some b ∧
      (∃ c cs ps, (sampleDeck, DeckPages.mk samplePages).2.Pages = (c :: cs) :: ps ∧
        prepareBacksideImage (sampleServices sampleCount) c.GameID c.CollectionID
            (sampleDeck, DeckPages.mk samplePages).1.DeckID =
          .ok (b, ((sampleServices sampleCount).filepathJoin (sampleServices sampleCount).results
            b.imageName, FileContent.binary bin))) ∧
      st2.world.files = st1.world.files ++
        ((sampleServices sampleCount).filepathJoin (sampleServices sampleCount).results
          b.imageName, FileContent.binary bin) :: images ∧
      images.map Prod.fst = (sampleDeck, DeckPages.mk samplePages).2.Pages.enum.map
        (fun ip => (sampleServices sampleCount).filepathJoin (sampleServices sampleCount).results
          (pageFileName (sampleServices sampleCount)
            (sampleDeck, DeckPages.mk samplePages).1.DeckID ip.1 ip.2.length)) ∧
      (∀ f ∈ images, ∃ c, f.2 = FileContent.image c) ∧
      bagCards st2.bag.ContainedObjects =
        bagCards st1.bag.ContainedObjects ++
          groupCards (sampleServices sampleCount) (sampleDeck, ⟨samplePages⟩) ∧
      (∀ c ∈ groupCards (sampleServices sampleCount) (sampleDeck, ⟨samplePages⟩),
        ∀ kd ∈ c.CustomDeck,
        kd.2.BackURL =
          "file:///" ++ (sampleServices sampleCount).pathToAbsolutePath
            ((sampleServices sampleCount).filepathJoin (sampleServices sampleCount).results
              b.imageName)) ∧
      (∀ (ppre ppost : List CardPage) (page : CardPage) (s s' : GenState)
          (d d' : DeckInformation),
        (sampleDeck, DeckPages.mk samplePages).2.Pages = ppre ++ page :: ppost →
        pageLoop (sampleServices sampleCount) 3 (sampleDeck, DeckPages.mk samplePages).1 0 ppre
          st1 {} = .ok (s, d) →
        pageBody (sampleServices sampleCount) 3 (sampleDeck, DeckPages.mk samplePages).1
          ppre.length page s d = .ok (s', d') →
        d'.backside = some b ∧
        d'.deckDesc =
          pageDescription (sampleServices sampleCount)
            (sampleDeck, DeckPages.mk samplePages).1.DeckID b.imageName ppre.length
            page.length ∧
        d'.deckDesc.BackURL =
          "file:///" ++ (sampleServices sampleCount).pathToAbsolutePath
            ((sampleServices sampleCount).filepathJoin (sampleServices sampleCount).results
              b.imageName)) :=
  backside_resolved_once (sampleServices sampleCount) sampleGame twoPageArray 3 startedWorld _
    [] [] (sampleDeck, ⟨samplePages⟩) (run_eq_of_no_error (by decide)) rfl (by decide)

/-! ## Theorems: card codes and positions -/

/-- The page number and the slot can be read off a card code whose slot is below 100. -/
theorem cardCode_div_mod (p s : Nat) (hs : s < 100) :
    Int.tdiv (cardCode p s) 100 = (p : Int) + 1 ∧ Int.tmod (cardCode p s) 100 = (s : Int) := by
  have hnn : (0 : Int) ≤ cardCode p s := by
    unfold cardCode
    omega
  rw [Int.tdiv_eq_ediv hnn (by decide), Int.tmod_eq_emod hnn (by decide)]
  unfold cardCode
  omega

/-- The card entities made for a slot carry the card code of the slot. -/
theorem slotCards_code {svc : Services} {deckInfo : DeckType} {p : Nat} {desc : DeckDescription}
    {slot : Nat × CardDescription} {c : Card} (hc : c ∈ slotCards svc deckInfo p desc slot) :
    c.CardID = cardCode p slot.1 := by
  unfold slotCards at hc
  split at hc
  · rcases List.mem_replicate.1 hc with ⟨-, rfl⟩
    rfl
  · cases hc

/-- C23: for a slot `s < 100` the card code `c = (p+1)*100 + s` satisfies `c / 100 = p+1`
and `c mod 100 = s`, so codes of different (page, slot) positions differ; on pages holding
at most `MaxCount = 69` cards every slot is below 100, hence two card entities of one deck
group made for different positions never carry the same card code. -/
theorem card_code_unique :
    (∀ p s : Nat, s < 100 →
      Int.tdiv (cardCode p s) 100 = (p : Int) + 1 ∧ Int.tmod (cardCode p s) 100 = (s : Int)) ∧
    (∀ p s p' s' : Nat, s < 100 → s' < 100 → cardCode p s = cardCode p' s' →
      p = p' ∧ s = s') ∧
    (∀ (p s : Nat) (item : CardInfo) (desc : DeckDescription),
      (makeCard p s item desc).CardID = cardCode p s) ∧
    (∀ (svc : Services) (group : DeckType × DeckPages),
      (∀ page ∈ group.2.Pages, (page.length : Int) ≤ MaxCount) →
      ∀ (p p' s s' : Nat) (page page' : CardPage) (card card' : CardDescription)
        (desc desc' : DeckDescription) (c c' : Card),
        group.2.Pages.get? p = some page → page.get? s = some card →
        group.2.Pages.get? p' = some page' → page'.get? s' = some card' →
        c ∈ slotCards svc group.1 p desc (s, card) →
        c' ∈ slotCards svc group.1 p' desc' (s', card') →
        c.CardID = c'.CardID → p = p' ∧ s = s') := by
  have hinj : ∀ p s p' s' : Nat, s < 100 → s' < 100 → cardCode p s = cardCode p' s' →
      p = p' ∧ s = s' := by
    intro p s p' s' hs hs' h
    unfold cardCode at h
    omega
  have hslot : ∀ (pages : List CardPage) (p s : Nat) (page : CardPage) (card : CardDescription),
      (∀ page ∈ pages, (page.length : Int) ≤ MaxCount) →
      pages.get? p = some page → page.get? s = some card → s < 100 := by
    intro pages p s page card hcap hp hs
    have hmem : page ∈ pages := List.get?_mem hp
    have hlen := hcap page hmem
    have hlt : s < page.length := (List.get?_eq_some.1 hs).1
    have hmax : MaxCount = 69 := rfl
    omega
  refine ⟨cardCode_div_mod, hinj, fun _ _ _ _ => rfl, ?_⟩
  intro svc group hcap p p' s s' page page' card card' desc desc' c c' hp hs hp' hs' hc hc' heq
  rw [slotCards_code hc, slotCards_code hc'] at heq
  exact hinj p s p' s' (hslot _ p s page card hcap hp hs) (hslot _ p' s' page' card' hcap hp' hs')
    heq

/-- Witness of C23: the second slot of the first page and the first slot of the second
page of the sample group. -/
theorem card_code_unique_witness :
    Int.tdiv (cardCode 0 1) 100 = ((0 : Nat) : Int) + 1 ∧
    Int.tmod (cardCode 0 1) 100 = ((1 : Nat) : Int) ∧
    (cardCode 0 1 = cardCode 1 0 → 0 = 1 ∧ 1 = 0) ∧
    cardCode 0 1 ≠ cardCode 1 0 :=
  ⟨(card_code_unique.1 0 1 (by decide)).1, (card_code_unique.1 0 1 (by decide)).2,
    card_code_unique.2.1 0 1 1 0 (by decide) (by decide), by decide⟩

/-! ## Theorems: the `LuaScript` of a card -/

theorem splitLines_ne_nil (l : List Char) : splitLines l ≠ [] := by
  cases l with
  | nil => simp [splitLines]
  | cons c rest =>
    unfold splitLines
    split
    · simp
    · split <;> simp

/-- A text without newline is one line. -/
theorem splitLines_single (a : List Char) (ha : '\n' ∉ a) : splitLines a = [a] := by
  induction a with
  | nil => rfl
  | cons c rest ih =>
    have hc : c ≠ '\n' := fun h => ha (by rw [h]; exact List.mem_cons_self _ _)
    have hrest : '\n' ∉ rest := fun h => ha (List.mem_cons_of_mem _ h)
    simp only [splitLines, if_neg hc, ih hrest]

/-- A text without newline followed by a newline is a line of its own. -/
theorem splitLines_append (a b : List Char) (ha : '\n' ∉ a) :
    splitLines (a ++ '\n' :: b) = a :: splitLines b := by
  induction a with
  | nil =>
    simp only [List.nil_append, splitLines, if_true]
  | cons c rest ih =>
    have hc : c ≠ '\n' := fun h => ha (by rw [h]; exact List.mem_cons_self _ _)
    have hrest : '\n' ∉ rest := fun h => ha (List.mem_cons_of_mem _ h)
    show splitLines (c :: (rest ++ '\n' :: b)) = (c :: rest) :: splitLines b
    rw [splitLines, if_neg hc, ih hrest]

/-- The characters of `strings.Join`: the elements with the separator between them. -/
theorem stringsJoin_toList (l : List String) (sep : String) :
    (stringsJoin l sep).toList = List.intercalate sep.toList (l.map String.toList) := by
  induction l with
  | nil => rfl
  | cons s rest ih =>
    cases rest with
    | nil => simp [stringsJoin, List.intercalate]
    | cons t rest =>
      unfold stringsJoin
      have happ : ∀ a b : String, (a ++ b).toList = a.toList ++ b.toList :=
        fun a b => String.data_append a b
      rw [happ, happ, ih]
      simp [List.intercalate, List.intersperse]

/-- Joining lines that hold no newline and splitting the result gives the lines back. -/
theorem splitLines_stringsJoin (l : List String) (hne : l ≠ [])
    (hl : ∀ s ∈ l, '\n' ∉ s.toList) :
    splitLines (stringsJoin l "\n").toList = l.map String.toList := by
  induction l with
  | nil => exact absurd rfl hne
  | cons s rest ih =>
    cases rest with
    | nil =>
      show splitLines s.toList = [s.toList]
      exact splitLines_single _ (hl s (List.mem_cons_self _ _))
    | cons t rest =>
      have happ : ∀ a b : String, (a ++ b).toList = a.toList ++ b.toList :=
        fun a b => String.data_append a b
      have hjoin : (stringsJoin (s :: t :: rest) "\n").toList =
          s.toList ++ '\n' :: (stringsJoin (t :: rest) "\n").toList := by
        show (s ++ "\n" ++ stringsJoin (t :: rest) "\n").toList = _
        rw [happ, happ, List.append_assoc]
        rfl
      rw [hjoin, splitLines_append _ _ (hl s (List.mem_cons_self _ _)),
        ih (List.cons_ne_nil _ _) (fun x hx => hl x (List.mem_cons_of_mem _ hx))]
      rfl

/-- A `key=value` line holds no newline when neither the key nor the value does; it is not
empty and does not end with a newline. -/
theorem luaVariables_line {vars : List (String × String)}
    (hvars : ∀ kv ∈ vars, '\n' ∉ kv.1.toList ∧ '\n' ∉ kv.2.toList) :
    ∀ s ∈ luaVariables vars, '\n' ∉ s.toList ∧ s.toList ≠ [] := by
  intro s hs
  unfold luaVariables at hs
  rw [List.mem_map] at hs
  rcases hs with ⟨kv, hkv, rfl⟩
  have happ : ∀ a b : String, (a ++ b).toList = a.toList ++ b.toList :=
    fun a b => String.data_append a b
  have hline : (kv.1 ++ "=" ++ kv.2).toList = kv.1.toList ++ '=' :: kv.2.toList := by
    rw [happ, happ, List.append_assoc]
    rfl
  rw [hline]
  refine ⟨?_, by simp⟩
  intro hmem
  rcases List.mem_append.1 hmem with h | h
  · exact (hvars kv hkv).1 h
  · rcases List.mem_cons.1 h with h | h
    · exact absurd h (by decide)
    · exact (hvars kv hkv).2 h

/-- Joined lines that hold no newline and are not empty: the text is not empty and does not
end with a newline. -/
theorem stringsJoin_last (l : List String) (hne : l ≠ [])
    (hl : ∀ s ∈ l, '\n' ∉ s.toList ∧ s.toList ≠ []) :
    (stringsJoin l "\n").toList ≠ [] ∧ (stringsJoin l "\n").toList.getLast? ≠ some '\n' := by
  induction l with
  | nil => exact absurd rfl hne
  | cons s rest ih =>
    cases rest with
    | nil =>
      have hs := hl s (List.mem_cons_self _ _)
      refine ⟨hs.2, ?_⟩
      show s.toList.getLast? ≠ some '\n'
      intro h
      exact hs.1 (List.mem_of_getLast?_eq_some h)
    | cons t rest =>
      have happ : ∀ a b : String, (a ++ b).toList = a.toList ++ b.toList :=
        fun a b => String.data_append a b
      have hjoin : (stringsJoin (s :: t :: rest) "\n").toList =
          s.toList ++ '\n' :: (stringsJoin (t :: rest) "\n").toList := by
        show (s ++ "\n" ++ stringsJoin (t :: rest) "\n").toList = _
        rw [happ, happ, List.append_assoc]
        rfl
      rcases ih (List.cons_ne_nil _ _) (fun x hx => hl x (List.mem_cons_of_mem _ hx))
        with ⟨hne', hlast⟩
      rw [hjoin]
      refine ⟨by simp, ?_⟩
      rw [List.getLast?_append]
      generalize (stringsJoin (t :: rest) "\n").toList = X at hne' hlast ⊢
      cases X with
      | nil => exact absurd rfl hne'
      | cons x xs =>
        rw [List.getLast?_cons_cons]
        cases hx : (x :: xs).getLast? with
        | none => simp at hx
        | some c =>
          rw [hx] at hlast
          simpa using hlast

/-- Every card entity of a group was made by `makeCard` from the metadata the card service
returns for a placement of the group, at the position of that placement. -/
theorem groupCards_origin {svc : Services} {group : DeckType × DeckPages} {c : Card}
    (hc : c ∈ groupCards svc group) :
    ∃ (p s : Nat) (page : CardPage) (card : CardDescription) (item : CardInfo)
        (desc : DeckDescription),
      group.2.Pages.get? p = some page ∧ page.get? s = some card ∧
      svc.cardItem card.GameID card.CollectionID group.1.DeckID card.CardID = .ok item ∧
      c = makeCard p s item desc := by
  unfold groupCards at hc
  split at hc
  · rw [List.mem_flatMap] at hc
    rcases hc with ⟨⟨p, page⟩, hp, hc⟩
    unfold pageCards at hc
    rw [List.mem_flatMap] at hc
    rcases hc with ⟨⟨s, card⟩, hs, hc⟩
    unfold slotCards at hc
    split at hc
    · rename_i item hitem
      rcases List.mem_replicate.1 hc with ⟨-, rfl⟩
      have hp' : group.2.Pages.get? p = some page := by
        rw [List.get?_eq_getElem?]
        exact List.mk_mem_enum_iff_getElem?.1 hp
      have hs' : page.get? s = some card := by
        rw [List.get?_eq_getElem?]
        exact List.mk_mem_enum_iff_getElem?.1 hs
      exact ⟨p, s, page, card, item, _, hp', hs', hitem, rfl⟩
    · cases hc
  · cases hc

/-- C21 (amended): the `LuaScript` of every card entity is `strings.Join` of one
`key=value` entry per variable of the card, in the order in which the variables are
visited, with one newline between two entries and none after the last; it is the empty
string when the card has no variables. When no key and no value holds a newline, its lines
are exactly these entries, one line per variable, and it does not end with a newline. -/
theorem LuaScript_lines :
    (∀ (p s : Nat) (item : CardInfo) (desc : DeckDescription),
      (makeCard p s item desc).LuaScript =
        stringsJoin (item.Variables.map (fun kv => kv.1 ++ "=" ++ kv.2)) "\n" ∧
      (makeCard p s item desc).LuaScript.toList =
        List.intercalate ['\n']
          (item.Variables.map (fun kv => (kv.1 ++ "=" ++ kv.2).toList))) ∧
    (∀ (p s : Nat) (item : CardInfo) (desc : DeckDescription),
      item.Variables = [] → (makeCard p s item desc).LuaScript = "") ∧
    (∀ (p s : Nat) (item : CardInfo) (desc : DeckDescription),
      (∀ kv ∈ item.Variables, '\n' ∉ kv.1.toList ∧ '\n' ∉ kv.2.toList) →
      textLines (makeCard p s item desc).LuaScript =
        item.Variables.map (fun kv => kv.1 ++ "=" ++ kv.2) ∧
      (textLines (makeCard p s item desc).LuaScript).length = item.Variables.length ∧
      (makeCard p s item desc).LuaScript.toList.getLast? ≠ some '\n') ∧
    (∀ (svc : Services) (gameItem : GameInfo) (deckArray : DeckArray) (total : Int)
        (w w' : World),
      generateBody svc gameItem deckArray total w = (none, w') →
      ∀ c ∈ bagCards (bagEntries w'),
        ∃ group ∈ deckArray.Decks, ∃ (p s : Nat) (page : CardPage) (card : CardDescription)
            (item : CardInfo),
          group.2.Pages.get? p = some page ∧ page.get? s = some card ∧
          svc.cardItem card.GameID card.CollectionID group.1.DeckID card.CardID = .ok item ∧
          c.LuaScript = stringsJoin (item.Variables.map (fun kv => kv.1 ++ "=" ++ kv.2)) "\n") := by
  refine ⟨?_, ?_, ?_, ?_⟩
  · intro p s item desc
    refine ⟨rfl, ?_⟩
    show (stringsJoin (luaVariables item.Variables) "\n").toList = _
    rw [stringsJoin_toList]
    unfold luaVariables
    rw [List.map_map]
    rfl
  · intro p s item desc hnil
    show stringsJoin (luaVariables item.Variables) "\n" = ""
    rw [hnil]
    rfl
  · intro p s item desc hvars
    have hlines : textLines (makeCard p s item desc).LuaScript =
        item.Variables.map (fun kv => kv.1 ++ "=" ++ kv.2) := by
      show textLines (stringsJoin (luaVariables item.Variables) "\n") = luaVariables item.Variables
      cases hv : item.Variables with
      | nil => rfl
      | cons kv rest =>
        rw [← hv]
        have hne : luaVariables item.Variables ≠ [] := by
          rw [hv]
          exact List.cons_ne_nil _ _
        have hl := luaVariables_line hvars
        have htext := (stringsJoin_last _ hne hl).1
        have hnotempty : stringsJoin (luaVariables item.Variables) "\n" ≠ "" := by
          intro h
          rw [h] at htext
          exact htext rfl
        unfold textLines
        rw [if_neg hnotempty, splitLines_stringsJoin _ hne (fun s hs => (hl s hs).1),
          List.map_map]
        exact List.map_id _
    refine ⟨hlines, by rw [hlines, List.length_map], ?_⟩
    show (stringsJoin (luaVariables item.Variables) "\n").toList.getLast? ≠ some '\n'
    cases hv : item.Variables with
    | nil => simp [luaVariables, stringsJoin]
    | cons kv rest =>
      rw [← hv]
      have hne : luaVariables item.Variables ≠ [] := by
        rw [hv]
        exact List.cons_ne_nil _ _
      exact (stringsJoin_last _ hne (luaVariables_line hvars)).2
  · intro svc gameItem deckArray total w w' h c hc
    rcases generateBody_ok h with ⟨st, hloop, -, hfiles, -⟩
    have hinit := initialState_aligned gameItem w
    have hcards := groupLoop_cards deckArray.Decks _ st hloop hinit.2.1
    have hentries : bagEntries w' = st.bag.ContainedObjects := by
      unfold bagEntries
      rw [rootDocument_concat w' _ _ _ hfiles]
      simp [finalBag]
    rw [hentries, hcards.1, hinit.2.2.2] at hc
    have hc : c ∈ deckArray.Decks.flatMap (groupCards svc) := hc
    rw [List.mem_flatMap] at hc
    rcases hc with ⟨group, hgroup, hc⟩
    rcases groupCards_origin hc with ⟨p, s, page, card, item, desc, hp, hs, hitem, rfl⟩
    exact ⟨group, hgroup, p, s, page, card, item, hp, hs, hitem, rfl⟩

set_option maxRecDepth 100000 in
/-- Counterexample to C21 as stated: a card whose single variable `text` has the value
`a`, newline, `b` gets a `LuaScript` of two lines, and its second line is not a
`key=value` entry of the card. -/
theorem LuaScript_lines_counterexample :
    (bagCards (bagEntries (generateBody multilineServices sampleGame singleCardArray 1
        startedWorld).2)).map (fun c => c.LuaScript) = ["text=a\nb"] ∧
    multilineServices.cardItem "base" "core" "loot" 1 =
      .ok ⟨1, "Sword", "A blade", [("text", "a\nb")], 1⟩ ∧
    textLines "text=a\nb" = ["text=a", "b"] ∧
    (textLines "text=a\nb").length ≠ [("text", "a\nb")].length := by
  refine ⟨by decide, rfl, by decide, by decide⟩

/-- Witness of C21 (amended): the card of the sample runs, with the variables `atk=2` and
`def=1`. -/
theorem LuaScript_lines_witness :
    textLines (makeCard 0 0 (sampleItem 1) (pageDescription (sampleServices sampleCount)
        "loot" "backside_loot_6794e7.png" 0 1)).LuaScript =
      (sampleItem 1).Variables.map (fun kv => kv.1 ++ "=" ++ kv.2) ∧
    (textLines (makeCard 0 0 (sampleItem 1) (pageDescription (sampleServices sampleCount)
        "loot" "backside_loot_6794e7.png" 0 1)).LuaScript).length =
      (sampleItem 1).Variables.length ∧
    (makeCard 0 0 (sampleItem 1) (pageDescription (sampleServices sampleCount)
        "loot" "backside_loot_6794e7.png" 0 1)).LuaScript.toList.getLast? ≠ some '\n' :=
  LuaScript_lines.2.2.1 0 0 (sampleItem 1) _ (by decide)

/-! ## Theorems: the comparison of cards -/

/-- A lookup fails exactly on the keys that do not occur. -/
theorem mapGet_eq_none {m : List (String × String)} {key : String} :
    mapGet m key = none ↔ key ∉ m.map Prod.fst := by
  induction m with
  | nil => simp [mapGet]
  | cons kv rest ih =>
    obtain ⟨k, v⟩ := kv
    unfold mapGet
    by_cases hk : k = key
    · rw [if_pos hk]
      simp [hk]
    · rw [if_neg hk, ih]
      simp only [List.map_cons, List.mem_cons, not_or]
      exact ⟨fun h => ⟨fun h' => hk h'.symm, h⟩, fun h => h.2⟩

/-- In a map the lookup of a key gives the value of its entry. -/
theorem mapGet_eq_some {m : List (String × String)} (hm : IsGoMap m) {key value : String} :
    mapGet m key = some value ↔ (key, value) ∈ m := by
  induction m with
  | nil => simp [mapGet]
  | cons kv rest ih =>
    obtain ⟨k, v⟩ := kv
    unfold IsGoMap at hm
    rw [List.map_cons, List.nodup_cons] at hm
    unfold mapGet
    by_cases hk : k = key
    · rw [if_pos hk]
      subst hk
      constructor
      · intro h
        injection h with h
        rw [h]
        exact List.mem_cons_self _ _
      · intro h
        rcases List.mem_cons.1 h with h | h
        · injection h with _ h
          rw [h]
        · exact absurd (List.mem_map.2 ⟨(k, value), h, rfl⟩) hm.1
    · rw [if_neg hk, ih hm.2]
      constructor
      · exact fun h => List.mem_cons_of_mem _ h
      · intro h
        rcases List.mem_cons.1 h with h | h
        · injection h with h _
          exact absurd h.symm hk
        · exact h

/-- The loop of `Compare` succeeds exactly when every visited entry is found in the other
map with the same value. -/
theorem compareVariables_eq_true {other m : List (String × String)} :
    entity.compareVariables other m = true ↔ ∀ kv ∈ m, mapGet other kv.1 = some kv.2 := by
  induction m with
  | nil => simp [entity.compareVariables]
  | cons kv rest ih =>
    obtain ⟨k, v⟩ := kv
    unfold entity.compareVariables
    cases hget : mapGet other k with
    | none =>
      simp only [List.mem_cons, forall_eq_or_imp, hget]
      constructor
      · intro h
        cases h
      · intro h
        cases h.1
    | some v2 =>
      simp only [List.mem_cons, forall_eq_or_imp, hget]
      by_cases hv : v = v2
      · subst hv
        simp [ih]
      · simp only [ne_eq, hv, not_false_eq_true, if_true]
        constructor
        · intro h
          cases h
        · intro h
          injection h.1 with h1
          exact absurd h1.symm hv

/-- For two maps, equal sizes with every entry of the first found in the second amounts to
the same key set with equal values. -/
theorem compareVariables_same {a b : List (String × String)} (ha : IsGoMap a) (hb : IsGoMap b) :
    (a.length = b.length ∧ entity.compareVariables b a = true) ↔ SameVariables a b := by
  constructor
  · rintro ⟨hlen, hcmp⟩
    rw [compareVariables_eq_true] at hcmp
    have hsub : a.map Prod.fst ⊆ b.map Prod.fst := by
      intro k hk
      rcases List.mem_map.1 hk with ⟨kv, hkv, rfl⟩
      by_contra hnot
      rw [← mapGet_eq_none, hcmp kv hkv] at hnot
      cases hnot
    have hperm : (a.map Prod.fst).Perm (b.map Prod.fst) :=
      (List.subperm_of_subset ha hsub).perm_of_length_le
        (by rw [List.length_map, List.length_map, hlen])
    intro key
    cases hga : mapGet a key with
    | some v =>
      exact (hcmp (key, v) ((mapGet_eq_some ha).1 hga)).symm
    | none =>
      rw [mapGet_eq_none] at hga
      exact (mapGet_eq_none.2 (fun h => hga (hperm.mem_iff.2 h))).symm
  · intro hsame
    have hkeys : ∀ k, k ∈ a.map Prod.fst ↔ k ∈ b.map Prod.fst := by
      intro k
      rw [← not_iff_not, ← mapGet_eq_none, ← mapGet_eq_none, hsame k]
    have hperm : (a.map Prod.fst).Perm (b.map Prod.fst) :=
      (List.perm_ext_iff_of_nodup ha hb).2 hkeys
    refine ⟨?_, ?_⟩
    · have := hperm.length_eq
      rwa [List.length_map, List.length_map] at this
    · rw [compareVariables_eq_true]
      intro kv hkv
      rw [← hsame kv.1]
      exact (mapGet_eq_some ha).2 hkv

/-- What `Compare` returns for two cards. -/
theorem Compare_eq_true {Q T : Type} [DecidableEq Q] (a b : entity.CardInfo Q T) :
    entity.CardInfo.Compare (some a) (some b) = .ok true ↔
      a.Title = b.Title ∧ a.Description = b.Description ∧ a.Image = b.Image ∧
      a.Count = b.Count ∧ a.Variables.length = b.Variables.length ∧
      entity.compareVariables b.Variables a.Variables = true := by
  unfold entity.CardInfo.Compare
  simp only [ne_eq]
  by_cases h1 : a.Title = b.Title
  · by_cases h2 : a.Description = b.Description
    · by_cases h3 : a.Image = b.Image
      · by_cases h4 : a.Count = b.Count
        · by_cases h5 : a.Variables.length = b.Variables.length
          · simp [h1, h2, h3, h4, h5]
          · simp [h1, h2, h3, h4, h5]
        · simp [h1, h2, h3, h4]
      · simp [h1, h2, h3]
    · simp [h1, h2]
  · simp [h1]

/-- For two cards `Compare` returns a boolean. -/
theorem Compare_returns {Q T : Type} [DecidableEq Q] (a b : entity.CardInfo Q T) :
    ∃ r, entity.CardInfo.Compare (some a) (some b) = .ok r := by
  unfold entity.CardInfo.Compare
  simp only [ne_eq]
  split_ifs <;> exact ⟨_, rfl⟩

/-- The characterisation of `Compare` by the contents of two cards whose variables are
maps. -/
theorem Compare_contents {Q T : Type} [DecidableEq Q] (a b : entity.CardInfo Q T)
    (ha : IsGoMap a.Variables) (hb : IsGoMap b.Variables) :
    entity.CardInfo.Compare (some a) (some b) = .ok true ↔
      a.Title = b.Title ∧ a.Description = b.Description ∧ a.Image = b.Image ∧
      a.Count = b.Count ∧ SameVariables a.Variables b.Variables := by
  rw [Compare_eq_true, ← compareVariables_same ha hb]

/-- C24: for two cards (whose `Variables` are maps: no key twice) `Compare` returns, and
it returns true exactly when `Title`, `Description`, `Image` and `Count` are equal and the
`Variables` maps have the same key set with equal values; so `Compare(a, a)` is true,
`Compare(a, b) = Compare(b, a)`, the relation is transitive, and the result does not
depend on `ID`, `CreatedAt` or `UpdatedAt`. -/
theorem Compare_equivalence {Q T : Type} [DecidableEq Q] (a b : entity.CardInfo Q T)
    (ha : IsGoMap a.Variables) (hb : IsGoMap b.Variables) :
    (∃ r, entity.CardInfo.Compare (some a) (some b) = .ok r) ∧
    (entity.CardInfo.Compare (some a) (some b) = .ok true ↔
      a.Title = b.Title ∧ a.Description = b.Description ∧ a.Image = b.Image ∧
      a.Count = b.Count ∧ SameVariables a.Variables b.Variables) ∧
    entity.CardInfo.Compare (some a) (some a) = .ok true ∧
    entity.CardInfo.Compare (some a) (some b) = entity.CardInfo.Compare (some b) (some a) ∧
    (∀ (id id' : Int) (created created' updated updated' : Option T),
      entity.CardInfo.Compare
          (some { a with ID := id, CreatedAt := created, UpdatedAt := updated })
          (some { b with ID := id', CreatedAt := created', UpdatedAt := updated' }) =
        entity.CardInfo.Compare (some a) (some b)) ∧
    (∀ c : entity.CardInfo Q T, IsGoMap c.Variables →
      entity.CardInfo.Compare (some a) (some b) = .ok true →
      entity.CardInfo.Compare (some b) (some c) = .ok true →
      entity.CardInfo.Compare (some a) (some c) = .ok true) := by
  have hab := Compare_contents a b ha hb
  have hba := Compare_contents b a hb ha
  refine ⟨Compare_returns a b, hab, ?_, ?_, ?_, ?_⟩
  · exact (Compare_contents a a ha ha).2 ⟨rfl, rfl, rfl, rfl, fun _ => rfl⟩
  · rcases Compare_returns a b with ⟨r, hr⟩
    rcases Compare_returns b a with ⟨r', hr'⟩
    have hiff : r = true ↔ r' = true := by
      constructor
      · intro h
        subst h
        rcases hab.1 hr with ⟨h1, h2, h3, h4, h5⟩
        have := hba.2 ⟨h1.symm, h2.symm, h3.symm, h4.symm, fun k => (h5 k).symm⟩
        rw [hr'] at this
        injection this
      · intro h
        subst h
        rcases hba.1 hr' with ⟨h1, h2, h3, h4, h5⟩
        have := hab.2 ⟨h1.symm, h2.symm, h3.symm, h4.symm, fun k => (h5 k).symm⟩
        rw [hr] at this
        injection this
    rw [hr, hr']
    congr 1
    cases r <;> cases r' <;> simp_all
  · intro id id' created created' updated updated'
    rfl
  · intro c hc h1 h2
    rcases hab.1 h1 with ⟨t1, d1, i1, c1, v1⟩
    rcases (Compare_contents b c hb hc).1 h2 with ⟨t2, d2, i2, c2, v2⟩
    exact (Compare_contents a c ha hc).2
      ⟨t1.trans t2, d1.trans d2, i1.trans i2, c1.trans c2, fun k => (v1 k).trans (v2 k)⟩

/-- Witness of C24: two copies of one card, stored under different ids at different
times, with the entries of their variables visited in different orders. -/
theorem Compare_equivalence_witness :
    (∃ r, entity.CardInfo.Compare (some (sampleCardInfo 1 none))
        (some (swappedCardInfo 2 (some 5))) = .ok r) ∧
    (entity.CardInfo.Compare (some (sampleCardInfo 1 none))
        (some (swappedCardInfo 2 (some 5))) = .ok true ↔
      (sampleCardInfo 1 none).Title = (swappedCardInfo 2 (some 5)).Title ∧
      (sampleCardInfo 1 none).Description = (swappedCardInfo 2 (some 5)).Description ∧
      (sampleCardInfo 1 none).Image = (swappedCardInfo 2 (some 5)).Image ∧
      (sampleCardInfo 1 none).Count = (swappedCardInfo 2 (some 5)).Count ∧
      SameVariables (sampleCardInfo 1 none).Variables
        (swappedCardInfo 2 (some 5)).Variables) ∧
    entity.CardInfo.Compare (some (sampleCardInfo 1 none)) (some (sampleCardInfo 1 none))
      = .ok true ∧
    entity.CardInfo.Compare (some (sampleCardInfo 1 none)) (some (swappedCardInfo 2 (some 5)))
      = entity.CardInfo.Compare (some (swappedCardInfo 2 (some 5)))
          (some (sampleCardInfo 1 none)) ∧
    entity.CardInfo.Compare (some (sampleCardInfo 1 none)) (some (swappedCardInfo 2 (some 5)))
      = .ok true :=
  ⟨(Compare_equivalence (sampleCardInfo 1 none) (swappedCardInfo 2 (some 5))
      (by unfold IsGoMap; decide) (by unfold IsGoMap; decide)).1,
   (Compare_equivalence (sampleCardInfo 1 none) (swappedCardInfo 2 (some 5))
      (by unfold IsGoMap; decide) (by unfold IsGoMap; decide)).2.1,
   (Compare_equivalence (sampleCardInfo 1 none) (swappedCardInfo 2 (some 5))
      (by unfold IsGoMap; decide) (by unfold IsGoMap; decide)).2.2.1,
   (Compare_equivalence (sampleCardInfo 1 none) (swappedCardInfo 2 (some 5))
      (by unfold IsGoMap; decide) (by unfold IsGoMap; decide)).2.2.2.1,
   rfl⟩

/-! ## Theorems: the id list and the cards of a deck object -/

theorem mapHas_mapSet_self {κ ν : Type} [DecidableEq κ] (m : List (κ × ν)) (k : κ) (v : ν) :
    mapHas (mapSet m k v) k := by
  unfold mapHas
  induction m with
  | nil => simp [mapSet, mapGet]
  | cons kv rest ih =>
    obtain ⟨k', v'⟩ := kv
    unfold mapSet
    by_cases hk : k' = k
    · rw [if_pos hk]
      simp [mapGet]
    · rw [if_neg hk]
      unfold mapGet
      rw [if_neg hk]
      exact ih

theorem mapHas_mapSet_of {κ ν : Type} [DecidableEq κ] (m : List (κ × ν)) (k k0 : κ) (v : ν)
    (h : mapHas m k0) : mapHas (mapSet m k v) k0 := by
  unfold mapHas at h ⊢
  induction m with
  | nil => simp [mapGet] at h
  | cons kv rest ih =>
    obtain ⟨k', v'⟩ := kv
    unfold mapSet
    by_cases hk : k' = k
    · rw [if_pos hk]
      unfold mapGet at h ⊢
      by_cases hk0 : k' = k0
      · rw [if_pos (hk ▸ hk0)]
        rfl
      · rw [if_neg hk0] at h
        rw [if_neg (fun hh => hk0 (hk.trans hh))]
        exact h
    · rw [if_neg hk]
      unfold mapGet at h ⊢
      by_cases hk0 : k' = k0
      · rw [if_pos hk0]
        rfl
      · rw [if_neg hk0] at h ⊢
        exact ih h

/-- The card entity of a slot below 100 holds the key of its own code. -/
theorem makeCard_keyed (p s : Nat) (item : CardInfo) (desc : DeckDescription) (hs : s < 100) :
    Int.tdiv (makeCard p s item desc).CardID 100 = (p : Int) + 1 ∧
    mapHas (makeCard p s item desc).CustomDeck (Int.tdiv (makeCard p s item desc).CardID 100) := by
  have hcode : (makeCard p s item desc).CardID = cardCode p s := rfl
  rw [hcode, (cardCode_div_mod p s hs).1]
  refine ⟨rfl, ?_⟩
  unfold mapHas
  rw [show (makeCard p s item desc).CustomDeck = [((p : Int) + 1, desc)] from rfl,
    mapGet_singleton]
  rfl

/-- The deck objects of the bag after the collapse rule are those of the bag before and,
at most, the accumulated deck. -/
theorem appendCollapsed_decks {bag : Bag} {deck d : DeckObject}
    (hd : BagObject.deck d ∈ (appendCollapsed bag deck).ContainedObjects) :
    BagObject.deck d ∈ bag.ContainedObjects ∨ d = deck := by
  unfold appendCollapsed at hd
  split at hd
  · exact Or.inl hd
  · simp only [List.mem_append, List.mem_singleton] at hd
    rcases hd with hd | hd
    · exact Or.inl hd
    · cases hd
  · simp only [List.mem_append, List.mem_singleton] at hd
    rcases hd with hd | hd
    · exact Or.inl hd
    · injection hd with hd
      exact Or.inr hd

/-- A successful card step at a slot below 100 keeps the accumulated deck and the deck
objects of the bag keyed, and leaves the key of the page in the accumulated deck. -/
theorem cardBody_keyed {svc : Services} {total : Int} {deckInfo : DeckType} {pageId : Nat}
    {page : CardPage} {cardId : Nat} {card : CardDescription} {v v' : PageVars}
    (h : cardBody svc total deckInfo pageId page cardId card v = .ok v') (hs : cardId < 100)
    (hv : AllKeyed v.st.bag v.st.deck)
    (hkey : v.infoPage ≠ none → mapHas v.st.deck.CustomDeck ((pageId : Int) + 1)) :
    AllKeyed v'.st.bag v'.st.deck ∧ mapHas v'.st.deck.CustomDeck ((pageId : Int) + 1) := by
  rcases cardBody_ok h with ⟨st1, id1, v2, ip2, ip3, st4, id4, item, h1, h2, -, h4, -, hv'⟩
  have e1 : st1.bag = v.st.bag ∧ st1.deck = v.st.deck := by
    rcases stepBackside_ok h1 with ⟨_, _, hs1, _⟩ | ⟨_, _, _, _, _, _, hs1, _⟩ <;>
      subst hs1 <;> exact ⟨rfl, rfl⟩
  have k2 : AllKeyed v2.st.bag v2.st.deck ∧
      mapHas v2.st.deck.CustomDeck ((pageId : Int) + 1) := by
    rcases stepPageInfo_ok h2 with ⟨hsome, hs2⟩ | ⟨_, id', _, hs2⟩
    · subst hs2
      show AllKeyed st1.bag st1.deck ∧ mapHas st1.deck.CustomDeck _
      rw [e1.1, e1.2]
      refine ⟨hv, hkey ?_⟩
      have hsome : v.infoPage = some ip2 := hsome
      rw [hsome]
      exact Option.some_ne_none _
    · subst hs2
      show AllKeyed st1.bag { st1.deck with CustomDeck := _ } ∧ mapHas (mapSet _ _ _) _
      rw [e1.1, e1.2]
      refine ⟨⟨?_, hv.2⟩, mapHas_mapSet_self _ _ _⟩
      intro c hc
      exact ⟨(hv.1 c hc).1, mapHas_mapSet_of _ _ _ _ (hv.1 c hc).2⟩
  have k4 : AllKeyed st4.bag st4.deck ∧ mapHas st4.deck.CustomDeck ((pageId : Int) + 1) := by
    rcases stepBoundary_ok h4 with ⟨_, hs4, _⟩ | ⟨_, it, _, hs4, _⟩
    · subst hs4
      exact k2
    · subst hs4
      refine ⟨⟨?_, ?_⟩, ?_⟩
      · intro c hc
        cases hc
      · intro d hd
        rcases appendCollapsed_decks hd with hd | hd
        · exact k2.1.2 d hd
        · rw [hd]
          exact k2.1.1
      · unfold mapHas
        show (mapGet [((pageId : Int) + 1, v2.infoDeck.deckDesc)] ((pageId : Int) + 1)).isSome
          = true
        rw [mapGet_singleton]
        rfl
  subst hv'
  simp only [GenState.setProgress, addCopies_eq]
  refine ⟨⟨?_, k4.1.2⟩, k4.2⟩
  intro c hc
  rcases List.mem_append.1 hc with hc | hc
  · exact k4.1.1 c hc
  · rcases List.mem_replicate.1 hc with ⟨-, rfl⟩
    have hk := makeCard_keyed pageId cardId item id4.deckDesc hs
    refine ⟨hk.2, ?_⟩
    show mapHas st4.deck.CustomDeck _
    rw [hk.1]
    exact k4.2

/-- The flush at the end of a group keeps the deck objects keyed. -/
theorem flushGroup_keyed (st : GenState) (hst : AllKeyed st.bag st.deck) :
    AllKeyed (flushGroup st).bag (flushGroup st).deck := by
  unfold flushGroup
  split
  · exact hst
  · refine ⟨?_, ?_⟩
    · intro c hc
      cases hc
    · intro d hd
      rcases appendCollapsed_decks hd with hd | hd
      · exact hst.2 d hd
      · rw [hd]
        exact hst.1

/-- The loop over the groups keeps the deck objects keyed when no page holds more than
100 cards. -/
theorem groupLoop_keyed {svc : Services} {total : Int} {groups : List (DeckType × DeckPages)}
    {st st' : GenState} (h : groupLoop svc total groups st = .ok st')
    (hcap : ∀ group ∈ groups, ∀ page ∈ group.2.Pages, page.length ≤ 100)
    (hst : AllKeyed st.bag st.deck) : AllKeyed st'.bag st'.deck := by
  refine groupLoop_inv (fun s => AllKeyed s.bag s.deck) groups st st' h hst ?_
  intro group s s' hgroup hs hbody
  rcases groupBody_ok hbody with ⟨_, rfl⟩ | ⟨_, st1, id1, hloop, rfl⟩
  · exact hs
  · refine flushGroup_keyed st1 ?_
    refine pageLoop_inv (fun _ a _ => AllKeyed a.bag a.deck) group.2.Pages 0 s st1 {} id1
      hloop hs ?_
    intro i page a a' x x' hget ha hpage
    have hlen : page.length ≤ 100 := hcap group hgroup page (List.get?_mem hget)
    rcases pageBody_bag_deck hpage with ⟨v, hcards, hbag, hdeck, -, -⟩
    rw [hbag, hdeck]
    have key := cardLoop_inv
      (fun _ u => AllKeyed u.st.bag u.st.deck ∧
        (u.infoPage ≠ none → mapHas u.st.deck.CustomDeck (((0 + i : Nat) : Int) + 1)))
      page 0 _ v hcards ⟨ha, fun hne => absurd rfl hne⟩ ?_
    · exact key.1
    · intro j card u u' hj hu hcard
      have hlt : j < page.length := (List.get?_eq_some.1 hj).1
      have hres := cardBody_keyed hcard (by omega) hu.1 hu.2
      exact ⟨hres.1, fun _ => hres.2⟩

/-- At slot 100 the code divided by 100 is the number of the next page, which is not a key
of the `CustomDeck` of the card entity: the bound on the slots is needed. -/
theorem makeCard_slot_hundred (item : CardInfo) (desc : DeckDescription) :
    (makeCard 0 100 item desc).CardID = 200 ∧
    Int.tdiv (makeCard 0 100 item desc).CardID 100 = 2 ∧
    ¬ mapHas (makeCard 0 100 item desc).CustomDeck
      (Int.tdiv (makeCard 0 100 item desc).CardID 100) := by
  refine ⟨rfl, rfl, ?_⟩
  unfold mapHas
  show ¬ (mapGet [(((0 : Nat) : Int) + 1, desc)] (Int.tdiv 200 100)).isSome = true
  have hdiv : Int.tdiv 200 100 = 2 := rfl
  rw [hdiv]
  simp [mapGet]

/-- The entries of the bag of the root document of a successful run are those the loop
over the groups leaves. -/
theorem generateBody_entries {svc : Services} {gameItem : GameInfo} {deckArray : DeckArray}
    {total : Int} {w w' : World}
    (h : generateBody svc gameItem deckArray total w = (none, w')) :
    ∃ st, groupLoop svc total deckArray.Decks (initialState gameItem w) = .ok st ∧
      bagEntries w' = st.bag.ContainedObjects := by
  rcases generateBody_ok h with ⟨st, hloop, -, hfiles, -⟩
  refine ⟨st, hloop, ?_⟩
  unfold bagEntries
  rw [rootDocument_concat w' _ _ _ hfiles]
  simp [finalBag]

/-- C22 (amended): in every deck object of the bag of the root document of a successful
`generateBody`, `DeckIDs` and `ContainedObjects` have the same length and `DeckIDs[i]` is
the `CardID` of `ContainedObjects[i]`; and when no page holds more than 100 cards (pages
hold at most `MaxCount = 69`), `DeckIDs[i] / 100` is a key of the `CustomDeck` of that card
and of the `CustomDeck` of the deck object. -/
theorem deck_ids_match_cards (svc : Services) (gameItem : GameInfo) (deckArray : DeckArray)
    (total : Int) (w w' : World)
    (h : generateBody svc gameItem deckArray total w = (none, w')) :
    (∀ d, BagObject.deck d ∈ bagEntries w' →
      d.DeckIDs.length = d.ContainedObjects.length ∧
      ∀ (i : Nat) (id : Int), d.DeckIDs.get? i = some id →
        ∃ c, d.ContainedObjects.get? i = some c ∧ id = c.CardID) ∧
    ((∀ group ∈ deckArray.Decks, ∀ page ∈ group.2.Pages, page.length ≤ 100) →
      ∀ d, BagObject.deck d ∈ bagEntries w' →
        ∀ (i : Nat) (id : Int) (c : Card),
          d.DeckIDs.get? i = some id → d.ContainedObjects.get? i = some c →
          mapHas c.CustomDeck (Int.tdiv id 100) ∧ mapHas d.CustomDeck (Int.tdiv id 100)) ∧
    ((MaxCount : Int) ≤ 100) := by
  rcases generateBody_entries h with ⟨st, hloop, hentries⟩
  have hinit := initialState_aligned gameItem w
  have hal := groupLoop_aligned hloop ⟨hinit.1, hinit.2.1, hinit.2.2.1⟩
  have hids : ∀ d, BagObject.deck d ∈ bagEntries w' →
      ∀ (i : Nat) (id : Int), d.DeckIDs.get? i = some id →
        ∃ c, d.ContainedObjects.get? i = some c ∧ id = c.CardID := by
    intro d hd i id hi
    rw [hentries] at hd
    have hdal : d.DeckIDs = d.ContainedObjects.map (fun c => c.CardID) := hal.1.2 d hd
    rw [hdal, List.get?_eq_getElem?, List.getElem?_map] at hi
    rw [List.get?_eq_getElem?]
    cases hc : d.ContainedObjects[i]? with
    | none =>
      rw [hc] at hi
      cases hi
    | some c =>
      rw [hc] at hi
      injection hi with hi
      exact ⟨c, rfl, hi.symm⟩
  refine ⟨?_, ?_, by decide⟩
  · intro d hd
    refine ⟨?_, hids d hd⟩
    rw [hentries] at hd
    have hdal : d.DeckIDs = d.ContainedObjects.map (fun c => c.CardID) := hal.1.2 d hd
    rw [hdal, List.length_map]
  · intro hcap d hd i id c hi hc
    rcases hids d hd i id hi with ⟨c', hc', hid⟩
    rw [hc] at hc'
    injection hc' with hc'
    subst hc'
    subst hid
    rw [hentries] at hd
    have hkeyed : AllKeyed st.bag st.deck := by
      refine groupLoop_keyed hloop hcap ⟨?_, ?_⟩
      · intro c hc
        cases hc
      · intro d hd
        cases hd
    exact hkeyed.2 d hd c (List.get?_mem hc)

set_option maxRecDepth 100000 in
/-- Witness of C22: the sample group of three cards on two pages with replication counts
1, 2 and 2, which gives one deck object of five card entities. -/
theorem deck_ids_match_cards_witness :
    (bagDecks (bagEntries (generateBody (sampleServices sampleCount) sampleGame twoPageArray 3
        startedWorld).2)).map (fun d => d.DeckIDs) = [[100, 101, 101, 200, 200]] ∧
    ((∀ d, BagObject.deck d ∈ bagEntries (generateBody (sampleServices sampleCount) sampleGame
          twoPageArray 3 startedWorld).2 →
      d.DeckIDs.length = d.ContainedObjects.length ∧
      ∀ (i : Nat) (id : Int), d.DeckIDs.get? i = some id →
        ∃ c, d.ContainedObjects.get? i = some c ∧ id = c.CardID) ∧
    ((∀ group ∈ twoPageArray.Decks, ∀ page ∈ group.2.Pages, page.length ≤ 100) →
      ∀ d, BagObject.deck d ∈ bagEntries (generateBody (sampleServices sampleCount) sampleGame
          twoPageArray 3 startedWorld).2 →
        ∀ (i : Nat) (id : Int) (c : Card),
          d.DeckIDs.get? i = some id → d.ContainedObjects.get? i = some c →
          mapHas c.CustomDeck (Int.tdiv id 100) ∧ mapHas d.CustomDeck (Int.tdiv id 100)) ∧
    ((MaxCount : Int) ≤ 100)) ∧
    (∀ group ∈ twoPageArray.Decks, ∀ page ∈ group.2.Pages, page.length ≤ 100) :=
  ⟨by decide,
   deck_ids_match_cards (sampleServices sampleCount) sampleGame twoPageArray 3 startedWorld _
    (run_eq_of_no_error (by decide)),
   by decide⟩

/-- The deck objects listed by `bagDecks` are entries of the list. -/
theorem mem_bagDecks {l : List BagObject} {d : DeckObject} (h : d ∈ bagDecks l) :
    BagObject.deck d ∈ l := by
  induction l with
  | nil => cases h
  | cons x rest ih =>
    cases x with
    | card c => exact List.mem_cons_of_mem _ (ih h)
    | deck d' =>
      rcases List.mem_cons.1 h with h | h
      · rw [h]
        exact List.mem_cons_self _ _
      · exact List.mem_cons_of_mem _ (ih h)

set_option maxRecDepth 1000000 in
/-- Counterexample to C22 as stated: the run on a group whose single page holds 101 cards
succeeds and puts in the bag a deck object whose id at index 100 is 200, the `CardID` of
its card at index 100; 200 / 100 = 2 is a key neither of the `CustomDeck` of that card nor
of the `CustomDeck` of the deck object. -/
theorem deck_ids_match_cards_counterexample :
    (generateBody (sampleServices (fun _ => 1)) sampleGame crowdedArray 101 startedWorld).1
      = none ∧
    ∃ d, BagObject.deck d ∈ bagEntries (generateBody (sampleServices (fun _ => 1)) sampleGame
        crowdedArray 101 startedWorld).2 ∧
      ∃ c, d.DeckIDs.get? 100 = some 200 ∧ d.ContainedObjects.get? 100 = some c ∧
        c.CardID = 200 ∧ Int.tdiv 200 100 = 2 ∧
        ¬ mapHas c.CustomDeck (Int.tdiv 200 100) ∧ ¬ mapHas d.CustomDeck (Int.tdiv 200 100) := by
  have hrun : (generateBody (sampleServices (fun _ => 1)) sampleGame crowdedArray 101
      startedWorld).1 = none := by decide
  have h : (bagDecks (bagEntries (generateBody (sampleServices (fun _ => 1)) sampleGame
      crowdedArray 101 startedWorld).2)).map
        (fun d => (d.DeckIDs.get? 100,
          (d.ContainedObjects.get? 100).map
            (fun c => (c.CardID, (mapGet c.CustomDeck 2).isSome)),
          (mapGet d.CustomDeck 2).isSome)) =
      [(some 200, some (200, false), false)] := by decide
  refine ⟨hrun, ?_⟩
  generalize bagEntries (generateBody (sampleServices (fun _ => 1)) sampleGame crowdedArray 101
    startedWorld).2 = entries at h
  cases hd : bagDecks entries with
  | nil =>
    rw [hd] at h
    cases h
  | cons d rest =>
    rw [hd] at h
    have hmem : BagObject.deck d ∈ entries := mem_bagDecks (by rw [hd]; exact List.mem_cons_self _ _)
    simp only [List.map_cons, List.cons.injEq, Prod.mk.injEq] at h
    rcases h with ⟨⟨hid, hcard, hdeck⟩, -⟩
    cases hc : d.ContainedObjects.get? 100 with
    | none =>
      rw [hc] at hcard
      cases hcard
    | some c =>
      rw [hc] at hcard
      simp only [Option.map_some', Option.some.injEq, Prod.mk.injEq] at hcard
      have hdiv : Int.tdiv 200 100 = 2 := rfl
      refine ⟨d, hmem, c, hid, hc, hcard.1, hdiv, ?_, ?_⟩
      · unfold mapHas
        rw [hdiv, hcard.2]
        decide
      · unfold mapHas
        rw [hdiv, hdeck]
        decide

/-! ## Theorems: the calls of `getListOfCards` -/

/-- The card loop of `getListOfCards` makes one `AddCard` call for each listed card. -/
theorem addCards_log (gameID collectionID : String) :
    ∀ (items : List CardInfo) (log : List AggregatorCall) (total : Int),
      addCards callLog gameID collectionID items (log, total) =
        (log ++ items.map
          (fun card => AggregatorCall.AddCard gameID collectionID card.ID card.Count),
          total + (items.length : Int)) := by
  intro items
  induction items with
  | nil =>
    intro log total
    simp [addCards]
  | cons item rest ih =>
    intro log total
    simp only [addCards]
    rw [ih]
    simp only [callLog, List.map_cons, List.length_cons, List.append_assoc, List.singleton_append]
    congr 1
    push_cast
    ring

theorem listDecks_log (svc : Services) (gameID sortField collectionID : String) :
    ∀ (decks : List DeckInfo) (log log' : List AggregatorCall) (total total' : Int),
      listDecks callLog svc gameID sortField collectionID decks (log, total) = .ok (log', total') →
      log' = log ++ decks.flatMap (deckCalls svc gameID sortField collectionID) := by
  intro decks
  induction decks with
  | nil =>
    intro log log' total total' h
    simp only [listDecks] at h
    injection h with h
    injection h with h1 h2
    subst h1
    simp
  | cons deck rest ih =>
    intro log log' total total' h
    simp only [listDecks] at h
    split at h
    · cases h
    · rename_i items hitems
      rw [addCards_log] at h
      rw [ih _ log' _ total' h, List.flatMap_cons]
      simp only [deckCalls, hitems, callLog, List.append_assoc, List.singleton_append,
        List.cons_append, List.nil_append]

theorem listCollections_log (svc : Services) (gameID sortField : String) :
    ∀ (colls : List CollectionInfo) (log log' : List AggregatorCall) (total total' : Int),
      listCollections callLog svc gameID sortField colls (log, total) = .ok (log', total') →
      log' = log ++ colls.flatMap (collectionCalls svc gameID sortField) := by
  intro colls
  induction colls with
  | nil =>
    intro log log' total total' h
    simp only [listCollections] at h
    injection h with h
    injection h with h1 h2
    subst h1
    simp
  | cons coll rest ih =>
    intro log log' total total' h
    simp only [listCollections] at h
    split at h
    · cases h
    · rename_i decks hdecks
      split at h
      · cases h
      · rename_i acc hacc
        obtain ⟨log1, total1⟩ := acc
        rw [ih log1 log' total1 total' h, listDecks_log svc gameID sortField coll.ID _ _ _ _ _ hacc,
          List.flatMap_cons, List.append_assoc]
        simp only [collectionCalls, hdecks]

/-- The calls of a successful `getListOfCards` are those of the listed cards: for every
listed deck one `SelectDeck`, then exactly one `AddCard` per listed card. -/
theorem getListOfCards_log {svc : Services} {gameID sortField : String}
    {log : List AggregatorCall} {total : Int}
    (h : getListOfCards callLog svc gameID sortField = .ok (log, total)) :
    log = listedCalls svc gameID sortField := by
  unfold getListOfCards at h
  unfold listedCalls
  split at h
  · cases h
  · rename_i colls hcolls
    have := listCollections_log svc gameID sortField colls _ _ _ _ h
    simp only [callLog, List.nil_append] at this
    rw [this, hcolls]

/-! ## Theorems: the deck aggregator -/

/-- Where a placement goes does not depend on the replication count it records. -/
theorem addToPages_erase (card : CardDescription) :
    ∀ pages : List CardPage,
      (addToPages pages card).map (fun page => page.map CardDescription.withoutCount) =
        addToPages (pages.map (fun page => page.map CardDescription.withoutCount))
          card.withoutCount := by
  intro pages
  induction pages with
  | nil => rfl
  | cons page rest ih =>
    cases rest with
    | nil =>
      simp only [addToPages, List.map_cons, List.map_nil, List.length_map]
      split <;> simp
    | cons page2 rest =>
      have h3 : ∀ (a b : CardPage) (r : List CardPage) (c : CardDescription),
          addToPages (a :: b :: r) c = a :: addToPages (b :: r) c := fun _ _ _ _ => rfl
      rw [h3, List.map_cons, ih]
      rfl

/-- One placement is added, whatever the pages. -/
theorem addToPages_length (card : CardDescription) :
    ∀ pages : List CardPage,
      ((addToPages pages card).flatMap id).length = (pages.flatMap id).length + 1 := by
  intro pages
  induction pages with
  | nil => rfl
  | cons page rest ih =>
    cases rest with
    | nil =>
      simp only [addToPages]
      split <;> simp
    | cons page2 rest =>
      have h3 : ∀ (a b : CardPage) (r : List CardPage) (c : CardDescription),
          addToPages (a :: b :: r) c = a :: addToPages (b :: r) c := fun _ _ _ _ => rfl
      rw [h3, List.flatMap_cons, List.length_append, ih]
      have hcons : ((page :: page2 :: rest).flatMap id).length =
          (id page).length + ((page2 :: rest).flatMap id).length := by
        rw [List.flatMap_cons, List.length_append]
      rw [hcons]
      omega

/-- A call of the aggregator and the erasure of the replication counts commute. -/
theorem applyCall_erase (st : DeckGrouping) (call : AggregatorCall) :
    (applyCall deckAggregator st call).withoutCounts =
      applyCall deckAggregator st.withoutCounts call.withoutCount := by
  have hkeys : (groupsWithoutCounts st.Decks).map Prod.fst = st.Decks.map Prod.fst := by
    unfold groupsWithoutCounts
    rw [List.map_map]
    rfl
  obtain ⟨decks, current⟩ := st
  cases call with
  | SelectDeck deckID image =>
    simp only [applyCall, AggregatorCall.withoutCount, deckAggregator,
      DeckGrouping.withoutCounts, hkeys]
    split
    · rfl
    · simp [groupsWithoutCounts]
  | AddCard gameID collectionID cardID count =>
    simp only [applyCall, AggregatorCall.withoutCount, deckAggregator,
      DeckGrouping.withoutCounts]
    cases current with
    | none => rfl
    | some key =>
      simp only [groupsWithoutCounts, List.map_map]
      congr 1
      apply List.map_congr_left
      intro group _
      simp only [Function.comp]
      by_cases hk : group.1 = key
      · simp only [hk, if_true]
        rw [addToPages_erase]
        rfl
      · simp only [hk, if_false]

theorem foldl_applyCall_erase (log : List AggregatorCall) :
    ∀ st : DeckGrouping,
      (log.foldl (applyCall deckAggregator) st).withoutCounts =
        (log.map AggregatorCall.withoutCount).foldl (applyCall deckAggregator)
          st.withoutCounts := by
  induction log with
  | nil =>
    intro st
    rfl
  | cons call rest ih =>
    intro st
    simp only [List.foldl_cons, List.map_cons]
    rw [ih, applyCall_erase]

/-- The state the aggregator reaches, up to replication counts, depends on the calls up to
replication counts only. -/
theorem replay_erase (log : List AggregatorCall) :
    (replay deckAggregator log).withoutCounts =
      replay deckAggregator (log.map AggregatorCall.withoutCount) := by
  unfold replay
  rw [foldl_applyCall_erase]
  rfl

/-- Updating the one group with a given key adds one placement and keeps the keys. -/
theorem placements_update (key : DeckType) (card : CardDescription) :
    ∀ decks : List (DeckType × DeckPages),
      (decks.map (fun group =>
          if group.1 = key then (group.1, DeckPages.mk (addToPages group.2.Pages card))
          else group)).map Prod.fst = decks.map Prod.fst ∧
      ((decks.map Prod.fst).Nodup → key ∈ decks.map Prod.fst →
        placements (decks.map (fun group =>
          if group.1 = key then (group.1, DeckPages.mk (addToPages group.2.Pages card))
          else group)) = placements decks + 1) ∧
      (key ∉ decks.map Prod.fst →
        decks.map (fun group =>
          if group.1 = key then (group.1, DeckPages.mk (addToPages group.2.Pages card))
          else group) = decks) := by
  intro decks
  induction decks with
  | nil =>
    refine ⟨rfl, ?_, fun _ => rfl⟩
    intro _ h
    cases h
  | cons group rest ih =>
    rcases ih with ⟨hkeys, hadd, hsame⟩
    refine ⟨?_, ?_, ?_⟩
    · simp only [List.map_cons]
      rw [hkeys]
      by_cases hk : group.1 = key
      · simp only [hk, if_true]
      · simp only [hk, if_false]
    · intro hnodup hmem
      rw [List.map_cons, List.nodup_cons] at hnodup
      simp only [List.map_cons]
      by_cases hk : group.1 = key
      · simp only [hk, if_true]
        have hnot : key ∉ rest.map Prod.fst := by
          rw [← hk]
          exact hnodup.1
        rw [hsame hnot]
        unfold placements
        rw [List.flatMap_cons, List.flatMap_cons, List.length_append, List.length_append]
        simp only []
        rw [addToPages_length]
        omega
      · simp only [hk, if_false]
        have hmem' : key ∈ rest.map Prod.fst := by
          rcases List.mem_cons.1 hmem with h | h
          · exact absurd h.symm hk
          · exact h
        have := hadd hnodup.2 hmem'
        unfold placements at this ⊢
        rw [List.flatMap_cons, List.flatMap_cons, List.length_append, List.length_append, this]
        omega
    · intro hnot
      simp only [List.map_cons, List.mem_cons, not_or] at hnot ⊢
      rw [hsame hnot.2]
      have hk : ¬ group.1 = key := fun h => hnot.1 h.symm
      simp only [hk, if_false]

/-- `SelectDeck` makes a group current and adds no placement. -/
theorem selectDeck_selected (st : DeckGrouping) (deckID image : String)
    (hst : (st.Decks.map Prod.fst).Nodup) :
    (deckAggregator.SelectDeck st deckID image).Selected ∧
    placements (deckAggregator.SelectDeck st deckID image).Decks = placements st.Decks := by
  simp only [deckAggregator]
  split
  · rename_i hmem
    exact ⟨⟨hst, _, rfl, hmem⟩, rfl⟩
  · rename_i hnot
    refine ⟨⟨?_, _, rfl, ?_⟩, ?_⟩
    · simp only [List.map_append, List.map_cons, List.map_nil]
      rw [List.nodup_append]
      refine ⟨hst, List.nodup_singleton _, ?_⟩
      intro a ha hb
      rw [List.mem_singleton] at hb
      subst hb
      exact hnot ha
    · simp
    · unfold placements
      simp

/-- `AddCard` on a state with a current group adds exactly one placement. -/
theorem addCard_selected (st : DeckGrouping) (gameID collectionID : String)
    (cardID count : Int) (hst : st.Selected) :
    (deckAggregator.AddCard st gameID collectionID cardID count).Selected ∧
    placements (deckAggregator.AddCard st gameID collectionID cardID count).Decks =
      placements st.Decks + 1 := by
  obtain ⟨decks, current⟩ := st
  rcases hst with ⟨hnodup, key, hcur, hmem⟩
  have hcur : current = some key := hcur
  subst hcur
  rcases placements_update key ⟨gameID, collectionID, cardID, count⟩ decks
    with ⟨hkeys, hadd, -⟩
  simp only [deckAggregator]
  refine ⟨⟨?_, key, rfl, ?_⟩, hadd hnodup hmem⟩
  · show (List.map Prod.fst (List.map _ decks)).Nodup
    rw [hkeys]
    exact hnodup
  · show key ∈ List.map Prod.fst (List.map _ decks)
    rw [hkeys]
    exact hmem

/-- From a state with a current group, the calls add one placement per `AddCard`. -/
theorem foldl_applyCall_placements (log : List AggregatorCall) :
    ∀ st : DeckGrouping, st.Selected →
      (log.foldl (applyCall deckAggregator) st).Selected ∧
      placements (log.foldl (applyCall deckAggregator) st).Decks =
        placements st.Decks + (log.filter AggregatorCall.isAddCard).length := by
  induction log with
  | nil =>
    intro st hst
    exact ⟨hst, rfl⟩
  | cons call rest ih =>
    intro st hst
    simp only [List.foldl_cons]
    cases call with
    | SelectDeck deckID image =>
      rcases selectDeck_selected st deckID image hst.1 with ⟨hsel, hcount⟩
      rcases ih _ hsel with ⟨h1, h2⟩
      refine ⟨h1, ?_⟩
      show placements (List.foldl (applyCall deckAggregator)
        (deckAggregator.SelectDeck st deckID image) rest).Decks = _
      rw [h2, hcount]
      simp [List.filter_cons, AggregatorCall.isAddCard]
    | AddCard gameID collectionID cardID count =>
      rcases addCard_selected st gameID collectionID cardID count hst with ⟨hsel, hcount⟩
      rcases ih _ hsel with ⟨h1, h2⟩
      refine ⟨h1, ?_⟩
      show placements (List.foldl (applyCall deckAggregator)
        (deckAggregator.AddCard st gameID collectionID cardID count) rest).Decks = _
      rw [h2, hcount]
      simp only [List.filter_cons, AggregatorCall.isAddCard, if_true, List.length_cons]
      omega

/-- Calls that do not start with an `AddCard` leave as many placements as they hold
`AddCard` calls. -/
theorem replay_placements (log : List AggregatorCall) (hlog : StartsWithSelect log) :
    placements (replay deckAggregator log).Decks =
      (log.filter AggregatorCall.isAddCard).length := by
  unfold replay
  cases log with
  | nil => rfl
  | cons call rest =>
    cases call with
    | SelectDeck deckID image =>
      simp only [List.foldl_cons]
      rcases selectDeck_selected deckAggregator.NewDeckArray deckID image List.nodup_nil
        with ⟨hsel, hcount⟩
      show placements (List.foldl (applyCall deckAggregator)
        (deckAggregator.SelectDeck deckAggregator.NewDeckArray deckID image) rest).Decks = _
      rw [(foldl_applyCall_placements rest _ hsel).2, hcount]
      have hzero : placements deckAggregator.NewDeckArray.Decks = 0 := rfl
      rw [hzero]
      simp [List.filter_cons, AggregatorCall.isAddCard]
    | AddCard gameID collectionID cardID count =>
      cases hlog

theorem startsWithSelect_flatMap {β : Type} (f : β → List AggregatorCall) :
    ∀ xs : List β, (∀ x ∈ xs, StartsWithSelect (f x)) → StartsWithSelect (xs.flatMap f) := by
  intro xs
  induction xs with
  | nil =>
    intro _
    trivial
  | cons x rest ih =>
    intro h
    rw [List.flatMap_cons]
    have hx := h x (List.mem_cons_self _ _)
    cases hfx : f x with
    | nil =>
      rw [List.nil_append]
      exact ih (fun y hy => h y (List.mem_cons_of_mem _ hy))
    | cons call tail =>
      rw [hfx] at hx
      exact hx

/-- The calls of `getListOfCards` never start with an `AddCard`. -/
theorem listedCalls_start (svc : Services) (gameID sortField : String) :
    StartsWithSelect (listedCalls svc gameID sortField) := by
  unfold listedCalls
  split
  · apply startsWithSelect_flatMap
    intro coll _
    unfold collectionCalls
    split
    · apply startsWithSelect_flatMap
      intro deck _
      rfl
    · trivial
  · trivial

/-- A placement never makes a page exceed the capacity `MaxCount`. -/
theorem addToPages_capacity (card : CardDescription) :
    ∀ pages : List CardPage, (∀ page ∈ pages, (page.length : Int) ≤ MaxCount) →
      ∀ page ∈ addToPages pages card, (page.length : Int) ≤ MaxCount := by
  have hmax : MaxCount = 69 := rfl
  intro pages
  induction pages with
  | nil =>
    intro _ page hpage
    simp only [addToPages, List.mem_singleton] at hpage
    subst hpage
    rw [hmax, List.length_singleton]
    decide
  | cons first rest ih =>
    intro hcap page hpage
    cases rest with
    | nil =>
      simp only [addToPages] at hpage
      split at hpage
      · simp only [List.mem_cons, List.mem_singleton, List.not_mem_nil, or_false] at hpage
        rcases hpage with h | h
        · subst h
          exact hcap _ (List.mem_cons_self _ _)
        · subst h
          rw [hmax, List.length_singleton]
          decide
      · rename_i hlt
        simp only [List.mem_singleton] at hpage
        subst hpage
        rw [List.length_append, List.length_singleton]
        push_cast
        omega
    | cons second rest =>
      have h3 : addToPages (first :: second :: rest) card =
          first :: addToPages (second :: rest) card := rfl
      rw [h3] at hpage
      rcases List.mem_cons.1 hpage with h | h
      · subst h
        exact hcap _ (List.mem_cons_self _ _)
      · exact ih (fun p hp => hcap p (List.mem_cons_of_mem _ hp)) page h

/-- No call of the aggregator makes a page exceed the capacity. -/
theorem applyCall_capacity (st : DeckGrouping) (call : AggregatorCall)
    (hst : ∀ group ∈ st.Decks, ∀ page ∈ group.2.Pages, (page.length : Int) ≤ MaxCount) :
    ∀ group ∈ (applyCall deckAggregator st call).Decks, ∀ page ∈ group.2.Pages,
      (page.length : Int) ≤ MaxCount := by
  obtain ⟨decks, current⟩ := st
  cases call with
  | SelectDeck deckID image =>
    simp only [applyCall, deckAggregator]
    split
    · exact hst
    · intro group hgroup page hpage
      rcases List.mem_append.1 hgroup with h | h
      · exact hst group h page hpage
      · rw [List.mem_singleton] at h
        subst h
        simp only [List.mem_singleton] at hpage
        subst hpage
        decide
  | AddCard gameID collectionID cardID count =>
    simp only [applyCall, deckAggregator]
    cases current with
    | none => exact hst
    | some key =>
      intro group hgroup page hpage
      simp only [List.mem_map] at hgroup
      rcases hgroup with ⟨g, hg, rfl⟩
      by_cases hk : g.1 = key
      · simp only [hk, if_true] at hpage
        exact addToPages_capacity _ _ (hst g hg) page hpage
      · simp only [hk, if_false] at hpage
        exact hst g hg page hpage

/-- The pages the aggregator builds hold at most `MaxCount` placements. -/
theorem replay_capacity (log : List AggregatorCall) :
    ∀ group ∈ (replay deckAggregator log).Decks, ∀ page ∈ group.2.Pages,
      (page.length : Int) ≤ MaxCount := by
  unfold replay
  have key : ∀ (calls : List AggregatorCall) (st : DeckGrouping),
      (∀ group ∈ st.Decks, ∀ page ∈ group.2.Pages, (page.length : Int) ≤ MaxCount) →
      ∀ group ∈ (calls.foldl (applyCall deckAggregator) st).Decks, ∀ page ∈ group.2.Pages,
        (page.length : Int) ≤ MaxCount := by
    intro calls
    induction calls with
    | nil =>
      intro st hst
      exact hst
    | cons call rest ih =>
      intro st hst
      exact ih _ (applyCall_capacity st call hst)
  apply key
  intro group hgroup
  cases hgroup

/-- One placement is added at the end, whatever the pages. -/
theorem addToPages_flat (card : CardDescription) :
    ∀ pages : List CardPage,
      (addToPages pages card).flatMap id = pages.flatMap id ++ [card] := by
  intro pages
  induction pages with
  | nil => rfl
  | cons page rest ih =>
    cases rest with
    | nil =>
      simp only [addToPages]
      split <;> simp
    | cons page2 rest =>
      have h3 : ∀ (a b : CardPage) (r : List CardPage) (c : CardDescription),
          addToPages (a :: b :: r) c = a :: addToPages (b :: r) c := fun _ _ _ _ => rfl
      have hcons : ∀ (a : CardPage) (r : List CardPage),
          (a :: r).flatMap id = a ++ r.flatMap id := fun _ _ => by
        rw [List.flatMap_cons]
        rfl
      rw [h3, hcons, ih, hcons page, List.append_assoc]

/-- Updating the one group with a given key adds the placement and moves no other. -/
theorem placed_update (key : DeckType) (card : CardDescription) :
    ∀ decks : List (DeckType × DeckPages),
      (decks.map Prod.fst).Nodup → key ∈ decks.map Prod.fst →
        (placed (decks.map (fun group =>
          if group.1 = key then (group.1, DeckPages.mk (addToPages group.2.Pages card))
          else group))).Perm (placed decks ++ [card]) := by
  intro decks
  induction decks with
  | nil =>
    intro _ h
    cases h
  | cons group rest ih =>
    intro hnodup hmem
    rw [List.map_cons, List.nodup_cons] at hnodup
    simp only [List.map_cons]
    by_cases hk : group.1 = key
    · simp only [hk, if_true]
      have hnot : key ∉ rest.map Prod.fst := by
        rw [← hk]
        exact hnodup.1
      rw [(placements_update key card rest).2.2 hnot]
      unfold placed
      rw [List.flatMap_cons, List.flatMap_cons]
      simp only []
      rw [addToPages_flat, List.append_assoc, List.append_assoc]
      exact List.Perm.append_left _ List.perm_append_comm
    · simp only [hk, if_false]
      have hmem' : key ∈ rest.map Prod.fst := by
        rcases List.mem_cons.1 hmem with h | h
        · exact absurd h.symm hk
        · exact h
      have := ih hnodup.2 hmem'
      unfold placed at this ⊢
      rw [List.flatMap_cons, List.flatMap_cons, List.append_assoc]
      exact List.Perm.append_left _ this

/-- `SelectDeck` moves no placement. -/
theorem selectDeck_placed (st : DeckGrouping) (deckID image : String) :
    placed (deckAggregator.SelectDeck st deckID image).Decks = placed st.Decks := by
  simp only [deckAggregator]
  split
  · rfl
  · unfold placed
    simp

/-- `AddCard` on a state with a current group adds the placement it is given. -/
theorem addCard_placed (st : DeckGrouping) (gameID collectionID : String)
    (cardID count : Int) (hst : st.Selected) :
    (placed (deckAggregator.AddCard st gameID collectionID cardID count).Decks).Perm
      (placed st.Decks ++ [⟨gameID, collectionID, cardID, count⟩]) := by
  obtain ⟨decks, current⟩ := st
  rcases hst with ⟨hnodup, key, hcur, hmem⟩
  have hcur : current = some key := hcur
  subst hcur
  exact placed_update key ⟨gameID, collectionID, cardID, count⟩ decks hnodup hmem

/-- From a state with a current group, the calls add the placement of each `AddCard`. -/
theorem foldl_applyCall_placed (log : List AggregatorCall) :
    ∀ st : DeckGrouping, st.Selected →
      (placed (log.foldl (applyCall deckAggregator) st).Decks).Perm
        (placed st.Decks ++ log.filterMap AggregatorCall.card) := by
  induction log with
  | nil =>
    intro st _
    simp
  | cons call rest ih =>
    intro st hst
    simp only [List.foldl_cons]
    cases call with
    | SelectDeck deckID image =>
      have hsel := (selectDeck_selected st deckID image hst.1).1
      have h := ih _ hsel
      rw [selectDeck_placed] at h
      exact h
    | AddCard gameID collectionID cardID count =>
      have hsel := (addCard_selected st gameID collectionID cardID count hst).1
      have h := ih _ hsel
      have h2 := addCard_placed st gameID collectionID cardID count hst
      have h3 : (AggregatorCall.AddCard gameID collectionID cardID count :: rest).filterMap
          AggregatorCall.card =
          (⟨gameID, collectionID, cardID, count⟩ : CardDescription) ::
            rest.filterMap AggregatorCall.card := rfl
      rw [h3]
      refine h.trans ?_
      have h4 := List.Perm.append_right (rest.filterMap AggregatorCall.card) h2
      rw [List.append_assoc] at h4
      exact h4

/-- Calls that do not start with an `AddCard` leave exactly the placements of their
`AddCard` calls, each once. -/
theorem replay_placed (log : List AggregatorCall) (hlog : StartsWithSelect log) :
    (placed (replay deckAggregator log).Decks).Perm (log.filterMap AggregatorCall.card) := by
  unfold replay
  cases log with
  | nil => exact List.Perm.refl _
  | cons call rest =>
    cases call with
    | SelectDeck deckID image =>
      simp only [List.foldl_cons]
      have hsel := (selectDeck_selected deckAggregator.NewDeckArray deckID image
        List.nodup_nil).1
      have h := foldl_applyCall_placed rest _ hsel
      rw [selectDeck_placed] at h
      exact h
    | AddCard gameID collectionID cardID count =>
      cases hlog

/-- The placements asked for by a concatenation of call lists. -/
theorem filterMap_card_flatMap {β : Type} (f : β → List AggregatorCall) :
    ∀ xs : List β,
      (xs.flatMap f).filterMap AggregatorCall.card =
        xs.flatMap (fun x => (f x).filterMap AggregatorCall.card) := by
  intro xs
  induction xs with
  | nil => rfl
  | cons x rest ih =>
    rw [List.flatMap_cons, List.flatMap_cons, List.filterMap_append, ih]

/-- The placements asked for by the `AddCard` calls of a list of cards. -/
theorem filterMap_card_map (gameID collectionID : String) :
    ∀ cards : List CardInfo,
      (cards.map (fun card =>
          AggregatorCall.AddCard gameID collectionID card.ID card.Count)).filterMap
        AggregatorCall.card =
      cards.map (fun card => (⟨gameID, collectionID, card.ID, card.Count⟩ : CardDescription)) := by
  intro cards
  induction cards with
  | nil => rfl
  | cons card rest ih =>
    rw [List.map_cons, List.map_cons, ← ih]
    rfl

/-- The placements `getListOfCards` asks for are the listed cards, each once. -/
theorem listedCalls_cards (svc : Services) (gameID sortField : String) :
    (listedCalls svc gameID sortField).filterMap AggregatorCall.card =
      listedCards svc gameID sortField := by
  unfold listedCalls listedCards
  cases svc.collectionList gameID sortField "" with
  | error e => rfl
  | ok collections =>
    simp only []
    rw [filterMap_card_flatMap]
    congr 1
    funext collection
    unfold collectionCalls
    cases svc.deckList gameID collection.ID sortField "" with
    | error e => rfl
    | ok decks =>
      simp only []
      rw [filterMap_card_flatMap]
      congr 1
      funext deck
      unfold deckCalls
      cases svc.cardList gameID collection.ID deck.ID sortField "" with
      | error e => rfl
      | ok cards =>
        simp only []
        exact filterMap_card_map gameID collection.ID cards

/-- Two successful runs of `generateBody` on inputs equal up to the replication counts
differ at most in the content of the root document. -/
theorem generateBody_counts_only (svc svc' : Services) (gameItem : GameInfo) (total : Int)
    (deckArray deckArray' : DeckArray) (w w1 w1' : World)
    (hsvc : svc'.withoutCounts = svc.withoutCounts)
    (hgroups : groupsWithoutCounts deckArray'.Decks = groupsWithoutCounts deckArray.Decks)
    (h : generateBody svc gameItem deckArray total w = (none, w1))
    (h' : generateBody svc' gameItem deckArray' total w = (none, w1')) :
    w1'.pr = w1.pr ∧ w1'.files.dropLast = w1.files.dropLast ∧
      w1'.files.map Prod.fst = w1.files.map Prod.fst := by
  rcases generateBody_ok h with ⟨st, hloop, -, hfiles, hpr⟩
  rcases generateBody_ok h' with ⟨st', hloop', -, hfiles', hpr'⟩
  have hsame := groupLoop_counts_only svc svc' total deckArray.Decks deckArray'.Decks
    (initialState gameItem w) hsvc hgroups
  rw [hloop, hloop'] at hsame
  have hw : st'.world = st.world := hsame.1
  have hjoin : svc'.filepathJoin = svc.filepathJoin := by
    have := congrArg Services.filepathJoin hsvc
    exact this
  have hres : svc'.results = svc.results := by
    have := congrArg Services.results hsvc
    exact this
  refine ⟨?_, ?_, ?_⟩
  · rw [hpr, hpr', hw]
  · rw [hfiles, hfiles', dropLast_append_singleton, dropLast_append_singleton, hw]
  · rw [hfiles, hfiles', hw, hjoin, hres]
    simp

/-- The deck aggregator on the sample listing: one group `loot` with one page of the two
listed cards, each placed once with its count recorded, and the total 2. -/
theorem getListOfCards_sample :
    getListOfCards deckAggregator (sampleServices sampleCount) "base" "name" =
      .ok (⟨[(sampleDeck,
          ⟨[[⟨"base", "core", 1, sampleCount 1⟩, ⟨"base", "core", 2, sampleCount 2⟩]]⟩)],
        some sampleDeck⟩, 2) :=
  rfl

/-! ## Theorems: replication and placement -/

/-- C5: replication never changes placement. Whatever the aggregator, `getListOfCards`
leaves it in the state reached by the calls it makes, and these are one `SelectDeck` per
listed deck followed by exactly one `AddCard` per listed card, whatever its count. For two
runs whose inputs differ only in replication counts: `getListOfCards` makes the same
aggregator calls up to the count argument and returns the same total; the loop nest of
`generateBody` has the same outcome, leaving the same world (progress, backside files, page
file names and page canvases with their grid sizes and draw positions); and two successful
runs of `generateBody` differ at most in the content of the root document. A card step
draws the card once and, for a card with count `k`, appends exactly `k` ids to the ids the
deck had (or to none, after a change of collection), all the code of that position, and
exactly `k` equal card entities with that code and the page description; the card entities
of the bag of a successful run are, placement by placement, these `k` entities. With the
Deck Aggregator of the specification the two runs build the same pages up to the recorded
counts, of at most `MaxCount` placements each, and the placements of a run are the cards
its listings return, each exactly once. -/
theorem replication_keeps_placement :
    (∀ (α : Type) (agg : Aggregator α) (svc : Services) (gameID sortField : String),
      getListOfCards agg svc gameID sortField =
        match getListOfCards callLog svc gameID sortField with
        | .ok r => .ok (replay agg r.1, r.2)
        | .error e => .error e) ∧
    (∀ (svc svc' : Services) (gameID sortField : String),
      svc'.withoutCounts = svc.withoutCounts →
      eraseLogCounts (getListOfCards callLog svc' gameID sortField) =
        eraseLogCounts (getListOfCards callLog svc gameID sortField)) ∧
    (∀ (svc : Services) (gameID sortField : String) (log : List AggregatorCall) (total : Int),
      getListOfCards callLog svc gameID sortField = .ok (log, total) →
      ((log.filter AggregatorCall.isAddCard).length : Int) = total) ∧
    (∀ (svc svc' : Services) (total : Int) (groups groups' : List (DeckType × DeckPages))
        (st : GenState),
      svc'.withoutCounts = svc.withoutCounts →
      groupsWithoutCounts groups' = groupsWithoutCounts groups →
      SameOutcome SameWorld (groupLoop svc' total groups' st) (groupLoop svc total groups st)) ∧
    (∀ (svc svc' : Services) (gameItem : GameInfo) (total : Int) (deckArray deckArray' : DeckArray)
        (w w1 w1' : World),
      svc'.withoutCounts = svc.withoutCounts →
      groupsWithoutCounts deckArray'.Decks = groupsWithoutCounts deckArray.Decks →
      generateBody svc gameItem deckArray total w = (none, w1) →
      generateBody svc' gameItem deckArray' total w = (none, w1') →
      w1'.pr = w1.pr ∧ w1'.files.dropLast = w1.files.dropLast ∧
        w1'.files.map Prod.fst = w1.files.map Prod.fst) ∧
    (∀ (svc : Services) (total : Int) (deckInfo : DeckType) (p : Nat) (page : CardPage) (s : Nat)
        (card : CardDescription) (v v' : PageVars),
      cardBody svc total deckInfo p page s card v = .ok v' →
      ∃ (item : CardInfo) (infoPage : PageInformation) (img : GoImage),
        svc.cardItem card.GameID card.CollectionID deckInfo.DeckID card.CardID = .ok item ∧
        v'.infoPage = some
          { infoPage with
            image := images.Draw infoPage.image
              (utils.CardIdToPageCoordinates (s : Int) infoPage.info.Columns).1
              (utils.CardIdToPageCoordinates (s : Int) infoPage.info.Columns).2 img } ∧
        ((v.infoDeck.collectionType = card.CollectionID ++ deckInfo.DeckID ∧
            v'.st.deck.DeckIDs = v.st.deck.DeckIDs ++
              List.replicate item.Count.toNat (((p : Int) + 1) * 100 + (s : Int)) ∧
            v'.st.deck.ContainedObjects = v.st.deck.ContainedObjects ++
              List.replicate item.Count.toNat (makeCard p s item v'.infoDeck.deckDesc)) ∨
          (v.infoDeck.collectionType ≠ card.CollectionID ++ deckInfo.DeckID ∧
            v'.st.deck.DeckIDs =
              List.replicate item.Count.toNat (((p : Int) + 1) * 100 + (s : Int)) ∧
            v'.st.deck.ContainedObjects =
              List.replicate item.Count.toNat (makeCard p s item v'.infoDeck.deckDesc))) ∧
        (List.replicate item.Count.toNat (((p : Int) + 1) * 100 + (s : Int))).length =
          item.Count.toNat ∧
        (List.replicate item.Count.toNat (makeCard p s item v'.infoDeck.deckDesc)).length =
          item.Count.toNat ∧
        (makeCard p s item v'.infoDeck.deckDesc).CardID = ((p : Int) + 1) * 100 + (s : Int) ∧
        (makeCard p s item v'.infoDeck.deckDesc).CustomDeck =
          [((p : Int) + 1, v'.infoDeck.deckDesc)]) ∧
    (∀ (svc : Services) (gameID sortField : String) (log : List AggregatorCall) (total : Int),
      getListOfCards callLog svc gameID sortField = .ok (log, total) →
      log = listedCalls svc gameID sortField) ∧
    (∀ (svc : Services) (gameItem : GameInfo) (deckArray : DeckArray) (total : Int)
        (w w' : World),
      generateBody svc gameItem deckArray total w = (none, w') →
      bagCards (bagEntries w') = deckArray.Decks.flatMap (groupCards svc)) ∧
    (∀ (svc : Services) (deckInfo : DeckType) (p s : Nat) (desc : DeckDescription)
        (card : CardDescription) (item : CardInfo),
      svc.cardItem card.GameID card.CollectionID deckInfo.DeckID card.CardID = .ok item →
      slotCards svc deckInfo p desc (s, card) =
        List.replicate item.Count.toNat (makeCard p s item desc)) ∧
    (∀ (svc svc' : Services) (gameID sortField : String),
      svc'.withoutCounts = svc.withoutCounts →
      (∀ e, getListOfCards deckAggregator svc gameID sortField = .error e →
        getListOfCards deckAggregator svc' gameID sortField = .error e) ∧
      (∀ (d : DeckGrouping) (n : Int),
        getListOfCards deckAggregator svc gameID sortField = .ok (d, n) →
        ∃ d', getListOfCards deckAggregator svc' gameID sortField = .ok (d', n) ∧
          groupsWithoutCounts d'.Decks = groupsWithoutCounts d.Decks ∧
          ((placements d.Decks : Nat) : Int) = n ∧ ((placements d'.Decks : Nat) : Int) = n ∧
          (placed d.Decks).Perm (listedCards svc gameID sortField) ∧
          (placed d'.Decks).Perm (listedCards svc' gameID sortField) ∧
          (∀ group ∈ d.Decks, ∀ page ∈ group.2.Pages, (page.length : Int) ≤ MaxCount) ∧
          (∀ (total : Int) (st : GenState),
            SameOutcome SameWorld (groupLoop svc' total d'.Decks st)
              (groupLoop svc total d.Decks st)) ∧
          ∀ (gameItem : GameInfo) (total : Int) (w w1 w1' : World),
            generateBody svc gameItem ⟨d.Decks⟩ total w = (none, w1) →
            generateBody svc' gameItem ⟨d'.Decks⟩ total w = (none, w1') →
            w1'.pr = w1.pr ∧ w1'.files.dropLast = w1.files.dropLast ∧
              w1'.files.map Prod.fst = w1.files.map Prod.fst)) := by
  refine ⟨?_, ?_, ?_, ?_, ?_, ?_, ?_, ?_, ?_, ?_⟩
  · intro α agg svc gameID sortField
    exact getListOfCards_replay agg svc gameID sortField
  · intro svc svc' gameID sortField hsvc
    rw [← getListOfCards_erase, ← getListOfCards_erase, hsvc]
  · intro svc gameID sortField log total h
    exact getListOfCards_count svc gameID sortField log total h
  · intro svc svc' total groups groups' st hsvc hgroups
    exact groupLoop_counts_only svc svc' total groups groups' st hsvc hgroups
  · intro svc svc' gameItem total deckArray deckArray' w w1 w1' hsvc hgroups h h'
    exact generateBody_counts_only svc svc' gameItem total deckArray deckArray' w w1 w1'
      hsvc hgroups h h'
  · intro svc total deckInfo p page s card v v' h
    rcases cardBody_deck h with ⟨item, hitem, -, hcase⟩
    rcases cardBody_page h with ⟨ip, img, -, hip, -⟩
    refine ⟨item, ip, img, hitem, hip, ?_, List.length_replicate _ _,
      List.length_replicate _ _, rfl, rfl⟩
    rcases hcase with ⟨heq, -, hids, hcards⟩ | ⟨hne, -, hids, hcards⟩
    · exact Or.inl ⟨heq, hids, hcards⟩
    · exact Or.inr ⟨hne, hids, hcards⟩
  · intro svc gameID sortField log total h
    exact getListOfCards_log h
  · intro svc gameItem deckArray total w w' h
    rcases generateBody_entries h with ⟨st, hloop, hentries⟩
    have hinit := initialState_aligned gameItem w
    have hcards := groupLoop_cards deckArray.Decks _ st hloop hinit.2.1
    rw [hentries, hcards.1, hinit.2.2.2]
    rfl
  · intro svc deckInfo p s desc card item hitem
    unfold slotCards
    simp only [hitem]
  · intro svc svc' gameID sortField hsvc
    have herase : eraseLogCounts (getListOfCards callLog svc' gameID sortField) =
        eraseLogCounts (getListOfCards callLog svc gameID sortField) := by
      rw [← getListOfCards_erase, ← getListOfCards_erase, hsvc]
    have hrep := getListOfCards_replay deckAggregator svc gameID sortField
    have hrep' := getListOfCards_replay deckAggregator svc' gameID sortField
    cases hlog : getListOfCards callLog svc gameID sortField with
    | error e0 =>
      rw [hlog] at hrep herase
      cases hlog' : getListOfCards callLog svc' gameID sortField with
      | error e1 =>
        rw [hlog'] at hrep' herase
        have he : e1 = e0 := by
          simp only [eraseLogCounts] at herase
          injection herase
        subst he
        refine ⟨?_, ?_⟩
        · intro e h
          rw [hrep] at h
          rw [hrep']
          exact h
        · intro d n h
          rw [hrep] at h
          cases h
      | ok r1 =>
        rw [hlog'] at herase
        obtain ⟨l1, t1⟩ := r1
        simp only [eraseLogCounts] at herase
        cases herase
    | ok r0 =>
      obtain ⟨log, total⟩ := r0
      rw [hlog] at hrep herase
      cases hlog' : getListOfCards callLog svc' gameID sortField with
      | error e1 =>
        rw [hlog'] at herase
        simp only [eraseLogCounts] at herase
        cases herase
      | ok r1 =>
        obtain ⟨log', total'⟩ := r1
        rw [hlog'] at hrep' herase
        simp only [eraseLogCounts] at herase
        injection herase with herase
        injection herase with hlogs htotal
        subst htotal
        refine ⟨?_, ?_⟩
        · intro e h
          rw [hrep] at h
          cases h
        · intro d n h
          rw [hrep] at h
          injection h with h
          injection h with hd hn
          subst hd hn
          have hstate : (replay deckAggregator log').withoutCounts =
              (replay deckAggregator log).withoutCounts := by
            rw [replay_erase, replay_erase, hlogs]
          have hgroups : groupsWithoutCounts (replay deckAggregator log').Decks =
              groupsWithoutCounts (replay deckAggregator log).Decks :=
            congrArg DeckGrouping.Decks hstate
          have hcount : ∀ (s0 : Services) (l : List AggregatorCall) (t : Int),
              getListOfCards callLog s0 gameID sortField = .ok (l, t) →
              ((placements (replay deckAggregator l).Decks : Nat) : Int) = t := by
            intro s0 l t hl
            have hstart : StartsWithSelect l := by
              rw [getListOfCards_log hl]
              exact listedCalls_start s0 gameID sortField
            rw [replay_placements l hstart]
            exact getListOfCards_count s0 gameID sortField l t hl
          have hplaced : ∀ (s0 : Services) (l : List AggregatorCall) (t : Int),
              getListOfCards callLog s0 gameID sortField = .ok (l, t) →
              (placed (replay deckAggregator l).Decks).Perm
                (listedCards s0 gameID sortField) := by
            intro s0 l t hl
            have hstart : StartsWithSelect l := by
              rw [getListOfCards_log hl]
              exact listedCalls_start s0 gameID sortField
            have h := replay_placed l hstart
            rw [getListOfCards_log hl, listedCalls_cards] at h
            rw [getListOfCards_log hl]
            exact h
          refine ⟨replay deckAggregator log', hrep', hgroups, hcount svc log _ hlog,
            hcount svc' log' _ hlog', hplaced svc log _ hlog, hplaced svc' log' _ hlog',
            replay_capacity log, ?_, ?_⟩
          · intro total st
            exact groupLoop_counts_only svc svc' total _ _ st hsvc hgroups
          · intro gameItem total w w1 w1' h h'
            exact generateBody_counts_only svc svc' gameItem total _ _ w w1 w1' hsvc hgroups h h'

/-- Witness of C5: the sample run with replication counts 1, 2, 2 and the run with all
counts 1 on a deck array recording other counts. -/
theorem replication_keeps_placement_witness :
    (sampleServices (fun _ => 1)).withoutCounts = (sampleServices sampleCount).withoutCounts ∧
    groupsWithoutCounts twoPageArrayRecounted.Decks = groupsWithoutCounts twoPageArray.Decks ∧
    (generateBody (sampleServices (fun _ => 1)) sampleGame twoPageArrayRecounted 3 {}).2.pr =
      (generateBody (sampleServices sampleCount) sampleGame twoPageArray 3 {}).2.pr ∧
    (generateBody (sampleServices (fun _ => 1)) sampleGame twoPageArrayRecounted 3 {}).2.files.dropLast =
      (generateBody (sampleServices sampleCount) sampleGame twoPageArray 3 {}).2.files.dropLast ∧
    (generateBody (sampleServices (fun _ => 1)) sampleGame twoPageArrayRecounted 3 {}).2.files.map
        Prod.fst =
      (generateBody (sampleServices sampleCount) sampleGame twoPageArray 3 {}).2.files.map Prod.fst := by
  have hsvc : (sampleServices (fun _ => 1)).withoutCounts =
      (sampleServices sampleCount).withoutCounts := rfl
  have hgroups : groupsWithoutCounts twoPageArrayRecounted.Decks =
      groupsWithoutCounts twoPageArray.Decks := by decide
  have hrun : (generateBody (sampleServices sampleCount) sampleGame twoPageArray 3 {}).1 = none := by
    decide
  have hrun' : (generateBody (sampleServices (fun _ => 1)) sampleGame twoPageArrayRecounted 3 {}).1
      = none := by
    decide
  exact ⟨hsvc, hgroups,
    replication_keeps_placement.2.2.2.2.1 (sampleServices sampleCount) (sampleServices (fun _ => 1))
      sampleGame 3 twoPageArray twoPageArrayRecounted {} _ _ hsvc hgroups
      (run_eq_of_no_error hrun) (run_eq_of_no_error hrun')⟩


end DeckBuilder
